import Mathlib

/-!
# Scheduling delegate of the VLHGC collector

A shallow embedding of `runtime/gc_vlhgc/SchedulingDelegate.cpp`
(class `MM_SchedulingDelegate`) and proofs about it.

Conventions of the embedding

* `uintptr_t` / `uint64_t` values are natural numbers; arithmetic that the
  machine performs modulo `2^64` is written with `wrapU` / `subU`.
* `intptr_t` values are integers; `toIDATA` is the two's complement reading of a
  machine word.
* `double` values are rationals (exact arithmetic: no rounding, no NaN), with one
  exception: the running average of `calculateGlobalMarkIncrementTimeMillis` is truncated
  to an integer, and there every double operation is rounded with `roundToDouble`.
* Member functions take the extensions (`MM_GCExtensions`), the collaborators
  they read (`MM_HeapRegionManager`, `MM_GlobalAllocationManagerTarok`) and the
  delegate, and return the new delegate.  A fatal assertion, a division by
  zero or an exhausted loop budget is a `Fault`.
-/

namespace VLHGC

/-! ## Machine words -/

/-- Largest `uintptr_t` value (64-bit build). -/
def UDATA_MAX : Nat := 2 ^ 64 - 1

/-- Largest `uint32_t` value. -/
def U_32_MAX : Nat := 2 ^ 32 - 1

/-- Result of an unsigned machine operation: reduction modulo `2^64`. -/
def wrapU (x : Nat) : Nat := x % 2 ^ 64

/-- Unsigned machine subtraction `a - b`. -/
def subU (a b : Nat) : Nat := (a + (2 ^ 64 - b % 2 ^ 64)) % 2 ^ 64

/-- The cast `(intptr_t)x` of a machine word: two's complement reading. -/
def toIDATA (x : Nat) : Int :=
  if x % 2 ^ 64 < 2 ^ 63 then ((x % 2 ^ 64 : Nat) : Int) else ((x % 2 ^ 64 : Nat) : Int) - 2 ^ 64

/-- The cast `(uintptr_t)i` of a signed word. -/
def toUDATA (i : Int) : Nat := (i % 2 ^ 64).toNat

/-- Result of a signed machine operation, wrapped to the `intptr_t` range. -/
def wrapI (i : Int) : Int := toIDATA (toUDATA i)

/-- The cast `(uintptr_t)x` of a double `x ≥ 0` that fits a machine word: truncation.
(The C++ cast is undefined for other values; the model takes the floor of the
non-negative part, reduced modulo `2^64`.) -/
def doubleToUDATA (x : ℚ) : Nat := wrapU ⌊x⌋₊

/-- The cast `(intptr_t)x` of a double that fits a signed machine word: truncation
towards zero. -/
def doubleToIDATA (x : ℚ) : Int := wrapI (if 0 ≤ x then ⌊x⌋ else ⌈x⌉)

/-! ## Rounded double operations -/

/-- The integer nearest to `x`, the even one of the two when `x` lies half way. -/
def roundHalfEven (x : ℚ) : Int :=
  if x - ⌊x⌋ < 1 / 2 then ⌊x⌋
  else if 1 / 2 < x - ⌊x⌋ then ⌊x⌋ + 1
  else if ⌊x⌋ % 2 = 0 then ⌊x⌋ else ⌊x⌋ + 1

/-- Search for the unit in the last place: `x` is halved or doubled until it lies in
`[1, 2)`, the unit `u` moving the other way; `fuel` bounds the number of steps. -/
def doubleUlpAux : Nat → ℚ → ℚ → ℚ
  | 0, _, u => u
  | fuel + 1, x, u =>
    if 2 ≤ x then doubleUlpAux fuel (x / 2) (2 * u)
    else if x < 1 then doubleUlpAux fuel (2 * x) (u / 2)
    else u

/-- The unit in the last place of a double of the size of `x ≠ 0`: `2^(e-52)` for
`2^e ≤ |x| < 2^(e+1)` (53-bit significand), for magnitudes from `2^-250` up to `2^251`. -/
def doubleUlp (x : ℚ) : ℚ := doubleUlpAux 250 |x| (1 / 2 ^ 52)

/-- The result of a double operation whose exact value is `x`: the nearest double, ties
to the even significand (IEEE 754 round-to-nearest; the magnitudes met here are far from
overflow and from subnormal numbers). -/
def roundToDouble (x : ℚ) : ℚ :=
  if x = 0 then 0 else (roundHalfEven (x / doubleUlp x) : ℚ) * doubleUlp x

/-- Ways in which a member function can fail to return. -/
inductive Fault where
  | assertion
  | divideByZero
  | outOfFuel
  deriving DecidableEq

/-! ## Collaborators -/

/-- Modelled from the spec: `MM_Math::roundToFloor(granularity, number)` of the
OMR utility class `MM_Math`, which is not part of the sources at hand; the spec
says the threshold "is rounded down to a region multiple". -/
def MM_Math.roundToFloor (granularity number : Nat) : Nat :=
  number - number % granularity

/-- Modelled from the spec: `MM_Math::saturatingSubtract(minuend, subtrahend)`
of the OMR utility class `MM_Math` ("saturating subtract"): the difference, or 0
when the subtrahend is the larger. -/
def MM_Math.saturatingSubtract (minuend subtrahend : Nat) : Nat :=
  if subtrahend ≤ minuend then minuend - subtrahend else 0

/-- Modelled from the spec: `MM_Math::weightedAverage(old, new, weight)` of the
OMR utility class `MM_Math`: `ewma(old, new, w) = w·old + (1−w)·new`. -/
def MM_Math.weightedAverage (oldValue newValue weight : ℚ) : ℚ :=
  weight * oldValue + (1 - weight) * newValue

/-- A user-specified size option (`-Xmn`, `-Xmns`, `-Xmnx`). -/
structure MM_UserSpecifiedParameterUDATA where
  _wasSpecified : Bool
  deriving DecidableEq

/-- The part of `MM_UserSpecifiedParameters` the delegate reads. -/
structure MM_UserSpecifiedParameters where
  _Xmn : MM_UserSpecifiedParameterUDATA
  _Xmns : MM_UserSpecifiedParameterUDATA
  _Xmnx : MM_UserSpecifiedParameterUDATA
  deriving DecidableEq

/-- The configuration fields of `MM_GCExtensions` that the delegate reads. -/
structure MM_GCExtensions where
  tarokEnableIncrementalGMP : Bool
  tarokPGCtoGMPNumerator : Nat
  tarokPGCtoGMPDenominator : Nat
  tarokGMPIntermission : Nat
  tarokAutomaticGMPIntermission : Bool
  tarokPGCShouldCopyForward : Bool
  tarokPGCShouldMarkCompact : Bool
  statupPhaseFinished : Bool
  userSpecifiedParameters : MM_UserSpecifiedParameters
  tarokIdealEdenMinimumBytes : Nat
  tarokIdealEdenMaximumBytes : Nat
  initialMemorySize : Nat
  memoryMax : Nat
  softMx : Nat
  tarokKickoffHeadroomInBytes : Nat
  tarokGlobalMarkIncrementTimeMillis : Nat
  gcThreadCount : Nat
  fvtest_forceCopyForwardHybridRatio : Nat
  dnssExpectedTimeRatioMinimum : ℚ
  dnssExpectedTimeRatioMaximum : ℚ
  tarokTargetMaxPauseTime : Nat

/-- What `updateLiveBytesAfterPartialCollect` reads from a region and its memory pool. -/
structure MM_HeapRegionDescriptorVLHGC where
  /-- Value of `containsObjects()`. -/
  containsObjects : Bool
  /-- Value of `isArrayletLeaf()`. -/
  isArrayletLeaf : Bool
  /-- Value of `objectModel.isObjectArray(_allocateData.getSpine())`. -/
  spineIsObjectArray : Bool
  /-- Value of `getSize()`. -/
  size : Nat
  /-- Value of `getMemoryPool()->getActualFreeMemorySize()`. -/
  actualFreeMemorySize : Nat
  /-- Value of `getMemoryPool()->getDarkMatterBytes()`. -/
  darkMatterBytes : Nat

/-- What the delegate reads from the region manager. -/
structure MM_HeapRegionManager where
  /-- Value of `getRegionSize()`. -/
  regionSize : Nat
  /-- Number of regions the `MANAGED` region iterator yields. -/
  managedRegionCount : Nat
  /-- The regions the plain region iterator yields, in order. -/
  regions : List MM_HeapRegionDescriptorVLHGC

/-- The kind of collection of the current cycle (`MM_CycleState::CollectionType`). -/
inductive CollectionType where
  | CT_GLOBAL_GARBAGE_COLLECTION
  | CT_PARTIAL_GARBAGE_COLLECTION
  | CT_GLOBAL_MARK_PHASE
  deriving DecidableEq

/-- The fields of `MM_CopyForwardStats` the delegate reads. -/
structure MM_CopyForwardStats where
  _edenSurvivorRegionCount : Nat
  _nonEdenSurvivorRegionCount : Nat
  _nonEvacuateRegionCount : Nat
  _scanBytesEden : Nat
  _scanBytesNonEden : Nat
  _scanBytesTotal : Nat
  _bytesCardClean : Nat
  _copyBytesTotal : Nat
  _copyDiscardBytesTotal : Nat
  _externalCompactBytes : Nat
  _aborted : Bool
  _startTime : Nat
  _endTime : Nat

/-- The fields of `MM_MarkVLHGCStats` the delegate reads. -/
structure MM_MarkVLHGCStats where
  _bytesScanned : Nat
  _bytesCardClean : Nat
  /-- Value of `getScanTime()`. -/
  scanTime : Nat
  _startTime : Nat
  _endTime : Nat

/-- The unit argument of `j9time_hires_delta`. -/
inductive TimeDeltaUnit where
  | J9PORT_TIME_DELTA_IN_MICROSECONDS
  | J9PORT_TIME_DELTA_IN_MILLISECONDS
  deriving DecidableEq

/-- What a callback reads through its `MM_EnvironmentVLHGC *env`: the cycle state with
its increment statistics, the port library's clock and the C math library.  The
port and math functions are not part of the sources at hand and are taken as given. -/
structure MM_EnvironmentVLHGC where
  /-- `env->_cycleState->_collectionType`. -/
  _collectionType : CollectionType
  /-- `env->_cycleState->_shouldRunCopyForward`. -/
  _shouldRunCopyForward : Bool
  /-- `_vlhgcIncrementStats._copyForwardStats` of the cycle state. -/
  _copyForwardStats : MM_CopyForwardStats
  /-- `_vlhgcIncrementStats._markStats` of the cycle state. -/
  _markStats : MM_MarkVLHGCStats
  /-- Value of `env->getRepresentativePgcPerGmpCount()`. -/
  representativePgcPerGmpCount : Nat
  /-- Value of `getBytesScannedInGlobalMarkPhase()` of the global collector. -/
  bytesScannedInGlobalMarkPhase : Nat
  /-- The value `j9time_hires_clock()` returns during the callback. -/
  j9time_hires_clock : Nat
  /-- The port library's `j9time_hires_delta(start, end, unit)`. -/
  j9time_hires_delta : Nat → Nat → TimeDeltaUnit → Nat
  /-- The math library's `pow`. -/
  pow : ℚ → ℚ → ℚ
  /-- The math library's `log`. -/
  log : ℚ → ℚ
  /-- `_collectionType` of the global collector's persistent global mark phase state. -/
  persistentGMPCollectionType : CollectionType
  /-- `_vlhgcCycleStats._incrementalMarkStats` of the persistent global mark phase state. -/
  _incrementalMarkStats : MM_MarkVLHGCStats
  /-- `_vlhgcCycleStats._concurrentMarkStats` of the persistent global mark phase state. -/
  _concurrentMarkStats : MM_MarkVLHGCStats
  /-- The value a second `j9time_hires_clock()` call of the same callback returns. -/
  j9time_hires_clock_second : Nat

/-- What the delegate reads from the global allocation manager. -/
structure MM_GlobalAllocationManagerTarok where
  /-- Value of `getFreeRegionCount()`. -/
  freeRegionCount : Nat
  /-- Value of `getManagedAllocationContextCount()`. -/
  managedAllocationContextCount : Nat

/-! ## The delegate's state -/

/-- The `_scanRateStats` member. -/
structure ScanRateStats where
  historicalBytesScanned : Nat
  historicalScanMicroseconds : Nat
  microSecondsPerByteScanned : ℚ
  deriving DecidableEq

/-- The data members of `MM_SchedulingDelegate`. -/
structure MM_SchedulingDelegate where
  _taxationIndex : Nat
  _remainingGMPIntermissionIntervals : Nat
  _nextIncrementWillDoPartialGarbageCollection : Bool
  _nextIncrementWillDoGlobalMarkPhase : Bool
  _nextPGCShouldCopyForward : Bool
  _currentlyPerformingGMP : Bool
  _globalSweepRequired : Bool
  _disableCopyForwardDuringCurrentGlobalMarkPhase : Bool
  _idealEdenRegionCount : Nat
  _minimumEdenRegionCount : Nat
  _edenRegionCount : Nat
  _edenSurvivalRateCopyForward : ℚ
  _nonEdenSurvivalCountCopyForward : Nat
  _numberOfHeapRegions : Nat
  _previousReclaimableRegions : Nat
  _previousDefragmentReclaimableRegions : Nat
  _regionConsumptionRate : ℚ
  _defragmentRegionConsumptionRate : ℚ
  _bytesCompactedToFreeBytesRatio : ℚ
  _averageCopyForwardBytesCopied : ℚ
  _averageCopyForwardBytesDiscarded : ℚ
  _averageSurvivorSetRegionCount : ℚ
  _averageCopyForwardRate : ℚ
  _averageMacroDefragmentationWork : ℚ
  _currentMacroDefragmentationWork : Nat
  _didGMPCompleteSinceLastReclaim : Bool
  _liveSetBytesAfterPartialCollect : Nat
  _heapOccupancyTrend : ℚ
  _liveSetBytesBeforeGlobalSweep : Nat
  _liveSetBytesAfterGlobalSweep : Nat
  _previousLiveSetBytesAfterGlobalSweep : Nat
  _scannableBytesRatio : ℚ
  _historicTotalIncrementalScanTimePerGMP : Nat
  _historicBytesScannedConcurrentlyPerGMP : Nat
  _estimatedFreeTenure : Nat
  _maxEdenPercent : ℚ
  _minEdenPercent : ℚ
  _partialGcStartTime : Nat
  _partialGcOverhead : ℚ
  _historicalPartialGCTime : Nat
  _globalMarkIncrementsTotalTime : Nat
  _globalMarkIntervalStartTime : Nat
  _globalMarkOverhead : ℚ
  _globalSweepTimeUs : Nat
  _concurrentMarkGCThreadsTotalWorkTime : Nat
  _dynamicGlobalMarkIncrementTimeMillis : Nat
  _pgcTimeIncreasePerEdenRegionFactor : ℚ
  _edenSizeFactor : Int
  _pgcCountSinceGMPEnd : Nat
  _averagePgcInterval : Nat
  _totalGMPWorkTimeUs : Nat
  _scanRateStats : ScanRateStats
  deriving DecidableEq

/-- The constructor `MM_SchedulingDelegate::MM_SchedulingDelegate`. -/
def MM_SchedulingDelegate.new (ext : MM_GCExtensions) : MM_SchedulingDelegate where
  _taxationIndex := 0
  _remainingGMPIntermissionIntervals := 0
  _nextIncrementWillDoPartialGarbageCollection := false
  _nextIncrementWillDoGlobalMarkPhase := false
  _nextPGCShouldCopyForward := ext.tarokPGCShouldCopyForward
  _currentlyPerformingGMP := false
  _globalSweepRequired := false
  _disableCopyForwardDuringCurrentGlobalMarkPhase := false
  _idealEdenRegionCount := 0
  _minimumEdenRegionCount := 0
  _edenRegionCount := 0
  _edenSurvivalRateCopyForward := 1
  _nonEdenSurvivalCountCopyForward := 0
  _numberOfHeapRegions := 0
  _previousReclaimableRegions := 0
  _previousDefragmentReclaimableRegions := 0
  _regionConsumptionRate := 0
  _defragmentRegionConsumptionRate := 0
  _bytesCompactedToFreeBytesRatio := 0
  _averageCopyForwardBytesCopied := 0
  _averageCopyForwardBytesDiscarded := 0
  _averageSurvivorSetRegionCount := 0
  _averageCopyForwardRate := 1
  _averageMacroDefragmentationWork := 0
  _currentMacroDefragmentationWork := 0
  _didGMPCompleteSinceLastReclaim := false
  _liveSetBytesAfterPartialCollect := 0
  _heapOccupancyTrend := 1
  _liveSetBytesBeforeGlobalSweep := 0
  _liveSetBytesAfterGlobalSweep := 0
  _previousLiveSetBytesAfterGlobalSweep := 0
  _scannableBytesRatio := 1
  _historicTotalIncrementalScanTimePerGMP := 0
  _historicBytesScannedConcurrentlyPerGMP := 0
  _estimatedFreeTenure := 0
  _maxEdenPercent := 3 / 4
  _minEdenPercent := 1 / 100
  _partialGcStartTime := 0
  _partialGcOverhead := 7 / 100
  _historicalPartialGCTime := 0
  _globalMarkIncrementsTotalTime := 0
  _globalMarkIntervalStartTime := 0
  _globalMarkOverhead := 0
  _globalSweepTimeUs := 0
  _concurrentMarkGCThreadsTotalWorkTime := 0
  _dynamicGlobalMarkIncrementTimeMillis := 50
  _pgcTimeIncreasePerEdenRegionFactor := 10001 / 10000
  _edenSizeFactor := 0
  _pgcCountSinceGMPEnd := 0
  _averagePgcInterval := 0
  _totalGMPWorkTimeUs := 0
  _scanRateStats := ⟨0, 0, 0⟩

/-! ## Taxation thresholds -/

/-- The tail of `getNextTaxationThresholdInternal`: `_taxationIndex += 1;
return threshold;`. -/
def advanceTaxationIndex (s : MM_SchedulingDelegate) (threshold : Nat) :
    Except Fault (MM_SchedulingDelegate × Nat) :=
  .ok ({ s with _taxationIndex := wrapU (s._taxationIndex + 1) }, threshold)

/-- `MM_SchedulingDelegate::getNextTaxationThresholdInternal`: selects the work
of the taxation point with index `_taxationIndex`, returns its allocation
threshold and advances the index. -/
def getNextTaxationThresholdInternal (ext : MM_GCExtensions) (rm : MM_HeapRegionManager)
    (s : MM_SchedulingDelegate) : Except Fault (MM_SchedulingDelegate × Nat) :=
  if s._nextIncrementWillDoPartialGarbageCollection then .error .assertion
  else if s._nextIncrementWillDoGlobalMarkPhase then .error .assertion
  else
    let threshold := wrapU (s._edenRegionCount * rm.regionSize)
    let nextTaxationIndex := s._taxationIndex
    if ext.tarokEnableIncrementalGMP then
      let numerator := ext.tarokPGCtoGMPNumerator
      let denominator := ext.tarokPGCtoGMPDenominator
      if 1 = numerator then
        if wrapU (denominator + 1) = 0 then .error .divideByZero
        else if 0 = nextTaxationIndex % wrapU (denominator + 1) then
          advanceTaxationIndex { s with _nextIncrementWillDoGlobalMarkPhase := true }
            (threshold / wrapU (denominator + 1))
        else
          advanceTaxationIndex { s with _nextIncrementWillDoPartialGarbageCollection := true }
            (threshold / wrapU (denominator + 1))
      else if 1 = denominator then
        if wrapU (numerator + 1) = 0 then .error .divideByZero
        else if 0 = nextTaxationIndex % wrapU (numerator + 1) then
          advanceTaxationIndex { s with _nextIncrementWillDoGlobalMarkPhase := true }
            (threshold / 2)
        else if 0 = subU nextTaxationIndex 1 % wrapU (numerator + 1) then
          advanceTaxationIndex { s with _nextIncrementWillDoPartialGarbageCollection := true }
            (threshold / 2)
        else
          advanceTaxationIndex { s with _nextIncrementWillDoPartialGarbageCollection := true }
            threshold
      else .error .assertion
    else
      advanceTaxationIndex { s with _nextIncrementWillDoPartialGarbageCollection := true }
        threshold

/-- The statement executed after each `getNextTaxationThresholdInternal` call
inside the loop of `getNextTaxationThreshold`: skip the GMP interval while the
intermission lasts. -/
def skipGMPInterval (s : MM_SchedulingDelegate) : MM_SchedulingDelegate :=
  if 0 < s._remainingGMPIntermissionIntervals ∧ s._nextIncrementWillDoGlobalMarkPhase = true then
    { s with
      _remainingGMPIntermissionIntervals := s._remainingGMPIntermissionIntervals - 1
      _nextIncrementWillDoGlobalMarkPhase := false }
  else s

/-- The `do … while` loop of `MM_SchedulingDelegate::getNextTaxationThreshold`,
with an iteration budget; returns the delegate and the accumulated threshold. -/
def getNextTaxationThresholdLoop (ext : MM_GCExtensions) (rm : MM_HeapRegionManager) :
    Nat → MM_SchedulingDelegate → Nat → Except Fault (MM_SchedulingDelegate × Nat)
  | 0, _, _ => .error .outOfFuel
  | fuel + 1, s, threshold =>
    match getNextTaxationThresholdInternal ext rm s with
    | .error e => .error e
    | .ok (s1, t) =>
      let s2 := skipGMPInterval s1
      if s2._nextIncrementWillDoGlobalMarkPhase = false
          ∧ s2._nextIncrementWillDoPartialGarbageCollection = false then
        getNextTaxationThresholdLoop ext rm fuel s2 (wrapU (threshold + t))
      else .ok (s2, wrapU (threshold + t))

/-- `MM_SchedulingDelegate::getNextTaxationThreshold`.  Every repetition of the
loop consumes one intermission interval, so `_remainingGMPIntermissionIntervals + 1`
iterations are always enough. -/
def getNextTaxationThreshold (ext : MM_GCExtensions) (rm : MM_HeapRegionManager)
    (s : MM_SchedulingDelegate) : Except Fault (MM_SchedulingDelegate × Nat) :=
  match getNextTaxationThresholdLoop ext rm (s._remainingGMPIntermissionIntervals + 1) s 0 with
  | .error e => .error e
  | .ok (s1, threshold) =>
    .ok (s1, max rm.regionSize (MM_Math.roundToFloor rm.regionSize threshold))

/-- `MM_SchedulingDelegate::getIncrementWork`: the two outputs
`(doPartialGarbageCollection, doGlobalMarkPhase)` and the new delegate. -/
def getIncrementWork (s : MM_SchedulingDelegate) : (Bool × Bool) × MM_SchedulingDelegate :=
  ((s._nextIncrementWillDoPartialGarbageCollection, s._nextIncrementWillDoGlobalMarkPhase),
    { s with
      _nextIncrementWillDoPartialGarbageCollection := false
      _nextIncrementWillDoGlobalMarkPhase := false })

/-! ## Eden sizing

The region size is a positive power of two in every heap; divisions by
`getRegionSize()` are written with `/` on `Nat`. -/

/-- `MM_SchedulingDelegate::getCurrentEdenSizeInBytes`. -/
def getCurrentEdenSizeInBytes (rm : MM_HeapRegionManager) (s : MM_SchedulingDelegate) : Nat :=
  wrapU (s._edenRegionCount * rm.regionSize)

/-- `MM_SchedulingDelegate::getIdealEdenSizeInBytes`. -/
def getIdealEdenSizeInBytes (rm : MM_HeapRegionManager) (s : MM_SchedulingDelegate) : Nat :=
  wrapU (s._idealEdenRegionCount * rm.regionSize)

/-- `MM_SchedulingDelegate::getCurrentEdenSizeInRegions`. -/
def getCurrentEdenSizeInRegions (s : MM_SchedulingDelegate) : Nat :=
  s._edenRegionCount

/-- `MM_SchedulingDelegate::adjustIdealEdenRegionCount`: consumes `_edenSizeFactor` and,
once the startup phase is over, moves `_idealEdenRegionCount` by it within the
minimum and maximum Eden counts. -/
def adjustIdealEdenRegionCount (ext : MM_GCExtensions) (rm : MM_HeapRegionManager)
    (s : MM_SchedulingDelegate) : MM_SchedulingDelegate :=
  let edenChange : Int := s._edenSizeFactor
  let s0 := { s with _edenSizeFactor := 0 }
  if ext.statupPhaseFinished = false then s0
  else
    let maxEdenCount0 := doubleToUDATA ((s0._numberOfHeapRegions : ℚ) * s0._maxEdenPercent)
    let minEdenCount0 := doubleToUDATA ((s0._numberOfHeapRegions : ℚ) * s0._minEdenPercent)
    let minEdenCount :=
      if ext.userSpecifiedParameters._Xmn._wasSpecified = true
          ∨ ext.userSpecifiedParameters._Xmns._wasSpecified = true then
        ext.tarokIdealEdenMinimumBytes / rm.regionSize
      else minEdenCount0
    let maxEdenCount :=
      if ext.userSpecifiedParameters._Xmn._wasSpecified = true
          ∨ ext.userSpecifiedParameters._Xmnx._wasSpecified = true then
        ext.tarokIdealEdenMaximumBytes / rm.regionSize
      else maxEdenCount0
    let possibleEdenRegionCount : Int := wrapI (toIDATA s0._idealEdenRegionCount + edenChange)
    let edenChange1 : Int :=
      if toIDATA minEdenCount > possibleEdenRegionCount then
        toIDATA (subU minEdenCount s0._idealEdenRegionCount)
      else if toIDATA maxEdenCount < possibleEdenRegionCount then
        toIDATA (subU maxEdenCount s0._idealEdenRegionCount)
      else edenChange
    let ideal1 := toUDATA ((s0._idealEdenRegionCount : Int) + edenChange1)
    let ideal2 := max 1 ideal1
    { s0 with
      _idealEdenRegionCount := ideal2
      _minimumEdenRegionCount := min s0._minimumEdenRegionCount ideal2 }

/-- `MM_SchedulingDelegate::calculateEdenSize`. -/
def calculateEdenSize (ext : MM_GCExtensions) (rm : MM_HeapRegionManager)
    (gam : MM_GlobalAllocationManagerTarok) (s : MM_SchedulingDelegate) :
    Except Fault MM_SchedulingDelegate :=
  let freeRegions := gam.freeRegionCount
  let s1 := adjustIdealEdenRegionCount ext rm s
  let edenMinimumCount := s1._minimumEdenRegionCount
  let edenMaximumCount := s1._idealEdenRegionCount
  if ¬ (edenMinimumCount ≥ 1) then .error .assertion
  else if ¬ (edenMaximumCount ≥ 1) then .error .assertion
  else if ¬ (edenMaximumCount ≥ edenMinimumCount) then .error .assertion
  else
    let desiredEdenCount :=
      if freeRegions > edenMaximumCount then edenMaximumCount
      else if freeRegions < edenMinimumCount then edenMinimumCount
      else freeRegions
    if desiredEdenCount ≤ freeRegions then .ok { s1 with _edenRegionCount := desiredEdenCount }
    else .ok { s1 with _edenRegionCount := freeRegions }

/-- The ideal Eden size in bytes that `MM_SchedulingDelegate::heapReconfigured` computes
(`edenIdealBytes`), given the delegate with `_numberOfHeapRegions` already recounted. -/
def heapReconfiguredEdenIdealBytes (ext : MM_GCExtensions) (rm : MM_HeapRegionManager)
    (s : MM_SchedulingDelegate) : Except Fault Nat :=
  let edenMaximumBytes := ext.tarokIdealEdenMaximumBytes
  let edenMinimumBytes := ext.tarokIdealEdenMinimumBytes
  let currentHeapSize := wrapU (s._numberOfHeapRegions * rm.regionSize)
  let minimumHeap := min ext.initialMemorySize currentHeapSize
  let maximumHeap := ext.memoryMax
  if ext.statupPhaseFinished = true then .ok (getIdealEdenSizeInBytes rm s)
  else if currentHeapSize = maximumHeap then .ok edenMaximumBytes
  else
    let heapBytesOverMinimum := subU currentHeapSize minimumHeap
    let maximumHeapVariation := subU maximumHeap minimumHeap
    if maximumHeapVariation = 0 then .error .assertion
    else
      let ratioOfHeapExpanded : ℚ := (heapBytesOverMinimum : ℚ) / (maximumHeapVariation : ℚ)
      let maximumEdenVariation := subU edenMaximumBytes edenMinimumBytes
      let edenLinearScale := doubleToUDATA (ratioOfHeapExpanded * (maximumEdenVariation : ℚ))
      .ok (wrapU (edenMinimumBytes + edenLinearScale))

/-- `MM_SchedulingDelegate::heapReconfigured`. -/
def heapReconfigured (ext : MM_GCExtensions) (rm : MM_HeapRegionManager)
    (gam : MM_GlobalAllocationManagerTarok) (s : MM_SchedulingDelegate) :
    Except Fault MM_SchedulingDelegate :=
  let regionSize := rm.regionSize
  let s1 := { s with _numberOfHeapRegions := rm.managedRegionCount }
  match heapReconfiguredEdenIdealBytes ext rm s1 with
  | .error e => .error e
  | .ok edenIdealBytes =>
    let s2 := { s1 with
      _idealEdenRegionCount := subU (wrapU (edenIdealBytes + regionSize)) 1 / regionSize }
    if ¬ (s2._idealEdenRegionCount > 0) then .error .assertion
    else
      let s3 := { s2 with
        _minimumEdenRegionCount := min s2._idealEdenRegionCount gam.managedAllocationContextCount }
      if ¬ (s3._minimumEdenRegionCount > 0) then .error .assertion
      else if ¬ (s3._idealEdenRegionCount ≥ s3._minimumEdenRegionCount) then .error .assertion
      else calculateEdenSize ext rm gam s3

/-- `MM_SchedulingDelegate::getInitialTaxationThreshold`. -/
def getInitialTaxationThreshold (ext : MM_GCExtensions) (rm : MM_HeapRegionManager)
    (gam : MM_GlobalAllocationManagerTarok) (s : MM_SchedulingDelegate) :
    Except Fault (MM_SchedulingDelegate × Nat) :=
  let s1 := { s with
    _nextIncrementWillDoGlobalMarkPhase := false
    _nextIncrementWillDoPartialGarbageCollection := false
    _taxationIndex := 0
    _remainingGMPIntermissionIntervals := ext.tarokGMPIntermission }
  match calculateEdenSize ext rm gam s1 with
  | .error e => .error e
  | .ok s2 =>
    getNextTaxationThreshold ext rm
      { s2 with
        _averageSurvivorSetRegionCount :=
          3 / 10 * (getCurrentEdenSizeInBytes rm s2 : ℚ) / (rm.regionSize : ℚ) }

/-! ## Estimators updated at the end of a partial collection -/

/-- Historic weights of the running averages (file-level constants of the source). -/
def measureScanRateHistoricWeightForGMP : ℚ := 1 / 2

/-- Historic weight of the scan rate measured in a PGC. -/
def measureScanRateHistoricWeightForPGC : ℚ := 95 / 100

/-- Historic weight of the average PGC time,
`const double partialGCTimeHistoricWeight = 0.80;`: the double nearest to 0.80. -/
def partialGCTimeHistoricWeight : ℚ := roundToDouble (8 / 10)

/-- Lower bound of the PGC pause model, in milliseconds. -/
def minimumPgcTime : Nat := 5

/-- Smallest Eden of the PGC pause model, in regions. -/
def minimumEdenRegions : Nat := 1

/-- Number of PGCs between two re-evaluations of the Eden size. -/
def consecutivePGCToChangeEden : Nat := 16

/-- `MM_SchedulingDelegate::updateSurvivalRatesAfterCopyForward`. -/
def updateSurvivalRatesAfterCopyForward (thisEdenSurvivalRate : ℚ)
    (thisNonEdenSurvivorCount : Nat) (s : MM_SchedulingDelegate) : MM_SchedulingDelegate :=
  let historicalWeight : ℚ := 1 / 2
  let newWeight : ℚ := 1 - historicalWeight
  { s with
    _edenSurvivalRateCopyForward :=
      historicalWeight * s._edenSurvivalRateCopyForward + newWeight * thisEdenSurvivalRate
    _nonEdenSurvivalCountCopyForward :=
      doubleToUDATA (historicalWeight * (s._nonEdenSurvivalCountCopyForward : ℚ)
        + newWeight * (thisNonEdenSurvivorCount : ℚ)) }

/-- The sample `(currentBytesScanned, scantime)` that `measureScanRate` reads from the
statistics of the current increment. -/
def measureScanRateSample (env : MM_EnvironmentVLHGC) : Nat × Nat :=
  if env._collectionType = CollectionType.CT_PARTIAL_GARBAGE_COLLECTION then
    (wrapU (env._copyForwardStats._scanBytesTotal + env._copyForwardStats._bytesCardClean),
      subU env._copyForwardStats._endTime env._copyForwardStats._startTime)
  else
    (wrapU (env._markStats._bytesScanned + env._markStats._bytesCardClean),
      env._markStats.scanTime)

/-- `MM_SchedulingDelegate::measureScanRate`. -/
def measureScanRate (env : MM_EnvironmentVLHGC) (historicWeight : ℚ)
    (s : MM_SchedulingDelegate) : MM_SchedulingDelegate :=
  let currentBytesScanned := (measureScanRateSample env).1
  let scantime := (measureScanRateSample env).2
  if 0 ≠ currentBytesScanned then
    let historicalBytesScanned := s._scanRateStats.historicalBytesScanned
    let historicalScanMicroseconds := s._scanRateStats.historicalScanMicroseconds
    let currentScanMicroseconds :=
      env.j9time_hires_delta 0 scantime TimeDeltaUnit.J9PORT_TIME_DELTA_IN_MICROSECONDS
    let stats1 : ScanRateStats :=
      if 0 ≠ historicalBytesScanned then
        { s._scanRateStats with
          historicalBytesScanned :=
            doubleToUDATA ((historicalBytesScanned : ℚ) * historicWeight
              + (currentBytesScanned : ℚ) * (1 - historicWeight))
          historicalScanMicroseconds :=
            doubleToUDATA ((historicalScanMicroseconds : ℚ) * historicWeight
              + (currentScanMicroseconds : ℚ) * (1 - historicWeight)) }
      else
        { s._scanRateStats with
          historicalBytesScanned := currentBytesScanned
          historicalScanMicroseconds := currentScanMicroseconds }
    let stats2 : ScanRateStats :=
      if 0 ≠ stats1.historicalBytesScanned then
        { stats1 with
          microSecondsPerByteScanned :=
            (stats1.historicalScanMicroseconds : ℚ) / (stats1.historicalBytesScanned : ℚ) }
      else stats1
    { s with _scanRateStats := stats2 }
  else s

/-- `MM_SchedulingDelegate::estimateMacroDefragmentationWork`. -/
def estimateMacroDefragmentationWork (s : MM_SchedulingDelegate) : MM_SchedulingDelegate :=
  let historicWeight : ℚ := 8 / 10
  { s with
    _averageMacroDefragmentationWork :=
      s._averageMacroDefragmentationWork * historicWeight
        + (s._currentMacroDefragmentationWork : ℚ) * (1 - historicWeight)
    _currentMacroDefragmentationWork := 0 }

/-- `MM_SchedulingDelegate::measureConsumptionForPartialGC`. -/
def measureConsumptionForPartialGC (currentReclaimableRegions : Nat)
    (currentDefragmentReclaimableRegions : Nat) (s : MM_SchedulingDelegate) :
    MM_SchedulingDelegate :=
  let historicWeight : ℚ := 8 / 10
  let s1 :=
    if 0 = s._previousReclaimableRegions then s
    else
      let regionsConsumed : Int :=
        wrapI (toIDATA s._previousReclaimableRegions - toIDATA currentReclaimableRegions)
      { s with
        _regionConsumptionRate :=
          s._regionConsumptionRate * historicWeight
            + (regionsConsumed : ℚ) * (1 - historicWeight) }
  let s2 := { s1 with _previousReclaimableRegions := currentReclaimableRegions }
  let s3 :=
    if 0 = s2._previousDefragmentReclaimableRegions then s2
    else
      let defragmentRegionsConsumed : Int :=
        wrapI (toIDATA s2._previousDefragmentReclaimableRegions
          - toIDATA currentDefragmentReclaimableRegions)
      { s2 with
        _defragmentRegionConsumptionRate :=
          s2._defragmentRegionConsumptionRate * historicWeight
            + (defragmentRegionsConsumed : ℚ) * (1 - historicWeight) }
  { s3 with _previousDefragmentReclaimableRegions := currentDefragmentReclaimableRegions }

/-- `MM_SchedulingDelegate::calculateGlobalMarkIncrementTimeMillis`.  The new average
`(uint64_t)((_historicalPartialGCTime * w) + (pgcTime * (1 - w)))` is a double expression
cast to an integer: the conversions of the two integers, the difference `1 - w`, the two
products and the sum are each rounded to a double on its own (IEEE 754 binary64, no fused
multiply-add and no wider intermediate) before the cast truncates. -/
def calculateGlobalMarkIncrementTimeMillis (pgcTime : Nat) (s : MM_SchedulingDelegate) :
    Except Fault MM_SchedulingDelegate :=
  if U_32_MAX < pgcTime then .ok s
  else
    let historical :=
      if 0 = s._historicalPartialGCTime then pgcTime
      else
        doubleToUDATA (roundToDouble
          (roundToDouble
              (roundToDouble (s._historicalPartialGCTime : ℚ) * partialGCTimeHistoricWeight)
            + roundToDouble
                (roundToDouble (pgcTime : ℚ)
                  * roundToDouble (1 - partialGCTimeHistoricWeight))))
    if ¬ (U_32_MAX ≥ historical) then .error .assertion
    else
      .ok { s with
        _historicalPartialGCTime := historical
        _dynamicGlobalMarkIncrementTimeMillis := max (historical / 3) 1 }

/-- `MM_SchedulingDelegate::resetPgcTimeStatistics`. -/
def resetPgcTimeStatistics (s : MM_SchedulingDelegate) : MM_SchedulingDelegate :=
  { s with _pgcCountSinceGMPEnd := 0 }

/-- `MM_SchedulingDelegate::updatePgcTimePrediction`. -/
def updatePgcTimePrediction (env : MM_EnvironmentVLHGC) (s : MM_SchedulingDelegate) :
    MM_SchedulingDelegate :=
  let x1 : ℚ := (minimumEdenRegions : ℚ)
  let y1 : ℚ := (minimumPgcTime : ℚ)
  let x2 : ℚ := (getCurrentEdenSizeInRegions s : ℚ)
  let y2 : ℚ := (s._historicalPartialGCTime : ℚ)
  if x1 < x2 ∧ y1 < y2 then
    let timeDiff := y1 - y2
    let edenSizeRatio := (x1 + 1) / (x2 + 1)
    { s with _pgcTimeIncreasePerEdenRegionFactor := env.pow edenSizeRatio (1 / timeDiff) }
  else s

/-- `MM_SchedulingDelegate::heapIsFullyExpanded`. -/
def heapIsFullyExpanded (ext : MM_GCExtensions) (rm : MM_HeapRegionManager)
    (s : MM_SchedulingDelegate) : Bool :=
  let currentHeapSize := wrapU (rm.regionSize * s._numberOfHeapRegions)
  let maxHeapSize := if ext.softMx = 0 then ext.memoryMax else ext.softMx
  decide (currentHeapSize ≥ maxHeapSize)

/-! ## GMP kick-off planning -/

/-- `MM_SchedulingDelegate::estimatePartialGCsRemaining`. -/
def estimatePartialGCsRemaining (ext : MM_GCExtensions)
    (gam : MM_GlobalAllocationManagerTarok) (env : MM_EnvironmentVLHGC)
    (s : MM_SchedulingDelegate) : Except Fault Nat :=
  if s._regionConsumptionRate > 0 then
    let edenRegions := s._idealEdenRegionCount
    if env._shouldRunCopyForward = true then
      let survivorRegions0 : ℚ := s._averageSurvivorSetRegionCount
      let survivorRegions : ℚ :=
        if 0 ≠ ext.fvtest_forceCopyForwardHybridRatio
            ∧ 100 ≥ ext.fvtest_forceCopyForwardHybridRatio then
          survivorRegions0 * ((100 - ext.fvtest_forceCopyForwardHybridRatio : Nat) : ℚ) / 100
        else survivorRegions0
      let freeRegions : ℚ := (gam.freeRegionCount : ℚ)
      if ¬ ((s._previousDefragmentReclaimableRegions : ℚ) ≥ freeRegions) then .error .assertion
      else
        let recoverableRegions : ℚ := (s._previousDefragmentReclaimableRegions : ℚ) - freeRegions
        if freeRegions + recoverableRegions > (edenRegions : ℚ) + survivorRegions then
          .ok (doubleToUDATA
            ((freeRegions + recoverableRegions - (edenRegions : ℚ) - survivorRegions)
              / s._regionConsumptionRate))
        else .ok 0
    else
      if s._previousDefragmentReclaimableRegions > edenRegions then
        .ok (doubleToUDATA
          (((subU s._previousDefragmentReclaimableRegions edenRegions : Nat) : ℚ)
            / s._regionConsumptionRate))
      else .ok 0
  else .ok UDATA_MAX

/-- One step of the region walk of `updateLiveBytesAfterPartialCollect`. -/
def addLiveBytesOfRegion (live : Nat) (region : MM_HeapRegionDescriptorVLHGC) : Nat :=
  if region.containsObjects = true then
    subU (subU (wrapU (live + region.size)) region.actualFreeMemorySize) region.darkMatterBytes
  else if region.isArrayletLeaf = true then
    if region.spineIsObjectArray = true then wrapU (live + region.size) else live
  else live

/-- `MM_SchedulingDelegate::updateLiveBytesAfterPartialCollect`. -/
def updateLiveBytesAfterPartialCollect (rm : MM_HeapRegionManager) (s : MM_SchedulingDelegate) :
    MM_SchedulingDelegate :=
  { s with _liveSetBytesAfterPartialCollect := rm.regions.foldl addLiveBytesOfRegion 0 }

/-- `MM_SchedulingDelegate::calculateEstimatedGlobalBytesToScan`. -/
def calculateEstimatedGlobalBytesToScan (s : MM_SchedulingDelegate) : ℚ :=
  let heapOccupancyTrendAdjusted : ℚ := max 0 s._heapOccupancyTrend
  let liveSetBytesAfterPartialDeltaSinceLastGlobalSweep : ℚ :=
    max 0 ((s._liveSetBytesAfterPartialCollect : ℚ) - (s._liveSetBytesAfterGlobalSweep : ℚ))
  let liveSetAdjustedForOccupancyTrend : ℚ :=
    (s._liveSetBytesAfterPartialCollect : ℚ)
      - liveSetBytesAfterPartialDeltaSinceLastGlobalSweep * (1 - heapOccupancyTrendAdjusted)
  liveSetAdjustedForOccupancyTrend * s._scannableBytesRatio

/-- `MM_SchedulingDelegate::calculateGlobalMarkIncrementHeadroom`. -/
def calculateGlobalMarkIncrementHeadroom (ext : MM_GCExtensions) (rm : MM_HeapRegionManager)
    (s : MM_SchedulingDelegate) : Nat :=
  if s._regionConsumptionRate > 0 then
    let headroomRegions : ℚ := (ext.tarokKickoffHeadroomInBytes : ℚ) / (rm.regionSize : ℚ)
    let headroomPartialGCs : ℚ := headroomRegions / s._regionConsumptionRate
    let headroomGlobalMarkIncrements : ℚ :=
      headroomPartialGCs * (ext.tarokPGCtoGMPDenominator : ℚ) / (ext.tarokPGCtoGMPNumerator : ℚ)
    doubleToUDATA (⌈headroomGlobalMarkIncrements⌉ : ℚ)
  else 0

/-- `MM_SchedulingDelegate::estimateRemainingGlobalBytesToScan`. -/
def estimateRemainingGlobalBytesToScan (env : MM_EnvironmentVLHGC)
    (s : MM_SchedulingDelegate) : Nat :=
  let expectedGlobalBytesToScan := doubleToUDATA (calculateEstimatedGlobalBytesToScan s)
  let globalBytesScanned := env.bytesScannedInGlobalMarkPhase
  MM_Math.saturatingSubtract expectedGlobalBytesToScan globalBytesScanned

/-- `MM_SchedulingDelegate::estimateRemainingTimeMillisToScan`. -/
def estimateRemainingTimeMillisToScan (ext : MM_GCExtensions) (env : MM_EnvironmentVLHGC)
    (s : MM_SchedulingDelegate) : Except Fault ℚ :=
  if ¬ (0 ≠ ext.gcThreadCount) then .error .assertion
  else
    let remainingBytesToScan : ℚ := (estimateRemainingGlobalBytesToScan env s : ℚ)
    .ok (remainingBytesToScan * s._scanRateStats.microSecondsPerByteScanned
      / (ext.gcThreadCount : ℚ) / 1000)

/-- `MM_SchedulingDelegate::currentGlobalMarkIncrementTimeMillis`. -/
def currentGlobalMarkIncrementTimeMillis (ext : MM_GCExtensions)
    (gam : MM_GlobalAllocationManagerTarok) (env : MM_EnvironmentVLHGC)
    (s : MM_SchedulingDelegate) : Except Fault Nat :=
  if 0 = ext.tarokGlobalMarkIncrementTimeMillis then
    match estimatePartialGCsRemaining ext gam env s with
    | .error e => .error e
    | .ok partialCollectsRemaining =>
      if 0 = partialCollectsRemaining then .ok UDATA_MAX
      else
        let desiredGlobalMarkIncrementMillis := s._dynamicGlobalMarkIncrementTimeMillis
        match estimateRemainingTimeMillisToScan ext env s with
        | .error e => .error e
        | .ok remainingMillisToScan =>
          let minimumGlobalMarkIncrementMillis :=
            doubleToUDATA (remainingMillisToScan / (partialCollectsRemaining : ℚ))
          .ok (max desiredGlobalMarkIncrementMillis minimumGlobalMarkIncrementMillis)
  else .ok ext.tarokGlobalMarkIncrementTimeMillis

/-- `MM_SchedulingDelegate::estimateGlobalMarkIncrements`. -/
def estimateGlobalMarkIncrements (ext : MM_GCExtensions)
    (gam : MM_GlobalAllocationManagerTarok) (env : MM_EnvironmentVLHGC)
    (s : MM_SchedulingDelegate) (liveSetAdjustedForScannableBytesRatio : ℚ) :
    Except Fault Nat :=
  if ¬ (0 ≠ ext.gcThreadCount) then .error .assertion
  else
    let estimatedScanMillis : ℚ :=
      liveSetAdjustedForScannableBytesRatio * s._scanRateStats.microSecondsPerByteScanned
        / (ext.gcThreadCount : ℚ) / 1000
    match currentGlobalMarkIncrementTimeMillis ext gam env s with
    | .error e => .error e
    | .ok currentMarkIncrementMillis =>
      if ¬ (0 ≠ currentMarkIncrementMillis) then .error .assertion
      else
        let estimatedGMPIncrements : ℚ := estimatedScanMillis / (currentMarkIncrementMillis : ℚ)
        .ok (wrapU (doubleToUDATA (⌈estimatedGMPIncrements⌉ : ℚ) + 1))

/-- `MM_SchedulingDelegate::calculateAutomaticGMPIntermission`. -/
def calculateAutomaticGMPIntermission (ext : MM_GCExtensions) (rm : MM_HeapRegionManager)
    (gam : MM_GlobalAllocationManagerTarok) (env : MM_EnvironmentVLHGC)
    (s : MM_SchedulingDelegate) : Except Fault MM_SchedulingDelegate :=
  match estimatePartialGCsRemaining ext gam env s with
  | .error e => .error e
  | .ok partialCollectsRemaining =>
    let s1 := updateLiveBytesAfterPartialCollect rm s
    if ext.tarokAutomaticGMPIntermission = true then
      if ¬ (UDATA_MAX = ext.tarokGMPIntermission) then .error .assertion
      else if s1._remainingGMPIntermissionIntervals > 0 then
        let liveSetAdjustedForScannableBytesRatio := calculateEstimatedGlobalBytesToScan s1
        let incrementHeadroom := calculateGlobalMarkIncrementHeadroom ext rm s1
        match estimateGlobalMarkIncrements ext gam env s1
            liveSetAdjustedForScannableBytesRatio with
        | .error e => .error e
        | .ok globalMarkIncrementsRequired =>
          let globalMarkIncrementsRequiredWithHeadroom :=
            wrapU (globalMarkIncrementsRequired + incrementHeadroom)
          if ext.tarokPGCtoGMPNumerator = 0 then .error .divideByZero
          else
            let globalMarkIncrementsRemaining :=
              wrapU (partialCollectsRemaining * ext.tarokPGCtoGMPDenominator)
                / ext.tarokPGCtoGMPNumerator
            .ok { s1 with
              _remainingGMPIntermissionIntervals :=
                MM_Math.saturatingSubtract globalMarkIncrementsRemaining
                  globalMarkIncrementsRequiredWithHeadroom }
      else .ok s1
    else .ok s1

/-! ## Eden size recommendation -/

/-- `MM_SchedulingDelegate::predictNumberOfCollections`. -/
def predictNumberOfCollections (env : MM_EnvironmentVLHGC) (edenSizeChange : Int)
    (freeTenure : Nat) : ℚ :=
  let collectionCountChange : ℚ :=
    ((subU freeTenure (toUDATA edenSizeChange) : Nat) : ℚ) / (freeTenure : ℚ)
  (env.representativePgcPerGmpCount : ℚ) * collectionCountChange

/-- `MM_SchedulingDelegate::predictIntervalBetweenCollections`. -/
def predictIntervalBetweenCollections (currentEdenSize : Nat) (edenSizeChange : Int)
    (pgcAvgIntervalTime : Nat) : ℚ :=
  let intervalChange : ℚ :=
    ((wrapU (currentEdenSize + toUDATA edenSizeChange) : Nat) : ℚ) / (currentEdenSize : ℚ)
  (pgcAvgIntervalTime : ℚ) * intervalChange

/-- `MM_SchedulingDelegate::predictPgcTime` (microseconds). -/
def predictPgcTime (rm : MM_HeapRegionManager) (env : MM_EnvironmentVLHGC)
    (s : MM_SchedulingDelegate) (edenSizeChange : Int) : ℚ :=
  let edenRegionChange : ℚ := (edenSizeChange : ℚ) / (rm.regionSize : ℚ)
  let currentEdenRegions : ℚ := (getCurrentEdenSizeInRegions s : ℚ)
  let edenChangeRatio : ℚ := (edenRegionChange + currentEdenRegions + 1) / (currentEdenRegions + 1)
  let pgcTimeChangeForEdenChange : ℚ :=
    env.log edenChangeRatio / env.log s._pgcTimeIncreasePerEdenRegionFactor
  let predictedPgcTime : ℚ := (s._historicalPartialGCTime : ℚ) + pgcTimeChangeForEdenChange
  max predictedPgcTime (minimumPgcTime : ℚ) * 1000

/-- `MM_SchedulingDelegate::predictCpuOverheadForEdenSize`. -/
def predictCpuOverheadForEdenSize (rm : MM_HeapRegionManager) (env : MM_EnvironmentVLHGC)
    (s : MM_SchedulingDelegate) (currentEdenSize : Nat) (edenSizeChange : Int)
    (freeTenure : Nat) (pgcAvgIntervalTime : Nat) : ℚ :=
  let predictedNumberOfCollections := predictNumberOfCollections env edenSizeChange freeTenure
  let predictedIntervalTime :=
    predictIntervalBetweenCollections currentEdenSize edenSizeChange pgcAvgIntervalTime
  let predictedAvgPgcTime := predictPgcTime rm env s edenSizeChange
  let gmpTime : Nat :=
    if 0 = s._totalGMPWorkTimeUs then wrapU (20 * s._historicalPartialGCTime)
    else s._totalGMPWorkTimeUs
  let gcActiveTime : ℚ := (gmpTime : ℚ) + predictedAvgPgcTime * predictedNumberOfCollections
  let totalIntervalTime : ℚ :=
    (gmpTime : ℚ) + (predictedAvgPgcTime + predictedIntervalTime) * predictedNumberOfCollections
  gcActiveTime / totalIntervalTime

/-- `MM_SchedulingDelegate::mapPgcTimeToPgcOverhead`. -/
def mapPgcTimeToPgcOverhead (ext : MM_GCExtensions) (rm : MM_HeapRegionManager)
    (env : MM_EnvironmentVLHGC) (s : MM_SchedulingDelegate) (partialGcTimeMs : Nat) : ℚ :=
  let xminpct : ℚ := ext.dnssExpectedTimeRatioMinimum * 100
  let xmaxpct : ℚ := ext.dnssExpectedTimeRatioMaximum * 100
  let xmaxt : ℚ := (ext.tarokTargetMaxPauseTime : ℚ)
  if heapIsFullyExpanded ext rm s = true then
    let midpointPct : ℚ := (xmaxpct + xminpct) / 2
    if (partialGcTimeMs : ℚ) ≤ xmaxt then midpointPct
    else
      let overheadCurve : ℚ :=
        env.pow (103 / 100) ((partialGcTimeMs : ℚ) - xmaxt) + midpointPct - 1
      min 100 overheadCurve
  else
    let slope : ℚ := (xmaxpct - xminpct) / (xmaxt / 2 - xmaxt)
    let overhead : ℚ := slope * (partialGcTimeMs : ℚ) + (2 * xmaxpct - xminpct)
    min (max overhead 0) xmaxpct

/-- `MM_SchedulingDelegate::calculateHybridEdenOverhead`. -/
def calculateHybridEdenOverhead (ext : MM_GCExtensions) (rm : MM_HeapRegionManager)
    (env : MM_EnvironmentVLHGC) (s : MM_SchedulingDelegate) (partialGcTimeMs : Nat)
    (overhead : ℚ) : Except Fault ℚ :=
  let actualPGCOverheadWeight : ℚ := 1 / 2
  if ¬ (overhead ≥ 0 ∧ overhead ≤ 1) then .error .assertion
  else
    let pgcTimeOverhead := mapPgcTimeToPgcOverhead ext rm env s partialGcTimeMs
    let hybridEdenOverheadHundredBased : ℚ :=
      actualPGCOverheadWeight * (overhead * 100)
        + (1 - actualPGCOverheadWeight) * pgcTimeOverhead
    .ok (hybridEdenOverheadHundredBased / 100)

/-- The `freeTenure` estimate of `calculateRecommendedEdenSize`. -/
def recommendedEdenFreeTenure (rm : MM_HeapRegionManager) (s : MM_SchedulingDelegate) : Nat :=
  let currentIdealEdenSize := getIdealEdenSizeInBytes rm s
  let currentHeapSize := wrapU (rm.regionSize * s._numberOfHeapRegions)
  let freeTenureHeadroom : ℚ := 3 / 4
  let freeTenure := max (doubleToUDATA ((s._estimatedFreeTenure : ℚ) * freeTenureHeadroom)) 1
  if 0 = s._totalGMPWorkTimeUs then
    let freeTenureFromPGCInfo : Int :=
      toIDATA (subU (subU (subU currentHeapSize currentIdealEdenSize)
        s._liveSetBytesAfterPartialCollect)
        (toUDATA (doubleToIDATA s._averageSurvivorSetRegionCount)))
    if freeTenureFromPGCInfo > 0 then toUDATA freeTenureFromPGCInfo else 1
  else freeTenure

/-- The body of the sampling loop of `calculateRecommendedEdenSize` for sample `i`; the
loop state is `(recommendedEdenChange, bestOverheadPrediction)`. -/
def recommendedEdenSample (ext : MM_GCExtensions) (rm : MM_HeapRegionManager)
    (env : MM_EnvironmentVLHGC) (s : MM_SchedulingDelegate) (currentIdealEdenSize : Nat)
    (freeTenure : Nat) (avgPgcIntervalUs : Nat) (maxEdenChange : Int) (samplingGranularity : Nat)
    (best : Int × ℚ) (i : Nat) : Except Fault (Int × ℚ) :=
  let edenChange : Int := toIDATA (subU (toUDATA maxEdenChange) (wrapU (samplingGranularity * i)))
  let estimatedCpuOverhead :=
    predictCpuOverheadForEdenSize rm env s currentIdealEdenSize edenChange freeTenure
      avgPgcIntervalUs
  let estimatedPGCAvgTime := predictPgcTime rm env s edenChange
  match calculateHybridEdenOverhead ext rm env s (doubleToUDATA estimatedPGCAvgTime / 1000)
      estimatedCpuOverhead with
  | .error e => .error e
  | .ok estimatedHybridOverhead =>
    if estimatedHybridOverhead < best.2 then .ok (edenChange, estimatedHybridOverhead)
    else .ok best

/-- The sampling loop of `calculateRecommendedEdenSize` over the given sample indices. -/
def recommendedEdenSamples (ext : MM_GCExtensions) (rm : MM_HeapRegionManager)
    (env : MM_EnvironmentVLHGC) (s : MM_SchedulingDelegate) (currentIdealEdenSize : Nat)
    (freeTenure : Nat) (avgPgcIntervalUs : Nat) (maxEdenChange : Int) (samplingGranularity : Nat) :
    List Nat → Int × ℚ → Except Fault (Int × ℚ)
  | [], best => .ok best
  | i :: rest, best =>
    match recommendedEdenSample ext rm env s currentIdealEdenSize freeTenure avgPgcIntervalUs
        maxEdenChange samplingGranularity best i with
    | .error e => .error e
    | .ok best1 =>
      recommendedEdenSamples ext rm env s currentIdealEdenSize freeTenure avgPgcIntervalUs
        maxEdenChange samplingGranularity rest best1

/-- `MM_SchedulingDelegate::calculateRecommendedEdenSize`. -/
def calculateRecommendedEdenSize (ext : MM_GCExtensions) (rm : MM_HeapRegionManager)
    (env : MM_EnvironmentVLHGC) (s : MM_SchedulingDelegate) : Except Fault Nat :=
  if 0 = s._pgcCountSinceGMPEnd then .ok (getCurrentEdenSizeInBytes rm s)
  else
    let avgPgcTimeUs := wrapU (s._historicalPartialGCTime * 1000)
    let avgPgcIntervalUs := subU s._averagePgcInterval avgPgcTimeUs
    let currentIdealEdenSize := getIdealEdenSizeInBytes rm s
    let freeTenure := recommendedEdenFreeTenure rm s
    if ¬ (freeTenure ≠ 0) then .error .assertion
    else
      let minEdenChange : Int := wrapI (toIDATA currentIdealEdenSize * -1)
      let maxEdenChange : Int := toIDATA freeTenure
      let numberOfSamples : Nat := 100
      let currentCpuEdenOverhead :=
        predictCpuOverheadForEdenSize rm env s currentIdealEdenSize 0 freeTenure avgPgcIntervalUs
      match calculateHybridEdenOverhead ext rm env s s._historicalPartialGCTime
          currentCpuEdenOverhead with
      | .error e => .error e
      | .ok currentEdenHybridOverhead =>
        let samplingGranularity := toUDATA (wrapI (maxEdenChange - minEdenChange)) / numberOfSamples
        match recommendedEdenSamples ext rm env s currentIdealEdenSize freeTenure
            avgPgcIntervalUs maxEdenChange samplingGranularity (List.range numberOfSamples)
            (0, currentEdenHybridOverhead) with
        | .error e => .error e
        | .ok best => .ok (wrapU (currentIdealEdenSize + toUDATA best.1))

/-- `MM_SchedulingDelegate::moveTowardRecommendedEden`. -/
def moveTowardRecommendedEden (ext : MM_GCExtensions) (rm : MM_HeapRegionManager)
    (env : MM_EnvironmentVLHGC) (edenChangeSpeed : ℚ) (s : MM_SchedulingDelegate) :
    Except Fault MM_SchedulingDelegate :=
  if ¬ (edenChangeSpeed ≤ 1 ∧ edenChangeSpeed ≥ 0) then .error .assertion
  else if 0 = s._historicalPartialGCTime ∨ 0 = s._averagePgcInterval then .ok s
  else
    match calculateRecommendedEdenSize ext rm env s with
    | .error e => .error e
    | .ok recommendedEdenSizeBytes =>
      let currentIdealEdenBytes := getIdealEdenSizeInBytes rm s
      let currentIdealEdenRegions := s._idealEdenRegionCount
      let edenChange : Int := toIDATA (subU recommendedEdenSizeBytes currentIdealEdenBytes)
      let targetEdenChange : Int := doubleToIDATA ((edenChange : ℚ) * edenChangeSpeed)
      let targetEdenBytes := wrapU (currentIdealEdenBytes + toUDATA targetEdenChange)
      let targetEdenRegions := targetEdenBytes / rm.regionSize
      .ok { s with _edenSizeFactor := toIDATA (subU targetEdenRegions currentIdealEdenRegions) }

/-- `MM_SchedulingDelegate::checkEdenSizeAfterPgc`. -/
def checkEdenSizeAfterPgc (ext : MM_GCExtensions) (rm : MM_HeapRegionManager)
    (env : MM_EnvironmentVLHGC) (globalSweepHappened : Bool) (s : MM_SchedulingDelegate) :
    Except Fault MM_SchedulingDelegate :=
  if ext.statupPhaseFinished = false then .ok s
  else if s._currentlyPerformingGMP = true ∧ globalSweepHappened = false then .ok s
  else if heapIsFullyExpanded ext rm s = true then
    if globalSweepHappened = true then
      match moveTowardRecommendedEden ext rm env (1 / 2) s with
      | .error e => .error e
      | .ok s1 => .ok (resetPgcTimeStatistics s1)
    else if s._pgcCountSinceGMPEnd &&& (consecutivePGCToChangeEden - 1) = 0 then
      moveTowardRecommendedEden ext rm env (1 / 4) s
    else .ok s
  else if 0 = s._pgcCountSinceGMPEnd % 3 then
    let edenChangeMagnitude : Int :=
      doubleToIDATA (⌈(1 / 10 * (getIdealEdenSizeInBytes rm s : ℚ)) / (rm.regionSize : ℚ)⌉ : ℚ)
    match calculateHybridEdenOverhead ext rm env s s._historicalPartialGCTime
        s._partialGcOverhead with
    | .error e => .error e
    | .ok hybridEdenOverhead =>
      let edenRegionChange : Int :=
        if ext.dnssExpectedTimeRatioMinimum > hybridEdenOverhead then
          wrapI (edenChangeMagnitude * -1)
        else if ext.dnssExpectedTimeRatioMaximum < hybridEdenOverhead then edenChangeMagnitude
        else 0
      .ok { s with _edenSizeFactor := wrapI (s._edenSizeFactor + edenRegionChange) }
  else .ok s

/-! ## End of a partial collection -/

/-- The first part of `partialGarbageCollectCompleted`: the survival statistics of a
copy-forward PGC, or the scan rate of a mark/sweep/compact PGC (`s` already has
`_globalSweepRequired` cleared). -/
def partialGarbageCollectCompletedStats (rm : MM_HeapRegionManager) (env : MM_EnvironmentVLHGC)
    (s : MM_SchedulingDelegate) : Except Fault MM_SchedulingDelegate :=
  let copyForwardStats := env._copyForwardStats
  let edenCountBeforeCollect := getCurrentEdenSizeInRegions s
  if env._shouldRunCopyForward = true then
    let regionSize := rm.regionSize
    if ¬ (0 = copyForwardStats._scanBytesEden ∨ copyForwardStats._aborted = true
        ∨ 0 ≠ copyForwardStats._nonEvacuateRegionCount) then .error .assertion
    else if ¬ (0 = copyForwardStats._scanBytesNonEden ∨ copyForwardStats._aborted = true
        ∨ 0 ≠ copyForwardStats._nonEvacuateRegionCount) then .error .assertion
    else
      let edenSurvivorCount :=
        wrapU (copyForwardStats._edenSurvivorRegionCount
          + subU (wrapU (copyForwardStats._scanBytesEden + regionSize)) 1 / regionSize)
      let nonEdenSurvivorCount :=
        wrapU (copyForwardStats._nonEdenSurvivorRegionCount
          + subU (wrapU (copyForwardStats._scanBytesNonEden + regionSize)) 1 / regionSize)
      let s1 :=
        if 0 ≠ edenCountBeforeCollect then
          updateSurvivalRatesAfterCopyForward
            ((edenSurvivorCount : ℚ) / (edenCountBeforeCollect : ℚ)) nonEdenSurvivorCount s
        else s
      if copyForwardStats._aborted = true ∧ 0 = s1._remainingGMPIntermissionIntervals then
        .ok { s1 with _disableCopyForwardDuringCurrentGlobalMarkPhase := true }
      else .ok s1
  else .ok (measureScanRate env measureScanRateHistoricWeightForPGC s)

/-- `MM_SchedulingDelegate::partialGarbageCollectCompleted`. -/
def partialGarbageCollectCompleted (ext : MM_GCExtensions) (rm : MM_HeapRegionManager)
    (gam : MM_GlobalAllocationManagerTarok) (env : MM_EnvironmentVLHGC)
    (reclaimableRegions defragmentReclaimableRegions : Nat) (s : MM_SchedulingDelegate) :
    Except Fault MM_SchedulingDelegate :=
  let globalSweepHappened := s._globalSweepRequired
  match partialGarbageCollectCompletedStats rm env { s with _globalSweepRequired := false } with
  | .error e => .error e
  | .ok s1 =>
    let s2 := measureConsumptionForPartialGC reclaimableRegions defragmentReclaimableRegions s1
    let partialGcEndTime := env.j9time_hires_clock
    let pgcTime := env.j9time_hires_delta s2._partialGcStartTime partialGcEndTime
      TimeDeltaUnit.J9PORT_TIME_DELTA_IN_MILLISECONDS
    let s3 := { s2 with _pgcCountSinceGMPEnd := wrapU (s2._pgcCountSinceGMPEnd + 1) }
    match checkEdenSizeAfterPgc ext rm env globalSweepHappened s3 with
    | .error e => .error e
    | .ok s4 =>
      match calculateEdenSize ext rm gam s4 with
      | .error e => .error e
      | .ok s5 =>
        match calculateAutomaticGMPIntermission ext rm gam env s5 with
        | .error e => .error e
        | .ok s6 =>
          match calculateGlobalMarkIncrementTimeMillis pgcTime
              (estimateMacroDefragmentationWork s6) with
          | .error e => .error e
          | .ok s7 => .ok (updatePgcTimePrediction env s7)

/-! ## Global mark phase callbacks and the start of a partial collection -/

/-- Historic weight of `_historicTotalIncrementalScanTimePerGMP` (file-level constant). -/
def incrementalScanTimePerGMPHistoricWeight : ℚ := 1 / 2

/-- Historic weight of `_historicBytesScannedConcurrentlyPerGMP` (file-level constant). -/
def bytesScannedConcurrentlyPerGMPHistoricWeight : ℚ := 1 / 2

/-- `MM_SchedulingDelegate::calculateGlobalMarkOverhead`.  Where the source divides a
double by a zero interval (infinity or NaN) the quotient is 0 here; the comparisons
`0.0 < potentialOverhead` and `1.0 > potentialOverhead` are not both true in either
reading. -/
def calculateGlobalMarkOverhead (env : MM_EnvironmentVLHGC) (s : MM_SchedulingDelegate) :
    MM_SchedulingDelegate :=
  let globalMarkIntervalEndTime := env.j9time_hires_clock
  let globalMarkIntervalTime :=
    env.j9time_hires_delta s._globalMarkIntervalStartTime globalMarkIntervalEndTime
      TimeDeltaUnit.J9PORT_TIME_DELTA_IN_MICROSECONDS
  let concurrentCostUs := s._concurrentMarkGCThreadsTotalWorkTime / 1000
  let potentialGMPWorkTime :=
    wrapU (wrapU (s._globalMarkIncrementsTotalTime + s._globalSweepTimeUs)
      + doubleToUDATA ((concurrentCostUs : ℚ) * (1 / 2)))
  let potentialOverhead : ℚ := (potentialGMPWorkTime : ℚ) / (globalMarkIntervalTime : ℚ)
  let s1 :=
    if 0 < potentialOverhead ∧ 1 > potentialOverhead ∧ 0 ≠ s._globalMarkIntervalStartTime then
      { s with _totalGMPWorkTimeUs := potentialGMPWorkTime }
    else if 0 = s._totalGMPWorkTimeUs then
      { s with _totalGMPWorkTimeUs := wrapU (wrapU (s._historicalPartialGCTime * 1000) * 5) }
    else s
  { s1 with
    _globalMarkOverhead := (s1._totalGMPWorkTimeUs : ℚ) / (globalMarkIntervalTime : ℚ)
    _globalMarkIntervalStartTime := globalMarkIntervalEndTime }

/-- `MM_SchedulingDelegate::globalMarkCycleStart`. -/
def globalMarkCycleStart (env : MM_EnvironmentVLHGC) (s : MM_SchedulingDelegate) :
    MM_SchedulingDelegate :=
  { calculateGlobalMarkOverhead env s with
    _currentlyPerformingGMP := true
    _globalMarkIncrementsTotalTime := 0
    _concurrentMarkGCThreadsTotalWorkTime := 0 }

/-- `MM_SchedulingDelegate::globalMarkCycleEnd`. -/
def globalMarkCycleEnd (s : MM_SchedulingDelegate) : MM_SchedulingDelegate :=
  { s with _currentlyPerformingGMP := false }

/-- `MM_SchedulingDelegate::updateGMPStats`. -/
def updateGMPStats (ext : MM_GCExtensions) (env : MM_EnvironmentVLHGC)
    (s : MM_SchedulingDelegate) : Except Fault MM_SchedulingDelegate :=
  if ¬ (CollectionType.CT_GLOBAL_MARK_PHASE = env.persistentGMPCollectionType) then
    .error .assertion
  else if ¬ (0 ≠ ext.gcThreadCount) then .error .assertion
  else
    let incrementalScanTime :=
      doubleToUDATA
        (((env.j9time_hires_delta 0 env._incrementalMarkStats.scanTime
            TimeDeltaUnit.J9PORT_TIME_DELTA_IN_MICROSECONDS : Nat) : ℚ)
          / (ext.gcThreadCount : ℚ))
    let concurrentBytesScanned := env._concurrentMarkStats._bytesScanned
    .ok { s with
      _historicTotalIncrementalScanTimePerGMP :=
        doubleToUDATA
          ((s._historicTotalIncrementalScanTimePerGMP : ℚ)
              * incrementalScanTimePerGMPHistoricWeight
            + (incrementalScanTime : ℚ) * (1 - incrementalScanTimePerGMPHistoricWeight))
      _historicBytesScannedConcurrentlyPerGMP :=
        doubleToUDATA
          ((s._historicBytesScannedConcurrentlyPerGMP : ℚ)
              * bytesScannedConcurrentlyPerGMPHistoricWeight
            + (concurrentBytesScanned : ℚ)
              * (1 - bytesScannedConcurrentlyPerGMPHistoricWeight)) }

/-- `MM_SchedulingDelegate::globalMarkPhaseCompleted`. -/
def globalMarkPhaseCompleted (ext : MM_GCExtensions) (env : MM_EnvironmentVLHGC)
    (s : MM_SchedulingDelegate) : Except Fault MM_SchedulingDelegate :=
  updateGMPStats ext env
    { s with
      _liveSetBytesBeforeGlobalSweep := s._liveSetBytesAfterPartialCollect
      _remainingGMPIntermissionIntervals := ext.tarokGMPIntermission
      _previousReclaimableRegions := 0
      _didGMPCompleteSinceLastReclaim := true
      _globalSweepRequired := true
      _disableCopyForwardDuringCurrentGlobalMarkPhase := false }

/-- `MM_SchedulingDelegate::globalMarkIncrementCompleted`. -/
def globalMarkIncrementCompleted (env : MM_EnvironmentVLHGC) (s : MM_SchedulingDelegate) :
    MM_SchedulingDelegate :=
  let s1 := measureScanRate env measureScanRateHistoricWeightForGMP s
  let globalMarkIncrementStartTime := env._markStats._startTime
  let globalMarkIncrementEndTime := env._markStats._endTime
  let globalMarkIncrementElapsedTime :=
    env.j9time_hires_delta globalMarkIncrementStartTime globalMarkIncrementEndTime
      TimeDeltaUnit.J9PORT_TIME_DELTA_IN_MICROSECONDS
  { s1 with
    _globalMarkIncrementsTotalTime :=
      wrapU (s1._globalMarkIncrementsTotalTime + globalMarkIncrementElapsedTime) }

/-- `MM_SchedulingDelegate::globalGarbageCollectCompleted`. -/
def globalGarbageCollectCompleted (reclaimableRegions defragmentReclaimableRegions : Nat)
    (s : MM_SchedulingDelegate) : MM_SchedulingDelegate :=
  { s with
    _previousReclaimableRegions := reclaimableRegions
    _previousDefragmentReclaimableRegions := defragmentReclaimableRegions
    _bytesCompactedToFreeBytesRatio := 0
    _globalSweepRequired := false
    _disableCopyForwardDuringCurrentGlobalMarkPhase := false }

/-- `MM_SchedulingDelegate::calculatePartialGarbageCollectOverhead`. -/
def calculatePartialGarbageCollectOverhead (s : MM_SchedulingDelegate) :
    MM_SchedulingDelegate :=
  if 0 = s._averagePgcInterval ∨ 0 = s._historicalPartialGCTime then s
  else
    let recentOverhead : ℚ :=
      ((wrapU (s._historicalPartialGCTime * 1000) : Nat) : ℚ) / (s._averagePgcInterval : ℚ)
    { s with
      _partialGcOverhead := MM_Math.weightedAverage s._partialGcOverhead recentOverhead (1 / 2) }

/-- `MM_SchedulingDelegate::partialGarbageCollectStarted`.  The clock is read once when
this is the very first PGC and twice otherwise. -/
def partialGarbageCollectStarted (env : MM_EnvironmentVLHGC) (s : MM_SchedulingDelegate) :
    MM_SchedulingDelegate :=
  if 0 ≠ s._partialGcStartTime then
    let pgcIntervalHistoricWeight : ℚ := 1 / 2
    let recentPgcInterval :=
      env.j9time_hires_delta s._partialGcStartTime env.j9time_hires_clock
        TimeDeltaUnit.J9PORT_TIME_DELTA_IN_MICROSECONDS
    calculatePartialGarbageCollectOverhead
      { s with
        _averagePgcInterval :=
          wrapU (doubleToUDATA (pgcIntervalHistoricWeight * (s._averagePgcInterval : ℚ))
            + doubleToUDATA ((1 - pgcIntervalHistoricWeight) * (recentPgcInterval : ℚ)))
        _partialGcStartTime := env.j9time_hires_clock_second }
  else
    calculatePartialGarbageCollectOverhead
      { s with _partialGcStartTime := env.j9time_hires_clock }

/-- `MM_SchedulingDelegate::isFirstPGCAfterGMP`. -/
def isFirstPGCAfterGMP (s : MM_SchedulingDelegate) : Bool :=
  s._didGMPCompleteSinceLastReclaim

/-- `MM_SchedulingDelegate::firstPGCAfterGMPCompleted`. -/
def firstPGCAfterGMPCompleted (s : MM_SchedulingDelegate) : MM_SchedulingDelegate :=
  { s with _didGMPCompleteSinceLastReclaim := false }

/-- The value of `MM_CycleState::_reasonForMarkCompactPGC` that the delegate stores. -/
inductive ReasonForMarkCompactPGC where
  | reason_calibration
  deriving DecidableEq

/-- The stores of `MM_SchedulingDelegate::determineNextPGCType` to `env->_cycleState`:
the value assigned to `_reasonForMarkCompactPGC` (`none` when the member does not assign
it) and the value assigned to `_shouldRunCopyForward`. -/
def determineNextPGCTypeCycleState (s : MM_SchedulingDelegate) :
    Option ReasonForMarkCompactPGC × Bool :=
  if 0 = s._scanRateStats.microSecondsPerByteScanned then
    (some ReasonForMarkCompactPGC.reason_calibration, false)
  else (none, s._nextPGCShouldCopyForward)

/-- `MM_SchedulingDelegate::determineNextPGCType`: the value it stores in
`env->_cycleState->_shouldRunCopyForward` and the new delegate.  The store to
`_reasonForMarkCompactPGC`, which no member of the delegate reads, is left out here and
given by `determineNextPGCTypeCycleState`. -/
def determineNextPGCType (ext : MM_GCExtensions) (s : MM_SchedulingDelegate) :
    Bool × MM_SchedulingDelegate :=
  let s1 :=
    if 0 = s._scanRateStats.microSecondsPerByteScanned then
      { s with _nextPGCShouldCopyForward := false }
    else s
  let shouldRunCopyForward := s1._nextPGCShouldCopyForward
  if s1._nextPGCShouldCopyForward = true ∧ ext.tarokPGCShouldMarkCompact = true then
    (shouldRunCopyForward, { s1 with _nextPGCShouldCopyForward := false })
  else if s1._nextPGCShouldCopyForward = false ∧ ext.tarokPGCShouldCopyForward = true then
    (shouldRunCopyForward, { s1 with _nextPGCShouldCopyForward := true })
  else (shouldRunCopyForward, s1)

/-! ## Named parts and repetitions used in the statements -/

/-- The local `gmpTime` of `predictCpuOverheadForEdenSize`: `_totalGMPWorkTimeUs`, or the
guess that stands in for it while no GMP has been observed. -/
def predictedGmpTime (s : MM_SchedulingDelegate) : Nat :=
  if 0 = s._totalGMPWorkTimeUs then wrapU (20 * s._historicalPartialGCTime)
  else s._totalGMPWorkTimeUs

/-- The local `edenChange` of sample `i` in the loop of `calculateRecommendedEdenSize`. -/
def recommendedEdenChangeOfSample (maxEdenChange : Int) (samplingGranularity i : Nat) : Int :=
  toIDATA (subU (toUDATA maxEdenChange) (wrapU (samplingGranularity * i)))

/-- The local `estimatedHybridOverhead` that the loop of `calculateRecommendedEdenSize`
computes for the Eden change `edenChange`. -/
def estimatedHybridOverheadOfChange (ext : MM_GCExtensions) (rm : MM_HeapRegionManager)
    (env : MM_EnvironmentVLHGC) (s : MM_SchedulingDelegate) (currentIdealEdenSize : Nat)
    (freeTenure : Nat) (avgPgcIntervalUs : Nat) (edenChange : Int) : Except Fault ℚ :=
  calculateHybridEdenOverhead ext rm env s
    (doubleToUDATA (predictPgcTime rm env s edenChange) / 1000)
    (predictCpuOverheadForEdenSize rm env s currentIdealEdenSize edenChange freeTenure
      avgPgcIntervalUs)

/-- The local `currentEdenHybridOverhead` of `calculateRecommendedEdenSize`: the hybrid
overhead predicted for the current ideal Eden size. -/
def currentEdenHybridOverhead (ext : MM_GCExtensions) (rm : MM_HeapRegionManager)
    (env : MM_EnvironmentVLHGC) (s : MM_SchedulingDelegate) : Except Fault ℚ :=
  calculateHybridEdenOverhead ext rm env s s._historicalPartialGCTime
    (predictCpuOverheadForEdenSize rm env s (getIdealEdenSizeInBytes rm s) 0
      (recommendedEdenFreeTenure rm s)
      (subU s._averagePgcInterval (wrapU (s._historicalPartialGCTime * 1000))))

/-- The local `minEdenCount` of `adjustIdealEdenRegionCount` (startup phase finished). -/
def minEdenCount (ext : MM_GCExtensions) (rm : MM_HeapRegionManager)
    (s : MM_SchedulingDelegate) : Nat :=
  if ext.userSpecifiedParameters._Xmn._wasSpecified = true
      ∨ ext.userSpecifiedParameters._Xmns._wasSpecified = true then
    ext.tarokIdealEdenMinimumBytes / rm.regionSize
  else doubleToUDATA ((s._numberOfHeapRegions : ℚ) * s._minEdenPercent)

/-- The local `maxEdenCount` of `adjustIdealEdenRegionCount` (startup phase finished). -/
def maxEdenCount (ext : MM_GCExtensions) (rm : MM_HeapRegionManager)
    (s : MM_SchedulingDelegate) : Nat :=
  if ext.userSpecifiedParameters._Xmn._wasSpecified = true
      ∨ ext.userSpecifiedParameters._Xmnx._wasSpecified = true then
    ext.tarokIdealEdenMaximumBytes / rm.regionSize
  else doubleToUDATA ((s._numberOfHeapRegions : ℚ) * s._maxEdenPercent)

/-- The value `adjustIdealEdenRegionCount` gives `_idealEdenRegionCount` once the startup
phase is over, from the two bounds, the ideal count on entry and the requested change. -/
def adjustedIdealEdenRegionCount (minCount maxCount ideal : Nat) (edenChange : Int) : Nat :=
  let possibleEdenRegionCount : Int := wrapI (toIDATA ideal + edenChange)
  let edenChange1 : Int :=
    if toIDATA minCount > possibleEdenRegionCount then toIDATA (subU minCount ideal)
    else if toIDATA maxCount < possibleEdenRegionCount then toIDATA (subU maxCount ideal)
    else edenChange
  max 1 (toUDATA ((ideal : Int) + edenChange1))

/-- The delegate after `count` consecutive calls of
`calculateGlobalMarkIncrementTimeMillis` with the same `pgcTime`. -/
def repeatCalculateGlobalMarkIncrementTimeMillis (pgcTime : Nat) :
    Nat → MM_SchedulingDelegate → Except Fault MM_SchedulingDelegate
  | 0, s => .ok s
  | count + 1, s =>
    match calculateGlobalMarkIncrementTimeMillis pgcTime s with
    | .error e => .error e
    | .ok s1 => repeatCalculateGlobalMarkIncrementTimeMillis pgcTime count s1

/-! ## Predicates used in the statements -/

/-- The Eden bounds that `calculateEdenSize` asserts:
`1 ≤ _minimumEdenRegionCount ≤ _idealEdenRegionCount`. -/
def EdenBoundsOrdered (s : MM_SchedulingDelegate) : Prop :=
  1 ≤ s._minimumEdenRegionCount ∧ s._minimumEdenRegionCount ≤ s._idealEdenRegionCount

/-- The three Eden counts of the delegate: current, ideal and minimum. -/
def edenCounts (s : MM_SchedulingDelegate) : Nat × Nat × Nat :=
  (s._edenRegionCount, s._idealEdenRegionCount, s._minimumEdenRegionCount)

/-- The states reached after a completed `heapReconfigured`: further callbacks of the
delegate are applied in any order and with any inputs.  The member functions that are not
listed by name (`globalMarkCycleStart`, `globalMarkPhaseCompleted`,
`partialGarbageCollectStarted`, `copyForwardCompleted`, …) never assign
`_idealEdenRegionCount` or `_minimumEdenRegionCount`; they are covered by `otherMember`. -/
inductive ReachedAfterHeapReconfigured : MM_SchedulingDelegate → Prop where
  | heapReconfigured (ext : MM_GCExtensions) (rm : MM_HeapRegionManager)
      (gam : MM_GlobalAllocationManagerTarok) (s s' : MM_SchedulingDelegate) :
      heapReconfigured ext rm gam s = .ok s' → ReachedAfterHeapReconfigured s'
  | calculateEdenSize (ext : MM_GCExtensions) (rm : MM_HeapRegionManager)
      (gam : MM_GlobalAllocationManagerTarok) (s s' : MM_SchedulingDelegate) :
      ReachedAfterHeapReconfigured s → calculateEdenSize ext rm gam s = .ok s' →
      ReachedAfterHeapReconfigured s'
  | getInitialTaxationThreshold (ext : MM_GCExtensions) (rm : MM_HeapRegionManager)
      (gam : MM_GlobalAllocationManagerTarok) (s s' : MM_SchedulingDelegate) (t : Nat) :
      ReachedAfterHeapReconfigured s → getInitialTaxationThreshold ext rm gam s = .ok (s', t) →
      ReachedAfterHeapReconfigured s'
  | partialGarbageCollectCompleted (ext : MM_GCExtensions) (rm : MM_HeapRegionManager)
      (gam : MM_GlobalAllocationManagerTarok) (env : MM_EnvironmentVLHGC)
      (reclaimableRegions defragmentReclaimableRegions : Nat) (s s' : MM_SchedulingDelegate) :
      ReachedAfterHeapReconfigured s →
      partialGarbageCollectCompleted ext rm gam env reclaimableRegions
        defragmentReclaimableRegions s = .ok s' →
      ReachedAfterHeapReconfigured s'
  | otherMember (s s' : MM_SchedulingDelegate) :
      ReachedAfterHeapReconfigured s →
      s'._idealEdenRegionCount = s._idealEdenRegionCount →
      s'._minimumEdenRegionCount = s._minimumEdenRegionCount →
      ReachedAfterHeapReconfigured s'

/-- The delegates reached from the constructed one by `determineNextPGCType` calls; between
the calls any other member may run, none of which assigns `_nextPGCShouldCopyForward`
(covered by `otherMember`). -/
inductive ReachedByDeterminingPGCType (ext : MM_GCExtensions) :
    MM_SchedulingDelegate → Prop where
  | constructed : ReachedByDeterminingPGCType ext (MM_SchedulingDelegate.new ext)
  | determineNextPGCType (s : MM_SchedulingDelegate) :
      ReachedByDeterminingPGCType ext s →
      ReachedByDeterminingPGCType ext (determineNextPGCType ext s).2
  | otherMember (s s' : MM_SchedulingDelegate) :
      ReachedByDeterminingPGCType ext s →
      s'._nextPGCShouldCopyForward = s._nextPGCShouldCopyForward →
      ReachedByDeterminingPGCType ext s'

/-- The delegates reached from the constructed one by `measureScanRate` calls with a
historic weight in `[0, 1]`; between the calls any other member may run, none of which
assigns a field of `_scanRateStats` (covered by `otherMember`). -/
inductive ReachedByMeasuringScanRate : MM_SchedulingDelegate → Prop where
  | constructed (ext : MM_GCExtensions) :
      ReachedByMeasuringScanRate (MM_SchedulingDelegate.new ext)
  | measureScanRate (env : MM_EnvironmentVLHGC) (historicWeight : ℚ)
      (s : MM_SchedulingDelegate) :
      0 ≤ historicWeight → historicWeight ≤ 1 →
      ReachedByMeasuringScanRate s →
      ReachedByMeasuringScanRate (measureScanRate env historicWeight s)
  | otherMember (s s' : MM_SchedulingDelegate) :
      ReachedByMeasuringScanRate s →
      s'._scanRateStats = s._scanRateStats →
      ReachedByMeasuringScanRate s'

/-- The three scan-rate fields agree: either they are all 0, or there is history and the
rate is the quotient of the two historic sums. -/
def ScanRateConsistent (s : MM_SchedulingDelegate) : Prop :=
  (s._scanRateStats.historicalBytesScanned = 0
      ∧ s._scanRateStats.historicalScanMicroseconds = 0
      ∧ s._scanRateStats.microSecondsPerByteScanned = 0)
    ∨ (1 ≤ s._scanRateStats.historicalBytesScanned
      ∧ s._scanRateStats.microSecondsPerByteScanned
          = (s._scanRateStats.historicalScanMicroseconds : ℚ)
            / (s._scanRateStats.historicalBytesScanned : ℚ))

/-- The delegates reached from the constructed one by
`calculateGlobalMarkIncrementTimeMillis` calls; between the calls any other member may
run, none of which assigns `_dynamicGlobalMarkIncrementTimeMillis` (covered by
`otherMember`). -/
inductive ReachedByUpdatingIncrementTime : MM_SchedulingDelegate → Prop where
  | constructed (ext : MM_GCExtensions) :
      ReachedByUpdatingIncrementTime (MM_SchedulingDelegate.new ext)
  | calculateGlobalMarkIncrementTimeMillis (pgcTime : Nat) (s s' : MM_SchedulingDelegate) :
      ReachedByUpdatingIncrementTime s →
      calculateGlobalMarkIncrementTimeMillis pgcTime s = .ok s' →
      ReachedByUpdatingIncrementTime s'
  | otherMember (s s' : MM_SchedulingDelegate) :
      ReachedByUpdatingIncrementTime s →
      s'._dynamicGlobalMarkIncrementTimeMillis = s._dynamicGlobalMarkIncrementTimeMillis →
      ReachedByUpdatingIncrementTime s'

/-- The configured PGC:GMP ratio is one the scheduler accepts. -/
def legalRatio (ext : MM_GCExtensions) : Prop :=
  ext.tarokEnableIncrementalGMP = false ∨ ext.tarokPGCtoGMPNumerator = 1
    ∨ ext.tarokPGCtoGMPDenominator = 1

/-- What the engine observes at one taxation point: the threshold returned by
`getNextTaxationThreshold` and the two flags read by `getIncrementWork`. -/
structure TaxationPoint where
  threshold : Nat
  doPartialGarbageCollection : Bool
  doGlobalMarkPhase : Bool
  deriving DecidableEq

/-- The engine's use of the scheduler: `count` times, ask for the next
threshold and then fetch (and thereby clear) the increment work. -/
def runTaxationPoints (ext : MM_GCExtensions) (rm : MM_HeapRegionManager) :
    Nat → MM_SchedulingDelegate → Except Fault (List TaxationPoint × MM_SchedulingDelegate)
  | 0, s => .ok ([], s)
  | count + 1, s =>
    match getNextTaxationThreshold ext rm s with
    | .error e => .error e
    | .ok (s1, threshold) =>
      match runTaxationPoints ext rm count (getIncrementWork s1).2 with
      | .error e => .error e
      | .ok (points, s2) =>
        .ok (⟨threshold, (getIncrementWork s1).1.1, (getIncrementWork s1).1.2⟩ :: points, s2)

/-- The engine's start: `getInitialTaxationThreshold` emits the taxation point with index
0, then `count` further points follow as in `runTaxationPoints`. -/
def runTaxationPointsFromInitial (ext : MM_GCExtensions) (rm : MM_HeapRegionManager)
    (gam : MM_GlobalAllocationManagerTarok) (count : Nat) (s : MM_SchedulingDelegate) :
    Except Fault (List TaxationPoint × MM_SchedulingDelegate) :=
  match getInitialTaxationThreshold ext rm gam s with
  | .error e => .error e
  | .ok (s1, threshold) =>
    match runTaxationPoints ext rm count (getIncrementWork s1).2 with
    | .error e => .error e
    | .ok (points, s2) =>
      .ok (⟨threshold, (getIncrementWork s1).1.1, (getIncrementWork s1).1.2⟩ :: points, s2)

/-- A configuration for experiments: incremental GMP with the given ratio. -/
def testExtensions (numerator denominator : Nat) : MM_GCExtensions where
  tarokEnableIncrementalGMP := true
  tarokPGCtoGMPNumerator := numerator
  tarokPGCtoGMPDenominator := denominator
  tarokGMPIntermission := 0
  tarokAutomaticGMPIntermission := false
  tarokPGCShouldCopyForward := true
  tarokPGCShouldMarkCompact := true
  statupPhaseFinished := false
  userSpecifiedParameters := ⟨⟨false⟩, ⟨false⟩, ⟨false⟩⟩
  tarokIdealEdenMinimumBytes := 2 ^ 24
  tarokIdealEdenMaximumBytes := 2 ^ 28
  initialMemorySize := 2 ^ 28
  memoryMax := 2 ^ 30
  softMx := 0
  tarokKickoffHeadroomInBytes := 0
  tarokGlobalMarkIncrementTimeMillis := 0
  gcThreadCount := 1
  fvtest_forceCopyForwardHybridRatio := 0
  dnssExpectedTimeRatioMinimum := 1 / 20
  dnssExpectedTimeRatioMaximum := 3 / 20
  tarokTargetMaxPauseTime := 200

/-- A region manager for experiments: 1024 managed regions of 1 MiB. -/
def testRegionManager : MM_HeapRegionManager where
  regionSize := 2 ^ 20
  managedRegionCount := 1024
  regions := []

/-- A freshly constructed delegate whose Eden has `eden` regions. -/
def testDelegate (ext : MM_GCExtensions) (eden : Nat) : MM_SchedulingDelegate :=
  { MM_SchedulingDelegate.new ext with _edenRegionCount := eden }

/-- A configuration for experiments: incremental GMP disabled. -/
def testExtensionsNoGMP : MM_GCExtensions :=
  { testExtensions 1 1 with tarokEnableIncrementalGMP := false }

/-- An allocation manager for experiments: 100 free regions, 4 allocation contexts. -/
def testAllocationManager : MM_GlobalAllocationManagerTarok where
  freeRegionCount := 100
  managedAllocationContextCount := 4

/-- An environment for experiments: a mark/sweep/compact PGC that scanned nothing, a clock
whose deltas are 30 units, and constant stand-ins for the math library. -/
def testEnvironment : MM_EnvironmentVLHGC where
  _collectionType := CollectionType.CT_PARTIAL_GARBAGE_COLLECTION
  _shouldRunCopyForward := false
  _copyForwardStats := ⟨0, 0, 0, 0, 0, 0, 0, 0, 0, 0, false, 0, 0⟩
  _markStats := ⟨0, 0, 0, 0, 0⟩
  representativePgcPerGmpCount := 1
  bytesScannedInGlobalMarkPhase := 0
  j9time_hires_clock := 1000
  j9time_hires_delta := fun _ _ _ => 30
  pow := fun _ _ => 1
  log := fun _ => 1
  persistentGMPCollectionType := CollectionType.CT_GLOBAL_MARK_PHASE
  _incrementalMarkStats := ⟨0, 0, 0, 0, 0⟩
  _concurrentMarkStats := ⟨0, 0, 0, 0, 0⟩
  j9time_hires_clock_second := 1001

/-- A delegate for experiments with ideal Eden 64 regions and minimum Eden 4 regions. -/
def testDelegateWithBounds : MM_SchedulingDelegate :=
  { MM_SchedulingDelegate.new (testExtensions 1 3) with
    _idealEdenRegionCount := 64
    _minimumEdenRegionCount := 4 }

/-- Equality of results is decidable when it is for the faults and for the values. -/
instance instDecidableEqExcept {ε α : Type} [DecidableEq ε] [DecidableEq α] :
    DecidableEq (Except ε α)
  | .ok a, .ok b =>
    if h : a = b then isTrue (congrArg Except.ok h)
    else isFalse (fun e => h (Except.ok.inj e))
  | .error a, .error b =>
    if h : a = b then isTrue (congrArg Except.error h)
    else isFalse (fun e => h (Except.error.inj e))
  | .ok _, .error _ => isFalse (fun e => Except.noConfusion e)
  | .error _, .ok _ => isFalse (fun e => Except.noConfusion e)

/-- A configuration for experiments: as `testExtensions 1 1`, startup phase finished. -/
def testExtensionsStartupFinished : MM_GCExtensions :=
  { testExtensions 1 1 with statupPhaseFinished := true }

/-- A configuration for experiments: startup phase finished and `-Xmnx8m` given, so that
`tarokIdealEdenMaximumBytes` is 8 MiB and marked as specified by the user. -/
def testExtensionsXmnx : MM_GCExtensions :=
  { testExtensions 1 1 with
    statupPhaseFinished := true
    userSpecifiedParameters := ⟨⟨false⟩, ⟨false⟩, ⟨true⟩⟩
    tarokIdealEdenMaximumBytes := 8 * 2 ^ 20 }

/-- A delegate for experiments: a heap of `regions` regions, the given ideal and minimum
Eden counts and the given pending `_edenSizeFactor`. -/
def testDelegateWithHeap (regions ideal minimum : Nat) (edenSizeFactor : Int) :
    MM_SchedulingDelegate :=
  { MM_SchedulingDelegate.new (testExtensions 1 1) with
    _numberOfHeapRegions := regions
    _idealEdenRegionCount := ideal
    _minimumEdenRegionCount := minimum
    _edenSizeFactor := edenSizeFactor }

/-- The value of `_historicalPartialGCTime` after `calculateGlobalMarkIncrementTimeMillis`
has accepted the sample `pgcTime`: the sample itself when there is no history, else the
`uint64_t` cast of the double expression `(historical * w) + (pgcTime * (1 - w))` with
every operation rounded, as in `calculateGlobalMarkIncrementTimeMillis`. -/
def nextHistoricalPartialGCTime (pgcTime historical : Nat) : Nat :=
  if 0 = historical then pgcTime
  else
    doubleToUDATA (roundToDouble
      (roundToDouble (roundToDouble (historical : ℚ) * partialGCTimeHistoricWeight)
        + roundToDouble
            (roundToDouble (pgcTime : ℚ) * roundToDouble (1 - partialGCTimeHistoricWeight))))

/-- A delegate for experiments with the given PGC time history and mark increment time. -/
def testDelegateWithPgcHistory (historical increment : Nat) : MM_SchedulingDelegate :=
  { MM_SchedulingDelegate.new (testExtensions 1 1) with
    _historicalPartialGCTime := historical
    _dynamicGlobalMarkIncrementTimeMillis := increment }

/-- An environment for experiments: a mark/sweep/compact PGC that scanned 1 MiB in 10000
clock ticks, with a clock whose ticks are microseconds. -/
def testEnvironmentScan : MM_EnvironmentVLHGC :=
  { testEnvironment with
    _copyForwardStats := ⟨0, 0, 0, 0, 0, 2 ^ 20, 0, 0, 0, 0, false, 0, 10000⟩
    j9time_hires_delta := fun start finish _ => finish - start }

/-- An environment for experiments: a global mark increment that scanned no bytes in 777
clock ticks. -/
def testEnvironmentIdleMark : MM_EnvironmentVLHGC :=
  { testEnvironment with
    _collectionType := CollectionType.CT_GLOBAL_MARK_PHASE
    _markStats := ⟨0, 0, 777, 0, 777⟩
    j9time_hires_delta := fun start finish _ => finish - start }

/-- A delegate for experiments with the given previous reclaimable region counts. -/
def testDelegateWithReclaimable (reclaimable defragmentReclaimable : Nat) :
    MM_SchedulingDelegate :=
  { MM_SchedulingDelegate.new (testExtensions 1 1) with
    _previousReclaimableRegions := reclaimable
    _previousDefragmentReclaimableRegions := defragmentReclaimable }

/-- A configuration for experiments: as `testExtensions 1 1` with an initial heap of
16 MiB. -/
def testExtensionsSmallInitialHeap : MM_GCExtensions :=
  { testExtensions 1 1 with initialMemorySize := 2 ^ 24 }

/-- A region manager for experiments: 16 managed regions of 1 MiB. -/
def testRegionManagerSixteen : MM_HeapRegionManager :=
  { testRegionManager with managedRegionCount := 16 }

/-- A configuration for experiments: automatic GMP intermission with ratio 1:4 and a
kick-off headroom of one region. -/
def testExtensionsAutomatic : MM_GCExtensions :=
  { testExtensions 1 4 with
    tarokAutomaticGMPIntermission := true
    tarokGMPIntermission := UDATA_MAX
    tarokKickoffHeadroomInBytes := 2 ^ 20 }

/-- A region manager for experiments whose region walk finds four regions with objects,
4150000 live bytes in all. -/
def testRegionManagerLive : MM_HeapRegionManager :=
  { testRegionManager with
    regions :=
      [⟨true, false, false, 2 ^ 20, 44304, 0⟩, ⟨true, false, false, 2 ^ 20, 0, 0⟩,
        ⟨true, false, false, 2 ^ 20, 0, 0⟩, ⟨true, false, false, 2 ^ 20, 0, 0⟩] }

/-- A delegate for experiments before kick-off: consumption rate 0.25 regions per PGC, 200
defragment-reclaimable regions, an ideal Eden of 16 regions, a scan rate of one
microsecond per byte and the intermission still at its initial `UDATA_MAX`. -/
def testDelegateBeforeKickoff : MM_SchedulingDelegate :=
  { MM_SchedulingDelegate.new testExtensionsAutomatic with
    _remainingGMPIntermissionIntervals := UDATA_MAX
    _regionConsumptionRate := 1 / 4
    _previousDefragmentReclaimableRegions := 200
    _idealEdenRegionCount := 16
    _minimumEdenRegionCount := 4
    _scanRateStats := ⟨0, 0, 1⟩ }

/-- A delegate for experiments with the given live set after the last PGC, live set after
the last global sweep and heap occupancy trend. -/
def testDelegateWithLiveSet (afterPartialCollect afterGlobalSweep : Nat) (trend : ℚ) :
    MM_SchedulingDelegate :=
  { MM_SchedulingDelegate.new (testExtensions 1 1) with
    _liveSetBytesAfterPartialCollect := afterPartialCollect
    _liveSetBytesAfterGlobalSweep := afterGlobalSweep
    _heapOccupancyTrend := trend }

/-- A delegate for experiments after some PGCs: a heap of `regions` regions, an ideal and
current Eden of 64 regions, 100 ms average PGC time, one second between PGCs and `count`
PGCs since the last GMP ended. -/
def testDelegateAfterPgcs (regions count : Nat) : MM_SchedulingDelegate :=
  { MM_SchedulingDelegate.new (testExtensions 1 1) with
    _numberOfHeapRegions := regions
    _idealEdenRegionCount := 64
    _minimumEdenRegionCount := 4
    _edenRegionCount := 64
    _historicalPartialGCTime := 100
    _averagePgcInterval := 1000000
    _pgcCountSinceGMPEnd := count }

/-- A configuration for experiments: as `testExtensions 1 1`, copy-forward not allowed. -/
def testExtensionsNoCopyForward : MM_GCExtensions :=
  { testExtensions 1 1 with tarokPGCShouldCopyForward := false }

/-- An environment for experiments whose `log` and `pow` are the base-2 logarithm and the
power function on the arguments used: `log 1 = 0`, `log 2 = 1`, `log (1/4) = -2`,
`pow (1/4) (-1/2) = 2`. -/
def testEnvironmentLogBaseTwo : MM_EnvironmentVLHGC :=
  { testEnvironment with
    pow := fun x y => if x = 1 / 4 ∧ y = -1 / 2 then 2 else 1
    log := fun x => if x = 1 / 4 then -2 else if x = 2 then 1 else 0 }

/-- A delegate for experiments with an Eden of 7 regions and 7 ms average PGC time. -/
def testDelegateSevenSeven : MM_SchedulingDelegate :=
  { MM_SchedulingDelegate.new (testExtensions 1 1) with
    _edenRegionCount := 7
    _historicalPartialGCTime := 7 }

/-- An environment for experiments whose clock ticks are microseconds: both clock reads of
the callback return `t`, and a time interval is the difference of its end and start, in
microseconds or in whole milliseconds. -/
def testEnvironmentAtTime (t : Nat) : MM_EnvironmentVLHGC :=
  { testEnvironment with
    j9time_hires_clock := t
    j9time_hires_clock_second := t
    j9time_hires_delta := fun start finish unit =>
      match unit with
      | TimeDeltaUnit.J9PORT_TIME_DELTA_IN_MICROSECONDS => finish - start
      | TimeDeltaUnit.J9PORT_TIME_DELTA_IN_MILLISECONDS => (finish - start) / 1000 }

/-- A delegate for experiments with the given scan-rate history. -/
def testDelegateWithScanHistory (bytes microseconds : Nat) (rate : ℚ) :
    MM_SchedulingDelegate :=
  { MM_SchedulingDelegate.new (testExtensions 1 1) with
    _scanRateStats := ⟨bytes, microseconds, rate⟩ }

/-- A delegate for experiments as `testDelegateAfterPgcs`, with half of the time spent in
PGCs. -/
def testDelegateHighOverhead (regions count : Nat) : MM_SchedulingDelegate :=
  { testDelegateAfterPgcs regions count with _partialGcOverhead := 1 / 2 }

/-- A delegate for experiments after kick-off: as `testDelegateBeforeKickoff`, with the
intermission used up. -/
def testDelegateAfterKickoff : MM_SchedulingDelegate :=
  { testDelegateBeforeKickoff with _remainingGMPIntermissionIntervals := 0 }

/-- A delegate for experiments that has seen PGCs of 100 ms on average and no GMP. -/
def testDelegateNoGmpSeen : MM_SchedulingDelegate :=
  { MM_SchedulingDelegate.new (testExtensions 1 1) with
    _historicalPartialGCTime := 100
    _totalGMPWorkTimeUs := 0 }

/-- Two PGCs in a row as the collector reports them to the delegate, with clock values in
microseconds: the first PGC starts at `start1` and completes at `end1`, the second starts
at `start2`. -/
def runPgcThenStartNext (ext : MM_GCExtensions) (rm : MM_HeapRegionManager)
    (gam : MM_GlobalAllocationManagerTarok) (start1 end1 start2 : Nat)
    (s : MM_SchedulingDelegate) : Except Fault MM_SchedulingDelegate :=
  match partialGarbageCollectCompleted ext rm gam (testEnvironmentAtTime end1) 10 10
      (partialGarbageCollectStarted (testEnvironmentAtTime start1) s) with
  | .error e => .error e
  | .ok s2 => .ok (partialGarbageCollectStarted (testEnvironmentAtTime start2) s2)

/-! ## Facts about the taxation scheduler -/

theorem internal_ok_inv (ext : MM_GCExtensions) (rm : MM_HeapRegionManager)
    (s s1 : MM_SchedulingDelegate) (t : Nat)
    (h : getNextTaxationThresholdInternal ext rm s = .ok (s1, t)) :
    s._nextIncrementWillDoPartialGarbageCollection = false
    ∧ s._nextIncrementWillDoGlobalMarkPhase = false
    ∧ (s1._nextIncrementWillDoPartialGarbageCollection
        != s1._nextIncrementWillDoGlobalMarkPhase) = true
    ∧ s1._remainingGMPIntermissionIntervals = s._remainingGMPIntermissionIntervals
    ∧ s1._edenRegionCount = s._edenRegionCount
    ∧ s1._taxationIndex = wrapU (s._taxationIndex + 1) := by
  unfold getNextTaxationThresholdInternal advanceTaxationIndex at h
  dsimp only at h
  by_cases h1 : s._nextIncrementWillDoPartialGarbageCollection = true
  · rw [if_pos h1] at h; cases h
  rw [if_neg h1] at h
  by_cases h2 : s._nextIncrementWillDoGlobalMarkPhase = true
  · rw [if_pos h2] at h; cases h
  rw [if_neg h2] at h
  simp only [Bool.not_eq_true] at h1 h2
  repeat' split at h
  all_goals first
    | (cases h; refine ⟨h1, h2, ?_, rfl, rfl, rfl⟩; simp [h1, h2])
    | cases h

theorem internal_disabled (ext : MM_GCExtensions) (rm : MM_HeapRegionManager)
    (s : MM_SchedulingDelegate)
    (hP : s._nextIncrementWillDoPartialGarbageCollection = false)
    (hG : s._nextIncrementWillDoGlobalMarkPhase = false)
    (hE : ext.tarokEnableIncrementalGMP = false) :
    getNextTaxationThresholdInternal ext rm s
      = .ok ({ s with _nextIncrementWillDoPartialGarbageCollection := true
                      _taxationIndex := wrapU (s._taxationIndex + 1) },
             wrapU (s._edenRegionCount * rm.regionSize)) := by
  simp [getNextTaxationThresholdInternal, advanceTaxationIndex, hP, hG, hE]

theorem internal_1n (ext : MM_GCExtensions) (rm : MM_HeapRegionManager)
    (s : MM_SchedulingDelegate)
    (hP : s._nextIncrementWillDoPartialGarbageCollection = false)
    (hG : s._nextIncrementWillDoGlobalMarkPhase = false)
    (hE : ext.tarokEnableIncrementalGMP = true)
    (hN : ext.tarokPGCtoGMPNumerator = 1)
    (hD : wrapU (ext.tarokPGCtoGMPDenominator + 1) ≠ 0) :
    getNextTaxationThresholdInternal ext rm s
      = .ok ({ s with
                _nextIncrementWillDoGlobalMarkPhase :=
                  decide (s._taxationIndex % wrapU (ext.tarokPGCtoGMPDenominator + 1) = 0)
                _nextIncrementWillDoPartialGarbageCollection :=
                  !decide (s._taxationIndex % wrapU (ext.tarokPGCtoGMPDenominator + 1) = 0)
                _taxationIndex := wrapU (s._taxationIndex + 1) },
             wrapU (s._edenRegionCount * rm.regionSize)
               / wrapU (ext.tarokPGCtoGMPDenominator + 1)) := by
  by_cases h0 : s._taxationIndex % wrapU (ext.tarokPGCtoGMPDenominator + 1) = 0
  · simp [getNextTaxationThresholdInternal, advanceTaxationIndex, hP, hG, hE, hN, hD, h0]
  · have h0' : ¬ (0 = s._taxationIndex % wrapU (ext.tarokPGCtoGMPDenominator + 1)) :=
      fun h => h0 h.symm
    simp [getNextTaxationThresholdInternal, advanceTaxationIndex, hP, hG, hE, hN, hD, h0, h0']

theorem internal_n1 (ext : MM_GCExtensions) (rm : MM_HeapRegionManager)
    (s : MM_SchedulingDelegate)
    (hP : s._nextIncrementWillDoPartialGarbageCollection = false)
    (hG : s._nextIncrementWillDoGlobalMarkPhase = false)
    (hE : ext.tarokEnableIncrementalGMP = true)
    (hN : ext.tarokPGCtoGMPNumerator ≠ 1)
    (hD : ext.tarokPGCtoGMPDenominator = 1)
    (hW : wrapU (ext.tarokPGCtoGMPNumerator + 1) ≠ 0) :
    getNextTaxationThresholdInternal ext rm s
      = .ok ({ s with
                _nextIncrementWillDoGlobalMarkPhase :=
                  decide (s._taxationIndex % wrapU (ext.tarokPGCtoGMPNumerator + 1) = 0)
                _nextIncrementWillDoPartialGarbageCollection :=
                  !decide (s._taxationIndex % wrapU (ext.tarokPGCtoGMPNumerator + 1) = 0)
                _taxationIndex := wrapU (s._taxationIndex + 1) },
             if s._taxationIndex % wrapU (ext.tarokPGCtoGMPNumerator + 1) = 0
                 ∨ subU s._taxationIndex 1 % wrapU (ext.tarokPGCtoGMPNumerator + 1) = 0
             then wrapU (s._edenRegionCount * rm.regionSize) / 2
             else wrapU (s._edenRegionCount * rm.regionSize)) := by
  have hN' : ¬ (1 = ext.tarokPGCtoGMPNumerator) := fun h => hN h.symm
  by_cases h0 : s._taxationIndex % wrapU (ext.tarokPGCtoGMPNumerator + 1) = 0
  · simp [getNextTaxationThresholdInternal, advanceTaxationIndex, hP, hG, hE, hN', hD, hW, h0]
  · have h0' : ¬ (0 = s._taxationIndex % wrapU (ext.tarokPGCtoGMPNumerator + 1)) :=
      fun h => h0 h.symm
    by_cases h1 : subU s._taxationIndex 1 % wrapU (ext.tarokPGCtoGMPNumerator + 1) = 0
    · simp [getNextTaxationThresholdInternal, advanceTaxationIndex, hP, hG, hE, hN', hD, hW,
        h0, h0', h1]
    · have h1' : ¬ (0 = subU s._taxationIndex 1 % wrapU (ext.tarokPGCtoGMPNumerator + 1)) :=
        fun h => h1 h.symm
      simp [getNextTaxationThresholdInternal, advanceTaxationIndex, hP, hG, hE, hN', hD, hW,
        h0, h0', h1, h1']

theorem wrapU_succ_ne_zero (n : Nat) (h : n < UDATA_MAX) : wrapU (n + 1) ≠ 0 := by
  unfold UDATA_MAX at h
  unfold wrapU
  omega

theorem wrapU_succ_of_lt (n : Nat) (h : n < UDATA_MAX) : wrapU (n + 1) = n + 1 := by
  unfold UDATA_MAX at h
  unfold wrapU
  omega

theorem wrapU_of_le (n : Nat) (h : n ≤ UDATA_MAX) : wrapU n = n := by
  unfold UDATA_MAX at h
  unfold wrapU
  omega

theorem roundToFloor_eq (g x : Nat) : MM_Math.roundToFloor g x = x / g * g := by
  unfold MM_Math.roundToFloor
  have := Nat.div_add_mod x g
  have h2 : g * (x / g) = x / g * g := Nat.mul_comm _ _
  omega

/-- Under a legal, in-range ratio and with both flags clear the internal step returns. -/
theorem internal_total (ext : MM_GCExtensions) (rm : MM_HeapRegionManager)
    (s : MM_SchedulingDelegate)
    (hP : s._nextIncrementWillDoPartialGarbageCollection = false)
    (hG : s._nextIncrementWillDoGlobalMarkPhase = false)
    (hL : legalRatio ext)
    (hN : ext.tarokPGCtoGMPNumerator < UDATA_MAX)
    (hD : ext.tarokPGCtoGMPDenominator < UDATA_MAX) :
    ∃ s1 t, getNextTaxationThresholdInternal ext rm s = .ok (s1, t) := by
  by_cases hE : ext.tarokEnableIncrementalGMP = true
  · by_cases h1 : ext.tarokPGCtoGMPNumerator = 1
    · exact ⟨_, _, internal_1n ext rm s hP hG hE h1 (wrapU_succ_ne_zero _ hD)⟩
    · have hD1 : ext.tarokPGCtoGMPDenominator = 1 := by
        rcases hL with h | h | h
        · rw [h] at hE; cases hE
        · exact absurd h h1
        · exact h
      exact ⟨_, _, internal_n1 ext rm s hP hG hE h1 hD1 (wrapU_succ_ne_zero _ hN)⟩
  · simp only [Bool.not_eq_true] at hE
    exact ⟨_, _, internal_disabled ext rm s hP hG hE⟩

theorem skipGMPInterval_flags (s : MM_SchedulingDelegate)
    (hx : (s._nextIncrementWillDoPartialGarbageCollection
        != s._nextIncrementWillDoGlobalMarkPhase) = true) :
    ((skipGMPInterval s)._nextIncrementWillDoGlobalMarkPhase = false
        ∧ (skipGMPInterval s)._nextIncrementWillDoPartialGarbageCollection = false
        ∧ (skipGMPInterval s)._remainingGMPIntermissionIntervals + 1
            = s._remainingGMPIntermissionIntervals)
    ∨ (skipGMPInterval s = s
        ∧ ¬ ((skipGMPInterval s)._nextIncrementWillDoGlobalMarkPhase = false
        ∧ (skipGMPInterval s)._nextIncrementWillDoPartialGarbageCollection = false)) := by
  unfold skipGMPInterval
  by_cases hc : 0 < s._remainingGMPIntermissionIntervals
      ∧ s._nextIncrementWillDoGlobalMarkPhase = true
  · rw [if_pos hc]
    left
    obtain ⟨h0, hg⟩ := hc
    rw [hg] at hx
    refine ⟨rfl, ?_, ?_⟩
    · show s._nextIncrementWillDoPartialGarbageCollection = false
      revert hx
      cases s._nextIncrementWillDoPartialGarbageCollection <;> simp
    · show s._remainingGMPIntermissionIntervals - 1 + 1 = s._remainingGMPIntermissionIntervals
      omega
  · rw [if_neg hc]
    right
    refine ⟨rfl, ?_⟩
    revert hx
    cases s._nextIncrementWillDoPartialGarbageCollection <;>
      cases s._nextIncrementWillDoGlobalMarkPhase <;> simp

theorem loop_ok_flags (ext : MM_GCExtensions) (rm : MM_HeapRegionManager) :
    ∀ (fuel : Nat) (s : MM_SchedulingDelegate) (acc : Nat) (s' : MM_SchedulingDelegate) (t : Nat),
      getNextTaxationThresholdLoop ext rm fuel s acc = .ok (s', t) →
      (s'._nextIncrementWillDoPartialGarbageCollection = true
          ∧ s'._nextIncrementWillDoGlobalMarkPhase = false)
        ∨ (s'._nextIncrementWillDoPartialGarbageCollection = false
          ∧ s'._nextIncrementWillDoGlobalMarkPhase = true) := by
  intro fuel
  induction fuel with
  | zero => intro s acc s' t h; simp [getNextTaxationThresholdLoop] at h
  | succ fuel ih =>
    intro s acc s' t h
    rw [getNextTaxationThresholdLoop] at h
    cases hi : getNextTaxationThresholdInternal ext rm s with
    | error e => rw [hi] at h; cases h
    | ok r =>
      obtain ⟨s1, t1⟩ := r
      rw [hi] at h
      dsimp only at h
      obtain ⟨-, -, hx, -, -, -⟩ := internal_ok_inv ext rm s s1 t1 hi
      rcases skipGMPInterval_flags s1 hx with ⟨hg, hp, -⟩ | ⟨he, hne⟩
      · rw [if_pos ⟨hg, hp⟩] at h
        exact ih _ _ _ _ h
      · rw [if_neg hne] at h
        cases h
        rw [he]
        revert hx
        cases s1._nextIncrementWillDoPartialGarbageCollection <;>
          cases s1._nextIncrementWillDoGlobalMarkPhase <;> simp

theorem loop_total (ext : MM_GCExtensions) (rm : MM_HeapRegionManager)
    (hL : legalRatio ext)
    (hN : ext.tarokPGCtoGMPNumerator < UDATA_MAX)
    (hD : ext.tarokPGCtoGMPDenominator < UDATA_MAX) :
    ∀ (fuel : Nat) (s : MM_SchedulingDelegate) (acc : Nat),
      s._nextIncrementWillDoPartialGarbageCollection = false →
      s._nextIncrementWillDoGlobalMarkPhase = false →
      s._remainingGMPIntermissionIntervals < fuel →
      ∃ s' t, getNextTaxationThresholdLoop ext rm fuel s acc = .ok (s', t) := by
  intro fuel
  induction fuel with
  | zero => intro s acc _ _ h; omega
  | succ fuel ih =>
    intro s acc hP hG hf
    obtain ⟨s1, t1, hi⟩ := internal_total ext rm s hP hG hL hN hD
    obtain ⟨-, -, hx, hr, -, -⟩ := internal_ok_inv ext rm s s1 t1 hi
    rw [getNextTaxationThresholdLoop, hi]
    dsimp only
    rcases skipGMPInterval_flags s1 hx with ⟨hg, hp, hrem⟩ | ⟨-, hne⟩
    · rw [if_pos ⟨hg, hp⟩]
      exact ih _ _ hp hg (by omega)
    · rw [if_neg hne]
      exact ⟨_, _, rfl⟩

theorem getNext_total (ext : MM_GCExtensions) (rm : MM_HeapRegionManager)
    (s : MM_SchedulingDelegate)
    (hP : s._nextIncrementWillDoPartialGarbageCollection = false)
    (hG : s._nextIncrementWillDoGlobalMarkPhase = false)
    (hL : legalRatio ext)
    (hN : ext.tarokPGCtoGMPNumerator < UDATA_MAX)
    (hD : ext.tarokPGCtoGMPDenominator < UDATA_MAX) :
    ∃ s' t, getNextTaxationThreshold ext rm s = .ok (s', t) := by
  obtain ⟨s', t, h⟩ := loop_total ext rm hL hN hD
    (s._remainingGMPIntermissionIntervals + 1) s 0 hP hG (by omega)
  exact ⟨s', _, by rw [getNextTaxationThreshold, h]⟩

theorem getNext_ok_loop (ext : MM_GCExtensions) (rm : MM_HeapRegionManager)
    (s s' : MM_SchedulingDelegate) (t : Nat)
    (h : getNextTaxationThreshold ext rm s = .ok (s', t)) :
    ∃ acc, getNextTaxationThresholdLoop ext rm (s._remainingGMPIntermissionIntervals + 1) s 0
        = .ok (s', acc)
      ∧ t = max rm.regionSize (MM_Math.roundToFloor rm.regionSize acc) := by
  rw [getNextTaxationThreshold] at h
  cases hl : getNextTaxationThresholdLoop ext rm (s._remainingGMPIntermissionIntervals + 1) s 0 with
  | error e => rw [hl] at h; cases h
  | ok r =>
    obtain ⟨s1, acc⟩ := r
    rw [hl] at h
    cases h
    exact ⟨acc, rfl, rfl⟩

theorem internal_error_not_fuel (ext : MM_GCExtensions) (rm : MM_HeapRegionManager)
    (s : MM_SchedulingDelegate) :
    getNextTaxationThresholdInternal ext rm s ≠ .error .outOfFuel := by
  intro h
  unfold getNextTaxationThresholdInternal advanceTaxationIndex at h
  dsimp only at h
  by_cases h1 : s._nextIncrementWillDoPartialGarbageCollection = true
  · rw [if_pos h1] at h; cases h
  rw [if_neg h1] at h
  by_cases h2 : s._nextIncrementWillDoGlobalMarkPhase = true
  · rw [if_pos h2] at h; cases h
  rw [if_neg h2] at h
  repeat' split at h
  all_goals cases h

theorem skipGMPInterval_remaining (s : MM_SchedulingDelegate)
    (h : (skipGMPInterval s)._nextIncrementWillDoGlobalMarkPhase = false
      ∧ (skipGMPInterval s)._nextIncrementWillDoPartialGarbageCollection = false)
    (hx : (s._nextIncrementWillDoPartialGarbageCollection
        != s._nextIncrementWillDoGlobalMarkPhase) = true) :
    (skipGMPInterval s)._remainingGMPIntermissionIntervals + 1
      = s._remainingGMPIntermissionIntervals := by
  rcases skipGMPInterval_flags s hx with ⟨-, -, hr⟩ | ⟨-, hne⟩
  · exact hr
  · exact absurd h hne

/-- The iteration budget of the loop model is never exhausted. -/
theorem loop_not_outOfFuel (ext : MM_GCExtensions) (rm : MM_HeapRegionManager) :
    ∀ (fuel : Nat) (s : MM_SchedulingDelegate) (acc : Nat),
      s._remainingGMPIntermissionIntervals < fuel →
      getNextTaxationThresholdLoop ext rm fuel s acc ≠ .error .outOfFuel := by
  intro fuel
  induction fuel with
  | zero => intro s acc h; omega
  | succ fuel ih =>
    intro s acc hf h
    rw [getNextTaxationThresholdLoop] at h
    cases hi : getNextTaxationThresholdInternal ext rm s with
    | error e =>
      rw [hi] at h
      dsimp only at h
      cases h
      exact internal_error_not_fuel ext rm s hi
    | ok r =>
      obtain ⟨s1, t1⟩ := r
      rw [hi] at h
      dsimp only at h
      obtain ⟨-, -, hx, hr, -, -⟩ := internal_ok_inv ext rm s s1 t1 hi
      split at h
      · rename_i hc
        have := skipGMPInterval_remaining s1 hc hx
        exact ih _ _ (by omega) h
      · cases h

theorem getNextTaxationThreshold_not_outOfFuel (ext : MM_GCExtensions)
    (rm : MM_HeapRegionManager) (s : MM_SchedulingDelegate) :
    getNextTaxationThreshold ext rm s ≠ .error .outOfFuel := by
  intro h
  rw [getNextTaxationThreshold] at h
  cases hl : getNextTaxationThresholdLoop ext rm (s._remainingGMPIntermissionIntervals + 1) s 0 with
  | error e =>
    rw [hl] at h
    dsimp only at h
    cases h
    exact loop_not_outOfFuel ext rm _ s 0 (by omega) hl
  | ok r =>
    rw [hl] at h
    cases h

theorem wrapU_lt (x : Nat) : wrapU x < 2 ^ 64 := by
  unfold wrapU
  exact Nat.mod_lt _ (by norm_num)

theorem wrapU_zero_add_div (x k : Nat) : wrapU (0 + wrapU x / k) = wrapU x / k := by
  have h1 := wrapU_lt x
  have h2 : wrapU x / k ≤ wrapU x := Nat.div_le_self _ _
  rw [Nat.zero_add]
  exact wrapU_of_le _ (by unfold UDATA_MAX; omega)

theorem wrapU_zero_add_wrapU (x : Nat) : wrapU (0 + wrapU x) = wrapU x := by
  have h1 := wrapU_lt x
  rw [Nat.zero_add]
  exact wrapU_of_le _ (by unfold UDATA_MAX; omega)

/-- When the selected increment is not skipped, the loop body runs once. -/
theorem getNext_of_internal_noskip (ext : MM_GCExtensions) (rm : MM_HeapRegionManager)
    (s s1 : MM_SchedulingDelegate) (t1 : Nat)
    (hi : getNextTaxationThresholdInternal ext rm s = .ok (s1, t1))
    (hns : ¬ (0 < s1._remainingGMPIntermissionIntervals
      ∧ s1._nextIncrementWillDoGlobalMarkPhase = true)) :
    getNextTaxationThreshold ext rm s
      = .ok (s1, max rm.regionSize (MM_Math.roundToFloor rm.regionSize (wrapU (0 + t1)))) := by
  obtain ⟨-, -, hx, -, -, -⟩ := internal_ok_inv ext rm s s1 t1 hi
  have hskip : skipGMPInterval s1 = s1 := by
    unfold skipGMPInterval
    rw [if_neg hns]
  have hexit : ¬ (s1._nextIncrementWillDoGlobalMarkPhase = false
      ∧ s1._nextIncrementWillDoPartialGarbageCollection = false) := by
    revert hx
    cases s1._nextIncrementWillDoPartialGarbageCollection <;>
      cases s1._nextIncrementWillDoGlobalMarkPhase <;> simp
  rw [getNextTaxationThreshold, getNextTaxationThresholdLoop, hi]
  dsimp only
  rw [hskip, if_neg hexit]

/-- When the selected GMP increment is skipped and the following point is a PGC, the loop
body runs twice. -/
theorem getNext_of_internal_skip (ext : MM_GCExtensions) (rm : MM_HeapRegionManager)
    (s s1 s2 : MM_SchedulingDelegate) (t1 t2 : Nat)
    (hi : getNextTaxationThresholdInternal ext rm s = .ok (s1, t1))
    (hrem : 0 < s1._remainingGMPIntermissionIntervals)
    (hi2 : getNextTaxationThresholdInternal ext rm (skipGMPInterval s1) = .ok (s2, t2))
    (hp2 : s2._nextIncrementWillDoPartialGarbageCollection = true) :
    getNextTaxationThreshold ext rm s
      = .ok (s2, max rm.regionSize
          (MM_Math.roundToFloor rm.regionSize (wrapU (wrapU (0 + t1) + t2)))) := by
  obtain ⟨-, -, hx, hr, -, -⟩ := internal_ok_inv ext rm s s1 t1 hi
  obtain ⟨hP', hG', hx2, -, -, -⟩ := internal_ok_inv ext rm _ s2 t2 hi2
  have hg2 : s2._nextIncrementWillDoGlobalMarkPhase = false := by
    revert hx2
    rw [hp2]
    cases s2._nextIncrementWillDoGlobalMarkPhase <;> simp
  have hns2 : ¬ (0 < s2._remainingGMPIntermissionIntervals
      ∧ s2._nextIncrementWillDoGlobalMarkPhase = true) := by
    rw [hg2]; simp
  have hskip2 : skipGMPInterval s2 = s2 := by
    unfold skipGMPInterval
    rw [if_neg hns2]
  have hexit2 : ¬ (s2._nextIncrementWillDoGlobalMarkPhase = false
      ∧ s2._nextIncrementWillDoPartialGarbageCollection = false) := by
    rw [hp2]; simp
  have hfuel : s._remainingGMPIntermissionIntervals + 1
      = (s._remainingGMPIntermissionIntervals - 1) + 1 + 1 := by omega
  rw [getNextTaxationThreshold, hfuel, getNextTaxationThresholdLoop, hi]
  dsimp only
  rw [if_pos ⟨hG', hP'⟩, getNextTaxationThresholdLoop, hi2]
  dsimp only
  rw [hskip2, if_neg hexit2]

/-- C1: with both next-increment flags clear and a legal PGC:GMP ratio, whenever
`getNextTaxationThreshold` returns exactly one of the two next-increment flags is true;
and it does return when the ratio's terms are below `UDATA_MAX` (so that `n + 1` is not 0). -/
theorem C1_exactly_one_increment_selected (ext : MM_GCExtensions) (rm : MM_HeapRegionManager)
    (s : MM_SchedulingDelegate)
    (hP : s._nextIncrementWillDoPartialGarbageCollection = false)
    (hG : s._nextIncrementWillDoGlobalMarkPhase = false)
    (hL : legalRatio ext) :
    (∀ s' t, getNextTaxationThreshold ext rm s = .ok (s', t) →
      (s'._nextIncrementWillDoPartialGarbageCollection = true
          ∧ s'._nextIncrementWillDoGlobalMarkPhase = false)
        ∨ (s'._nextIncrementWillDoPartialGarbageCollection = false
          ∧ s'._nextIncrementWillDoGlobalMarkPhase = true))
    ∧ (ext.tarokPGCtoGMPNumerator < UDATA_MAX → ext.tarokPGCtoGMPDenominator < UDATA_MAX →
        ∃ s' t, getNextTaxationThreshold ext rm s = .ok (s', t)) := by
  constructor
  · intro s' t h
    obtain ⟨acc, hl, -⟩ := getNext_ok_loop ext rm s s' t h
    exact loop_ok_flags ext rm _ _ _ _ _ hl
  · intro hN hD
    exact getNext_total ext rm s hP hG hL hN hD

theorem C1_witness :
    ((∀ s' t, getNextTaxationThreshold (testExtensions 1 3) testRegionManager
        (testDelegate (testExtensions 1 3) 16) = .ok (s', t) →
      (s'._nextIncrementWillDoPartialGarbageCollection = true
          ∧ s'._nextIncrementWillDoGlobalMarkPhase = false)
        ∨ (s'._nextIncrementWillDoPartialGarbageCollection = false
          ∧ s'._nextIncrementWillDoGlobalMarkPhase = true))
    ∧ ∃ s' t, getNextTaxationThreshold (testExtensions 1 3) testRegionManager
        (testDelegate (testExtensions 1 3) 16) = .ok (s', t)) :=
  ⟨(C1_exactly_one_increment_selected (testExtensions 1 3) testRegionManager
      (testDelegate (testExtensions 1 3) 16) rfl rfl (Or.inr (Or.inl rfl))).1,
   (C1_exactly_one_increment_selected (testExtensions 1 3) testRegionManager
      (testDelegate (testExtensions 1 3) 16) rfl rfl (Or.inr (Or.inl rfl))).2
      (by decide) (by decide)⟩

/-- C3: with incremental GMP enabled, ratio 1:n and no intermission, the taxation point
with index `i = _taxationIndex` selects GMP when `i mod (n+1) = 0` and PGC otherwise, and the
call returns `edenRegionCount*regionSize/(n+1)` rounded down to a region multiple, at least
one region; for a 1 MiB region, 16 Eden regions and ratio 1:3 the first four points
return 4 MiB each and select GMP, PGC, PGC, PGC (both from a state with index 0 and when
the first point is emitted by `getInitialTaxationThreshold`). -/
theorem C3_ratio_one_to_n_pattern (ext : MM_GCExtensions) (rm : MM_HeapRegionManager)
    (s : MM_SchedulingDelegate) (n : Nat)
    (hE : ext.tarokEnableIncrementalGMP = true)
    (hN : ext.tarokPGCtoGMPNumerator = 1)
    (hD : ext.tarokPGCtoGMPDenominator = n)
    (hn : n < UDATA_MAX)
    (hP : s._nextIncrementWillDoPartialGarbageCollection = false)
    (hG : s._nextIncrementWillDoGlobalMarkPhase = false)
    (hR : s._remainingGMPIntermissionIntervals = 0)
    (hO : s._edenRegionCount * rm.regionSize ≤ UDATA_MAX) :
    getNextTaxationThreshold ext rm s
        = .ok ({ s with
                  _nextIncrementWillDoGlobalMarkPhase := decide (s._taxationIndex % (n + 1) = 0)
                  _nextIncrementWillDoPartialGarbageCollection :=
                    !decide (s._taxationIndex % (n + 1) = 0)
                  _taxationIndex := wrapU (s._taxationIndex + 1) },
               max rm.regionSize
                 (s._edenRegionCount * rm.regionSize / (n + 1) / rm.regionSize * rm.regionSize))
    ∧ (runTaxationPoints (testExtensions 1 3) testRegionManager 4
          (testDelegate (testExtensions 1 3) 16)).map Prod.fst
        = .ok [⟨4 * 2 ^ 20, false, true⟩, ⟨4 * 2 ^ 20, true, false⟩,
            ⟨4 * 2 ^ 20, true, false⟩, ⟨4 * 2 ^ 20, true, false⟩]
    ∧ (runTaxationPointsFromInitial (testExtensions 1 3) testRegionManager
          { testAllocationManager with freeRegionCount := 16 } 3 testDelegateWithBounds).map
          Prod.fst
        = .ok [⟨4 * 2 ^ 20, false, true⟩, ⟨4 * 2 ^ 20, true, false⟩,
            ⟨4 * 2 ^ 20, true, false⟩, ⟨4 * 2 ^ 20, true, false⟩] := by
  refine ⟨?_, rfl, rfl⟩
  have hW : wrapU (ext.tarokPGCtoGMPDenominator + 1) = n + 1 := by
    rw [hD]; exact wrapU_succ_of_lt n hn
  have hi := internal_1n ext rm s hP hG hE hN (by rw [hW]; omega)
  rw [hW, wrapU_of_le _ hO] at hi
  have h := getNext_of_internal_noskip ext rm s _ _ hi (by
    show ¬ (0 < s._remainingGMPIntermissionIntervals ∧ _)
    rw [hR]; simp)
  rw [h, ← wrapU_of_le _ hO, wrapU_zero_add_div, roundToFloor_eq]

theorem C3_witness :
    getNextTaxationThreshold (testExtensions 1 3) testRegionManager
        (testDelegate (testExtensions 1 3) 16)
      = .ok ({ testDelegate (testExtensions 1 3) 16 with
                _nextIncrementWillDoGlobalMarkPhase := true
                _nextIncrementWillDoPartialGarbageCollection := false
                _taxationIndex := 1 }, 4 * 2 ^ 20) :=
  (C3_ratio_one_to_n_pattern (testExtensions 1 3) testRegionManager
    (testDelegate (testExtensions 1 3) 16) 3 rfl rfl rfl (by decide) rfl rfl rfl (by decide)).1

theorem subU_one_mod (i m : Nat) (hi : i ≤ UDATA_MAX) (hm : 2 ≤ m) :
    (i % m = 0 ∨ subU i 1 % m = 0) ↔ (i % m = 0 ∨ i % m = 1) := by
  by_cases h0 : i % m = 0
  · simp [h0]
  · have hpos : 1 ≤ i := by
      rcases Nat.eq_zero_or_pos i with h | h
      · rw [h] at h0; simp at h0
      · exact h
    have hs : subU i 1 = i - 1 := by
      unfold subU
      unfold UDATA_MAX at hi
      omega
    rw [hs]
    have hdm := Nat.div_add_mod i m
    have hlt : i % m < m := Nat.mod_lt _ (by omega)
    have hr : 1 ≤ i % m := Nat.one_le_iff_ne_zero.mpr h0
    have hsub : i - 1 = m * (i / m) + (i % m - 1) := by omega
    have hmod : (i - 1) % m = i % m - 1 := by
      rw [hsub, Nat.mul_add_mod]
      exact Nat.mod_eq_of_lt (by omega)
    rw [hmod]
    constructor
    · rintro (h | h)
      · exact absurd h h0
      · right; omega
    · rintro (h | h)
      · exact absurd h h0
      · right; omega

/-- C4: with incremental GMP enabled, ratio n:1 (n ≥ 2) and no intermission, taxation point
`i` selects GMP with threshold `raw/2` when `i mod (n+1) = 0`, PGC with threshold `raw/2`
when `i mod (n+1) = 1` and PGC with threshold `raw` otherwise (`raw` = Eden regions times
region size); `getNextTaxationThreshold` returns that threshold rounded down to a region
multiple, at least one region.  For 10 Eden regions of 1 MiB and ratio 3:1 the first four
calls return 5, 5, 10, 10 MiB and select GMP, PGC, PGC, PGC (both from a state with index 0
and when the first point is emitted by `getInitialTaxationThreshold`). -/
theorem C4_ratio_n_to_one_pattern (ext : MM_GCExtensions) (rm : MM_HeapRegionManager)
    (s : MM_SchedulingDelegate) (n : Nat)
    (hE : ext.tarokEnableIncrementalGMP = true)
    (hN : ext.tarokPGCtoGMPNumerator = n)
    (hD : ext.tarokPGCtoGMPDenominator = 1)
    (hn2 : 2 ≤ n) (hn : n < UDATA_MAX)
    (hP : s._nextIncrementWillDoPartialGarbageCollection = false)
    (hG : s._nextIncrementWillDoGlobalMarkPhase = false)
    (hR : s._remainingGMPIntermissionIntervals = 0)
    (hI : s._taxationIndex ≤ UDATA_MAX)
    (hO : s._edenRegionCount * rm.regionSize ≤ UDATA_MAX) :
    getNextTaxationThresholdInternal ext rm s
        = .ok ({ s with
                  _nextIncrementWillDoGlobalMarkPhase := decide (s._taxationIndex % (n + 1) = 0)
                  _nextIncrementWillDoPartialGarbageCollection :=
                    !decide (s._taxationIndex % (n + 1) = 0)
                  _taxationIndex := wrapU (s._taxationIndex + 1) },
               if s._taxationIndex % (n + 1) = 0 ∨ s._taxationIndex % (n + 1) = 1
               then s._edenRegionCount * rm.regionSize / 2
               else s._edenRegionCount * rm.regionSize)
    ∧ getNextTaxationThreshold ext rm s
        = .ok ({ s with
                  _nextIncrementWillDoGlobalMarkPhase := decide (s._taxationIndex % (n + 1) = 0)
                  _nextIncrementWillDoPartialGarbageCollection :=
                    !decide (s._taxationIndex % (n + 1) = 0)
                  _taxationIndex := wrapU (s._taxationIndex + 1) },
               max rm.regionSize
                 ((if s._taxationIndex % (n + 1) = 0 ∨ s._taxationIndex % (n + 1) = 1
                   then s._edenRegionCount * rm.regionSize / 2
                   else s._edenRegionCount * rm.regionSize) / rm.regionSize * rm.regionSize))
    ∧ (runTaxationPoints (testExtensions 3 1) testRegionManager 4
          (testDelegate (testExtensions 3 1) 10)).map Prod.fst
        = .ok [⟨5 * 2 ^ 20, false, true⟩, ⟨5 * 2 ^ 20, true, false⟩,
            ⟨10 * 2 ^ 20, true, false⟩, ⟨10 * 2 ^ 20, true, false⟩]
    ∧ (runTaxationPointsFromInitial (testExtensions 3 1) testRegionManager
          { testAllocationManager with freeRegionCount := 10 } 3 testDelegateWithBounds).map
          Prod.fst
        = .ok [⟨5 * 2 ^ 20, false, true⟩, ⟨5 * 2 ^ 20, true, false⟩,
            ⟨10 * 2 ^ 20, true, false⟩, ⟨10 * 2 ^ 20, true, false⟩] := by
  have hW : wrapU (ext.tarokPGCtoGMPNumerator + 1) = n + 1 := by
    rw [hN]; exact wrapU_succ_of_lt n hn
  have hi := internal_n1 ext rm s hP hG hE (by rw [hN]; omega) hD (by rw [hW]; omega)
  rw [hW, wrapU_of_le _ hO] at hi
  simp only [subU_one_mod s._taxationIndex (n + 1) hI (by omega)] at hi
  refine ⟨hi, ?_, rfl, rfl⟩
  have h := getNext_of_internal_noskip ext rm s _ _ hi (by
    show ¬ (0 < s._remainingGMPIntermissionIntervals ∧ _)
    rw [hR]; simp)
  rw [h, roundToFloor_eq]
  have hle : (if s._taxationIndex % (n + 1) = 0 ∨ s._taxationIndex % (n + 1) = 1
      then s._edenRegionCount * rm.regionSize / 2
      else s._edenRegionCount * rm.regionSize) ≤ UDATA_MAX := by
    split
    · exact le_trans (Nat.div_le_self _ _) hO
    · exact hO
  rw [Nat.zero_add, wrapU_of_le _ hle]

theorem C4_witness :
    getNextTaxationThreshold (testExtensions 3 1) testRegionManager
        (testDelegate (testExtensions 3 1) 10)
      = .ok ({ testDelegate (testExtensions 3 1) 10 with
                _nextIncrementWillDoGlobalMarkPhase := true
                _nextIncrementWillDoPartialGarbageCollection := false
                _taxationIndex := 1 }, 5 * 2 ^ 20) :=
  (C4_ratio_n_to_one_pattern (testExtensions 3 1) testRegionManager
    (testDelegate (testExtensions 3 1) 10) 3 rfl rfl rfl (by decide) (by decide) rfl rfl rfl
    (by decide) (by decide)).2.1

/-- C5: with both flags clear, a legal ratio and a positive region size, the value
`getNextTaxationThreshold` returns is a multiple of the region size, is at least one region,
and equals the maximum of the region size and the accumulated threshold rounded down to a
region multiple; the call returns when the ratio's terms are below `UDATA_MAX`. -/
theorem C5_threshold_is_region_multiple (ext : MM_GCExtensions) (rm : MM_HeapRegionManager)
    (s : MM_SchedulingDelegate)
    (hP : s._nextIncrementWillDoPartialGarbageCollection = false)
    (hG : s._nextIncrementWillDoGlobalMarkPhase = false)
    (hL : legalRatio ext)
    (_hRS : 0 < rm.regionSize) :
    (∀ s' t, getNextTaxationThreshold ext rm s = .ok (s', t) →
      rm.regionSize ∣ t ∧ rm.regionSize ≤ t
        ∧ ∃ acc, getNextTaxationThresholdLoop ext rm
              (s._remainingGMPIntermissionIntervals + 1) s 0 = .ok (s', acc)
            ∧ t = max rm.regionSize (acc / rm.regionSize * rm.regionSize))
    ∧ (ext.tarokPGCtoGMPNumerator < UDATA_MAX → ext.tarokPGCtoGMPDenominator < UDATA_MAX →
        ∃ s' t, getNextTaxationThreshold ext rm s = .ok (s', t)) := by
  constructor
  · intro s' t h
    obtain ⟨acc, hl, ht⟩ := getNext_ok_loop ext rm s s' t h
    rw [roundToFloor_eq] at ht
    refine ⟨?_, ?_, acc, hl, ht⟩
    · rw [ht]
      rcases max_choice rm.regionSize (acc / rm.regionSize * rm.regionSize) with h | h
      · rw [h]
      · rw [h]; exact Dvd.intro_left _ rfl
    · rw [ht]; exact le_max_left _ _
  · intro hN hD
    exact getNext_total ext rm s hP hG hL hN hD

theorem C5_witness :
    (∀ s' t, getNextTaxationThreshold (testExtensions 3 1) testRegionManager
        (testDelegate (testExtensions 3 1) 3) = .ok (s', t) →
      2 ^ 20 ∣ t ∧ 2 ^ 20 ≤ t
        ∧ ∃ acc, getNextTaxationThresholdLoop (testExtensions 3 1) testRegionManager (0 + 1)
              (testDelegate (testExtensions 3 1) 3) 0 = .ok (s', acc)
            ∧ t = max (2 ^ 20) (acc / 2 ^ 20 * 2 ^ 20))
    ∧ getNextTaxationThreshold (testExtensions 3 1) testRegionManager
        (testDelegate (testExtensions 3 1) 3)
      = .ok ({ testDelegate (testExtensions 3 1) 3 with
                _nextIncrementWillDoGlobalMarkPhase := true
                _taxationIndex := 1 }, 2 ^ 20) :=
  ⟨(C5_threshold_is_region_multiple (testExtensions 3 1) testRegionManager
      (testDelegate (testExtensions 3 1) 3) rfl rfl (Or.inr (Or.inr rfl)) (by decide)).1, rfl⟩

/-- The C6 claim fails for an empty Eden: with incremental GMP disabled, a 1 MiB region and
`edenRegionCount = 0` the call returns one region (1 MiB), not `raw = 0`. -/
theorem C6_counterexample :
    getNextTaxationThreshold testExtensionsNoGMP testRegionManager (testDelegate testExtensionsNoGMP 0)
        = .ok ({ testDelegate testExtensionsNoGMP 0 with
                  _nextIncrementWillDoPartialGarbageCollection := true
                  _taxationIndex := 1 }, 2 ^ 20)
    ∧ (testDelegate testExtensionsNoGMP 0)._edenRegionCount * 2 ^ 20 = 0
    ∧ (2 : Nat) ^ 20 ≠ 0 := by
  refine ⟨rfl, rfl, by norm_num⟩

/-- C6 (amended): with incremental GMP disabled and both flags clear,
`getNextTaxationThreshold` selects a PGC and no GMP, changes only the PGC flag and the
taxation index (so the remaining intermission is untouched), and returns
`max(regionSize, raw)` with `raw = edenRegionCount*regionSize`: exactly `raw` when Eden has
at least one region, one region when Eden is empty. -/
theorem C6_incremental_gmp_disabled (ext : MM_GCExtensions) (rm : MM_HeapRegionManager)
    (s : MM_SchedulingDelegate)
    (hE : ext.tarokEnableIncrementalGMP = false)
    (hP : s._nextIncrementWillDoPartialGarbageCollection = false)
    (hG : s._nextIncrementWillDoGlobalMarkPhase = false)
    (hO : s._edenRegionCount * rm.regionSize ≤ UDATA_MAX) :
    getNextTaxationThreshold ext rm s
        = .ok ({ s with
                  _nextIncrementWillDoPartialGarbageCollection := true
                  _taxationIndex := wrapU (s._taxationIndex + 1) },
               max rm.regionSize (s._edenRegionCount * rm.regionSize))
    ∧ (1 ≤ s._edenRegionCount →
        max rm.regionSize (s._edenRegionCount * rm.regionSize)
          = s._edenRegionCount * rm.regionSize)
    ∧ (s._edenRegionCount = 0 →
        max rm.regionSize (s._edenRegionCount * rm.regionSize) = rm.regionSize) := by
  have hi := internal_disabled ext rm s hP hG hE
  have h := getNext_of_internal_noskip ext rm s _ _ hi (by
    show ¬ (_ ∧ s._nextIncrementWillDoGlobalMarkPhase = true)
    rw [hG]; simp)
  refine ⟨?_, ?_, ?_⟩
  · rw [h, wrapU_zero_add_wrapU, wrapU_of_le _ hO, roundToFloor_eq]
    by_cases hz : rm.regionSize = 0
    · rw [hz]; simp
    · rw [Nat.mul_div_cancel _ (Nat.pos_of_ne_zero hz)]
  · intro h1
    apply max_eq_right
    calc rm.regionSize = 1 * rm.regionSize := (Nat.one_mul _).symm
      _ ≤ s._edenRegionCount * rm.regionSize := Nat.mul_le_mul_right _ h1
  · intro h0
    rw [h0]; simp

theorem C6_witness :
    getNextTaxationThreshold testExtensionsNoGMP testRegionManager (testDelegate testExtensionsNoGMP 16)
      = .ok ({ testDelegate testExtensionsNoGMP 16 with
                _nextIncrementWillDoPartialGarbageCollection := true
                _taxationIndex := 1 }, 16 * 2 ^ 20) :=
  (C6_incremental_gmp_disabled testExtensionsNoGMP testRegionManager
    (testDelegate testExtensionsNoGMP 16) rfl rfl rfl (by decide)).1

/-- The work selected at a taxation point under ratio 1:n or n:1. -/
theorem internal_ratio (ext : MM_GCExtensions) (rm : MM_HeapRegionManager)
    (s : MM_SchedulingDelegate) (n : Nat)
    (hE : ext.tarokEnableIncrementalGMP = true)
    (hRatio : (ext.tarokPGCtoGMPNumerator = 1 ∧ ext.tarokPGCtoGMPDenominator = n)
      ∨ (ext.tarokPGCtoGMPDenominator = 1 ∧ ext.tarokPGCtoGMPNumerator = n))
    (hn : n < UDATA_MAX)
    (hP : s._nextIncrementWillDoPartialGarbageCollection = false)
    (hG : s._nextIncrementWillDoGlobalMarkPhase = false) :
    ∃ t, getNextTaxationThresholdInternal ext rm s
        = .ok ({ s with
                  _nextIncrementWillDoGlobalMarkPhase := decide (s._taxationIndex % (n + 1) = 0)
                  _nextIncrementWillDoPartialGarbageCollection :=
                    !decide (s._taxationIndex % (n + 1) = 0)
                  _taxationIndex := wrapU (s._taxationIndex + 1) }, t) := by
  have hW := wrapU_succ_of_lt n hn
  by_cases h1 : ext.tarokPGCtoGMPNumerator = 1
  · have hD : ext.tarokPGCtoGMPDenominator = n := by
      rcases hRatio with ⟨-, h⟩ | ⟨h, h'⟩
      · exact h
      · rw [h, ← h', h1]
    have hi := internal_1n ext rm s hP hG hE h1 (by rw [hD, hW]; omega)
    rw [hD, hW] at hi
    exact ⟨_, hi⟩
  · have hD : ext.tarokPGCtoGMPDenominator = 1 ∧ ext.tarokPGCtoGMPNumerator = n := by
      rcases hRatio with ⟨h, -⟩ | h
      · exact absurd h h1
      · exact h
    have hi := internal_n1 ext rm s hP hG hE h1 hD.1 (by rw [hD.2, hW]; omega)
    rw [hD.2, hW] at hi
    exact ⟨_, hi⟩

/-- C7: under ratio 1:n or n:1 (n ≥ 1), when the remaining intermission is positive on
entry `getNextTaxationThreshold` returns with a PGC selected and no GMP.  If the taxation
point at the entry index is a GMP point (`i mod (n+1) = 0`) that point is skipped: the
intermission decreases by exactly 1, the index advances by 2 and the thresholds of the
skipped point and of the following PGC point are added up; otherwise the intermission is
unchanged and the single point's threshold is returned (rounded to region multiples). -/
theorem C7_intermission_skips_gmp (ext : MM_GCExtensions) (rm : MM_HeapRegionManager)
    (s : MM_SchedulingDelegate) (n : Nat)
    (hE : ext.tarokEnableIncrementalGMP = true)
    (hRatio : (ext.tarokPGCtoGMPNumerator = 1 ∧ ext.tarokPGCtoGMPDenominator = n)
      ∨ (ext.tarokPGCtoGMPDenominator = 1 ∧ ext.tarokPGCtoGMPNumerator = n))
    (hn1 : 1 ≤ n) (hn : n < UDATA_MAX)
    (hP : s._nextIncrementWillDoPartialGarbageCollection = false)
    (hG : s._nextIncrementWillDoGlobalMarkPhase = false)
    (hR : 0 < s._remainingGMPIntermissionIntervals)
    (hI : s._taxationIndex < UDATA_MAX) :
    ∃ s' t, getNextTaxationThreshold ext rm s = .ok (s', t)
      ∧ s'._nextIncrementWillDoPartialGarbageCollection = true
      ∧ s'._nextIncrementWillDoGlobalMarkPhase = false
      ∧ (s._taxationIndex % (n + 1) = 0 →
          s'._remainingGMPIntermissionIntervals + 1 = s._remainingGMPIntermissionIntervals
          ∧ s'._taxationIndex = wrapU (s._taxationIndex + 2)
          ∧ ∃ s1 t1 t2, getNextTaxationThresholdInternal ext rm s = .ok (s1, t1)
              ∧ s1._nextIncrementWillDoGlobalMarkPhase = true
              ∧ getNextTaxationThresholdInternal ext rm (skipGMPInterval s1) = .ok (s', t2)
              ∧ t = max rm.regionSize
                  (MM_Math.roundToFloor rm.regionSize (wrapU (wrapU (0 + t1) + t2))))
      ∧ (s._taxationIndex % (n + 1) ≠ 0 →
          s'._remainingGMPIntermissionIntervals = s._remainingGMPIntermissionIntervals
          ∧ s'._taxationIndex = wrapU (s._taxationIndex + 1)
          ∧ ∃ t1, getNextTaxationThresholdInternal ext rm s = .ok (s', t1)
              ∧ t = max rm.regionSize (MM_Math.roundToFloor rm.regionSize (wrapU (0 + t1)))) := by
  obtain ⟨t1, hi⟩ := internal_ratio ext rm s n hE hRatio hn hP hG
  by_cases h0 : s._taxationIndex % (n + 1) = 0
  · rw [decide_eq_true h0] at hi
    have hskip : skipGMPInterval
        { s with
          _nextIncrementWillDoGlobalMarkPhase := true
          _nextIncrementWillDoPartialGarbageCollection := !true
          _taxationIndex := wrapU (s._taxationIndex + 1) }
        = { s with
            _remainingGMPIntermissionIntervals := s._remainingGMPIntermissionIntervals - 1
            _nextIncrementWillDoGlobalMarkPhase := false
            _nextIncrementWillDoPartialGarbageCollection := !true
            _taxationIndex := wrapU (s._taxationIndex + 1) } := by
      unfold skipGMPInterval
      rw [if_pos ⟨hR, rfl⟩]
    obtain ⟨t2, hi2⟩ := internal_ratio ext rm _ n hE hRatio hn
      (show (skipGMPInterval _)._nextIncrementWillDoPartialGarbageCollection = false by
        rw [hskip]; rfl)
      (show (skipGMPInterval _)._nextIncrementWillDoGlobalMarkPhase = false by
        rw [hskip])
    have hidx : (skipGMPInterval
        { s with
          _nextIncrementWillDoGlobalMarkPhase := true
          _nextIncrementWillDoPartialGarbageCollection := !true
          _taxationIndex := wrapU (s._taxationIndex + 1) })._taxationIndex
        = s._taxationIndex + 1 := by
      rw [hskip]; exact wrapU_succ_of_lt _ hI
    have hnext : ¬ ((s._taxationIndex + 1) % (n + 1) = 0) := by
      have h1 : (s._taxationIndex + 1) % (n + 1) = 1 % (n + 1) := by
        rw [Nat.add_mod, h0, Nat.zero_add, Nat.mod_mod]
      rw [h1, Nat.mod_eq_of_lt (by omega)]
      omega
    rw [hidx, decide_eq_false hnext] at hi2
    have h := getNext_of_internal_skip ext rm s _ _ t1 t2 hi hR hi2 rfl
    refine ⟨_, _, h, rfl, rfl, ?_, ?_⟩
    · intro _
      refine ⟨?_, ?_, _, t1, t2, hi, rfl, hi2, rfl⟩
      · show (skipGMPInterval _)._remainingGMPIntermissionIntervals + 1 = _
        rw [hskip]
        show s._remainingGMPIntermissionIntervals - 1 + 1 = _
        omega
      · show wrapU (s._taxationIndex + 1 + 1) = _
        rfl
    · intro hne
      exact absurd h0 hne
  · rw [decide_eq_false h0] at hi
    have h := getNext_of_internal_noskip ext rm s _ _ hi (by
      show ¬ (_ ∧ false = true)
      simp)
    refine ⟨_, _, h, rfl, rfl, ?_, ?_⟩
    · intro h0'
      exact absurd h0' h0
    · intro _
      exact ⟨rfl, rfl, t1, hi, rfl⟩


theorem C7_witness :
    ∃ s' t, getNextTaxationThreshold (testExtensions 1 3) testRegionManager
        { testDelegate (testExtensions 1 3) 16 with _remainingGMPIntermissionIntervals := 2 }
          = .ok (s', t)
      ∧ s'._nextIncrementWillDoPartialGarbageCollection = true
      ∧ s'._nextIncrementWillDoGlobalMarkPhase = false
      ∧ s'._remainingGMPIntermissionIntervals + 1 = 2
      ∧ s'._taxationIndex = 2 :=
  let ⟨s', t, h, hp, hg, hskip, _⟩ :=
    C7_intermission_skips_gmp (testExtensions 1 3) testRegionManager
      { testDelegate (testExtensions 1 3) 16 with _remainingGMPIntermissionIntervals := 2 }
      3 rfl (Or.inl ⟨rfl, rfl⟩) (by decide) (by decide) rfl rfl (by decide) (by decide)
  ⟨s', t, h, hp, hg, (hskip rfl).1, (hskip rfl).2.1⟩

/-- Under ratio 1:n with n ≥ 2 and no intermission, the two taxation points that follow a
GMP point both select a PGC. -/
theorem one_to_n_two_consecutive_pgc (ext : MM_GCExtensions) (rm : MM_HeapRegionManager)
    (s : MM_SchedulingDelegate) (n : Nat)
    (hE : ext.tarokEnableIncrementalGMP = true)
    (hN : ext.tarokPGCtoGMPNumerator = 1)
    (hD : ext.tarokPGCtoGMPDenominator = n)
    (hn2 : 2 ≤ n) (hn : n < UDATA_MAX)
    (hP : s._nextIncrementWillDoPartialGarbageCollection = false)
    (hG : s._nextIncrementWillDoGlobalMarkPhase = false)
    (hR : s._remainingGMPIntermissionIntervals = 0)
    (hI1 : s._taxationIndex % (n + 1) = 1)
    (hI : s._taxationIndex < UDATA_MAX) :
    ∃ s1 t1 s2 t2, getNextTaxationThreshold ext rm s = .ok (s1, t1)
      ∧ (getIncrementWork s1).1 = (true, false)
      ∧ getNextTaxationThreshold ext rm (getIncrementWork s1).2 = .ok (s2, t2)
      ∧ (getIncrementWork s2).1 = (true, false) := by
  have hW : wrapU (ext.tarokPGCtoGMPDenominator + 1) = n + 1 := by
    rw [hD]; exact wrapU_succ_of_lt n hn
  have hi := internal_1n ext rm s hP hG hE hN (by rw [hW]; omega)
  rw [hW, decide_eq_false (by rw [hI1]; omega)] at hi
  have h1 := getNext_of_internal_noskip ext rm s _ _ hi (by
    show ¬ (0 < s._remainingGMPIntermissionIntervals ∧ _)
    rw [hR]; simp)
  have hnext : ¬ ((s._taxationIndex + 1) % (n + 1) = 0) := by
    have h2 : (s._taxationIndex + 1) % (n + 1) = 2 % (n + 1) := by
      have h11 : 1 % (n + 1) = 1 := Nat.mod_eq_of_lt (by omega)
      rw [Nat.add_mod, hI1, h11]
    rw [h2, Nat.mod_eq_of_lt (by omega)]
    omega
  have hi2 := internal_1n ext rm
    (getIncrementWork
      { s with
        _nextIncrementWillDoGlobalMarkPhase := false
        _nextIncrementWillDoPartialGarbageCollection := !false
        _taxationIndex := wrapU (s._taxationIndex + 1) }).2 rfl rfl hE hN (by rw [hW]; omega)
  rw [hW] at hi2
  have hidx : (getIncrementWork
      { s with
        _nextIncrementWillDoGlobalMarkPhase := false
        _nextIncrementWillDoPartialGarbageCollection := !false
        _taxationIndex := wrapU (s._taxationIndex + 1) }).2._taxationIndex
      = s._taxationIndex + 1 := wrapU_succ_of_lt _ hI
  rw [hidx, decide_eq_false hnext] at hi2
  have h2 := getNext_of_internal_noskip ext rm _ _ _ hi2 (by
    show ¬ (0 < s._remainingGMPIntermissionIntervals ∧ _)
    rw [hR]; simp)
  exact ⟨_, _, _, _, h1, rfl, h2, rfl⟩

/-- C2 (what the code does): under ratio 1:3 with no intermission the first eight taxation
points select GMP, PGC, PGC, PGC, GMP, PGC, PGC, PGC, and for every ratio 1:n with n ≥ 2
the two points after a GMP point both select a PGC.  So a window of n+1 consecutive points
holds n PGCs and one GMP, where the claim (and the comment in the code) asks for one PGC
and n GMPs. -/
theorem C2_ratio_one_to_n_selects_pgc_between_gmp :
    (runTaxationPoints (testExtensions 1 3) testRegionManager 8
        (testDelegate (testExtensions 1 3) 16)).map
      (fun r => r.1.map (fun p => (p.doPartialGarbageCollection, p.doGlobalMarkPhase)))
      = .ok [(false, true), (true, false), (true, false), (true, false),
             (false, true), (true, false), (true, false), (true, false)]
    ∧ ∀ (ext : MM_GCExtensions) (rm : MM_HeapRegionManager) (s : MM_SchedulingDelegate)
        (n : Nat),
        ext.tarokEnableIncrementalGMP = true → ext.tarokPGCtoGMPNumerator = 1 →
        ext.tarokPGCtoGMPDenominator = n → 2 ≤ n → n < UDATA_MAX →
        s._nextIncrementWillDoPartialGarbageCollection = false →
        s._nextIncrementWillDoGlobalMarkPhase = false →
        s._remainingGMPIntermissionIntervals = 0 →
        s._taxationIndex % (n + 1) = 1 → s._taxationIndex < UDATA_MAX →
        ∃ s1 t1 s2 t2, getNextTaxationThreshold ext rm s = .ok (s1, t1)
          ∧ (getIncrementWork s1).1 = (true, false)
          ∧ getNextTaxationThreshold ext rm (getIncrementWork s1).2 = .ok (s2, t2)
          ∧ (getIncrementWork s2).1 = (true, false) :=
  ⟨rfl, one_to_n_two_consecutive_pgc⟩

/-- C8: `getIncrementWork` outputs the current values of the two next-increment flags and
clears both, changing no other field; called again at once it outputs `(false, false)` and
changes nothing. -/
theorem C8_getIncrementWork_reads_and_clears (s : MM_SchedulingDelegate) :
    (getIncrementWork s).1
        = (s._nextIncrementWillDoPartialGarbageCollection, s._nextIncrementWillDoGlobalMarkPhase)
    ∧ (getIncrementWork s).2
        = { s with
            _nextIncrementWillDoPartialGarbageCollection := false
            _nextIncrementWillDoGlobalMarkPhase := false }
    ∧ (getIncrementWork (getIncrementWork s).2).1 = (false, false)
    ∧ (getIncrementWork (getIncrementWork s).2).2 = (getIncrementWork s).2 :=
  ⟨rfl, rfl, rfl, rfl⟩

/-! ## Facts about Eden sizing -/

theorem adjust_bounds (ext : MM_GCExtensions) (rm : MM_HeapRegionManager)
    (s : MM_SchedulingDelegate) :
    ((adjustIdealEdenRegionCount ext rm s)._idealEdenRegionCount = s._idealEdenRegionCount
      ∧ (adjustIdealEdenRegionCount ext rm s)._minimumEdenRegionCount
          = s._minimumEdenRegionCount)
    ∨ (1 ≤ (adjustIdealEdenRegionCount ext rm s)._idealEdenRegionCount
      ∧ (adjustIdealEdenRegionCount ext rm s)._minimumEdenRegionCount
          = min s._minimumEdenRegionCount
              (adjustIdealEdenRegionCount ext rm s)._idealEdenRegionCount) := by
  unfold adjustIdealEdenRegionCount
  dsimp only
  split
  · left; exact ⟨rfl, rfl⟩
  · right; exact ⟨le_max_left 1 _, rfl⟩

theorem adjust_edenRegionCount (ext : MM_GCExtensions) (rm : MM_HeapRegionManager)
    (s : MM_SchedulingDelegate) :
    (adjustIdealEdenRegionCount ext rm s)._edenRegionCount = s._edenRegionCount := by
  unfold adjustIdealEdenRegionCount
  dsimp only
  split <;> rfl

theorem adjust_preserves_bounds (ext : MM_GCExtensions) (rm : MM_HeapRegionManager)
    (s : MM_SchedulingDelegate) (h : EdenBoundsOrdered s) :
    EdenBoundsOrdered (adjustIdealEdenRegionCount ext rm s) := by
  unfold EdenBoundsOrdered at h ⊢
  rcases adjust_bounds ext rm s with ⟨hi, hm⟩ | ⟨hi, hm⟩
  · rw [hi, hm]; exact h
  · rw [hm]
    exact ⟨le_min h.1 hi, min_le_right _ _⟩

theorem calculateEdenSize_eq (ext : MM_GCExtensions) (rm : MM_HeapRegionManager)
    (gam : MM_GlobalAllocationManagerTarok) (s : MM_SchedulingDelegate)
    (h : EdenBoundsOrdered (adjustIdealEdenRegionCount ext rm s)) :
    calculateEdenSize ext rm gam s
      = .ok { adjustIdealEdenRegionCount ext rm s with
              _edenRegionCount :=
                min gam.freeRegionCount
                  (adjustIdealEdenRegionCount ext rm s)._idealEdenRegionCount } := by
  unfold calculateEdenSize
  dsimp only
  generalize adjustIdealEdenRegionCount ext rm s = a at h ⊢
  obtain ⟨h1, h2⟩ := h
  have h3 : 1 ≤ a._idealEdenRegionCount := le_trans h1 h2
  rw [if_neg (not_not.mpr h1), if_neg (not_not.mpr h3), if_neg (not_not.mpr h2)]
  by_cases hf : gam.freeRegionCount > a._idealEdenRegionCount
  · rw [if_pos hf, if_pos (le_of_lt hf), min_eq_right (le_of_lt hf)]
  · rw [if_neg hf]
    have hle : gam.freeRegionCount ≤ a._idealEdenRegionCount := not_lt.mp hf
    by_cases hm : gam.freeRegionCount < a._minimumEdenRegionCount
    · rw [if_pos hm, if_neg (not_le.mpr hm), min_eq_left hle]
    · rw [if_neg hm, if_pos (le_refl _), min_eq_left hle]

theorem calculateEdenSize_ok_bounds (ext : MM_GCExtensions) (rm : MM_HeapRegionManager)
    (gam : MM_GlobalAllocationManagerTarok) (s s' : MM_SchedulingDelegate)
    (h : calculateEdenSize ext rm gam s = .ok s') :
    EdenBoundsOrdered (adjustIdealEdenRegionCount ext rm s) := by
  unfold calculateEdenSize at h
  dsimp only at h
  unfold EdenBoundsOrdered
  generalize adjustIdealEdenRegionCount ext rm s = a at h ⊢
  by_cases h1 : a._minimumEdenRegionCount ≥ 1
  · by_cases h3 : a._idealEdenRegionCount ≥ 1
    · by_cases h2 : a._idealEdenRegionCount ≥ a._minimumEdenRegionCount
      · exact ⟨h1, h2⟩
      · rw [if_neg (not_not.mpr h1), if_neg (not_not.mpr h3), if_pos h2] at h
        cases h
    · rw [if_neg (not_not.mpr h1), if_pos h3] at h
      cases h
  · rw [if_pos h1] at h
    cases h

/-- What a completed `calculateEdenSize` leaves behind. -/
theorem calculateEdenSize_post (ext : MM_GCExtensions) (rm : MM_HeapRegionManager)
    (gam : MM_GlobalAllocationManagerTarok) (s s' : MM_SchedulingDelegate)
    (h : calculateEdenSize ext rm gam s = .ok s') :
    EdenBoundsOrdered s'
    ∧ s'._edenRegionCount = min gam.freeRegionCount s'._idealEdenRegionCount
    ∧ s'._idealEdenRegionCount = (adjustIdealEdenRegionCount ext rm s)._idealEdenRegionCount
    ∧ s'._minimumEdenRegionCount
        = (adjustIdealEdenRegionCount ext rm s)._minimumEdenRegionCount := by
  have hb := calculateEdenSize_ok_bounds ext rm gam s s' h
  rw [calculateEdenSize_eq ext rm gam s hb] at h
  cases h
  exact ⟨hb, rfl, rfl, rfl⟩

theorem internal_frame (ext : MM_GCExtensions) (rm : MM_HeapRegionManager)
    (s s1 : MM_SchedulingDelegate) (t : Nat)
    (h : getNextTaxationThresholdInternal ext rm s = .ok (s1, t)) :
    edenCounts s1 = edenCounts s := by
  unfold getNextTaxationThresholdInternal advanceTaxationIndex at h
  dsimp only at h
  by_cases h1 : s._nextIncrementWillDoPartialGarbageCollection = true
  · rw [if_pos h1] at h; cases h
  rw [if_neg h1] at h
  by_cases h2 : s._nextIncrementWillDoGlobalMarkPhase = true
  · rw [if_pos h2] at h; cases h
  rw [if_neg h2] at h
  repeat' split at h
  all_goals first
    | (cases h; rfl)
    | cases h

theorem skipGMPInterval_frame (s : MM_SchedulingDelegate) :
    edenCounts (skipGMPInterval s) = edenCounts s := by
  unfold skipGMPInterval
  split <;> rfl

theorem loop_frame (ext : MM_GCExtensions) (rm : MM_HeapRegionManager) :
    ∀ (fuel : Nat) (s : MM_SchedulingDelegate) (acc : Nat) (s' : MM_SchedulingDelegate) (t : Nat),
      getNextTaxationThresholdLoop ext rm fuel s acc = .ok (s', t) →
      edenCounts s' = edenCounts s := by
  intro fuel
  induction fuel with
  | zero => intro s acc s' t h; simp [getNextTaxationThresholdLoop] at h
  | succ fuel ih =>
    intro s acc s' t h
    rw [getNextTaxationThresholdLoop] at h
    cases hi : getNextTaxationThresholdInternal ext rm s with
    | error e => rw [hi] at h; cases h
    | ok r =>
      obtain ⟨s1, t1⟩ := r
      rw [hi] at h
      dsimp only at h
      have hf := internal_frame ext rm s s1 t1 hi
      have hs := skipGMPInterval_frame s1
      split at h
      · rw [ih _ _ _ _ h, hs, hf]
      · cases h
        rw [hs, hf]

theorem getNext_frame (ext : MM_GCExtensions) (rm : MM_HeapRegionManager)
    (s s' : MM_SchedulingDelegate) (t : Nat)
    (h : getNextTaxationThreshold ext rm s = .ok (s', t)) :
    edenCounts s' = edenCounts s := by
  obtain ⟨acc, hl, -⟩ := getNext_ok_loop ext rm s s' t h
  exact loop_frame ext rm _ _ _ _ _ hl

theorem updateSurvivalRatesAfterCopyForward_frame (r : ℚ) (n : Nat)
    (s : MM_SchedulingDelegate) :
    edenCounts (updateSurvivalRatesAfterCopyForward r n s) = edenCounts s := rfl

theorem measureScanRate_frame (env : MM_EnvironmentVLHGC) (w : ℚ) (s : MM_SchedulingDelegate) :
    edenCounts (measureScanRate env w s) = edenCounts s := by
  unfold measureScanRate
  dsimp only
  split <;> rfl

theorem measureConsumptionForPartialGC_frame (c d : Nat) (s : MM_SchedulingDelegate) :
    edenCounts (measureConsumptionForPartialGC c d s) = edenCounts s := by
  unfold measureConsumptionForPartialGC edenCounts
  dsimp only
  split <;> split <;> rfl

theorem partialGarbageCollectCompletedStats_frame (rm : MM_HeapRegionManager)
    (env : MM_EnvironmentVLHGC) (s s1 : MM_SchedulingDelegate)
    (h : partialGarbageCollectCompletedStats rm env s = .ok s1) :
    edenCounts s1 = edenCounts s := by
  unfold partialGarbageCollectCompletedStats at h
  dsimp only at h
  repeat' split at h
  all_goals first
    | (cases h; rfl)
    | (cases h; exact measureScanRate_frame _ _ _)
    | cases h

theorem moveTowardRecommendedEden_frame (ext : MM_GCExtensions) (rm : MM_HeapRegionManager)
    (env : MM_EnvironmentVLHGC) (speed : ℚ) (s s1 : MM_SchedulingDelegate)
    (h : moveTowardRecommendedEden ext rm env speed s = .ok s1) :
    edenCounts s1 = edenCounts s := by
  unfold moveTowardRecommendedEden at h
  repeat' split at h
  all_goals first
    | (cases h; rfl)
    | cases h

theorem checkEdenSizeAfterPgc_frame (ext : MM_GCExtensions) (rm : MM_HeapRegionManager)
    (env : MM_EnvironmentVLHGC) (g : Bool) (s s1 : MM_SchedulingDelegate)
    (h : checkEdenSizeAfterPgc ext rm env g s = .ok s1) :
    edenCounts s1 = edenCounts s := by
  unfold checkEdenSizeAfterPgc at h
  dsimp only at h
  repeat' split at h
  all_goals first
    | (cases h; rfl)
    | (cases h
       rename_i s2 hm
       exact moveTowardRecommendedEden_frame ext rm env _ s s2 hm)
    | exact moveTowardRecommendedEden_frame ext rm env _ s _ h
    | cases h

theorem calculateAutomaticGMPIntermission_frame (ext : MM_GCExtensions)
    (rm : MM_HeapRegionManager) (gam : MM_GlobalAllocationManagerTarok)
    (env : MM_EnvironmentVLHGC) (s s1 : MM_SchedulingDelegate)
    (h : calculateAutomaticGMPIntermission ext rm gam env s = .ok s1) :
    edenCounts s1 = edenCounts s := by
  unfold calculateAutomaticGMPIntermission at h
  dsimp only at h
  repeat' split at h
  all_goals first
    | (cases h; rfl)
    | cases h

theorem estimateMacroDefragmentationWork_frame (s : MM_SchedulingDelegate) :
    edenCounts (estimateMacroDefragmentationWork s) = edenCounts s := rfl

theorem calculateGlobalMarkIncrementTimeMillis_frame (pgcTime : Nat)
    (s s1 : MM_SchedulingDelegate)
    (h : calculateGlobalMarkIncrementTimeMillis pgcTime s = .ok s1) :
    edenCounts s1 = edenCounts s := by
  unfold calculateGlobalMarkIncrementTimeMillis at h
  dsimp only at h
  repeat' split at h
  all_goals first
    | (cases h; rfl)
    | cases h

theorem updatePgcTimePrediction_frame (env : MM_EnvironmentVLHGC) (s : MM_SchedulingDelegate) :
    edenCounts (updatePgcTimePrediction env s) = edenCounts s := by
  unfold updatePgcTimePrediction
  dsimp only
  split <;> rfl

/-- A completed `partialGarbageCollectCompleted` is a completed `calculateEdenSize` framed by
steps that leave the three Eden counts alone. -/
theorem partialGarbageCollectCompleted_post (ext : MM_GCExtensions) (rm : MM_HeapRegionManager)
    (gam : MM_GlobalAllocationManagerTarok) (env : MM_EnvironmentVLHGC) (c d : Nat)
    (s s' : MM_SchedulingDelegate)
    (h : partialGarbageCollectCompleted ext rm gam env c d s = .ok s') :
    ∃ s4 s5, calculateEdenSize ext rm gam s4 = .ok s5
      ∧ edenCounts s4 = edenCounts s ∧ edenCounts s' = edenCounts s5 := by
  unfold partialGarbageCollectCompleted at h
  dsimp only at h
  split at h
  · cases h
  · rename_i s1 h1
    split at h
    · cases h
    · rename_i s4 h4
      split at h
      · cases h
      · rename_i s5 h5
        split at h
        · cases h
        · rename_i s6 h6
          split at h
          · cases h
          · rename_i s7 h7
            cases h
            refine ⟨s4, s5, h5, ?_, ?_⟩
            · rw [checkEdenSizeAfterPgc_frame ext rm env _ _ s4 h4]
              have e1 := partialGarbageCollectCompletedStats_frame rm env _ s1 h1
              have e2 := measureConsumptionForPartialGC_frame c d s1
              exact e2.trans e1
            · rw [updatePgcTimePrediction_frame,
                calculateGlobalMarkIncrementTimeMillis_frame _ _ s7 h7,
                estimateMacroDefragmentationWork_frame,
                calculateAutomaticGMPIntermission_frame ext rm gam env s5 s6 h6]

theorem edenCounts_eq (s s' : MM_SchedulingDelegate) (h : edenCounts s' = edenCounts s) :
    s'._edenRegionCount = s._edenRegionCount
    ∧ s'._idealEdenRegionCount = s._idealEdenRegionCount
    ∧ s'._minimumEdenRegionCount = s._minimumEdenRegionCount := by
  unfold edenCounts at h
  rw [Prod.mk.injEq, Prod.mk.injEq] at h
  exact h

theorem calculateEdenSize_total (ext : MM_GCExtensions) (rm : MM_HeapRegionManager)
    (gam : MM_GlobalAllocationManagerTarok) (s : MM_SchedulingDelegate)
    (h : EdenBoundsOrdered s) :
    ∃ s', calculateEdenSize ext rm gam s = .ok s' :=
  ⟨_, calculateEdenSize_eq ext rm gam s (adjust_preserves_bounds ext rm s h)⟩

theorem heapReconfigured_post (ext : MM_GCExtensions) (rm : MM_HeapRegionManager)
    (gam : MM_GlobalAllocationManagerTarok) (s s' : MM_SchedulingDelegate)
    (h : heapReconfigured ext rm gam s = .ok s') :
    ∃ s3, calculateEdenSize ext rm gam s3 = .ok s' := by
  unfold heapReconfigured at h
  dsimp only at h
  repeat' split at h
  all_goals first
    | exact ⟨_, h⟩
    | cases h

theorem getInitialTaxationThreshold_post (ext : MM_GCExtensions) (rm : MM_HeapRegionManager)
    (gam : MM_GlobalAllocationManagerTarok) (s s' : MM_SchedulingDelegate) (t : Nat)
    (h : getInitialTaxationThreshold ext rm gam s = .ok (s', t)) :
    ∃ s1 s2, calculateEdenSize ext rm gam s1 = .ok s2 ∧ edenCounts s' = edenCounts s2 := by
  unfold getInitialTaxationThreshold at h
  dsimp only at h
  split at h
  · cases h
  · rename_i s2 h2
    have e := getNext_frame ext rm _ s' t h
    exact ⟨_, s2, h2, e⟩

theorem eden_post_of_calculateEdenSize (ext : MM_GCExtensions) (rm : MM_HeapRegionManager)
    (gam : MM_GlobalAllocationManagerTarok) (s4 s5 s' : MM_SchedulingDelegate)
    (h5 : calculateEdenSize ext rm gam s4 = .ok s5) (he : edenCounts s' = edenCounts s5) :
    EdenBoundsOrdered s'
    ∧ s'._edenRegionCount ≤ s'._idealEdenRegionCount
    ∧ s'._edenRegionCount ≤ gam.freeRegionCount := by
  obtain ⟨hb, hmin, -, -⟩ := calculateEdenSize_post ext rm gam s4 s5 h5
  obtain ⟨e1, e2, e3⟩ := edenCounts_eq s5 s' he
  unfold EdenBoundsOrdered at hb ⊢
  rw [e1, e2, e3, hmin]
  exact ⟨hb, min_le_right _ _, min_le_left _ _⟩

/-- C9: a `calculateEdenSize` call entered with `1 ≤ minimum ≤ ideal` returns, and leaves
`edenRegionCount ≤ idealEdenRegionCount` and `edenRegionCount ≤` the free region count it
read; the same two bounds hold whenever `partialGarbageCollectCompleted`,
`heapReconfigured` or `getInitialTaxationThreshold` returns. -/
theorem C9_eden_within_ideal_and_free (ext : MM_GCExtensions) (rm : MM_HeapRegionManager)
    (gam : MM_GlobalAllocationManagerTarok) (s : MM_SchedulingDelegate)
    (h1 : 1 ≤ s._minimumEdenRegionCount)
    (h2 : s._minimumEdenRegionCount ≤ s._idealEdenRegionCount) :
    (∃ s', calculateEdenSize ext rm gam s = .ok s'
        ∧ s'._edenRegionCount ≤ s'._idealEdenRegionCount
        ∧ s'._edenRegionCount ≤ gam.freeRegionCount)
    ∧ (∀ env c d s', partialGarbageCollectCompleted ext rm gam env c d s = .ok s' →
        s'._edenRegionCount ≤ s'._idealEdenRegionCount
        ∧ s'._edenRegionCount ≤ gam.freeRegionCount)
    ∧ (∀ s', heapReconfigured ext rm gam s = .ok s' →
        s'._edenRegionCount ≤ s'._idealEdenRegionCount
        ∧ s'._edenRegionCount ≤ gam.freeRegionCount)
    ∧ (∀ s' t, getInitialTaxationThreshold ext rm gam s = .ok (s', t) →
        s'._edenRegionCount ≤ s'._idealEdenRegionCount
        ∧ s'._edenRegionCount ≤ gam.freeRegionCount) := by
  refine ⟨?_, ?_, ?_, ?_⟩
  · obtain ⟨s', hs'⟩ := calculateEdenSize_total ext rm gam s ⟨h1, h2⟩
    exact ⟨s', hs', (eden_post_of_calculateEdenSize ext rm gam s s' s' hs' rfl).2⟩
  · intro env c d s' h
    obtain ⟨s4, s5, h5, -, he⟩ := partialGarbageCollectCompleted_post ext rm gam env c d s s' h
    exact (eden_post_of_calculateEdenSize ext rm gam s4 s5 s' h5 he).2
  · intro s' h
    obtain ⟨s3, h3⟩ := heapReconfigured_post ext rm gam s s' h
    exact (eden_post_of_calculateEdenSize ext rm gam s3 s' s' h3 rfl).2
  · intro s' t h
    obtain ⟨s1, s2, h2', he⟩ := getInitialTaxationThreshold_post ext rm gam s s' t h
    exact (eden_post_of_calculateEdenSize ext rm gam s1 s2 s' h2' he).2

theorem C9_witness :
    (∃ s', calculateEdenSize (testExtensions 1 3) testRegionManager testAllocationManager
          testDelegateWithBounds = .ok s'
        ∧ s'._edenRegionCount ≤ s'._idealEdenRegionCount
        ∧ s'._edenRegionCount ≤ 100)
    ∧ (∃ s', partialGarbageCollectCompleted (testExtensions 1 3) testRegionManager
          testAllocationManager testEnvironment 10 10 testDelegateWithBounds = .ok s'
        ∧ s'._edenRegionCount ≤ s'._idealEdenRegionCount
        ∧ s'._edenRegionCount ≤ 100) :=
  ⟨(C9_eden_within_ideal_and_free (testExtensions 1 3) testRegionManager testAllocationManager
      testDelegateWithBounds (by decide) (by decide)).1,
   ⟨_, rfl,
    (C9_eden_within_ideal_and_free (testExtensions 1 3) testRegionManager testAllocationManager
      testDelegateWithBounds (by decide) (by decide)).2.1 testEnvironment 10 10 _ rfl⟩⟩

theorem reached_bounds (s : MM_SchedulingDelegate) (h : ReachedAfterHeapReconfigured s) :
    EdenBoundsOrdered s := by
  induction h with
  | heapReconfigured ext rm gam s s' h =>
    obtain ⟨s3, h3⟩ := heapReconfigured_post ext rm gam s s' h
    exact (eden_post_of_calculateEdenSize ext rm gam s3 s' s' h3 rfl).1
  | calculateEdenSize ext rm gam s s' _ h _ =>
    exact (eden_post_of_calculateEdenSize ext rm gam s s' s' h rfl).1
  | getInitialTaxationThreshold ext rm gam s s' t _ h _ =>
    obtain ⟨s1, s2, h2, he⟩ := getInitialTaxationThreshold_post ext rm gam s s' t h
    exact (eden_post_of_calculateEdenSize ext rm gam s1 s2 s' h2 he).1
  | partialGarbageCollectCompleted ext rm gam env c d s s' _ h _ =>
    obtain ⟨s4, s5, h5, -, he⟩ := partialGarbageCollectCompleted_post ext rm gam env c d s s' h
    exact (eden_post_of_calculateEdenSize ext rm gam s4 s5 s' h5 he).1
  | otherMember s s' _ hi hm ih =>
    unfold EdenBoundsOrdered at ih ⊢
    rw [hi, hm]
    exact ih

theorem heapReconfigured_establishes (ext : MM_GCExtensions) (rm : MM_HeapRegionManager)
    (gam : MM_GlobalAllocationManagerTarok) (s : MM_SchedulingDelegate) (edenIdealBytes : Nat)
    (hb : heapReconfiguredEdenIdealBytes ext rm
      { s with _numberOfHeapRegions := rm.managedRegionCount } = .ok edenIdealBytes)
    (hpos : 0 < edenIdealBytes) (hrs : 0 < rm.regionSize)
    (hfit : edenIdealBytes + rm.regionSize ≤ 2 ^ 64)
    (hctx : 1 ≤ gam.managedAllocationContextCount) :
    ∃ s', heapReconfigured ext rm gam s = .ok s' ∧ EdenBoundsOrdered s' := by
  have hsub : subU (wrapU (edenIdealBytes + rm.regionSize)) 1
      = edenIdealBytes + rm.regionSize - 1 := by
    unfold subU wrapU
    omega
  have hideal : 1 ≤ (edenIdealBytes + rm.regionSize - 1) / rm.regionSize := by
    rw [Nat.one_le_div_iff hrs]
    omega
  unfold heapReconfigured
  dsimp only
  rw [hb]
  dsimp only
  rw [hsub]
  have hmin : 1 ≤ min ((edenIdealBytes + rm.regionSize - 1) / rm.regionSize)
      gam.managedAllocationContextCount := le_min hideal hctx
  rw [if_neg (not_not.mpr (show _ > 0 from hideal)),
    if_neg (not_not.mpr (show _ > 0 from hmin)),
    if_neg (not_not.mpr (show _ ≥ _ from min_le_left _ _))]
  have key : ∀ x, EdenBoundsOrdered x →
      ∃ s', calculateEdenSize ext rm gam x = .ok s' ∧ EdenBoundsOrdered s' := by
    intro x hx
    obtain ⟨s', hs'⟩ := calculateEdenSize_total ext rm gam x hx
    exact ⟨s', hs', (eden_post_of_calculateEdenSize ext rm gam x s' s' hs' rfl).1⟩
  exact key _ ⟨hmin, min_le_left _ _⟩

/-- C10: `1 ≤ minimumEdenRegionCount ≤ idealEdenRegionCount` is established by
`heapReconfigured` (for a positive ideal Eden byte size that fits the machine word, a
positive region size and at least one managed allocation context), is preserved by
`adjustIdealEdenRegionCount` for every `edenSizeFactor` and configuration, holds in every
state reached after `heapReconfigured`, and there the three assertions of
`calculateEdenSize` pass: the call returns. -/
theorem C10_eden_bounds_established_and_preserved :
    (∀ (ext : MM_GCExtensions) (rm : MM_HeapRegionManager)
        (gam : MM_GlobalAllocationManagerTarok) (s : MM_SchedulingDelegate)
        (edenIdealBytes : Nat),
        heapReconfiguredEdenIdealBytes ext rm
          { s with _numberOfHeapRegions := rm.managedRegionCount } = .ok edenIdealBytes →
        0 < edenIdealBytes → 0 < rm.regionSize → edenIdealBytes + rm.regionSize ≤ 2 ^ 64 →
        1 ≤ gam.managedAllocationContextCount →
        ∃ s', heapReconfigured ext rm gam s = .ok s' ∧ EdenBoundsOrdered s')
    ∧ (∀ (ext : MM_GCExtensions) (rm : MM_HeapRegionManager) (s : MM_SchedulingDelegate),
        EdenBoundsOrdered s → EdenBoundsOrdered (adjustIdealEdenRegionCount ext rm s))
    ∧ (∀ s, ReachedAfterHeapReconfigured s → EdenBoundsOrdered s)
    ∧ (∀ s, ReachedAfterHeapReconfigured s →
        ∀ (ext : MM_GCExtensions) (rm : MM_HeapRegionManager)
          (gam : MM_GlobalAllocationManagerTarok),
          ∃ s', calculateEdenSize ext rm gam s = .ok s') :=
  ⟨heapReconfigured_establishes, adjust_preserves_bounds, reached_bounds,
    fun s h ext rm gam => calculateEdenSize_total ext rm gam s (reached_bounds s h)⟩

theorem C10_witness :
    ∃ s', heapReconfigured (testExtensions 1 3) testRegionManager testAllocationManager
        (MM_SchedulingDelegate.new (testExtensions 1 3)) = .ok s'
      ∧ EdenBoundsOrdered s' :=
  C10_eden_bounds_established_and_preserved.1 (testExtensions 1 3) testRegionManager
    testAllocationManager (MM_SchedulingDelegate.new (testExtensions 1 3)) (2 ^ 28) rfl
    (by decide) (by decide) (by decide) (by decide)

/-! ## Facts about the Eden clamp -/

theorem toIDATA_of_lt (m : Nat) (h : m < 2 ^ 63) : toIDATA m = (m : Int) := by
  unfold toIDATA
  split_ifs <;> omega

theorem toUDATA_add_subU (m ideal : Nat) (h : m < 2 ^ 64) :
    toUDATA ((ideal : Int) + toIDATA (subU m ideal)) = m := by
  unfold toIDATA toUDATA subU
  split_ifs <;> omega

theorem toUDATA_of_wrapI (ideal : Nat) (c p : Int) (h : wrapI (toIDATA ideal + c) = p)
    (hp : 0 ≤ p) : toUDATA ((ideal : Int) + c) = p.toNat := by
  unfold wrapI toIDATA toUDATA at h
  unfold toUDATA
  split_ifs at h <;> omega

theorem adjusted_eq (mn mx ideal : Nat) (c : Int) (hmn : mn < 2 ^ 63) (hmx : mx < 2 ^ 63) :
    adjustedIdealEdenRegionCount mn mx ideal c
      = max 1 (if wrapI (toIDATA ideal + c) < (mn : Int) then mn
          else if (mx : Int) < wrapI (toIDATA ideal + c) then mx
          else (wrapI (toIDATA ideal + c)).toNat) := by
  unfold adjustedIdealEdenRegionCount
  dsimp only
  rw [toIDATA_of_lt mn hmn, toIDATA_of_lt mx hmx]
  congr 1
  by_cases h1 : (mn : Int) > wrapI (toIDATA ideal + c)
  · rw [if_pos h1, if_pos h1]
    exact toUDATA_add_subU mn ideal (by omega)
  · rw [if_neg h1, if_neg h1]
    by_cases h2 : (mx : Int) < wrapI (toIDATA ideal + c)
    · rw [if_pos h2, if_pos h2]
      exact toUDATA_add_subU mx ideal (by omega)
    · rw [if_neg h2, if_neg h2]
      exact toUDATA_of_wrapI ideal c _ rfl (by omega)

theorem wrapI_toIDATA_add_zero (x : Nat) (h : x < 2 ^ 63) : wrapI (toIDATA x + 0) = (x : Int) := by
  unfold wrapI toIDATA toUDATA
  split_ifs <;> omega

theorem adjusted_range (mn mx ideal : Nat) (c : Int) (hle : mn ≤ mx) (hmx : mx < 2 ^ 63) :
    max 1 mn ≤ adjustedIdealEdenRegionCount mn mx ideal c
    ∧ adjustedIdealEdenRegionCount mn mx ideal c ≤ max 1 mx := by
  rw [adjusted_eq mn mx ideal c (lt_of_le_of_lt hle hmx) hmx]
  generalize wrapI (toIDATA ideal + c) = p
  split_ifs <;> constructor <;> omega

theorem adjusted_fixed (mn mx x : Nat) (hmx : mx < 2 ^ 63)
    (h1 : max 1 mn ≤ x) (h2 : x ≤ max 1 mx) :
    adjustedIdealEdenRegionCount mn mx x 0 = x := by
  have a1 : 1 ≤ x := le_trans (le_max_left _ _) h1
  have a2 : mn ≤ x := le_trans (le_max_right _ _) h1
  have hx : x < 2 ^ 63 := by omega
  rw [adjusted_eq mn mx x 0 (by omega) hmx, wrapI_toIDATA_add_zero x hx]
  split_ifs <;> omega
theorem doubleToUDATA_natCast_mul_div (n a b : Nat) (h : a * n / b < 2 ^ 64) :
    doubleToUDATA ((n : ℚ) * ((a : ℚ) / (b : ℚ))) = a * n / b := by
  unfold doubleToUDATA wrapU
  have e : (n : ℚ) * ((a : ℚ) / (b : ℚ)) = ((a * n : ℕ) : ℚ) / ((b : ℕ) : ℚ) := by
    push_cast; ring
  rw [e, Nat.floor_div_eq_div]
  exact Nat.mod_eq_of_lt h

theorem adjust_finished (ext : MM_GCExtensions) (rm : MM_HeapRegionManager)
    (s : MM_SchedulingDelegate) (h : ext.statupPhaseFinished = true) :
    adjustIdealEdenRegionCount ext rm s
      = { s with
          _edenSizeFactor := 0
          _idealEdenRegionCount :=
            adjustedIdealEdenRegionCount (minEdenCount ext rm s) (maxEdenCount ext rm s)
              s._idealEdenRegionCount s._edenSizeFactor
          _minimumEdenRegionCount :=
            min s._minimumEdenRegionCount
              (adjustedIdealEdenRegionCount (minEdenCount ext rm s) (maxEdenCount ext rm s)
                s._idealEdenRegionCount s._edenSizeFactor) } := by
  unfold adjustIdealEdenRegionCount
  dsimp only
  rw [if_neg (by rw [h]; decide)]
  rfl

theorem adjust_startup (ext : MM_GCExtensions) (rm : MM_HeapRegionManager)
    (s : MM_SchedulingDelegate) (h : ext.statupPhaseFinished = false) :
    adjustIdealEdenRegionCount ext rm s = { s with _edenSizeFactor := 0 } := by
  unfold adjustIdealEdenRegionCount
  dsimp only
  rw [if_pos h]

theorem minEdenCount_default (ext : MM_GCExtensions) (rm : MM_HeapRegionManager)
    (s : MM_SchedulingDelegate)
    (hXmn : ext.userSpecifiedParameters._Xmn._wasSpecified = false)
    (hXmns : ext.userSpecifiedParameters._Xmns._wasSpecified = false)
    (hmin : s._minEdenPercent = 1 / 100) (hn : s._numberOfHeapRegions < 2 ^ 63) :
    minEdenCount ext rm s = s._numberOfHeapRegions / 100 := by
  unfold minEdenCount
  rw [if_neg (by rw [hXmn, hXmns]; decide), hmin]
  have e := doubleToUDATA_natCast_mul_div s._numberOfHeapRegions 1 100 (by omega)
  rw [Nat.one_mul] at e
  exact_mod_cast e

theorem maxEdenCount_default (ext : MM_GCExtensions) (rm : MM_HeapRegionManager)
    (s : MM_SchedulingDelegate)
    (hXmn : ext.userSpecifiedParameters._Xmn._wasSpecified = false)
    (hXmnx : ext.userSpecifiedParameters._Xmnx._wasSpecified = false)
    (hmax : s._maxEdenPercent = 3 / 4) (hn : s._numberOfHeapRegions < 2 ^ 63) :
    maxEdenCount ext rm s = 3 * s._numberOfHeapRegions / 4 := by
  unfold maxEdenCount
  rw [if_neg (by rw [hXmn, hXmnx]; decide), hmax]
  have e := doubleToUDATA_natCast_mul_div s._numberOfHeapRegions 3 4 (by omega)
  exact_mod_cast e

/-- What `adjustIdealEdenRegionCount` leaves alone, and that it consumes `_edenSizeFactor`. -/
theorem adjust_frame (ext : MM_GCExtensions) (rm : MM_HeapRegionManager)
    (s : MM_SchedulingDelegate) :
    (adjustIdealEdenRegionCount ext rm s)._edenSizeFactor = 0
    ∧ (adjustIdealEdenRegionCount ext rm s)._numberOfHeapRegions = s._numberOfHeapRegions
    ∧ (adjustIdealEdenRegionCount ext rm s)._minEdenPercent = s._minEdenPercent
    ∧ (adjustIdealEdenRegionCount ext rm s)._maxEdenPercent = s._maxEdenPercent := by
  unfold adjustIdealEdenRegionCount
  dsimp only
  split <;> exact ⟨rfl, rfl, rfl, rfl⟩

/-- What a completed `calculateEdenSize` leaves alone, and that it consumes
`_edenSizeFactor`. -/
theorem calculateEdenSize_frame (ext : MM_GCExtensions) (rm : MM_HeapRegionManager)
    (gam : MM_GlobalAllocationManagerTarok) (s s' : MM_SchedulingDelegate)
    (h : calculateEdenSize ext rm gam s = .ok s') :
    s'._edenSizeFactor = 0
    ∧ s'._numberOfHeapRegions = s._numberOfHeapRegions
    ∧ s'._minEdenPercent = s._minEdenPercent
    ∧ s'._maxEdenPercent = s._maxEdenPercent := by
  have hb := calculateEdenSize_ok_bounds ext rm gam s s' h
  rw [calculateEdenSize_eq ext rm gam s hb] at h
  cases h
  exact adjust_frame ext rm s

theorem adjust_fixed_state (ext : MM_GCExtensions) (rm : MM_HeapRegionManager)
    (t : MM_SchedulingDelegate) (hf : t._edenSizeFactor = 0)
    (hi : ext.statupPhaseFinished = true →
      adjustedIdealEdenRegionCount (minEdenCount ext rm t) (maxEdenCount ext rm t)
        t._idealEdenRegionCount 0 = t._idealEdenRegionCount)
    (hm : t._minimumEdenRegionCount ≤ t._idealEdenRegionCount) :
    adjustIdealEdenRegionCount ext rm t = t := by
  by_cases hfin : ext.statupPhaseFinished = true
  · rw [adjust_finished ext rm t hfin, hf, hi hfin, min_eq_left hm]
    cases t
    dsimp only at hf
    subst hf
    rfl
  · rw [adjust_startup ext rm t (by simpa using hfin)]
    cases t
    dsimp only at hf
    subst hf
    rfl

theorem calculateEdenSize_idempotent (ext : MM_GCExtensions) (rm : MM_HeapRegionManager)
    (gam : MM_GlobalAllocationManagerTarok) (s s1 : MM_SchedulingDelegate)
    (hbounds : ext.statupPhaseFinished = true →
      minEdenCount ext rm s ≤ maxEdenCount ext rm s ∧ maxEdenCount ext rm s < 2 ^ 63)
    (h1 : calculateEdenSize ext rm gam s = .ok s1) :
    calculateEdenSize ext rm gam s1 = .ok s1 := by
  obtain ⟨hord, heden, hideal, -⟩ := calculateEdenSize_post ext rm gam s s1 h1
  obtain ⟨hf, hn, hpmin, hpmax⟩ := calculateEdenSize_frame ext rm gam s s1 h1
  have hmn : minEdenCount ext rm s1 = minEdenCount ext rm s := by
    unfold minEdenCount; rw [hn, hpmin]
  have hmx : maxEdenCount ext rm s1 = maxEdenCount ext rm s := by
    unfold maxEdenCount; rw [hn, hpmax]
  have hfix : adjustIdealEdenRegionCount ext rm s1 = s1 := by
    apply adjust_fixed_state ext rm s1 hf _ hord.2
    intro hfin
    obtain ⟨hle, hlt⟩ := hbounds hfin
    rw [hmn, hmx]
    have hr := adjusted_range (minEdenCount ext rm s) (maxEdenCount ext rm s)
      s._idealEdenRegionCount s._edenSizeFactor hle hlt
    have hx : s1._idealEdenRegionCount
        = adjustedIdealEdenRegionCount (minEdenCount ext rm s) (maxEdenCount ext rm s)
            s._idealEdenRegionCount s._edenSizeFactor := by
      rw [hideal, adjust_finished ext rm s hfin]
    rw [← hx] at hr
    exact adjusted_fixed _ _ _ hlt hr.1 hr.2
  have hb : EdenBoundsOrdered (adjustIdealEdenRegionCount ext rm s1) := by
    rw [hfix]; exact hord
  rw [calculateEdenSize_eq ext rm gam s1 hb, hfix, ← heden]

/-- C11 (amended): when none of -Xmn, -Xmns, -Xmnx was given (the two percentages have the
constructor's values 1% and 75%, the heap has fewer than 2^63 regions) and
`calculateEdenSize` returns, then: once the startup phase has finished the ideal Eden count
lies between `max(1, floor(0.01·n))` and `max(1, floor(0.75·n))` for the `n` heap regions, so
it exceeds `0.01·n − 1` and, for `n ≥ 2`, is at most `0.75·n`; during the startup phase the
ideal Eden count is left as it was; and in both phases
`1 ≤ minimumEdenRegionCount ≤ idealEdenRegionCount` holds afterwards. -/
theorem C11_ideal_eden_clamped_once_startup_finished (ext : MM_GCExtensions)
    (rm : MM_HeapRegionManager) (gam : MM_GlobalAllocationManagerTarok)
    (s s' : MM_SchedulingDelegate)
    (hXmn : ext.userSpecifiedParameters._Xmn._wasSpecified = false)
    (hXmns : ext.userSpecifiedParameters._Xmns._wasSpecified = false)
    (hXmnx : ext.userSpecifiedParameters._Xmnx._wasSpecified = false)
    (hmin : s._minEdenPercent = 1 / 100) (hmax : s._maxEdenPercent = 3 / 4)
    (hn : s._numberOfHeapRegions < 2 ^ 63)
    (h : calculateEdenSize ext rm gam s = .ok s') :
    (ext.statupPhaseFinished = true →
      max 1 (s._numberOfHeapRegions / 100) ≤ s'._idealEdenRegionCount
      ∧ s'._idealEdenRegionCount ≤ max 1 (3 * s._numberOfHeapRegions / 4)
      ∧ s._minEdenPercent * (s._numberOfHeapRegions : ℚ) - 1 < (s'._idealEdenRegionCount : ℚ)
      ∧ (2 ≤ s._numberOfHeapRegions →
          (s'._idealEdenRegionCount : ℚ) ≤ s._maxEdenPercent * (s._numberOfHeapRegions : ℚ)))
    ∧ (ext.statupPhaseFinished = false →
        s'._idealEdenRegionCount = s._idealEdenRegionCount)
    ∧ 1 ≤ s'._minimumEdenRegionCount
    ∧ s'._minimumEdenRegionCount ≤ s'._idealEdenRegionCount
    ∧ s'._numberOfHeapRegions = s._numberOfHeapRegions := by
  obtain ⟨hord, -, hideal, -⟩ := calculateEdenSize_post ext rm gam s s' h
  obtain ⟨-, hn', -, -⟩ := calculateEdenSize_frame ext rm gam s s' h
  refine ⟨?_, ?_, hord.1, hord.2, hn'⟩
  · intro hfin
    have hx : s'._idealEdenRegionCount
        = adjustedIdealEdenRegionCount (s._numberOfHeapRegions / 100)
            (3 * s._numberOfHeapRegions / 4) s._idealEdenRegionCount s._edenSizeFactor := by
      rw [hideal, adjust_finished ext rm s hfin,
        minEdenCount_default ext rm s hXmn hXmns hmin hn,
        maxEdenCount_default ext rm s hXmn hXmnx hmax hn]
    have hr := adjusted_range (s._numberOfHeapRegions / 100) (3 * s._numberOfHeapRegions / 4)
      s._idealEdenRegionCount s._edenSizeFactor (by omega) (by omega)
    rw [← hx] at hr
    refine ⟨hr.1, hr.2, ?_, ?_⟩
    · rw [hmin]
      have a1 : s._numberOfHeapRegions / 100 ≤ s'._idealEdenRegionCount :=
        le_trans (le_max_right _ _) hr.1
      have a2 : s._numberOfHeapRegions < 100 * (s'._idealEdenRegionCount + 1) := by omega
      have a3 : (s._numberOfHeapRegions : ℚ) < 100 * ((s'._idealEdenRegionCount : ℚ) + 1) := by
        exact_mod_cast a2
      linarith
    · intro h2
      rw [hmax]
      have a1 : s'._idealEdenRegionCount ≤ 3 * s._numberOfHeapRegions / 4 := by
        have : max 1 (3 * s._numberOfHeapRegions / 4) = 3 * s._numberOfHeapRegions / 4 :=
          max_eq_right (by omega)
        rw [this] at hr; exact hr.2
      have a2 : 4 * s'._idealEdenRegionCount ≤ 3 * s._numberOfHeapRegions := by omega
      have a3 : 4 * (s'._idealEdenRegionCount : ℚ) ≤ 3 * (s._numberOfHeapRegions : ℚ) := by
        exact_mod_cast a2
      linarith
  · intro hst
    rw [hideal, adjust_startup ext rm s hst]

theorem C11_witness :
    ∃ s', calculateEdenSize testExtensionsStartupFinished testRegionManager
        testAllocationManager (testDelegateWithHeap 1000 64 4 10000) = .ok s'
      ∧ edenCounts s' = (100, 750, 4)
      ∧ max 1 (1000 / 100) ≤ s'._idealEdenRegionCount
      ∧ s'._idealEdenRegionCount ≤ max 1 (3 * 1000 / 4) := by
  have h : calculateEdenSize testExtensionsStartupFinished testRegionManager
      testAllocationManager (testDelegateWithHeap 1000 64 4 10000)
      = .ok { testDelegateWithHeap 1000 750 4 0 with _edenRegionCount := 100 } := by decide!
  have w := (C11_ideal_eden_clamped_once_startup_finished testExtensionsStartupFinished
    testRegionManager testAllocationManager (testDelegateWithHeap 1000 64 4 10000) _
    rfl rfl rfl rfl rfl (by decide) h).1 rfl
  exact ⟨_, h, rfl, w.1, w.2.1⟩

/-- C11, the claim as stated fails.  During the startup phase `heapReconfigured` on a heap of
16 regions (the initial heap, 16 MiB ideal Eden minimum) leaves an ideal Eden of 16 regions,
above 0.75·16 = 12; after the startup phase a heap of 150 regions whose ideal Eden of 2
regions is asked to shrink by one ends with an ideal Eden of 1 region, below
0.01·150 = 1.5; and a heap of one region ends with an ideal Eden of 1 region, above 0.75. -/
theorem C11_counterexample :
    heapReconfigured testExtensionsSmallInitialHeap testRegionManagerSixteen
        testAllocationManager (MM_SchedulingDelegate.new testExtensionsSmallInitialHeap)
      = .ok { testDelegateWithHeap 16 16 4 0 with _edenRegionCount := 16 }
    ∧ (testDelegateWithHeap 16 16 4 0)._maxEdenPercent * ((16 : Nat) : ℚ) = 12
    ∧ ((calculateEdenSize testExtensionsStartupFinished testRegionManager testAllocationManager
        (testDelegateWithHeap 150 2 1 (-1))).map edenCounts = .ok (1, 1, 1))
    ∧ (testDelegateWithHeap 150 2 1 (-1))._minEdenPercent * ((150 : Nat) : ℚ) = 3 / 2
    ∧ ((calculateEdenSize testExtensionsStartupFinished testRegionManager testAllocationManager
        (testDelegateWithHeap 1 64 4 0)).map edenCounts = .ok (1, 1, 1)) := by
  refine ⟨?_, ?_, ?_, ?_, ?_⟩ <;> decide!

/-- C12: a second `calculateEdenSize` with the same free region count returns the very state
the first one returned, whenever the minimum Eden count used by
`adjustIdealEdenRegionCount` does not exceed the maximum Eden count (always so during the
startup phase, where neither is used).  When the two bounds cross the calls are not
idempotent: with `-Xmnx8m` and a heap of 2048 regions of 1 MiB (minimum
floor(0.01·2048) = 20 regions, maximum 8 regions) the first call sets ideal Eden to 20
regions, the second to 8, the third to 20 again. -/
theorem C12_calculateEdenSize_idempotent_unless_bounds_cross :
    (∀ (ext : MM_GCExtensions) (rm : MM_HeapRegionManager)
        (gam : MM_GlobalAllocationManagerTarok) (s s1 : MM_SchedulingDelegate),
        (ext.statupPhaseFinished = true →
          minEdenCount ext rm s ≤ maxEdenCount ext rm s ∧ maxEdenCount ext rm s < 2 ^ 63) →
        calculateEdenSize ext rm gam s = .ok s1 →
        calculateEdenSize ext rm gam s1 = .ok s1)
    ∧ minEdenCount testExtensionsXmnx testRegionManager (testDelegateWithHeap 2048 8 4 0) = 20
    ∧ maxEdenCount testExtensionsXmnx testRegionManager (testDelegateWithHeap 2048 8 4 0) = 8
    ∧ calculateEdenSize testExtensionsXmnx testRegionManager testAllocationManager
          (testDelegateWithHeap 2048 8 4 0)
        = .ok { testDelegateWithHeap 2048 20 4 0 with _edenRegionCount := 20 }
    ∧ calculateEdenSize testExtensionsXmnx testRegionManager testAllocationManager
          { testDelegateWithHeap 2048 20 4 0 with _edenRegionCount := 20 }
        = .ok { testDelegateWithHeap 2048 8 4 0 with _edenRegionCount := 8 }
    ∧ calculateEdenSize testExtensionsXmnx testRegionManager testAllocationManager
          { testDelegateWithHeap 2048 8 4 0 with _edenRegionCount := 8 }
        = .ok { testDelegateWithHeap 2048 20 4 0 with _edenRegionCount := 20 } := by
  refine ⟨calculateEdenSize_idempotent, ?_, ?_, ?_, ?_, ?_⟩ <;> decide!

/-! ## Facts about the PGC time history -/

theorem roundHalfEven_near (x : ℚ) : |(roundHalfEven x : ℚ) - x| ≤ 1 / 2 := by
  have h1 : (⌊x⌋ : ℚ) ≤ x := Int.floor_le x
  have h2 : x < (⌊x⌋ : ℚ) + 1 := Int.lt_floor_add_one x
  unfold roundHalfEven
  rw [abs_le]
  split_ifs <;> push_cast <;> constructor <;> linarith

theorem doubleUlpAux_spec :
    ∀ (fuel : Nat) (x u : ℚ), 0 < u → 1 ≤ x * 2 ^ fuel → x < 2 ^ (fuel + 1) →
      0 < doubleUlpAux fuel x u
      ∧ doubleUlpAux fuel x u ≤ x * u ∧ x * u < 2 * doubleUlpAux fuel x u := by
  intro fuel
  induction fuel with
  | zero =>
    intro x u hu h1 h2
    rw [pow_zero, mul_one] at h1
    rw [zero_add, pow_one] at h2
    unfold doubleUlpAux
    refine ⟨hu, ?_, ?_⟩ <;> nlinarith
  | succ fuel ih =>
    intro x u hu h1 h2
    unfold doubleUlpAux
    by_cases hx2 : 2 ≤ x
    · rw [if_pos hx2]
      have hp : (0 : ℚ) < 2 ^ fuel := by positivity
      obtain ⟨a, b, c⟩ := ih (x / 2) (2 * u) (by linarith)
        (by
          have : (1 : ℚ) ≤ x / 2 := by linarith
          have h3 : (1 : ℚ) ≤ 2 ^ fuel := one_le_pow₀ (by norm_num)
          nlinarith)
        (by rw [pow_succ] at h2; linarith)
      refine ⟨a, ?_, ?_⟩
      · have e : x / 2 * (2 * u) = x * u := by ring
        rw [e] at b; exact b
      · have e : x / 2 * (2 * u) = x * u := by ring
        rw [e] at c; exact c
    · rw [if_neg hx2]
      by_cases hx1 : x < 1
      · rw [if_pos hx1]
        obtain ⟨a, b, c⟩ := ih (2 * x) (u / 2) (by linarith)
          (by rw [pow_succ] at h1; linarith)
          (by
            have h3 : (1 : ℚ) ≤ 2 ^ fuel := one_le_pow₀ (by norm_num)
            rw [pow_succ]
            linarith)
        refine ⟨a, ?_, ?_⟩
        · have e : 2 * x * (u / 2) = x * u := by ring
          rw [e] at b; exact b
        · have e : 2 * x * (u / 2) = x * u := by ring
          rw [e] at c; exact c
      · rw [if_neg hx1]
        refine ⟨hu, ?_, ?_⟩ <;> nlinarith

/-- A double operation on a non-negative value has a relative error of at most `2^-53`. -/
theorem roundToDouble_bounds (x : ℚ) (h0 : 0 ≤ x) (hlo : x = 0 ∨ 1 ≤ x * 2 ^ 250)
    (hhi : x < 2 ^ 251) :
    x * (1 - 1 / 2 ^ 53) ≤ roundToDouble x ∧ roundToDouble x ≤ x * (1 + 1 / 2 ^ 53) := by
  unfold roundToDouble
  by_cases hx : x = 0
  · rw [if_pos hx, hx]
    norm_num
  · rw [if_neg hx]
    have hlo' : 1 ≤ x * 2 ^ 250 := by
      rcases hlo with e | e
      · exact absurd e hx
      · exact e
    obtain ⟨a, b, c⟩ := doubleUlpAux_spec 250 x (1 / 2 ^ 52) (by positivity) hlo' hhi
    have hU : doubleUlp x = doubleUlpAux 250 x (1 / 2 ^ 52) := by
      unfold doubleUlp
      rw [abs_of_nonneg h0]
    rw [hU]
    generalize doubleUlpAux 250 x (1 / 2 ^ 52) = U at a b c
    have hn := roundHalfEven_near (x / U)
    rw [abs_le] at hn
    have e : x / U * U = x := div_mul_cancel₀ x (ne_of_gt a)
    have lo : ((roundHalfEven (x / U) : ℚ)) * U ≥ x - U / 2 := by
      have : (roundHalfEven (x / U) : ℚ) ≥ x / U - 1 / 2 := by linarith
      calc (roundHalfEven (x / U) : ℚ) * U ≥ (x / U - 1 / 2) * U :=
            mul_le_mul_of_nonneg_right this (le_of_lt a)
        _ = x - U / 2 := by rw [sub_mul, e]; ring
    have hi : ((roundHalfEven (x / U) : ℚ)) * U ≤ x + U / 2 := by
      have : (roundHalfEven (x / U) : ℚ) ≤ x / U + 1 / 2 := by linarith
      calc (roundHalfEven (x / U) : ℚ) * U ≤ (x / U + 1 / 2) * U :=
            mul_le_mul_of_nonneg_right this (le_of_lt a)
        _ = x + U / 2 := by rw [add_mul, e]; ring
    have hb : U / 2 ≤ x * (1 / 2 ^ 53) := by
      have e2 : x * (1 / 2 ^ 53) = x * (1 / 2 ^ 52) / 2 := by norm_num; ring
      rw [e2]
      linarith
    constructor <;> linarith

/-- The two weights as the code computes them: the double nearest to 0.80 and the double
`1 - 0.80`, which is 0.19999999999999996 and not the double nearest to 0.20. -/
theorem partialGCTimeHistoricWeight_eq :
    partialGCTimeHistoricWeight = 3602879701896397 / 4503599627370496
    ∧ roundToDouble (1 - partialGCTimeHistoricWeight)
        = 900719925474099 / 4503599627370496 := by
  constructor <;> decide!

theorem roundToDouble_near (x : ℚ) (hlo : x = 0 ∨ 1 / 16 ≤ x) (hhi : x ≤ 2 ^ 40) :
    x * (1 - 1 / 2 ^ 53) ≤ roundToDouble x ∧ roundToDouble x ≤ x * (1 + 1 / 2 ^ 53) := by
  have h0 : 0 ≤ x := by
    rcases hlo with e | e
    · rw [e]
    · linarith
  apply roundToDouble_bounds x h0
  · rcases hlo with e | e
    · exact Or.inl e
    · right
      have : (16 : ℚ) ≤ 2 ^ 250 := by norm_num
      nlinarith
  · have : (2 : ℚ) ^ 40 < 2 ^ 251 := by norm_num
    linarith

/-- The rounded double average lies within one fifth of the exact `(4h + p)/5`. -/
theorem averaged_near (h p : Nat) (h1 : 1 ≤ h) (hh : h ≤ U_32_MAX) (hp : p ≤ U_32_MAX) :
    ((4 * h + p : Nat) : ℚ) / 5 - 1 / 5
        < roundToDouble
            (roundToDouble (roundToDouble (h : ℚ) * partialGCTimeHistoricWeight)
              + roundToDouble
                  (roundToDouble (p : ℚ) * roundToDouble (1 - partialGCTimeHistoricWeight)))
    ∧ roundToDouble
          (roundToDouble (roundToDouble (h : ℚ) * partialGCTimeHistoricWeight)
            + roundToDouble
                (roundToDouble (p : ℚ) * roundToDouble (1 - partialGCTimeHistoricWeight)))
        < ((4 * h + p : Nat) : ℚ) / 5 + 1 / 5 := by
  obtain ⟨eW, eW1⟩ := partialGCTimeHistoricWeight_eq
  rw [eW1, eW]
  have h1q : (1 : ℚ) ≤ (h : ℚ) := by exact_mod_cast h1
  have hhq : (h : ℚ) ≤ 4294967295 := by
    have : h ≤ 4294967295 := hh
    exact_mod_cast this
  have hp0 : (0 : ℚ) ≤ (p : ℚ) := Nat.cast_nonneg p
  have hpq : (p : ℚ) ≤ 4294967295 := by
    have : p ≤ 4294967295 := hp
    exact_mod_cast this
  have h40 : (8589934592 : ℚ) ≤ 2 ^ 40 := by norm_num
  obtain ⟨a0, a1⟩ := roundToDouble_near (h : ℚ) (Or.inr (by linarith)) (by linarith)
  generalize roundToDouble (h : ℚ) = A at a0 a1
  norm_num at a0 a1
  obtain ⟨b0, b1⟩ := roundToDouble_near (A * (3602879701896397 / 4503599627370496))
    (Or.inr (by linarith)) (by linarith)
  generalize roundToDouble (A * (3602879701896397 / 4503599627370496)) = B1 at b0 b1
  norm_num at b0 b1
  have hP : ∃ P, roundToDouble (p : ℚ) = P := ⟨_, rfl⟩
  obtain ⟨P, eP⟩ := hP
  have hPb : (p : ℚ) * (1 - 1 / 2 ^ 53) ≤ P ∧ P ≤ (p : ℚ) * (1 + 1 / 2 ^ 53) := by
    rw [← eP]
    apply roundToDouble_near
    · rcases Nat.eq_zero_or_pos p with e | e
      · left; rw [e]; simp
      · right
        have : (1 : ℚ) ≤ (p : ℚ) := by exact_mod_cast e
        linarith
    · linarith
  rw [eP]
  obtain ⟨p0, p1⟩ := hPb
  norm_num at p0 p1
  have hPlo : P = 0 ∨ 1 / 2 ≤ P := by
    rcases Nat.eq_zero_or_pos p with e | e
    · left
      have : (p : ℚ) = 0 := by rw [e]; simp
      rw [this] at p0 p1
      linarith
    · right
      have : (1 : ℚ) ≤ (p : ℚ) := by exact_mod_cast e
      linarith
  obtain ⟨c0, c1⟩ := roundToDouble_near (P * (900719925474099 / 4503599627370496))
    (by
      rcases hPlo with e | e
      · left; rw [e, zero_mul]
      · right; linarith)
    (by linarith)
  generalize roundToDouble (P * (900719925474099 / 4503599627370496)) = B2 at c0 c1
  norm_num at c0 c1
  have hP0 : 0 ≤ P := by
    rcases hPlo with e | e
    · rw [e]
    · linarith
  obtain ⟨s0, s1⟩ := roundToDouble_near (B1 + B2) (Or.inr (by linarith))
    (by linarith)
  generalize roundToDouble (B1 + B2) = S at s0 s1
  norm_num at s0 s1
  push_cast
  constructor <;> linarith


/-- The new history of an accepted sample on a history `h ≥ 1` (both at most `2^32-1`) is
`(4h + p)/5` rounded down, or one less when `4h + p` is a multiple of 5. -/
theorem next_bounds (p h : Nat) (h1 : 1 ≤ h) (hh : h ≤ U_32_MAX) (hp : p ≤ U_32_MAX) :
    nextHistoricalPartialGCTime p h ≤ (4 * h + p) / 5
    ∧ (4 * h + p) / 5 ≤ nextHistoricalPartialGCTime p h + 1
    ∧ ((4 * h + p) % 5 ≠ 0 → nextHistoricalPartialGCTime p h = (4 * h + p) / 5) := by
  obtain ⟨lo, hi⟩ := averaged_near h p h1 hh hp
  unfold nextHistoricalPartialGCTime
  rw [if_neg (by omega)]
  unfold doubleToUDATA wrapU
  generalize roundToDouble
      (roundToDouble (roundToDouble (h : ℚ) * partialGCTimeHistoricWeight)
        + roundToDouble
            (roundToDouble (p : ℚ) * roundToDouble (1 - partialGCTimeHistoricWeight)))
      = S at lo hi
  have hS0 : 0 ≤ S := by
    have : (0 : ℚ) ≤ ((4 * h + p : Nat) : ℚ) := Nat.cast_nonneg _
    have h4 : (4 : ℚ) ≤ ((4 * h + p : Nat) : ℚ) := by
      have : 4 ≤ 4 * h + p := by omega
      exact_mod_cast this
    linarith
  have f1 : (⌊S⌋₊ : ℚ) ≤ S := Nat.floor_le hS0
  have f2 : S < (⌊S⌋₊ : ℚ) + 1 := Nat.lt_floor_add_one S
  have u1 : 5 * ⌊S⌋₊ < 4 * h + p + 1 := by
    have : (5 : ℚ) * (⌊S⌋₊ : ℚ) < ((4 * h + p : Nat) : ℚ) + 1 := by linarith
    exact_mod_cast this
  have u2 : 4 * h + p < 5 * ⌊S⌋₊ + 6 := by
    have : ((4 * h + p : Nat) : ℚ) < 5 * (⌊S⌋₊ : ℚ) + 6 := by linarith
    exact_mod_cast this
  have hlt : ⌊S⌋₊ < 2 ^ 64 := by
    unfold U_32_MAX at hh hp
    omega
  rw [Nat.mod_eq_of_lt hlt]
  refine ⟨by omega, by omega, fun h5 => by omega⟩

theorem pgcTime_average_floor (h p : Nat) :
    ⌊(8 / 10 : ℚ) * (h : ℚ) + (2 / 10 : ℚ) * (p : ℚ)⌋₊ = (4 * h + p) / 5 := by
  have e : (8 / 10 : ℚ) * (h : ℚ) + (2 / 10 : ℚ) * (p : ℚ)
      = ((4 * h + p : ℕ) : ℚ) / ((5 : ℕ) : ℚ) := by
    push_cast; ring
  rw [e, Nat.floor_div_eq_div]

theorem next_zero (p : Nat) : nextHistoricalPartialGCTime p 0 = p := by
  unfold nextHistoricalPartialGCTime
  rw [if_pos rfl]

theorem next_le_U32 (p h : Nat) (hp : p ≤ U_32_MAX) (hh : h ≤ U_32_MAX) :
    nextHistoricalPartialGCTime p h ≤ max h p
    ∧ nextHistoricalPartialGCTime p h ≤ U_32_MAX := by
  rcases Nat.eq_zero_or_pos h with h0 | h0
  · rw [h0, next_zero]
    exact ⟨le_max_right _ _, hp⟩
  · obtain ⟨a, -, -⟩ := next_bounds p h h0 hh hp
    have hm : (4 * h + p) / 5 ≤ max h p := by
      rcases le_total h p with e | e
      · rw [max_eq_right e]; omega
      · rw [max_eq_left e]; omega
    refine ⟨le_trans a hm, ?_⟩
    have : max h p ≤ U_32_MAX := max_le hh hp
    exact le_trans (le_trans a hm) this

theorem calculateGlobalMarkIncrementTimeMillis_accept (p : Nat) (s : MM_SchedulingDelegate)
    (hp : p ≤ U_32_MAX)
    (hle : nextHistoricalPartialGCTime p s._historicalPartialGCTime ≤ U_32_MAX) :
    calculateGlobalMarkIncrementTimeMillis p s
      = .ok { s with
          _historicalPartialGCTime := nextHistoricalPartialGCTime p s._historicalPartialGCTime
          _dynamicGlobalMarkIncrementTimeMillis :=
            max (nextHistoricalPartialGCTime p s._historicalPartialGCTime / 3) 1 } := by
  unfold calculateGlobalMarkIncrementTimeMillis
  rw [if_neg (not_lt.mpr hp)]
  dsimp only
  have hle' : U_32_MAX ≥ (if 0 = s._historicalPartialGCTime then p
      else doubleToUDATA (roundToDouble
        (roundToDouble (roundToDouble (s._historicalPartialGCTime : ℚ)
            * partialGCTimeHistoricWeight)
          + roundToDouble (roundToDouble (p : ℚ)
              * roundToDouble (1 - partialGCTimeHistoricWeight))))) := hle
  rw [if_neg (not_not.mpr hle')]
  rfl

theorem calculateGlobalMarkIncrementTimeMillis_reject (p : Nat) (s : MM_SchedulingDelegate)
    (hp : p ≤ U_32_MAX)
    (hle : ¬ nextHistoricalPartialGCTime p s._historicalPartialGCTime ≤ U_32_MAX) :
    calculateGlobalMarkIncrementTimeMillis p s = .error .assertion := by
  unfold calculateGlobalMarkIncrementTimeMillis
  rw [if_neg (not_lt.mpr hp)]
  dsimp only
  have hle' : ¬ (U_32_MAX ≥ (if 0 = s._historicalPartialGCTime then p
      else doubleToUDATA (roundToDouble
        (roundToDouble (roundToDouble (s._historicalPartialGCTime : ℚ)
            * partialGCTimeHistoricWeight)
          + roundToDouble (roundToDouble (p : ℚ)
              * roundToDouble (1 - partialGCTimeHistoricWeight)))))) := hle
  rw [if_pos hle']

theorem doubleUlpAux_eq : ∀ (fuel : Nat) (x u : ℚ) (j : ℤ), j.natAbs ≤ fuel →
    (2 : ℚ) ^ j ≤ x → x < (2 : ℚ) ^ (j + 1) → doubleUlpAux fuel x u = u * (2 : ℚ) ^ j := by
  intro fuel
  induction fuel with
  | zero =>
    intro x u j hj h1 h2
    have : j = 0 := by omega
    subst this
    simp [doubleUlpAux]
  | succ fuel ih =>
    intro x u j hj h1 h2
    unfold doubleUlpAux
    have two : (1 : ℚ) < 2 := by norm_num
    have two0 : (2 : ℚ) ≠ 0 := by norm_num
    by_cases c1 : 2 ≤ x
    · rw [if_pos c1]
      have hj1 : 1 ≤ j := by
        by_contra hc
        have hle : j + 1 ≤ 1 := by omega
        have := zpow_le_zpow_right₀ (le_of_lt two) hle
        rw [zpow_one] at this
        linarith
      rw [zpow_add_one₀ two0] at h2
      rw [ih (x / 2) (2 * u) (j - 1) (by omega)
        (by rw [zpow_sub_one₀ two0]; linarith)
        (by rw [sub_add_cancel]; linarith)]
      rw [zpow_sub_one₀ two0]
      ring
    · rw [if_neg c1]
      by_cases c2 : x < 1
      · rw [if_pos c2]
        have hj1 : j ≤ -1 := by
          by_contra hc
          have hle : (0 : ℤ) ≤ j := by omega
          have := zpow_le_zpow_right₀ (le_of_lt two) hle
          rw [zpow_zero] at this
          linarith
        rw [zpow_add_one₀ two0] at h2
        rw [ih (2 * x) (u / 2) (j + 1) (by omega)
          (by rw [zpow_add_one₀ two0]; linarith)
          (by rw [zpow_add_one₀ two0, zpow_add_one₀ two0]; linarith)]
        rw [zpow_add_one₀ two0]
        ring
      · rw [if_neg c2]
        have hj0 : j = 0 := by
          have a : (2 : ℚ) ^ j < 2 ^ (1 : ℤ) := by rw [zpow_one]; linarith
          have b : (2 : ℚ) ^ (0 : ℤ) < 2 ^ (j + 1) := by rw [zpow_zero]; linarith
          rw [zpow_lt_zpow_iff_right₀ two] at a b
          omega
        subst hj0
        simp

/-- The unit in the last place of a positive `x` in the binade `[2^a/2^b, 2·2^a/2^b)`. -/
theorem doubleUlp_eq (x : ℚ) (a b : Nat) (ha : a ≤ 100) (hb : b ≤ 100)
    (h1 : (2 : ℚ) ^ a / 2 ^ b ≤ x) (h2 : x < 2 * ((2 : ℚ) ^ a / 2 ^ b)) :
    doubleUlp x = (2 : ℚ) ^ a / 2 ^ b / 2 ^ 52 := by
  have two0 : (2 : ℚ) ≠ 0 := by norm_num
  have hz : (2 : ℚ) ^ ((a : ℤ) - (b : ℤ)) = (2 : ℚ) ^ a / 2 ^ b := by
    rw [zpow_sub₀ two0, zpow_natCast, zpow_natCast]
  have hpos : (0 : ℚ) < (2 : ℚ) ^ a / 2 ^ b := by positivity
  unfold doubleUlp
  rw [abs_of_pos (lt_of_lt_of_le hpos h1)]
  rw [doubleUlpAux_eq 250 x (1 / 2 ^ 52) ((a : ℤ) - (b : ℤ)) (by omega)
    (by rw [hz]; exact h1)
    (by rw [zpow_add_one₀ two0, hz]; linarith)]
  rw [hz]
  ring

theorem roundHalfEven_intCast (n : Int) : roundHalfEven (n : ℚ) = n := by
  unfold roundHalfEven
  rw [Int.floor_intCast, sub_self, if_pos (by norm_num)]

theorem roundHalfEven_ge_of_even (n : Int) (x : ℚ) (hn : n % 2 = 0)
    (h : (n : ℚ) - 1 / 2 ≤ x) : n ≤ roundHalfEven x := by
  have f1 : (⌊x⌋ : ℚ) ≤ x := Int.floor_le x
  have f2 : x < (⌊x⌋ : ℚ) + 1 := Int.lt_floor_add_one x
  have hfl : n - 1 ≤ ⌊x⌋ := by
    have : ((n - 1 : ℤ) : ℚ) < (⌊x⌋ : ℚ) + 1 := by push_cast; linarith
    have : (n - 1 : ℤ) < ⌊x⌋ + 1 := by exact_mod_cast this
    omega
  unfold roundHalfEven
  split
  · rename_i c
    by_contra hc
    have : ⌊x⌋ = n - 1 := by omega
    rw [this] at c
    push_cast at c
    linarith
  · split
    · omega
    · split
      · rename_i c1 c2 c3
        by_contra hc
        have : ⌊x⌋ = n - 1 := by omega
        omega
      · omega

/-- Rounding a positive `x` of a known binade: the result is a multiple of the unit in the
last place, nearest to `x`. -/
theorem roundToDouble_grid (x : ℚ) (a b : Nat) (ha : a ≤ 100) (hb : b ≤ 100)
    (h1 : (2 : ℚ) ^ a / 2 ^ b ≤ x) (h2 : x < 2 * ((2 : ℚ) ^ a / 2 ^ b)) :
    roundToDouble x
        = (roundHalfEven (x / ((2 : ℚ) ^ a / 2 ^ b / 2 ^ 52)) : ℚ)
          * ((2 : ℚ) ^ a / 2 ^ b / 2 ^ 52)
    ∧ |(roundHalfEven (x / ((2 : ℚ) ^ a / 2 ^ b / 2 ^ 52)) : ℚ)
        - x / ((2 : ℚ) ^ a / 2 ^ b / 2 ^ 52)| ≤ 1 / 2 := by
  have hpos : (0 : ℚ) < (2 : ℚ) ^ a / 2 ^ b := by positivity
  refine ⟨?_, roundHalfEven_near _⟩
  unfold roundToDouble
  rw [if_neg (ne_of_gt (lt_of_lt_of_le hpos h1)), doubleUlp_eq x a b ha hb h1 h2]


theorem average_core (Q : Nat) (nA nB : Int) (mA mB : ℚ)
    (hmA : mA = 1 ∨ mA = 2) (hmB : mB = 4 ∨ mB = 8)
    (hA : |(nA : ℚ) - mA * ((Q : ℚ) * (3602879701896397 / 4503599627370496))| ≤ 1 / 2)
    (hB : |(nB : ℚ) - mB * ((Q : ℚ) * (900719925474099 / 4503599627370496))| ≤ 1 / 2) :
    (Q : ℚ) - 1 / 2 ≤ (nA : ℚ) / mA + (nB : ℚ) / mB
    ∧ (nA : ℚ) / mA + (nB : ℚ) / mB ≤ (Q : ℚ) + 5 / 8 := by
  obtain ⟨a1, a2⟩ := abs_le.mp hA
  obtain ⟨b1, b2⟩ := abs_le.mp hB
  rcases hmA with rfl | rfl <;> rcases hmB with rfl | rfl
  · have hz : (-5 : ℚ) ≤ ((8 * nA + 2 * nB - 8 * (Q : ℤ) : ℤ) : ℚ) := by
      push_cast; linarith
    have hz1 : (-5 : ℤ) ≤ 8 * nA + 2 * nB - 8 * (Q : ℤ) := by exact_mod_cast hz
    have hz2 : (-4 : ℤ) ≤ 8 * nA + 2 * nB - 8 * (Q : ℤ) := by omega
    have hz3 : (-4 : ℚ) ≤ ((8 * nA + 2 * nB - 8 * (Q : ℤ) : ℤ) : ℚ) := by exact_mod_cast hz2
    push_cast at hz3
    constructor <;> linarith
  · have hz : (-5 : ℚ) < ((8 * nA + nB - 8 * (Q : ℤ) : ℤ) : ℚ) := by
      push_cast; linarith
    have hz1 : (-5 : ℤ) < 8 * nA + nB - 8 * (Q : ℤ) := by exact_mod_cast hz
    have hz3 : (-4 : ℚ) ≤ ((8 * nA + nB - 8 * (Q : ℤ) : ℤ) : ℚ) := by
      exact_mod_cast (show (-4 : ℤ) ≤ 8 * nA + nB - 8 * (Q : ℤ) by omega)
    push_cast at hz3
    constructor <;> linarith
  · constructor <;> linarith
  · constructor <;> linarith

/-- Averaging a history with an equal sample gives the history back: the two rounded
products add up to within half a unit in the last place of `h`, and the sum rounds to `h`. -/
theorem averaged_same (e h : Nat) (he : e ≤ 31) (h1 : 2 ^ e ≤ h) (h2 : h < 2 ^ (e + 1)) :
    (h : ℚ) ≤ roundToDouble
      (roundToDouble (roundToDouble (h : ℚ) * partialGCTimeHistoricWeight)
        + roundToDouble
            (roundToDouble (h : ℚ) * roundToDouble (1 - partialGCTimeHistoricWeight))) := by
  obtain ⟨w1, w2⟩ := partialGCTimeHistoricWeight_eq
  rw [w2, w1]
  have hk : 2 * 2 ^ (51 - e) * 2 ^ e = 2 ^ 52 := by
    rw [mul_assoc, ← pow_add, ← pow_succ']
    congr 1
    omega
  have hkpos : 1 ≤ 2 ^ (51 - e) := Nat.one_le_two_pow
  obtain ⟨Q, hQ⟩ : ∃ Q, Q = 2 * 2 ^ (51 - e) * h := ⟨_, rfl⟩
  have hQ1 : 2 ^ 52 ≤ Q := by
    rw [hQ, ← hk]
    exact Nat.mul_le_mul_left _ h1
  have hQ2 : Q + 2 ≤ 2 ^ 53 := by
    have h3 : h + 1 ≤ 2 ^ (e + 1) := h2
    have := Nat.mul_le_mul_left (2 * 2 ^ (51 - e)) h3
    rw [pow_succ, ← mul_assoc, hk, mul_add, ← hQ] at this
    omega
  have hQeven : ((Q : ℤ)) % 2 = 0 := by
    rw [hQ, mul_assoc]
    push_cast
    omega
  have hQne : h ≠ 2 ^ e → 2 ^ 52 + 2 ≤ Q := by
    intro hne
    have h3 : 2 ^ e + 1 ≤ h := by omega
    have := Nat.mul_le_mul_left (2 * 2 ^ (51 - e)) h3
    rw [mul_add, hk, ← hQ] at this
    omega
  have hQeq : h = 2 ^ e → Q = 2 ^ 52 := by
    intro heq
    rw [hQ, heq, hk]
  have cQn : 2 ^ e * Q = 2 ^ 52 * h := by
    rw [hQ, ← hk]
    ring
  have cQ : (2 : ℚ) ^ e * (Q : ℚ) = 2 ^ 52 * (h : ℚ) := by exact_mod_cast cQn
  have c1 : (2 : ℚ) ^ e ≤ (h : ℚ) := by exact_mod_cast h1
  have c2 : (h : ℚ) < 2 * (2 : ℚ) ^ e := by
    have : h < 2 * 2 ^ e := by rw [pow_succ] at h2; omega
    exact_mod_cast this
  have cne : (h : ℚ) = (2 : ℚ) ^ e → h = 2 ^ e := by
    intro hc
    exact_mod_cast hc
  have q1 : (2 : ℚ) ^ 52 ≤ (Q : ℚ) := by exact_mod_cast hQ1
  have q2 : (Q : ℚ) + 2 ≤ 2 ^ 53 := by exact_mod_cast hQ2
  have qpos : (0 : ℚ) < (Q : ℚ) := by
    have : (0 : ℚ) < 2 ^ 52 := by norm_num
    linarith
  have e100 : e ≤ 100 := by omega
  have dpos : (0 : ℚ) < (2 : ℚ) ^ e := by positivity
  have hh : (h : ℚ) = (2 : ℚ) ^ e * (Q : ℚ) / 2 ^ 52 := by
    rw [cQ]
    norm_num
  have hdiv : ∀ (c : ℚ) (b : Nat),
      (h : ℚ) * c / ((2 : ℚ) ^ e / 2 ^ b / 2 ^ 52) = 2 ^ b * ((Q : ℚ) * c) := by
    intro c b
    rw [hh]
    field_simp
    ring
  -- the history is a double
  have flh : roundToDouble (h : ℚ) = (h : ℚ) := by
    obtain ⟨g1, -⟩ := roundToDouble_grid (h : ℚ) e 0 e100 (by omega)
      (by rw [pow_zero, div_one]; exact c1) (by rw [pow_zero, div_one]; exact c2)
    have hx : (h : ℚ) / ((2 : ℚ) ^ e / 2 ^ 0 / 2 ^ 52) = ((Q : ℤ) : ℚ) := by
      have := hdiv 1 0
      rw [mul_one, mul_one, pow_zero, one_mul] at this
      rw [pow_zero, this]
      norm_cast
    rw [hx, roundHalfEven_intCast] at g1
    rw [g1, hh]
    push_cast
    field_simp
    ring
  rw [flh]
  -- the two products
  have x1lo : (2 : ℚ) ^ e / 2 ^ 1 ≤ (h : ℚ) * (3602879701896397 / 4503599627370496) := by
    rw [pow_one]; linarith
  have x1hi : (h : ℚ) * (3602879701896397 / 4503599627370496) < 2 * ((2 : ℚ) ^ e / 2 ^ 0) := by
    rw [pow_zero, div_one]; linarith
  have x2lo : (2 : ℚ) ^ e / 2 ^ 3 ≤ (h : ℚ) * (900719925474099 / 4503599627370496) := by
    norm_num; linarith
  have x2hi : (h : ℚ) * (900719925474099 / 4503599627370496) < 2 * ((2 : ℚ) ^ e / 2 ^ 2) := by
    norm_num; linarith
  -- the first product on its grid
  obtain ⟨nA, mA, hmA, gA, nearA, caseA⟩ : ∃ (nA : ℤ) (mA : ℚ), (mA = 1 ∨ mA = 2)
      ∧ roundToDouble ((h : ℚ) * (3602879701896397 / 4503599627370496))
          = (nA : ℚ) / mA * ((2 : ℚ) ^ e / 2 ^ 52)
      ∧ |(nA : ℚ) - mA * ((Q : ℚ) * (3602879701896397 / 4503599627370496))| ≤ 1 / 2
      ∧ (h = 2 ^ e → mA = 2) := by
    by_cases cA : (h : ℚ) * (3602879701896397 / 4503599627370496) < (2 : ℚ) ^ e
    · obtain ⟨g1, g2⟩ := roundToDouble_grid _ e 1 e100 (by omega) x1lo
        (by rw [pow_one]; linarith)
      rw [hdiv] at g1 g2
      refine ⟨roundHalfEven (2 ^ 1 * ((Q : ℚ) * (3602879701896397 / 4503599627370496))), 2, Or.inr rfl, ?_, ?_,
        fun _ => rfl⟩
      · rw [g1]; ring
      · rw [pow_one] at g2; exact g2
    · obtain ⟨g1, g2⟩ := roundToDouble_grid _ e 0 e100 (by omega)
        (by rw [pow_zero, div_one]; exact not_lt.mp cA) x1hi
      rw [hdiv] at g1 g2
      refine ⟨roundHalfEven (2 ^ 0 * ((Q : ℚ) * (3602879701896397 / 4503599627370496))), 1, Or.inl rfl, ?_, ?_, ?_⟩
      · rw [g1]; ring
      · rw [pow_zero] at g2; exact g2
      · intro heq
        exfalso
        apply cA
        have : (h : ℚ) = (2 : ℚ) ^ e := by exact_mod_cast heq
        rw [this]
        linarith
  obtain ⟨nB, mB, hmB, gB, nearB, caseB⟩ : ∃ (nB : ℤ) (mB : ℚ), (mB = 4 ∨ mB = 8)
      ∧ roundToDouble ((h : ℚ) * (900719925474099 / 4503599627370496))
          = (nB : ℚ) / mB * ((2 : ℚ) ^ e / 2 ^ 52)
      ∧ |(nB : ℚ) - mB * ((Q : ℚ) * (900719925474099 / 4503599627370496))| ≤ 1 / 2
      ∧ (h = 2 ^ e → mB = 8) := by
    by_cases cB : (h : ℚ) * (900719925474099 / 4503599627370496) < (2 : ℚ) ^ e / 2 ^ 2
    · obtain ⟨g1, g2⟩ := roundToDouble_grid _ e 3 e100 (by omega) x2lo
        (by norm_num; norm_num at cB; linarith)
      rw [hdiv] at g1 g2
      refine ⟨roundHalfEven (2 ^ 3 * ((Q : ℚ) * (900719925474099 / 4503599627370496))), 8, Or.inr rfl, ?_, ?_,
        fun _ => rfl⟩
      · rw [g1]; ring
      · norm_num at g2 ⊢; exact g2
    · obtain ⟨g1, g2⟩ := roundToDouble_grid _ e 2 e100 (by omega)
        (not_lt.mp cB) x2hi
      rw [hdiv] at g1 g2
      refine ⟨roundHalfEven (2 ^ 2 * ((Q : ℚ) * (900719925474099 / 4503599627370496))), 4, Or.inl rfl, ?_, ?_, ?_⟩
      · rw [g1]; ring
      · norm_num at g2 ⊢; exact g2
      · intro heq
        exfalso
        apply cB
        have : (h : ℚ) = (2 : ℚ) ^ e := by exact_mod_cast heq
        rw [this]
        norm_num
        linarith
  rw [gA, gB]
  obtain ⟨lo, hi⟩ := average_core Q nA nB mA mB hmA hmB nearA nearB
  -- the sum lies in the binade of the history
  have hbin : (2 : ℚ) ^ 52 ≤ (nA : ℚ) / mA + (nB : ℚ) / mB := by
    by_cases heq : h = 2 ^ e
    · have hq : (Q : ℚ) = 2 ^ 52 := by exact_mod_cast hQeq heq
      rw [caseA heq, hq] at nearA
      rw [caseB heq, hq] at nearB
      rw [caseA heq, caseB heq]
      obtain ⟨a1, a2⟩ := abs_le.mp nearA
      obtain ⟨b1, b2⟩ := abs_le.mp nearB
      have ha : nA = 7205759403792794 := by
        have l1 : ((7205759403792793 : ℤ) : ℚ) < (nA : ℚ) := by push_cast; linarith
        have l2 : (nA : ℚ) < ((7205759403792795 : ℤ) : ℚ) := by push_cast; linarith
        have l1' : (7205759403792793 : ℤ) < nA := by exact_mod_cast l1
        have l2' : nA < (7205759403792795 : ℤ) := by exact_mod_cast l2
        omega
      have hb : nB = 7205759403792792 := by
        have l1 : ((7205759403792791 : ℤ) : ℚ) < (nB : ℚ) := by push_cast; linarith
        have l2 : (nB : ℚ) < ((7205759403792793 : ℤ) : ℚ) := by push_cast; linarith
        have l1' : (7205759403792791 : ℤ) < nB := by exact_mod_cast l1
        have l2' : nB < (7205759403792793 : ℤ) := by exact_mod_cast l2
        omega
      rw [ha, hb]
      norm_num
    · have : (2 : ℚ) ^ 52 + 2 ≤ (Q : ℚ) := by exact_mod_cast hQne heq
      linarith
  have hpos52 : (0 : ℚ) < (2 : ℚ) ^ e / 2 ^ 52 := by positivity
  have ylo : (2 : ℚ) ^ e / 2 ^ 0
      ≤ (nA : ℚ) / mA * ((2 : ℚ) ^ e / 2 ^ 52) + (nB : ℚ) / mB * ((2 : ℚ) ^ e / 2 ^ 52) := by
    rw [← add_mul, pow_zero, div_one]
    have := mul_le_mul_of_nonneg_right hbin (le_of_lt hpos52)
    have e1 : (2 : ℚ) ^ 52 * ((2 : ℚ) ^ e / 2 ^ 52) = (2 : ℚ) ^ e := by field_simp
    rw [e1] at this
    exact this
  have yhi : (nA : ℚ) / mA * ((2 : ℚ) ^ e / 2 ^ 52) + (nB : ℚ) / mB * ((2 : ℚ) ^ e / 2 ^ 52)
      < 2 * ((2 : ℚ) ^ e / 2 ^ 0) := by
    rw [← add_mul, pow_zero, div_one]
    have hlt : (nA : ℚ) / mA + (nB : ℚ) / mB < 2 ^ 53 := by linarith
    have := mul_lt_mul_of_pos_right hlt hpos52
    have e1 : (2 : ℚ) ^ 53 * ((2 : ℚ) ^ e / 2 ^ 52) = 2 * (2 : ℚ) ^ e := by
      field_simp
      ring
    rw [e1] at this
    exact this
  obtain ⟨g1, -⟩ := roundToDouble_grid _ e 0 e100 (by omega) ylo yhi
  have hy : ((nA : ℚ) / mA * ((2 : ℚ) ^ e / 2 ^ 52) + (nB : ℚ) / mB * ((2 : ℚ) ^ e / 2 ^ 52))
      / ((2 : ℚ) ^ e / 2 ^ 0 / 2 ^ 52) = (nA : ℚ) / mA + (nB : ℚ) / mB := by
    rw [← add_mul, pow_zero, div_one]
    field_simp
  rw [g1, hy]
  have hge := roundHalfEven_ge_of_even (Q : ℤ) ((nA : ℚ) / mA + (nB : ℚ) / mB) hQeven
    (by push_cast; exact lo)
  have hge' : (Q : ℚ) ≤ (roundHalfEven ((nA : ℚ) / mA + (nB : ℚ) / mB) : ℚ) := by
    exact_mod_cast hge
  have := mul_le_mul_of_nonneg_right hge' (le_of_lt hpos52)
  rw [pow_zero, div_one]
  calc (h : ℚ) = (Q : ℚ) * ((2 : ℚ) ^ e / 2 ^ 52) := by rw [hh]; ring
    _ ≤ _ := this


/-- A history equal to the sample is kept: `nextHistoricalPartialGCTime p p = p`. -/
theorem next_same (p : Nat) (hp0 : 0 < p) (hp : p ≤ U_32_MAX) :
    nextHistoricalPartialGCTime p p = p := by
  obtain ⟨a, -, -⟩ := next_bounds p p hp0 hp hp
  have hlog1 : 2 ^ Nat.log 2 p ≤ p := Nat.pow_log_le_self 2 (by omega)
  have hlog2 : p < 2 ^ (Nat.log 2 p + 1) := Nat.lt_pow_succ_log_self (by norm_num) p
  have hlog3 : Nat.log 2 p ≤ 31 := by
    have : Nat.log 2 p < 32 := Nat.log_lt_of_lt_pow (by omega) (by unfold U_32_MAX at hp; omega)
    omega
  have hge := averaged_same (Nat.log 2 p) p hlog3 hlog1 hlog2
  have hfl : p ≤ nextHistoricalPartialGCTime p p := by
    unfold nextHistoricalPartialGCTime
    rw [if_neg (by omega)]
    unfold doubleToUDATA wrapU
    have hle : p ≤ ⌊roundToDouble
        (roundToDouble (roundToDouble (p : ℚ) * partialGCTimeHistoricWeight)
          + roundToDouble
              (roundToDouble (p : ℚ) * roundToDouble (1 - partialGCTimeHistoricWeight)))⌋₊ :=
      Nat.le_floor hge
    obtain ⟨lo, hi⟩ := averaged_near p p hp0 hp hp
    have hub : ⌊roundToDouble
        (roundToDouble (roundToDouble (p : ℚ) * partialGCTimeHistoricWeight)
          + roundToDouble
              (roundToDouble (p : ℚ) * roundToDouble (1 - partialGCTimeHistoricWeight)))⌋₊
        < 2 ^ 64 := by
      apply (Nat.floor_lt (le_trans (Nat.cast_nonneg p) hge)).mpr
      have : ((4 * p + p : Nat) : ℚ) ≤ 5 * 4294967295 := by
        unfold U_32_MAX at hp
        have : 4 * p + p ≤ 5 * 4294967295 := by omega
        exact_mod_cast this
      have e64 : ((2 ^ 64 : Nat) : ℚ) = 18446744073709551616 := by norm_num
      rw [e64]
      linarith
    rw [Nat.mod_eq_of_lt hub]
    exact hle
  omega

theorem next_above (p h : Nat) (hp : p ≤ U_32_MAX) (hh : h ≤ U_32_MAX) (hlt : p < h) :
    p ≤ nextHistoricalPartialGCTime p h ∧ nextHistoricalPartialGCTime p h < h := by
  obtain ⟨a, b, c⟩ := next_bounds p h (by omega) hh hp
  by_cases h5 : (4 * h + p) % 5 = 0
  · omega
  · have := c h5
    omega

theorem next_below (p h : Nat) (hp : p ≤ U_32_MAX) (h0 : 0 < h) (hlt : h < p) :
    h ≤ nextHistoricalPartialGCTime p h ∧ nextHistoricalPartialGCTime p h < p
    ∧ (h + 6 ≤ p → h < nextHistoricalPartialGCTime p h) := by
  obtain ⟨a, b, c⟩ := next_bounds p h h0 (by omega) hp
  by_cases h5 : (4 * h + p) % 5 = 0
  · omega
  · have := c h5
    omega

theorem next_distance (p h : Nat) (hp : p ≤ U_32_MAX) (hh : h ≤ U_32_MAX) :
    |(nextHistoricalPartialGCTime p h : Int) - p| ≤ |(h : Int) - p| := by
  rcases Nat.eq_zero_or_pos h with h0 | h0
  · rw [h0, next_zero]; simp
  · rcases lt_trichotomy h p with hlt | heq | hgt
    · obtain ⟨a, b, -⟩ := next_below p h hp h0 hlt
      rw [abs_of_nonpos (by omega), abs_of_nonpos (by omega)]
      omega
    · rw [heq, next_same p (by omega) hp]
    · obtain ⟨a, b⟩ := next_above p h hp hh hgt
      rw [abs_of_nonneg (by omega), abs_of_nonneg (by omega)]
      omega

theorem iterate_next_le (p : Nat) (hp : p ≤ U_32_MAX) :
    ∀ (k h : Nat), h ≤ U_32_MAX → (nextHistoricalPartialGCTime p)^[k] h ≤ U_32_MAX := by
  intro k
  induction k with
  | zero => intro h hh; exact hh
  | succ k ih =>
    intro h hh
    rw [Function.iterate_succ_apply]
    exact ih _ (next_le_U32 p h hp hh).2

theorem iterate_next_same (p : Nat) (hp0 : 0 < p) (hp : p ≤ U_32_MAX) :
    ∀ k : Nat, (nextHistoricalPartialGCTime p)^[k] p = p := by
  intro k
  induction k with
  | zero => rfl
  | succ k ih => rw [Function.iterate_succ_apply, next_same p hp0 hp, ih]

/-- From above the sample the history falls by at least one per call until it equals the
sample. -/
theorem iterate_next_above (p : Nat) (hp0 : 0 < p) (hp : p ≤ U_32_MAX) :
    ∀ (k h : Nat), h ≤ U_32_MAX → p ≤ h →
      p ≤ (nextHistoricalPartialGCTime p)^[k] h
      ∧ ((nextHistoricalPartialGCTime p)^[k] h = p
          ∨ (nextHistoricalPartialGCTime p)^[k] h + k ≤ h) := by
  intro k
  induction k with
  | zero => intro h _ hge; exact ⟨hge, Or.inr (le_refl _)⟩
  | succ k ih =>
    intro h hh hge
    rw [Function.iterate_succ_apply]
    rcases Nat.eq_or_lt_of_le hge with e | e
    · subst e
      rw [next_same p hp0 hp, iterate_next_same p hp0 hp]
      exact ⟨le_refl _, Or.inl rfl⟩
    · obtain ⟨a, b⟩ := next_above p h hp hh e
      obtain ⟨c, d⟩ := ih (nextHistoricalPartialGCTime p h) (by omega) a
      refine ⟨c, ?_⟩
      rcases d with d | d
      · left; exact d
      · right; omega

/-- From below the sample the history rises by at least one per call until it is within 5
of the sample, and stays below the sample. -/
theorem iterate_next_below (p : Nat) (hp : p ≤ U_32_MAX) :
    ∀ (k h : Nat), 0 < h → h < p →
      h ≤ (nextHistoricalPartialGCTime p)^[k] h
      ∧ (nextHistoricalPartialGCTime p)^[k] h < p
      ∧ (p ≤ (nextHistoricalPartialGCTime p)^[k] h + 5
          ∨ h + k ≤ (nextHistoricalPartialGCTime p)^[k] h) := by
  intro k
  induction k with
  | zero => intro h h0 hh; exact ⟨le_refl _, hh, Or.inr (le_refl _)⟩
  | succ k ih =>
    intro h h0 hh
    rw [Function.iterate_succ_apply]
    obtain ⟨a, b, c⟩ := next_below p h hp h0 hh
    obtain ⟨d, e, f⟩ := ih (nextHistoricalPartialGCTime p h) (by omega) b
    refine ⟨by omega, e, ?_⟩
    rcases f with f | f
    · left; exact f
    · by_cases h6 : h + 6 ≤ p
      · right; have := c h6; omega
      · left; omega

theorem repeat_pgcTime_history (p : Nat) (hp : p ≤ U_32_MAX) :
    ∀ (k : Nat) (s : MM_SchedulingDelegate), s._historicalPartialGCTime ≤ U_32_MAX →
      ∃ s', repeatCalculateGlobalMarkIncrementTimeMillis p k s = .ok s'
        ∧ s'._historicalPartialGCTime
            = (nextHistoricalPartialGCTime p)^[k] s._historicalPartialGCTime := by
  intro k
  induction k with
  | zero => intro s _; exact ⟨s, rfl, rfl⟩
  | succ k ih =>
    intro s hh
    have hle := (next_le_U32 p s._historicalPartialGCTime hp hh).2
    have hstep := calculateGlobalMarkIncrementTimeMillis_accept p s hp hle
    obtain ⟨s', h1, h2⟩ := ih _ (show MM_SchedulingDelegate._historicalPartialGCTime
      { s with
        _historicalPartialGCTime := nextHistoricalPartialGCTime p s._historicalPartialGCTime
        _dynamicGlobalMarkIncrementTimeMillis :=
          max (nextHistoricalPartialGCTime p s._historicalPartialGCTime / 3) 1 } ≤ U_32_MAX
      from hle)
    refine ⟨s', ?_, ?_⟩
    · unfold repeatCalculateGlobalMarkIncrementTimeMillis
      rw [hstep]
      exact h1
    · rw [h2, Function.iterate_succ_apply]

/-- C13 (amended): fed the same sample `p` (`0 < p ≤ 2^32-1`) on every call, starting from
any history `h 0 ≤ 2^32-1`, every call of `calculateGlobalMarkIncrementTimeMillis` returns,
the distance `|h k - p|` of the history after `k` calls never increases, and the history
ends within `[p - 5, p]`.  It ends at `p` exactly when it starts at 0 or at or above `p`; a
history that starts in `(0, p)` stays below `p` for ever, because the cast to an integer
rounds the double average down. -/
theorem C13_pgc_time_history_approaches_sample (p : Nat) (s : MM_SchedulingDelegate)
    (hp0 : 0 < p) (hp : p ≤ U_32_MAX) (hh : s._historicalPartialGCTime ≤ U_32_MAX) :
    ∃ h : Nat → Nat,
      h 0 = s._historicalPartialGCTime
      ∧ (∀ k, ∃ s', repeatCalculateGlobalMarkIncrementTimeMillis p k s = .ok s'
          ∧ s'._historicalPartialGCTime = h k)
      ∧ (∀ k, |(h (k + 1) : Int) - p| ≤ |(h k : Int) - p|)
      ∧ (∃ K, ∀ k, K ≤ k → h k ≤ p ∧ p ≤ h k + 5)
      ∧ ((s._historicalPartialGCTime = 0 ∨ p ≤ s._historicalPartialGCTime) →
          ∃ K, ∀ k, K ≤ k → h k = p)
      ∧ (0 < s._historicalPartialGCTime → s._historicalPartialGCTime < p →
          ∀ k, h k < p) := by
  refine ⟨fun k => (nextHistoricalPartialGCTime p)^[k] s._historicalPartialGCTime,
    rfl, fun k => repeat_pgcTime_history p hp k s hh, ?_, ?_, ?_, ?_⟩
  · intro k
    dsimp only
    rw [Function.iterate_succ_apply']
    exact next_distance p _ hp (iterate_next_le p hp k _ hh)
  · refine ⟨s._historicalPartialGCTime + p + 1, ?_⟩
    intro k hk
    dsimp only
    rcases Nat.eq_zero_or_pos s._historicalPartialGCTime with h0 | h0
    · obtain ⟨j, rfl⟩ : ∃ j, k = j + 1 := ⟨k - 1, by omega⟩
      rw [h0, Function.iterate_succ_apply, next_zero, iterate_next_same p hp0 hp]
      omega
    · rcases lt_or_le s._historicalPartialGCTime p with hlt | hge
      · obtain ⟨a, b, c⟩ := iterate_next_below p hp k _ h0 hlt
        omega
      · obtain ⟨a, b⟩ := iterate_next_above p hp0 hp k _ hh hge
        omega
  · intro hcase
    refine ⟨s._historicalPartialGCTime + 1, ?_⟩
    intro k hk
    dsimp only
    rcases hcase with h0 | hge
    · obtain ⟨j, rfl⟩ : ∃ j, k = j + 1 := ⟨k - 1, by omega⟩
      rw [h0, Function.iterate_succ_apply, next_zero, iterate_next_same p hp0 hp]
    · obtain ⟨a, b⟩ := iterate_next_above p hp0 hp k _ hh hge
      omega
  · intro h0 hlt k
    exact (iterate_next_below p hp k _ h0 hlt).2.1

theorem C13_witness :
    ∃ K, ∀ k, K ≤ k → ∀ s',
      repeatCalculateGlobalMarkIncrementTimeMillis 10 k (testDelegateWithPgcHistory 20 50)
        = .ok s' → s'._historicalPartialGCTime = 10 := by
  obtain ⟨h, -, hrun, -, -, hconv, -⟩ :=
    C13_pgc_time_history_approaches_sample 10 (testDelegateWithPgcHistory 20 50)
      (by decide) (by decide) (by decide)
  obtain ⟨K, hK⟩ := hconv (Or.inr (by decide))
  refine ⟨K, fun k hk s' hs' => ?_⟩
  obtain ⟨s'', h1, h2⟩ := hrun k
  rw [h1] at hs'
  cases hs'
  rw [h2]
  exact hK k hk

/-- C13, the claim as stated fails: with history 1 and sample 6 the call returns the very
state it was given (the doubles give 1·0.8 + 6·0.19999999999999996 = 1.9999999999999998,
which the cast truncates to 1), so however often the sample 6 is fed, the history stays
1 = 6 - 5 and never equals 6. -/
theorem C13_counterexample :
    calculateGlobalMarkIncrementTimeMillis 6 (testDelegateWithPgcHistory 1 1)
      = .ok (testDelegateWithPgcHistory 1 1)
    ∧ (testDelegateWithPgcHistory 1 1)._historicalPartialGCTime = 1
    ∧ ∀ k, repeatCalculateGlobalMarkIncrementTimeMillis 6 k (testDelegateWithPgcHistory 1 1)
        = .ok (testDelegateWithPgcHistory 1 1) := by
  have h1 : calculateGlobalMarkIncrementTimeMillis 6 (testDelegateWithPgcHistory 1 1)
      = .ok (testDelegateWithPgcHistory 1 1) := by decide!
  refine ⟨h1, rfl, ?_⟩
  intro k
  induction k with
  | zero => rfl
  | succ k ih =>
    unfold repeatCalculateGlobalMarkIncrementTimeMillis
    rw [h1]
    exact ih

/-- C14 (amended): a `pgcTime` above 2^32-1 leaves the delegate as it was (so
`historicalPartialGCTime` and `dynamicGlobalMarkIncrementTimeMillis` keep their values);
a `pgcTime` of at most 2^32-1 seeds an empty history with `pgcTime`, and otherwise sets the
history to the truncated double `historicalPartialGCTime * 0.80 + pgcTime * (1 - 0.80)`.
For a history of at most 2^32-1 the call returns, and that value is
`floor(0.80·historicalPartialGCTime + 0.20·pgcTime)` or one less, the floor itself whenever
`4·historicalPartialGCTime + pgcTime` is not a multiple of 5 and also when the history
equals `pgcTime`; the increment time becomes a third of the new history, at least 1.  For a larger history the call returns exactly when
the new value passes the assertion `≤ 2^32-1`. -/
theorem C14_pgc_time_sample_dropped_or_averaged (pgcTime : Nat) (s : MM_SchedulingDelegate) :
    (U_32_MAX < pgcTime → calculateGlobalMarkIncrementTimeMillis pgcTime s = .ok s)
    ∧ (pgcTime ≤ U_32_MAX → s._historicalPartialGCTime = 0 →
        ∃ s', calculateGlobalMarkIncrementTimeMillis pgcTime s = .ok s'
          ∧ s'._historicalPartialGCTime = pgcTime)
    ∧ (pgcTime ≤ U_32_MAX → s._historicalPartialGCTime ≠ 0 →
        s._historicalPartialGCTime ≤ U_32_MAX →
        ∃ s', calculateGlobalMarkIncrementTimeMillis pgcTime s = .ok s'
          ∧ s'._historicalPartialGCTime
              = doubleToUDATA (roundToDouble
                  (roundToDouble
                      (roundToDouble (s._historicalPartialGCTime : ℚ)
                        * partialGCTimeHistoricWeight)
                    + roundToDouble
                        (roundToDouble (pgcTime : ℚ)
                          * roundToDouble (1 - partialGCTimeHistoricWeight))))
          ∧ s'._historicalPartialGCTime
              ≤ ⌊(8 / 10 : ℚ) * (s._historicalPartialGCTime : ℚ)
                  + (2 / 10 : ℚ) * (pgcTime : ℚ)⌋₊
          ∧ ⌊(8 / 10 : ℚ) * (s._historicalPartialGCTime : ℚ)
                + (2 / 10 : ℚ) * (pgcTime : ℚ)⌋₊ ≤ s'._historicalPartialGCTime + 1
          ∧ ((4 * s._historicalPartialGCTime + pgcTime) % 5 ≠ 0 →
              s'._historicalPartialGCTime
                = ⌊(8 / 10 : ℚ) * (s._historicalPartialGCTime : ℚ)
                    + (2 / 10 : ℚ) * (pgcTime : ℚ)⌋₊)
          ∧ (s._historicalPartialGCTime = pgcTime → s'._historicalPartialGCTime = pgcTime)
          ∧ s'._dynamicGlobalMarkIncrementTimeMillis
              = max (s'._historicalPartialGCTime / 3) 1)
    ∧ (∀ s', pgcTime ≤ U_32_MAX → s._historicalPartialGCTime ≠ 0 →
        calculateGlobalMarkIncrementTimeMillis pgcTime s = .ok s' →
        s'._historicalPartialGCTime
          = doubleToUDATA (roundToDouble
              (roundToDouble
                  (roundToDouble (s._historicalPartialGCTime : ℚ)
                    * partialGCTimeHistoricWeight)
                + roundToDouble
                    (roundToDouble (pgcTime : ℚ)
                      * roundToDouble (1 - partialGCTimeHistoricWeight))))
        ∧ s'._historicalPartialGCTime ≤ U_32_MAX) := by
  have hnext : s._historicalPartialGCTime ≠ 0 →
      nextHistoricalPartialGCTime pgcTime s._historicalPartialGCTime
        = doubleToUDATA (roundToDouble
            (roundToDouble
                (roundToDouble (s._historicalPartialGCTime : ℚ)
                  * partialGCTimeHistoricWeight)
              + roundToDouble
                  (roundToDouble (pgcTime : ℚ)
                    * roundToDouble (1 - partialGCTimeHistoricWeight)))) := by
    intro h0
    unfold nextHistoricalPartialGCTime
    rw [if_neg (fun e => h0 e.symm)]
  refine ⟨?_, ?_, ?_, ?_⟩
  · intro h
    unfold calculateGlobalMarkIncrementTimeMillis
    rw [if_pos h]
  · intro hp h0
    have hle := (next_le_U32 pgcTime s._historicalPartialGCTime hp (by rw [h0]; decide)).2
    refine ⟨_, calculateGlobalMarkIncrementTimeMillis_accept pgcTime s hp hle, ?_⟩
    show nextHistoricalPartialGCTime pgcTime s._historicalPartialGCTime = pgcTime
    rw [h0, next_zero]
  · intro hp h0 hh
    have hle := (next_le_U32 pgcTime s._historicalPartialGCTime hp hh).2
    obtain ⟨a, b, c⟩ := next_bounds pgcTime s._historicalPartialGCTime
      (Nat.pos_of_ne_zero h0) hh hp
    rw [pgcTime_average_floor]
    refine ⟨_, calculateGlobalMarkIncrementTimeMillis_accept pgcTime s hp hle,
      hnext h0, a, b, c, ?_, rfl⟩
    intro heq
    show nextHistoricalPartialGCTime pgcTime s._historicalPartialGCTime = pgcTime
    rw [heq]
    exact next_same pgcTime (by rw [← heq]; exact Nat.pos_of_ne_zero h0) hp
  · intro s' hp h0 hret
    by_cases hle : nextHistoricalPartialGCTime pgcTime s._historicalPartialGCTime ≤ U_32_MAX
    · rw [calculateGlobalMarkIncrementTimeMillis_accept pgcTime s hp hle] at hret
      cases hret
      exact ⟨hnext h0, hle⟩
    · rw [calculateGlobalMarkIncrementTimeMillis_reject pgcTime s hp hle] at hret
      cases hret

theorem C14_witness :
    calculateGlobalMarkIncrementTimeMillis (2 ^ 32) (testDelegateWithPgcHistory 100 33)
      = .ok (testDelegateWithPgcHistory 100 33)
    ∧ (∃ s', calculateGlobalMarkIncrementTimeMillis 30 (testDelegateWithPgcHistory 0 50) = .ok s'
        ∧ s'._historicalPartialGCTime = 30)
    ∧ calculateGlobalMarkIncrementTimeMillis 30 (testDelegateWithPgcHistory 100 33)
      = .ok (testDelegateWithPgcHistory 86 28) :=
  ⟨(C14_pgc_time_sample_dropped_or_averaged (2 ^ 32) (testDelegateWithPgcHistory 100 33)).1
      (by decide),
    (C14_pgc_time_sample_dropped_or_averaged 30 (testDelegateWithPgcHistory 0 50)).2.1
      (by decide) rfl,
    by decide!⟩

/-- C14, the claim as stated fails: with history 100 and sample 500 the code stores 179 (and
the increment time 59 = 179 / 3), because the doubles give
100·0.8 + 500·0.19999999999999996 = 179.99999999999997, while
`floor(0.80·100 + 0.20·500) = 180`. -/
theorem C14_counterexample :
    calculateGlobalMarkIncrementTimeMillis 500 (testDelegateWithPgcHistory 100 33)
      = .ok (testDelegateWithPgcHistory 179 59)
    ∧ (testDelegateWithPgcHistory 179 59)._historicalPartialGCTime = 179
    ∧ ⌊(8 / 10 : ℚ) * ((100 : Nat) : ℚ) + (2 / 10 : ℚ) * ((500 : Nat) : ℚ)⌋₊ = 180 := by
  refine ⟨by decide!, rfl, ?_⟩
  norm_num

/-! ## Facts about the scan rate and the consumption rate -/

theorem measureScanRate_of_zero (env : MM_EnvironmentVLHGC) (w : ℚ) (s : MM_SchedulingDelegate)
    (h : (measureScanRateSample env).1 = 0) : measureScanRate env w s = s := by
  unfold measureScanRate
  dsimp only
  rw [if_neg (by rw [h]; decide)]

theorem measureScanRateSample_lt (env : MM_EnvironmentVLHGC) :
    (measureScanRateSample env).1 < 2 ^ 64 := by
  unfold measureScanRateSample
  split <;> exact wrapU_lt _

theorem doubleToUDATA_constant_average (b : Nat) (w : ℚ) (hb : b < 2 ^ 64) :
    doubleToUDATA ((b : ℚ) * w + (b : ℚ) * (1 - w)) = b := by
  have e : (b : ℚ) * w + (b : ℚ) * (1 - w) = (b : ℚ) := by ring
  rw [e]
  unfold doubleToUDATA wrapU
  rw [Nat.floor_natCast]
  exact Nat.mod_eq_of_lt hb

/-- One `measureScanRate` call with a sample of `b ≠ 0` bytes on a history that is empty or
already equal to the sample leaves the history equal to the sample. -/
theorem measureScanRate_same_sample (env : MM_EnvironmentVLHGC) (w : ℚ)
    (s : MM_SchedulingDelegate)
    (hb : (measureScanRateSample env).1 ≠ 0)
    (ht : env.j9time_hires_delta 0 (measureScanRateSample env).2
      TimeDeltaUnit.J9PORT_TIME_DELTA_IN_MICROSECONDS < 2 ^ 64)
    (hs : s._scanRateStats.historicalBytesScanned = 0
      ∨ (s._scanRateStats.historicalBytesScanned = (measureScanRateSample env).1
        ∧ s._scanRateStats.historicalScanMicroseconds
            = env.j9time_hires_delta 0 (measureScanRateSample env).2
                TimeDeltaUnit.J9PORT_TIME_DELTA_IN_MICROSECONDS)) :
    (measureScanRate env w s)._scanRateStats
      = ⟨(measureScanRateSample env).1,
          env.j9time_hires_delta 0 (measureScanRateSample env).2
            TimeDeltaUnit.J9PORT_TIME_DELTA_IN_MICROSECONDS,
          ((env.j9time_hires_delta 0 (measureScanRateSample env).2
            TimeDeltaUnit.J9PORT_TIME_DELTA_IN_MICROSECONDS : Nat) : ℚ)
            / ((measureScanRateSample env).1 : ℚ)⟩ := by
  have hb0 : ¬ (0 = (measureScanRateSample env).1) := fun e => hb e.symm
  unfold measureScanRate
  dsimp only
  rw [if_pos (show 0 ≠ (measureScanRateSample env).1 from hb0)]
  dsimp only
  rcases hs with h0 | ⟨h1, h2⟩
  · rw [h0]
    simp only [ne_eq, not_true_eq_false, if_false, hb0, not_false_eq_true, if_true]
  · rw [h1, h2, doubleToUDATA_constant_average _ w (measureScanRateSample_lt env),
      doubleToUDATA_constant_average _ w ht]
    simp only [ne_eq, hb0, not_false_eq_true, if_true]

/-- C15: whatever the weight and the scan time, a `measureScanRate` sample whose scanned
byte count (bytes scanned plus bytes card-cleaned, as a machine word) is 0 leaves the
delegate, and so the three scan-rate fields, as they were. -/
theorem C15_zero_byte_scan_sample_dropped (env : MM_EnvironmentVLHGC) (historicWeight : ℚ)
    (s : MM_SchedulingDelegate) (h : (measureScanRateSample env).1 = 0) :
    measureScanRate env historicWeight s = s
    ∧ (measureScanRate env historicWeight s)._scanRateStats.historicalBytesScanned
        = s._scanRateStats.historicalBytesScanned
    ∧ (measureScanRate env historicWeight s)._scanRateStats.historicalScanMicroseconds
        = s._scanRateStats.historicalScanMicroseconds
    ∧ (measureScanRate env historicWeight s)._scanRateStats.microSecondsPerByteScanned
        = s._scanRateStats.microSecondsPerByteScanned := by
  rw [measureScanRate_of_zero env historicWeight s h]
  exact ⟨rfl, rfl, rfl, rfl⟩

theorem C15_witness :
    (measureScanRateSample testEnvironmentIdleMark).2 = 777
    ∧ measureScanRate testEnvironmentIdleMark measureScanRateHistoricWeightForGMP
        (MM_SchedulingDelegate.new (testExtensions 1 1))
      = MM_SchedulingDelegate.new (testExtensions 1 1)
    ∧ measureScanRate testEnvironment measureScanRateHistoricWeightForPGC
        (MM_SchedulingDelegate.new (testExtensions 1 1))
      = MM_SchedulingDelegate.new (testExtensions 1 1) :=
  ⟨rfl,
    (C15_zero_byte_scan_sample_dropped testEnvironmentIdleMark
      measureScanRateHistoricWeightForGMP _ rfl).1,
    (C15_zero_byte_scan_sample_dropped testEnvironment
      measureScanRateHistoricWeightForPGC _ rfl).1⟩

/-- C16: starting from an empty scan-rate history, `k ≥ 1` calls of `measureScanRate` with
the same sample of `b > 0` bytes and `t` microseconds (weight 0.95, doubles taken exactly)
leave `historicalBytesScanned = b`, `historicalScanMicroseconds = t` and
`microSecondsPerByteScanned = t/b`, which is within 1% of `t/b`. -/
theorem C16_scan_rate_calibration (env : MM_EnvironmentVLHGC) (s : MM_SchedulingDelegate)
    (k : Nat) (hk : 1 ≤ k)
    (hb : 0 < (measureScanRateSample env).1)
    (ht : env.j9time_hires_delta 0 (measureScanRateSample env).2
      TimeDeltaUnit.J9PORT_TIME_DELTA_IN_MICROSECONDS ≤ UDATA_MAX)
    (hs : s._scanRateStats.historicalBytesScanned = 0) :
    ((measureScanRate env measureScanRateHistoricWeightForPGC)^[k] s)._scanRateStats
      = ⟨(measureScanRateSample env).1,
          env.j9time_hires_delta 0 (measureScanRateSample env).2
            TimeDeltaUnit.J9PORT_TIME_DELTA_IN_MICROSECONDS,
          ((env.j9time_hires_delta 0 (measureScanRateSample env).2
            TimeDeltaUnit.J9PORT_TIME_DELTA_IN_MICROSECONDS : Nat) : ℚ)
            / ((measureScanRateSample env).1 : ℚ)⟩
    ∧ |((measureScanRate env measureScanRateHistoricWeightForPGC)^[k] s)._scanRateStats.microSecondsPerByteScanned
        - ((env.j9time_hires_delta 0 (measureScanRateSample env).2
            TimeDeltaUnit.J9PORT_TIME_DELTA_IN_MICROSECONDS : Nat) : ℚ)
            / ((measureScanRateSample env).1 : ℚ)|
      ≤ 1 / 100 * (((env.j9time_hires_delta 0 (measureScanRateSample env).2
            TimeDeltaUnit.J9PORT_TIME_DELTA_IN_MICROSECONDS : Nat) : ℚ)
            / ((measureScanRateSample env).1 : ℚ)) := by
  have hb' : (measureScanRateSample env).1 ≠ 0 := Nat.pos_iff_ne_zero.mp hb
  have ht' : env.j9time_hires_delta 0 (measureScanRateSample env).2
      TimeDeltaUnit.J9PORT_TIME_DELTA_IN_MICROSECONDS < 2 ^ 64 := by
    unfold UDATA_MAX at ht; omega
  have key : ∀ j : Nat,
      ((measureScanRate env measureScanRateHistoricWeightForPGC)^[j + 1] s)._scanRateStats
        = ⟨(measureScanRateSample env).1,
            env.j9time_hires_delta 0 (measureScanRateSample env).2
              TimeDeltaUnit.J9PORT_TIME_DELTA_IN_MICROSECONDS,
            ((env.j9time_hires_delta 0 (measureScanRateSample env).2
              TimeDeltaUnit.J9PORT_TIME_DELTA_IN_MICROSECONDS : Nat) : ℚ)
              / ((measureScanRateSample env).1 : ℚ)⟩ := by
    intro j
    induction j with
    | zero =>
      exact measureScanRate_same_sample env _ s hb' ht' (Or.inl hs)
    | succ j ih =>
      rw [Function.iterate_succ_apply']
      apply measureScanRate_same_sample env _ _ hb' ht'
      right
      rw [ih]
      exact ⟨rfl, rfl⟩
  obtain ⟨j, rfl⟩ : ∃ j, k = j + 1 := ⟨k - 1, by omega⟩
  refine ⟨key j, ?_⟩
  rw [key j]
  dsimp only
  rw [sub_self, abs_zero]
  positivity

theorem C16_witness :
    ((measureScanRate testEnvironmentScan measureScanRateHistoricWeightForPGC)^[10]
        (MM_SchedulingDelegate.new (testExtensions 1 1)))._scanRateStats
      = ⟨1048576, 10000, 10000 / 1048576⟩
    ∧ |((measureScanRate testEnvironmentScan measureScanRateHistoricWeightForPGC)^[10]
        (MM_SchedulingDelegate.new (testExtensions 1 1)))._scanRateStats.microSecondsPerByteScanned
        - ((testEnvironmentScan.j9time_hires_delta 0
              (measureScanRateSample testEnvironmentScan).2
              TimeDeltaUnit.J9PORT_TIME_DELTA_IN_MICROSECONDS : Nat) : ℚ)
            / ((measureScanRateSample testEnvironmentScan).1 : ℚ)|
      ≤ 1 / 100 * (((testEnvironmentScan.j9time_hires_delta 0
              (measureScanRateSample testEnvironmentScan).2
              TimeDeltaUnit.J9PORT_TIME_DELTA_IN_MICROSECONDS : Nat) : ℚ)
            / ((measureScanRateSample testEnvironmentScan).1 : ℚ)) :=
  ⟨by decide!,
    (C16_scan_rate_calibration testEnvironmentScan
      (MM_SchedulingDelegate.new (testExtensions 1 1)) 10 (by decide) (by decide)
      (by decide) rfl).2⟩

theorem toIDATA_sub_of_lt (p c : Nat) (hp : p < 2 ^ 63) (hc : c < 2 ^ 63) :
    wrapI (toIDATA p - toIDATA c) = (p : Int) - (c : Int) := by
  rw [toIDATA_of_lt p hp, toIDATA_of_lt c hc]
  unfold wrapI toIDATA toUDATA
  split_ifs <;> omega

/-- C17: `measureConsumptionForPartialGC` always stores the current reclaimable count as
the previous one; when the previous count `p` was not 0 the region consumption rate becomes
`0.80·rate + 0.20·(p − c)` with `p − c` a signed difference (counts below 2^63), and when it
was 0 the rate is left as it was. -/
theorem C17_region_consumption_rate_update (c d : Nat) (s : MM_SchedulingDelegate)
    (hp : s._previousReclaimableRegions < 2 ^ 63) (hc : c < 2 ^ 63) :
    (measureConsumptionForPartialGC c d s)._previousReclaimableRegions = c
    ∧ (s._previousReclaimableRegions ≠ 0 →
        (measureConsumptionForPartialGC c d s)._regionConsumptionRate
          = 8 / 10 * s._regionConsumptionRate
            + 2 / 10 * ((s._previousReclaimableRegions : ℚ) - (c : ℚ)))
    ∧ (s._previousReclaimableRegions = 0 →
        (measureConsumptionForPartialGC c d s)._regionConsumptionRate
          = s._regionConsumptionRate) := by
  unfold measureConsumptionForPartialGC
  dsimp only
  refine ⟨?_, ?_, ?_⟩
  · split <;> split <;> rfl
  · intro h0
    rw [if_neg (show ¬ (0 = s._previousReclaimableRegions) from fun e => h0 e.symm)]
    have e : s._regionConsumptionRate * (8 / 10)
        + ((wrapI (toIDATA s._previousReclaimableRegions - toIDATA c) : Int) : ℚ) * (1 - 8 / 10)
        = 8 / 10 * s._regionConsumptionRate
          + 2 / 10 * ((s._previousReclaimableRegions : ℚ) - (c : ℚ)) := by
      rw [toIDATA_sub_of_lt _ _ hp hc]
      push_cast
      ring
    rw [← e]
    split <;> rfl
  · intro h0
    rw [if_pos (show 0 = s._previousReclaimableRegions from h0.symm)]
    split <;> rfl

theorem C17_witness :
    (measureConsumptionForPartialGC 80 0 (testDelegateWithReclaimable 100 0))._regionConsumptionRate
      = 8 / 10 * 0 + 2 / 10 * (((100 : Nat) : ℚ) - ((80 : Nat) : ℚ))
    ∧ (measureConsumptionForPartialGC 80 0
        (testDelegateWithReclaimable 100 0))._regionConsumptionRate = 4
    ∧ (measureConsumptionForPartialGC 80 0
        (testDelegateWithReclaimable 100 0))._previousReclaimableRegions = 80
    ∧ (measureConsumptionForPartialGC 65 0 (measureConsumptionForPartialGC 80 0
        (testDelegateWithReclaimable 100 0)))._regionConsumptionRate = 31 / 5 :=
  ⟨(C17_region_consumption_rate_update 80 0 (testDelegateWithReclaimable 100 0)
      (by decide) (by decide)).2.1 (by decide),
    by decide!, rfl, by decide!⟩

/-! ## Facts about the consumption samples after a global mark phase -/

/-- What a completed `globalMarkPhaseCompleted` resets and what it leaves alone. -/
theorem globalMarkPhaseCompleted_post (ext : MM_GCExtensions) (env : MM_EnvironmentVLHGC)
    (s s1 : MM_SchedulingDelegate) (h : globalMarkPhaseCompleted ext env s = .ok s1) :
    s1._remainingGMPIntermissionIntervals = ext.tarokGMPIntermission
    ∧ s1._previousReclaimableRegions = 0
    ∧ s1._previousDefragmentReclaimableRegions = s._previousDefragmentReclaimableRegions
    ∧ s1._regionConsumptionRate = s._regionConsumptionRate
    ∧ s1._defragmentRegionConsumptionRate = s._defragmentRegionConsumptionRate := by
  unfold globalMarkPhaseCompleted updateGMPStats at h
  dsimp only at h
  repeat' split at h
  all_goals first
    | (cases h; exact ⟨rfl, rfl, rfl, rfl, rfl⟩)
    | cases h

theorem measureConsumption_defragment (c d : Nat) (s : MM_SchedulingDelegate)
    (hp : s._previousDefragmentReclaimableRegions < 2 ^ 63) (hd : d < 2 ^ 63) :
    (s._previousDefragmentReclaimableRegions ≠ 0 →
      (measureConsumptionForPartialGC c d s)._defragmentRegionConsumptionRate
        = 8 / 10 * s._defragmentRegionConsumptionRate
          + 2 / 10 * ((s._previousDefragmentReclaimableRegions : ℚ) - (d : ℚ)))
    ∧ (s._previousDefragmentReclaimableRegions = 0 →
      (measureConsumptionForPartialGC c d s)._defragmentRegionConsumptionRate
        = s._defragmentRegionConsumptionRate) := by
  unfold measureConsumptionForPartialGC
  dsimp only
  constructor
  · intro h0
    have e : s._defragmentRegionConsumptionRate * (8 / 10)
        + ((wrapI (toIDATA s._previousDefragmentReclaimableRegions - toIDATA d) : Int) : ℚ)
            * (1 - 8 / 10)
        = 8 / 10 * s._defragmentRegionConsumptionRate
          + 2 / 10 * ((s._previousDefragmentReclaimableRegions : ℚ) - (d : ℚ)) := by
      rw [toIDATA_sub_of_lt _ _ hp hd]
      push_cast
      ring
    rw [← e]
    split
    · rw [if_neg (show ¬ (0 = s._previousDefragmentReclaimableRegions) from
        fun e => h0 e.symm)]
    · rw [if_neg (show ¬ (0 = s._previousDefragmentReclaimableRegions) from
        fun e => h0 e.symm)]
  · intro h0
    split
    · rw [if_pos (show 0 = s._previousDefragmentReclaimableRegions from h0.symm)]
    · rw [if_pos (show 0 = s._previousDefragmentReclaimableRegions from h0.symm)]

theorem measureConsumption_region_zero (c d : Nat) (s : MM_SchedulingDelegate)
    (h0 : s._previousReclaimableRegions = 0) :
    (measureConsumptionForPartialGC c d s)._regionConsumptionRate
      = s._regionConsumptionRate := by
  unfold measureConsumptionForPartialGC
  dsimp only
  rw [if_pos (show 0 = s._previousReclaimableRegions from h0.symm)]
  split <;> rfl

theorem measureConsumption_defragment_zero (c d : Nat) (s : MM_SchedulingDelegate)
    (h0 : s._previousDefragmentReclaimableRegions = 0) :
    (measureConsumptionForPartialGC c d s)._defragmentRegionConsumptionRate
      = s._defragmentRegionConsumptionRate := by
  unfold measureConsumptionForPartialGC
  dsimp only
  split
  · rw [if_pos (show 0 = s._previousDefragmentReclaimableRegions from h0.symm)]
  · rw [if_pos (show 0 = s._previousDefragmentReclaimableRegions from h0.symm)]

/-- C18: the first `measureConsumptionForPartialGC` after a completed
`globalMarkPhaseCompleted` leaves `regionConsumptionRate` as it was, whatever the counts.
It leaves `defragmentRegionConsumptionRate` as it was only when
`previousDefragmentReclaimableRegions` was 0 before the GMP completed:
`globalMarkPhaseCompleted` resets `_previousReclaimableRegions` but not
`_previousDefragmentReclaimableRegions`, so otherwise the defragment sample is averaged
in.  With both previous counts 100 and both current counts 80 the region rate stays 0 and
the defragment rate moves from 0 to 4. -/
theorem C18_first_pgc_after_gmp_discards_region_sample_only :
    (∀ (ext : MM_GCExtensions) (env : MM_EnvironmentVLHGC) (s s1 : MM_SchedulingDelegate)
        (c d : Nat), globalMarkPhaseCompleted ext env s = .ok s1 →
        (measureConsumptionForPartialGC c d s1)._regionConsumptionRate
          = s._regionConsumptionRate
        ∧ (s._previousDefragmentReclaimableRegions = 0 →
            (measureConsumptionForPartialGC c d s1)._defragmentRegionConsumptionRate
              = s._defragmentRegionConsumptionRate)
        ∧ (s._previousDefragmentReclaimableRegions ≠ 0 →
            s._previousDefragmentReclaimableRegions < 2 ^ 63 → d < 2 ^ 63 →
            (measureConsumptionForPartialGC c d s1)._defragmentRegionConsumptionRate
              = 8 / 10 * s._defragmentRegionConsumptionRate
                + 2 / 10 * ((s._previousDefragmentReclaimableRegions : ℚ) - (d : ℚ))))
    ∧ (∃ s1, globalMarkPhaseCompleted (testExtensions 1 1) testEnvironment
          (testDelegateWithReclaimable 100 100) = .ok s1
        ∧ s1._previousReclaimableRegions = 0
        ∧ s1._previousDefragmentReclaimableRegions = 100
        ∧ (testDelegateWithReclaimable 100 100)._regionConsumptionRate = 0
        ∧ (testDelegateWithReclaimable 100 100)._defragmentRegionConsumptionRate = 0
        ∧ (measureConsumptionForPartialGC 80 80 s1)._regionConsumptionRate = 0
        ∧ (measureConsumptionForPartialGC 80 80 s1)._defragmentRegionConsumptionRate = 4) := by
  constructor
  · intro ext env s s1 c d h
    obtain ⟨-, h0, hd, hr, hdr⟩ := globalMarkPhaseCompleted_post ext env s s1 h
    refine ⟨?_, ?_, ?_⟩
    · rw [measureConsumption_region_zero c d s1 h0, hr]
    · intro hz
      rw [measureConsumption_defragment_zero c d s1 (by rw [hd]; exact hz), hdr]
    · intro hnz hp hlt
      rw [(measureConsumption_defragment c d s1 (by rw [hd]; exact hp) hlt).1
        (by rw [hd]; exact hnz), hdr, hd]
  · refine ⟨_, rfl, ?_, ?_, ?_, ?_, ?_, ?_⟩ <;> decide!

/-! ## Facts about the GMP intermission -/

theorem internal_remaining (ext : MM_GCExtensions) (rm : MM_HeapRegionManager)
    (s s1 : MM_SchedulingDelegate) (t : Nat)
    (h : getNextTaxationThresholdInternal ext rm s = .ok (s1, t)) :
    s1._remainingGMPIntermissionIntervals = s._remainingGMPIntermissionIntervals := by
  unfold getNextTaxationThresholdInternal advanceTaxationIndex at h
  dsimp only at h
  by_cases h1 : s._nextIncrementWillDoPartialGarbageCollection = true
  · rw [if_pos h1] at h; cases h
  rw [if_neg h1] at h
  by_cases h2 : s._nextIncrementWillDoGlobalMarkPhase = true
  · rw [if_pos h2] at h; cases h
  rw [if_neg h2] at h
  repeat' split at h
  all_goals first
    | (cases h; rfl)
    | cases h

theorem skipGMPInterval_decrements (s : MM_SchedulingDelegate) :
    (skipGMPInterval s)._remainingGMPIntermissionIntervals
        = s._remainingGMPIntermissionIntervals
    ∨ (0 < s._remainingGMPIntermissionIntervals
        ∧ s._nextIncrementWillDoGlobalMarkPhase = true
        ∧ (skipGMPInterval s)._remainingGMPIntermissionIntervals + 1
            = s._remainingGMPIntermissionIntervals) := by
  unfold skipGMPInterval
  split
  · rename_i hc
    right
    refine ⟨hc.1, hc.2, ?_⟩
    show s._remainingGMPIntermissionIntervals - 1 + 1 = s._remainingGMPIntermissionIntervals
    have := hc.1
    omega
  · left; rfl

theorem loop_remaining (ext : MM_GCExtensions) (rm : MM_HeapRegionManager) :
    ∀ (fuel : Nat) (s : MM_SchedulingDelegate) (acc : Nat) (s' : MM_SchedulingDelegate) (t : Nat),
      getNextTaxationThresholdLoop ext rm fuel s acc = .ok (s', t) →
      s'._remainingGMPIntermissionIntervals ≤ s._remainingGMPIntermissionIntervals := by
  intro fuel
  induction fuel with
  | zero => intro s acc s' t h; simp [getNextTaxationThresholdLoop] at h
  | succ fuel ih =>
    intro s acc s' t h
    rw [getNextTaxationThresholdLoop] at h
    cases hi : getNextTaxationThresholdInternal ext rm s with
    | error e => rw [hi] at h; cases h
    | ok r =>
      obtain ⟨s1, t1⟩ := r
      rw [hi] at h
      dsimp only at h
      have hf := internal_remaining ext rm s s1 t1 hi
      have hs : (skipGMPInterval s1)._remainingGMPIntermissionIntervals
          ≤ s1._remainingGMPIntermissionIntervals := by
        rcases skipGMPInterval_decrements s1 with e | ⟨-, -, e⟩ <;> omega
      split at h
      · have := ih _ _ _ _ h
        omega
      · cases h
        omega

theorem getNext_remaining (ext : MM_GCExtensions) (rm : MM_HeapRegionManager)
    (s s' : MM_SchedulingDelegate) (t : Nat)
    (h : getNextTaxationThreshold ext rm s = .ok (s', t)) :
    s'._remainingGMPIntermissionIntervals ≤ s._remainingGMPIntermissionIntervals := by
  obtain ⟨acc, hl, -⟩ := getNext_ok_loop ext rm s s' t h
  exact loop_remaining ext rm _ _ _ _ _ hl

theorem adjust_remaining (ext : MM_GCExtensions) (rm : MM_HeapRegionManager)
    (s : MM_SchedulingDelegate) :
    (adjustIdealEdenRegionCount ext rm s)._remainingGMPIntermissionIntervals
      = s._remainingGMPIntermissionIntervals := by
  unfold adjustIdealEdenRegionCount
  dsimp only
  split <;> rfl

theorem calculateEdenSize_remaining (ext : MM_GCExtensions) (rm : MM_HeapRegionManager)
    (gam : MM_GlobalAllocationManagerTarok) (s s' : MM_SchedulingDelegate)
    (h : calculateEdenSize ext rm gam s = .ok s') :
    s'._remainingGMPIntermissionIntervals = s._remainingGMPIntermissionIntervals := by
  have hb := calculateEdenSize_ok_bounds ext rm gam s s' h
  rw [calculateEdenSize_eq ext rm gam s hb] at h
  cases h
  exact adjust_remaining ext rm s

theorem heapReconfigured_remaining (ext : MM_GCExtensions) (rm : MM_HeapRegionManager)
    (gam : MM_GlobalAllocationManagerTarok) (s s' : MM_SchedulingDelegate)
    (h : heapReconfigured ext rm gam s = .ok s') :
    s'._remainingGMPIntermissionIntervals = s._remainingGMPIntermissionIntervals := by
  unfold heapReconfigured at h
  dsimp only at h
  repeat' split at h
  all_goals first
    | (have e := calculateEdenSize_remaining ext rm gam _ s' h
       exact e)
    | cases h

theorem getInitialTaxationThreshold_remaining (ext : MM_GCExtensions)
    (rm : MM_HeapRegionManager) (gam : MM_GlobalAllocationManagerTarok)
    (s s' : MM_SchedulingDelegate) (t : Nat)
    (h : getInitialTaxationThreshold ext rm gam s = .ok (s', t)) :
    ∃ s0, s0._remainingGMPIntermissionIntervals = ext.tarokGMPIntermission
      ∧ getNextTaxationThreshold ext rm s0 = .ok (s', t) := by
  unfold getInitialTaxationThreshold at h
  dsimp only at h
  split at h
  · cases h
  · rename_i s2 h2
    have e := calculateEdenSize_remaining ext rm gam _ s2 h2
    refine ⟨_, ?_, h⟩
    exact e

theorem measureScanRate_remaining (env : MM_EnvironmentVLHGC) (w : ℚ)
    (s : MM_SchedulingDelegate) :
    (measureScanRate env w s)._remainingGMPIntermissionIntervals
      = s._remainingGMPIntermissionIntervals := by
  unfold measureScanRate
  dsimp only
  split <;> rfl

theorem measureConsumptionForPartialGC_remaining (c d : Nat) (s : MM_SchedulingDelegate) :
    (measureConsumptionForPartialGC c d s)._remainingGMPIntermissionIntervals
      = s._remainingGMPIntermissionIntervals := by
  unfold measureConsumptionForPartialGC
  dsimp only
  split <;> split <;> rfl

theorem partialGarbageCollectCompletedStats_remaining (rm : MM_HeapRegionManager)
    (env : MM_EnvironmentVLHGC) (s s1 : MM_SchedulingDelegate)
    (h : partialGarbageCollectCompletedStats rm env s = .ok s1) :
    s1._remainingGMPIntermissionIntervals = s._remainingGMPIntermissionIntervals := by
  unfold partialGarbageCollectCompletedStats at h
  dsimp only at h
  repeat' split at h
  all_goals first
    | (cases h; rfl)
    | (cases h; exact measureScanRate_remaining _ _ _)
    | cases h

theorem moveTowardRecommendedEden_remaining (ext : MM_GCExtensions)
    (rm : MM_HeapRegionManager) (env : MM_EnvironmentVLHGC) (speed : ℚ)
    (s s1 : MM_SchedulingDelegate)
    (h : moveTowardRecommendedEden ext rm env speed s = .ok s1) :
    s1._remainingGMPIntermissionIntervals = s._remainingGMPIntermissionIntervals := by
  unfold moveTowardRecommendedEden at h
  repeat' split at h
  all_goals first
    | (cases h; rfl)
    | cases h

theorem checkEdenSizeAfterPgc_remaining (ext : MM_GCExtensions) (rm : MM_HeapRegionManager)
    (env : MM_EnvironmentVLHGC) (g : Bool) (s s1 : MM_SchedulingDelegate)
    (h : checkEdenSizeAfterPgc ext rm env g s = .ok s1) :
    s1._remainingGMPIntermissionIntervals = s._remainingGMPIntermissionIntervals := by
  unfold checkEdenSizeAfterPgc at h
  dsimp only at h
  repeat' split at h
  all_goals first
    | (cases h; rfl)
    | (cases h
       rename_i s2 hm
       exact moveTowardRecommendedEden_remaining ext rm env _ s s2 hm)
    | exact moveTowardRecommendedEden_remaining ext rm env _ s _ h
    | cases h

theorem calculateAutomaticGMPIntermission_disabled (ext : MM_GCExtensions)
    (rm : MM_HeapRegionManager) (gam : MM_GlobalAllocationManagerTarok)
    (env : MM_EnvironmentVLHGC) (s s1 : MM_SchedulingDelegate)
    (hauto : ext.tarokAutomaticGMPIntermission = false)
    (h : calculateAutomaticGMPIntermission ext rm gam env s = .ok s1) :
    s1._remainingGMPIntermissionIntervals = s._remainingGMPIntermissionIntervals := by
  unfold calculateAutomaticGMPIntermission at h
  dsimp only at h
  split at h
  · cases h
  · rw [if_neg (by rw [hauto]; decide)] at h
    cases h
    rfl

theorem calculateGlobalMarkIncrementTimeMillis_remaining (pgcTime : Nat)
    (s s1 : MM_SchedulingDelegate)
    (h : calculateGlobalMarkIncrementTimeMillis pgcTime s = .ok s1) :
    s1._remainingGMPIntermissionIntervals = s._remainingGMPIntermissionIntervals := by
  unfold calculateGlobalMarkIncrementTimeMillis at h
  dsimp only at h
  repeat' split at h
  all_goals first
    | (cases h; rfl)
    | cases h

theorem updatePgcTimePrediction_remaining (env : MM_EnvironmentVLHGC)
    (s : MM_SchedulingDelegate) :
    (updatePgcTimePrediction env s)._remainingGMPIntermissionIntervals
      = s._remainingGMPIntermissionIntervals := by
  unfold updatePgcTimePrediction
  dsimp only
  split <;> rfl

theorem partialGarbageCollectCompleted_remaining (ext : MM_GCExtensions)
    (rm : MM_HeapRegionManager) (gam : MM_GlobalAllocationManagerTarok)
    (env : MM_EnvironmentVLHGC) (c d : Nat) (s s' : MM_SchedulingDelegate)
    (hauto : ext.tarokAutomaticGMPIntermission = false)
    (h : partialGarbageCollectCompleted ext rm gam env c d s = .ok s') :
    s'._remainingGMPIntermissionIntervals = s._remainingGMPIntermissionIntervals := by
  unfold partialGarbageCollectCompleted at h
  dsimp only at h
  split at h
  · cases h
  · rename_i s1 h1
    split at h
    · cases h
    · rename_i s4 h4
      split at h
      · cases h
      · rename_i s5 h5
        split at h
        · cases h
        · rename_i s6 h6
          split at h
          · cases h
          · rename_i s7 h7
            cases h
            rw [updatePgcTimePrediction_remaining,
              calculateGlobalMarkIncrementTimeMillis_remaining _ _ s7 h7]
            have e6 := calculateAutomaticGMPIntermission_disabled ext rm gam env s5 s6 hauto h6
            have e5 := calculateEdenSize_remaining ext rm gam s4 s5 h5
            have e4 := checkEdenSizeAfterPgc_remaining ext rm env _ _ s4 h4
            have e2 := measureConsumptionForPartialGC_remaining c d s1
            have e1 := partialGarbageCollectCompletedStats_remaining rm env _ s1 h1
            show s6._remainingGMPIntermissionIntervals = _
            rw [e6, e5, e4]
            exact e2.trans e1

theorem globalMarkCycleStart_remaining (env : MM_EnvironmentVLHGC)
    (s : MM_SchedulingDelegate) :
    (globalMarkCycleStart env s)._remainingGMPIntermissionIntervals
      = s._remainingGMPIntermissionIntervals := by
  unfold globalMarkCycleStart calculateGlobalMarkOverhead
  dsimp only
  split
  · rfl
  · split <;> rfl

theorem partialGarbageCollectStarted_remaining (env : MM_EnvironmentVLHGC)
    (s : MM_SchedulingDelegate) :
    (partialGarbageCollectStarted env s)._remainingGMPIntermissionIntervals
      = s._remainingGMPIntermissionIntervals := by
  unfold partialGarbageCollectStarted calculatePartialGarbageCollectOverhead
  dsimp only
  split <;> split <;> rfl

/-- C20: with `tarokAutomaticGMPIntermission` disabled, a completed
`partialGarbageCollectCompleted` (and its `calculateAutomaticGMPIntermission` step) leaves
`remainingGMPIntermissionIntervals` as it was.  Of the other members, the scheduler's
internal step leaves it alone and the skip step of `getNextTaxationThreshold` takes exactly
one interval off (only while intervals remain and a GMP was selected), so
`getNextTaxationThreshold` never raises it; `globalMarkPhaseCompleted` sets it to
`tarokGMPIntermission`; `getInitialTaxationThreshold` sets it to `tarokGMPIntermission` and
then runs `getNextTaxationThreshold`; `heapReconfigured`, `calculateEdenSize`,
`getIncrementWork`, `globalMarkCycleStart`, `globalMarkCycleEnd`,
`globalMarkIncrementCompleted`, `globalGarbageCollectCompleted` and
`partialGarbageCollectStarted` leave it as it was. -/
theorem C20_intermission_written_only_by_skip_and_resets (ext : MM_GCExtensions)
    (hauto : ext.tarokAutomaticGMPIntermission = false) :
    (∀ rm gam env c d s s', partialGarbageCollectCompleted ext rm gam env c d s = .ok s' →
      s'._remainingGMPIntermissionIntervals = s._remainingGMPIntermissionIntervals)
    ∧ (∀ rm gam env s s', calculateAutomaticGMPIntermission ext rm gam env s = .ok s' →
      s'._remainingGMPIntermissionIntervals = s._remainingGMPIntermissionIntervals)
    ∧ (∀ rm s s' t, getNextTaxationThresholdInternal ext rm s = .ok (s', t) →
      s'._remainingGMPIntermissionIntervals = s._remainingGMPIntermissionIntervals)
    ∧ (∀ s, (skipGMPInterval s)._remainingGMPIntermissionIntervals
          = s._remainingGMPIntermissionIntervals
        ∨ (0 < s._remainingGMPIntermissionIntervals
          ∧ s._nextIncrementWillDoGlobalMarkPhase = true
          ∧ (skipGMPInterval s)._remainingGMPIntermissionIntervals + 1
              = s._remainingGMPIntermissionIntervals))
    ∧ (∀ rm s s' t, getNextTaxationThreshold ext rm s = .ok (s', t) →
      s'._remainingGMPIntermissionIntervals ≤ s._remainingGMPIntermissionIntervals)
    ∧ (∀ env s s', globalMarkPhaseCompleted ext env s = .ok s' →
      s'._remainingGMPIntermissionIntervals = ext.tarokGMPIntermission)
    ∧ (∀ rm gam s s' t, getInitialTaxationThreshold ext rm gam s = .ok (s', t) →
      ∃ s0, s0._remainingGMPIntermissionIntervals = ext.tarokGMPIntermission
        ∧ getNextTaxationThreshold ext rm s0 = .ok (s', t))
    ∧ (∀ rm gam s s', heapReconfigured ext rm gam s = .ok s' →
      s'._remainingGMPIntermissionIntervals = s._remainingGMPIntermissionIntervals)
    ∧ (∀ rm gam s s', calculateEdenSize ext rm gam s = .ok s' →
      s'._remainingGMPIntermissionIntervals = s._remainingGMPIntermissionIntervals)
    ∧ (∀ s, (getIncrementWork s).2._remainingGMPIntermissionIntervals
        = s._remainingGMPIntermissionIntervals)
    ∧ (∀ env s, (globalMarkCycleStart env s)._remainingGMPIntermissionIntervals
        = s._remainingGMPIntermissionIntervals)
    ∧ (∀ s, (globalMarkCycleEnd s)._remainingGMPIntermissionIntervals
        = s._remainingGMPIntermissionIntervals)
    ∧ (∀ env s, (globalMarkIncrementCompleted env s)._remainingGMPIntermissionIntervals
        = s._remainingGMPIntermissionIntervals)
    ∧ (∀ c d s, (globalGarbageCollectCompleted c d s)._remainingGMPIntermissionIntervals
        = s._remainingGMPIntermissionIntervals)
    ∧ (∀ env s, (partialGarbageCollectStarted env s)._remainingGMPIntermissionIntervals
        = s._remainingGMPIntermissionIntervals) :=
  ⟨fun rm gam env c d s s' h =>
      partialGarbageCollectCompleted_remaining ext rm gam env c d s s' hauto h,
    fun rm gam env s s' h =>
      calculateAutomaticGMPIntermission_disabled ext rm gam env s s' hauto h,
    fun rm s s' t h => internal_remaining ext rm s s' t h,
    skipGMPInterval_decrements,
    fun rm s s' t h => getNext_remaining ext rm s s' t h,
    fun env s s' h => (globalMarkPhaseCompleted_post ext env s s' h).1,
    fun rm gam s s' t h => getInitialTaxationThreshold_remaining ext rm gam s s' t h,
    fun rm gam s s' h => heapReconfigured_remaining ext rm gam s s' h,
    fun rm gam s s' h => calculateEdenSize_remaining ext rm gam s s' h,
    fun _ => rfl,
    globalMarkCycleStart_remaining,
    fun _ => rfl,
    fun env s => measureScanRate_remaining env _ s,
    fun _ _ _ => rfl,
    partialGarbageCollectStarted_remaining⟩

theorem C20_witness :
    ∃ s', partialGarbageCollectCompleted (testExtensions 1 3) testRegionManager
        testAllocationManager testEnvironment 10 10
        { testDelegateWithBounds with _remainingGMPIntermissionIntervals := 5 } = .ok s'
      ∧ s'._remainingGMPIntermissionIntervals = 5 :=
  ⟨_, rfl,
    (C20_intermission_written_only_by_skip_and_resets (testExtensions 1 3) rfl).1
      testRegionManager testAllocationManager testEnvironment 10 10
      { testDelegateWithBounds with _remainingGMPIntermissionIntervals := 5 } _ rfl⟩

/-! ## Facts about the scan estimate and the first-PGC flag -/

/-- C21 (amended): `calculateEstimatedGlobalBytesToScan` returns
`liveAdjusted·scannableBytesRatio` with `liveAdjusted = liveSetBytesAfterPartialCollect −
max(0, liveSetBytesAfterPartialCollect − liveSetBytesAfterGlobalSweep)·(1 − max(0,
heapOccupancyTrend))`.  When the live set after the PGC is at least the one after the
global sweep this is the formula without the inner `max`; when it is smaller the
difference is taken as 0 and the result is `liveSetBytesAfterPartialCollect·
scannableBytesRatio`. -/
theorem C21_estimated_global_bytes_to_scan (s : MM_SchedulingDelegate) :
    calculateEstimatedGlobalBytesToScan s
      = ((s._liveSetBytesAfterPartialCollect : ℚ)
          - max 0 ((s._liveSetBytesAfterPartialCollect : ℚ) - (s._liveSetBytesAfterGlobalSweep : ℚ))
            * (1 - max 0 s._heapOccupancyTrend)) * s._scannableBytesRatio
    ∧ (s._liveSetBytesAfterGlobalSweep ≤ s._liveSetBytesAfterPartialCollect →
        calculateEstimatedGlobalBytesToScan s
          = ((s._liveSetBytesAfterPartialCollect : ℚ)
              - ((s._liveSetBytesAfterPartialCollect : ℚ) - (s._liveSetBytesAfterGlobalSweep : ℚ))
                * (1 - max 0 s._heapOccupancyTrend)) * s._scannableBytesRatio)
    ∧ (s._liveSetBytesAfterPartialCollect < s._liveSetBytesAfterGlobalSweep →
        calculateEstimatedGlobalBytesToScan s
          = (s._liveSetBytesAfterPartialCollect : ℚ) * s._scannableBytesRatio) := by
  refine ⟨rfl, ?_, ?_⟩
  · intro h
    unfold calculateEstimatedGlobalBytesToScan
    dsimp only
    have hc : (s._liveSetBytesAfterGlobalSweep : ℚ) ≤ (s._liveSetBytesAfterPartialCollect : ℚ) := by
      exact_mod_cast h
    rw [max_eq_right (sub_nonneg.mpr hc)]
  · intro h
    unfold calculateEstimatedGlobalBytesToScan
    dsimp only
    have hc : (s._liveSetBytesAfterPartialCollect : ℚ) < (s._liveSetBytesAfterGlobalSweep : ℚ) := by
      exact_mod_cast h
    rw [max_eq_left (by linarith), zero_mul, sub_zero]

/-- C21, the claim as stated fails where the live set after the PGC is below the one after
the global sweep: with 100 bytes after the PGC, 200 after the sweep, trend 0 and ratio 1 the
code returns 100, the claimed formula 100 − (100 − 200)·(1 − 0) = 200. -/
theorem C21_counterexample :
    calculateEstimatedGlobalBytesToScan (testDelegateWithLiveSet 100 200 0) = 100
    ∧ (((100 : Nat) : ℚ) - (((100 : Nat) : ℚ) - ((200 : Nat) : ℚ)) * (1 - max 0 (0 : ℚ)))
        * (testDelegateWithLiveSet 100 200 0)._scannableBytesRatio = 200 := by
  constructor <;> decide!

/-- C22 (amended): `globalGarbageCollectCompleted` leaves the first-PGC-after-GMP flag as it
was, so after `globalMarkPhaseCompleted` followed by `globalGarbageCollectCompleted`
`isFirstPGCAfterGMP()` is still true; `firstPGCAfterGMPCompleted` is what clears the
flag. -/
theorem C22_global_collect_keeps_first_pgc_flag :
    (∀ (c d : Nat) (s : MM_SchedulingDelegate),
      isFirstPGCAfterGMP (globalGarbageCollectCompleted c d s) = isFirstPGCAfterGMP s)
    ∧ (∀ (ext : MM_GCExtensions) (env : MM_EnvironmentVLHGC) (c d : Nat)
        (s s1 : MM_SchedulingDelegate), globalMarkPhaseCompleted ext env s = .ok s1 →
        isFirstPGCAfterGMP s1 = true
        ∧ isFirstPGCAfterGMP (globalGarbageCollectCompleted c d s1) = true)
    ∧ (∀ s : MM_SchedulingDelegate, isFirstPGCAfterGMP (firstPGCAfterGMPCompleted s) = false) := by
  refine ⟨fun _ _ _ => rfl, ?_, fun _ => rfl⟩
  intro ext env c d s s1 h
  have h1 : s1._didGMPCompleteSinceLastReclaim = true := by
    unfold globalMarkPhaseCompleted updateGMPStats at h
    dsimp only at h
    repeat' split at h
    all_goals first
      | (cases h; rfl)
      | cases h
  exact ⟨h1, h1⟩

/-- C22, the claim as stated fails: after `globalMarkPhaseCompleted` and then
`globalGarbageCollectCompleted` on a fresh delegate, `isFirstPGCAfterGMP()` is true. -/
theorem C22_counterexample :
    (globalMarkPhaseCompleted (testExtensions 1 1) testEnvironment
        (MM_SchedulingDelegate.new (testExtensions 1 1))).map
      (fun s => isFirstPGCAfterGMP (globalGarbageCollectCompleted 10 10 s)) = .ok true := by
  decide!

theorem overhead_line_of_code (a b T t : ℚ) (hT : T ≠ 0) :
    (a - b) / (T / 2 - T) * t + (2 * a - b) = a - 2 * (a - b) / T * (t - T / 2) := by
  have h2 : T / 2 - T = -(T / 2) := by ring
  have h3 : (a - b) / (T / 2 - T) = -(2 * (a - b) / T) := by
    rw [h2, div_neg, div_div_eq_mul_div]; ring
  have h4 : 2 * (a - b) / T * (T / 2) = a - b := by field_simp
  rw [h3]
  linear_combination (-1 : ℚ) * h4

theorem overhead_line_of_points (a b T t : ℚ) :
    a + (b - a) / (T - T / 2) * (t - T / 2) = a - 2 * (a - b) / T * (t - T / 2) := by
  have h2 : T - T / 2 = T / 2 := by ring
  have h3 : (b - a) / (T - T / 2) = -(2 * (a - b) / T) := by
    rw [h2, div_div_eq_mul_div]; ring
  rw [h3]
  ring

/-- C26: with the heap not fully expanded and `tarokTargetMaxPauseTime = T > 0`,
`mapPgcTimeToPgcOverhead(t)` is `min(xmaxPct, max(0, L(t)))` for the straight line `L`
through `(T/2, xmaxPct)` and `(T, xminPct)`; so for `0 ≤ xminPct ≤ xmaxPct` it is `xmaxPct`
for every `t ≤ T/2`, `xminPct` at `t = T`, and non-increasing in `t`. -/
theorem C26_pgc_time_maps_to_clamped_line (ext : MM_GCExtensions) (rm : MM_HeapRegionManager)
    (env : MM_EnvironmentVLHGC) (s : MM_SchedulingDelegate)
    (hexp : heapIsFullyExpanded ext rm s = false) (hT : 0 < ext.tarokTargetMaxPauseTime) :
    (∀ t : Nat, mapPgcTimeToPgcOverhead ext rm env s t
      = min (100 * ext.dnssExpectedTimeRatioMaximum)
          (max 0 (100 * ext.dnssExpectedTimeRatioMaximum
            + (100 * ext.dnssExpectedTimeRatioMinimum - 100 * ext.dnssExpectedTimeRatioMaximum)
                / ((ext.tarokTargetMaxPauseTime : ℚ) - (ext.tarokTargetMaxPauseTime : ℚ) / 2)
              * ((t : ℚ) - (ext.tarokTargetMaxPauseTime : ℚ) / 2))))
    ∧ (0 ≤ ext.dnssExpectedTimeRatioMinimum →
        ext.dnssExpectedTimeRatioMinimum ≤ ext.dnssExpectedTimeRatioMaximum →
        (∀ t : Nat, (t : ℚ) ≤ (ext.tarokTargetMaxPauseTime : ℚ) / 2 →
          mapPgcTimeToPgcOverhead ext rm env s t = 100 * ext.dnssExpectedTimeRatioMaximum)
        ∧ mapPgcTimeToPgcOverhead ext rm env s ext.tarokTargetMaxPauseTime
            = 100 * ext.dnssExpectedTimeRatioMinimum
        ∧ (∀ t1 t2 : Nat, t1 ≤ t2 →
            mapPgcTimeToPgcOverhead ext rm env s t2
              ≤ mapPgcTimeToPgcOverhead ext rm env s t1)) := by
  have hT' : (0 : ℚ) < (ext.tarokTargetMaxPauseTime : ℚ) := by exact_mod_cast hT
  have hne : (ext.tarokTargetMaxPauseTime : ℚ) ≠ 0 := ne_of_gt hT'
  have key : ∀ t : Nat, mapPgcTimeToPgcOverhead ext rm env s t
      = min (max (ext.dnssExpectedTimeRatioMaximum * 100
          - 2 * (ext.dnssExpectedTimeRatioMaximum * 100 - ext.dnssExpectedTimeRatioMinimum * 100)
              / (ext.tarokTargetMaxPauseTime : ℚ)
            * ((t : ℚ) - (ext.tarokTargetMaxPauseTime : ℚ) / 2)) 0)
          (ext.dnssExpectedTimeRatioMaximum * 100) := by
    intro t
    unfold mapPgcTimeToPgcOverhead
    dsimp only
    rw [if_neg (by rw [hexp]; decide), overhead_line_of_code _ _ _ _ hne]
  refine ⟨?_, ?_⟩
  · intro t
    rw [key t, min_comm, max_comm, overhead_line_of_points,
      mul_comm ext.dnssExpectedTimeRatioMaximum, mul_comm ext.dnssExpectedTimeRatioMinimum]
  · intro hmin hle
    have hslope : 0 ≤ 2 * (ext.dnssExpectedTimeRatioMaximum * 100
        - ext.dnssExpectedTimeRatioMinimum * 100) / (ext.tarokTargetMaxPauseTime : ℚ) :=
      div_nonneg (by linarith) (le_of_lt hT')
    have hmax0 : 0 ≤ ext.dnssExpectedTimeRatioMaximum * 100 := by linarith
    refine ⟨?_, ?_, ?_⟩
    · intro t ht
      rw [key t]
      have : 0 ≤ - (2 * (ext.dnssExpectedTimeRatioMaximum * 100
          - ext.dnssExpectedTimeRatioMinimum * 100) / (ext.tarokTargetMaxPauseTime : ℚ)
          * ((t : ℚ) - (ext.tarokTargetMaxPauseTime : ℚ) / 2)) := by
        rw [← mul_neg]
        exact mul_nonneg hslope (by linarith)
      rw [min_eq_right (le_max_of_le_left (by linarith))]
      ring
    · rw [key]
      have e : ext.dnssExpectedTimeRatioMaximum * 100
          - 2 * (ext.dnssExpectedTimeRatioMaximum * 100 - ext.dnssExpectedTimeRatioMinimum * 100)
              / (ext.tarokTargetMaxPauseTime : ℚ)
            * ((ext.tarokTargetMaxPauseTime : ℚ) - (ext.tarokTargetMaxPauseTime : ℚ) / 2)
          = ext.dnssExpectedTimeRatioMinimum * 100 := by
        have h4 : 2 * (ext.dnssExpectedTimeRatioMaximum * 100
            - ext.dnssExpectedTimeRatioMinimum * 100) / (ext.tarokTargetMaxPauseTime : ℚ)
            * ((ext.tarokTargetMaxPauseTime : ℚ) / 2)
            = ext.dnssExpectedTimeRatioMaximum * 100
              - ext.dnssExpectedTimeRatioMinimum * 100 := by field_simp
        linear_combination (-1 : ℚ) * h4
      rw [e, max_eq_left (by linarith), min_eq_left (by linarith)]
      ring
    · intro t1 t2 h12
      rw [key t1, key t2]
      have hc : (t1 : ℚ) ≤ (t2 : ℚ) := by exact_mod_cast h12
      apply min_le_min_right
      apply max_le_max_right
      have := mul_le_mul_of_nonneg_left
        (show (t1 : ℚ) - (ext.tarokTargetMaxPauseTime : ℚ) / 2
          ≤ (t2 : ℚ) - (ext.tarokTargetMaxPauseTime : ℚ) / 2 by linarith) hslope
      linarith

theorem C26_witness :
    mapPgcTimeToPgcOverhead (testExtensions 1 1) testRegionManager testEnvironment
        (MM_SchedulingDelegate.new (testExtensions 1 1)) 100 = 15
    ∧ mapPgcTimeToPgcOverhead (testExtensions 1 1) testRegionManager testEnvironment
        (MM_SchedulingDelegate.new (testExtensions 1 1)) 150 = 10
    ∧ mapPgcTimeToPgcOverhead (testExtensions 1 1) testRegionManager testEnvironment
        (MM_SchedulingDelegate.new (testExtensions 1 1))
        (testExtensions 1 1).tarokTargetMaxPauseTime
      = 100 * (testExtensions 1 1).dnssExpectedTimeRatioMinimum
    ∧ mapPgcTimeToPgcOverhead (testExtensions 1 1) testRegionManager testEnvironment
        (MM_SchedulingDelegate.new (testExtensions 1 1)) 400 = 0 :=
  ⟨by decide!, by decide!,
    ((C26_pgc_time_maps_to_clamped_line (testExtensions 1 1) testRegionManager testEnvironment
      (MM_SchedulingDelegate.new (testExtensions 1 1)) (by decide!) (by decide)).2
      (by decide!) (by decide!)).2.1,
    by decide!⟩

/-- C28: if `historicalPartialGCTime ≤ 2^32−1` before the call (as at construction, where it
is 0), `calculateGlobalMarkIncrementTimeMillis` returns for every `pgcTime` (its assertion
holds) and the value after the call is again `≤ 2^32−1`: a rejected sample leaves the value,
an accepted one gives at most `max(historicalPartialGCTime, pgcTime)`. -/
theorem C28_pgc_time_assertion_never_fails (pgcTime : Nat) (s : MM_SchedulingDelegate)
    (hh : s._historicalPartialGCTime ≤ U_32_MAX) :
    (∃ s', calculateGlobalMarkIncrementTimeMillis pgcTime s = .ok s'
      ∧ s'._historicalPartialGCTime ≤ U_32_MAX
      ∧ (U_32_MAX < pgcTime → s'._historicalPartialGCTime = s._historicalPartialGCTime)
      ∧ (pgcTime ≤ U_32_MAX →
          s'._historicalPartialGCTime ≤ max s._historicalPartialGCTime pgcTime))
    ∧ (∀ ext : MM_GCExtensions, (MM_SchedulingDelegate.new ext)._historicalPartialGCTime = 0) := by
  refine ⟨?_, fun _ => rfl⟩
  by_cases hp : pgcTime ≤ U_32_MAX
  · have hle := next_le_U32 pgcTime s._historicalPartialGCTime hp hh
    exact ⟨_, calculateGlobalMarkIncrementTimeMillis_accept pgcTime s hp hle.2, hle.2,
      fun h => absurd hp (not_le.mpr h), fun _ => hle.1⟩
  · refine ⟨s, ?_, hh, fun _ => rfl, fun h => absurd h hp⟩
    unfold calculateGlobalMarkIncrementTimeMillis
    rw [if_pos (not_le.mp hp)]

theorem C28_witness :
    (∃ s', calculateGlobalMarkIncrementTimeMillis (2 ^ 32 - 1)
        (testDelegateWithPgcHistory (2 ^ 32 - 1) 50) = .ok s'
      ∧ s'._historicalPartialGCTime ≤ U_32_MAX)
    ∧ calculateGlobalMarkIncrementTimeMillis (2 ^ 32 - 1)
        (testDelegateWithPgcHistory (2 ^ 32 - 1) 50)
      = .ok (testDelegateWithPgcHistory (2 ^ 32 - 1) 1431655765) := by
  obtain ⟨s', h1, h2, -⟩ := (C28_pgc_time_assertion_never_fails (2 ^ 32 - 1)
    (testDelegateWithPgcHistory (2 ^ 32 - 1) 50) (by decide)).1
  exact ⟨⟨s', h1, h2⟩, by decide!⟩

/-! ## Facts about the Eden check after a PGC -/

theorem and_fifteen_eq_mod (n : Nat) : n &&& (consecutivePGCToChangeEden - 1) = n % 16 := by
  have h : consecutivePGCToChangeEden - 1 = 2 ^ 4 - 1 := rfl
  rw [h, Nat.and_pow_two_sub_one_eq_mod]

/-- The result of `checkEdenSizeAfterPgc` once the startup phase has finished and the call
is not inside a GMP cycle without a global sweep, under a fully expanded heap. -/
theorem checkEdenSizeAfterPgc_expanded (ext : MM_GCExtensions) (rm : MM_HeapRegionManager)
    (env : MM_EnvironmentVLHGC) (g : Bool) (s : MM_SchedulingDelegate)
    (hfin : ext.statupPhaseFinished = true)
    (hgmp : ¬ (s._currentlyPerformingGMP = true ∧ g = false))
    (hexp : heapIsFullyExpanded ext rm s = true) :
    checkEdenSizeAfterPgc ext rm env g s
      = if g = true then
          (moveTowardRecommendedEden ext rm env (1 / 2) s).map resetPgcTimeStatistics
        else if s._pgcCountSinceGMPEnd % 16 = 0 then
          moveTowardRecommendedEden ext rm env (1 / 4) s
        else .ok s := by
  unfold checkEdenSizeAfterPgc
  rw [if_neg (by rw [hfin]; decide), if_neg hgmp, if_pos hexp, and_fifteen_eq_mod]
  by_cases hg : g = true
  · rw [if_pos hg, if_pos hg]
    cases moveTowardRecommendedEden ext rm env (1 / 2) s <;> rfl
  · rw [if_neg hg, if_neg hg]

/-- The result of `checkEdenSizeAfterPgc` once the startup phase has finished and the call
is not inside a GMP cycle without a global sweep, under a heap that is not fully expanded. -/
theorem checkEdenSizeAfterPgc_not_expanded (ext : MM_GCExtensions) (rm : MM_HeapRegionManager)
    (env : MM_EnvironmentVLHGC) (g : Bool) (s : MM_SchedulingDelegate)
    (hfin : ext.statupPhaseFinished = true)
    (hgmp : ¬ (s._currentlyPerformingGMP = true ∧ g = false))
    (hexp : heapIsFullyExpanded ext rm s = false) :
    checkEdenSizeAfterPgc ext rm env g s
      = if 0 = s._pgcCountSinceGMPEnd % 3 then
          match calculateHybridEdenOverhead ext rm env s s._historicalPartialGCTime
              s._partialGcOverhead with
          | .error e => .error e
          | .ok hybridEdenOverhead =>
            .ok { s with
              _edenSizeFactor :=
                wrapI (s._edenSizeFactor
                  + (if ext.dnssExpectedTimeRatioMinimum > hybridEdenOverhead then
                      wrapI (doubleToIDATA
                        (⌈(1 / 10 * (getIdealEdenSizeInBytes rm s : ℚ)) / (rm.regionSize : ℚ)⌉ : ℚ)
                        * -1)
                    else if ext.dnssExpectedTimeRatioMaximum < hybridEdenOverhead then
                      doubleToIDATA
                        (⌈(1 / 10 * (getIdealEdenSizeInBytes rm s : ℚ)) / (rm.regionSize : ℚ)⌉ : ℚ)
                    else 0)) }
        else .ok s := by
  unfold checkEdenSizeAfterPgc
  rw [if_neg (by rw [hfin]; decide), if_neg hgmp, if_neg (by rw [hexp]; decide)]

/-- C23 (amended): with the startup phase finished and no GMP in progress,
`checkEdenSizeAfterPgc` applies `moveTowardRecommendedEden` only under a fully expanded
heap: with speed 0.5 (followed by `resetPgcTimeStatistics`) when a global sweep happened,
otherwise with speed 0.25 when `pgcCountSinceGMPEnd` is a multiple of 16, and not at all at
other counts.  Under a heap that is not fully expanded it never applies
`moveTowardRecommendedEden`: it returns the delegate unchanged unless
`pgcCountSinceGMPEnd` is a multiple of 3, and then changes at most `edenSizeFactor`. -/
theorem C23_move_toward_recommended_eden_when_heap_expanded (ext : MM_GCExtensions)
    (rm : MM_HeapRegionManager) (env : MM_EnvironmentVLHGC) (globalSweepHappened : Bool)
    (s : MM_SchedulingDelegate)
    (hfin : ext.statupPhaseFinished = true) (hgmp : s._currentlyPerformingGMP = false) :
    (heapIsFullyExpanded ext rm s = true →
      (globalSweepHappened = true →
        checkEdenSizeAfterPgc ext rm env globalSweepHappened s
          = (moveTowardRecommendedEden ext rm env (1 / 2) s).map resetPgcTimeStatistics)
      ∧ (globalSweepHappened = false → s._pgcCountSinceGMPEnd % consecutivePGCToChangeEden = 0 →
        checkEdenSizeAfterPgc ext rm env globalSweepHappened s
          = moveTowardRecommendedEden ext rm env (1 / 4) s)
      ∧ (globalSweepHappened = false → s._pgcCountSinceGMPEnd % consecutivePGCToChangeEden ≠ 0 →
        checkEdenSizeAfterPgc ext rm env globalSweepHappened s = .ok s))
    ∧ (heapIsFullyExpanded ext rm s = false →
      (s._pgcCountSinceGMPEnd % 3 ≠ 0 →
        checkEdenSizeAfterPgc ext rm env globalSweepHappened s = .ok s)
      ∧ (∀ s', checkEdenSizeAfterPgc ext rm env globalSweepHappened s = .ok s' →
        s' = { s with _edenSizeFactor := s'._edenSizeFactor })) := by
  have hg : ¬ (s._currentlyPerformingGMP = true ∧ globalSweepHappened = false) := by
    rw [hgmp]; simp
  constructor
  · intro hexp
    rw [checkEdenSizeAfterPgc_expanded ext rm env globalSweepHappened s hfin hg hexp]
    refine ⟨?_, ?_, ?_⟩
    · intro h1
      rw [if_pos h1]
    · intro h1 h2
      rw [if_neg (by rw [h1]; decide),
        if_pos (show s._pgcCountSinceGMPEnd % 16 = 0 from h2)]
    · intro h1 h2
      rw [if_neg (by rw [h1]; decide),
        if_neg (show ¬ s._pgcCountSinceGMPEnd % 16 = 0 from h2)]
  · intro hexp
    rw [checkEdenSizeAfterPgc_not_expanded ext rm env globalSweepHappened s hfin hg hexp]
    constructor
    · intro h3
      rw [if_neg (fun e => h3 e.symm)]
    · intro s' h
      split at h
      · split at h
        · cases h
        · cases h; rfl
      · cases h
        cases s
        rfl

theorem C23_witness :
    (∃ s', checkEdenSizeAfterPgc { testExtensionsStartupFinished with memoryMax := 2 ^ 29 }
        testRegionManager testEnvironment false (testDelegateAfterPgcs 512 16) = .ok s'
      ∧ moveTowardRecommendedEden { testExtensionsStartupFinished with memoryMax := 2 ^ 29 }
        testRegionManager testEnvironment (1 / 4) (testDelegateAfterPgcs 512 16) = .ok s'
      ∧ s'._edenSizeFactor = 96) := by
  have h := ((C23_move_toward_recommended_eden_when_heap_expanded
    { testExtensionsStartupFinished with memoryMax := 2 ^ 29 } testRegionManager testEnvironment
    false (testDelegateAfterPgcs 512 16) rfl rfl).1 (by decide!)).2.1 rfl (by decide)
  have h2 : moveTowardRecommendedEden { testExtensionsStartupFinished with memoryMax := 2 ^ 29 }
      testRegionManager testEnvironment (1 / 4) (testDelegateAfterPgcs 512 16)
      = .ok { testDelegateAfterPgcs 512 16 with _edenSizeFactor := 96 } := by decide!
  exact ⟨_, h.trans h2, h2, rfl⟩

/-- C23, the claim as stated fails: under a heap that is not fully expanded (512 of 1024
regions), startup finished, no GMP in progress and `pgcCountSinceGMPEnd = 16`,
`checkEdenSizeAfterPgc` returns the delegate as it was, with or without a global sweep,
while `moveTowardRecommendedEden` with speed 0.25 would set `edenSizeFactor` to 96. -/
theorem C23_counterexample :
    heapIsFullyExpanded testExtensionsStartupFinished testRegionManager
        (testDelegateAfterPgcs 512 16) = false
    ∧ checkEdenSizeAfterPgc testExtensionsStartupFinished testRegionManager testEnvironment
        false (testDelegateAfterPgcs 512 16) = .ok (testDelegateAfterPgcs 512 16)
    ∧ checkEdenSizeAfterPgc testExtensionsStartupFinished testRegionManager testEnvironment
        true (testDelegateAfterPgcs 512 16) = .ok (testDelegateAfterPgcs 512 16)
    ∧ moveTowardRecommendedEden testExtensionsStartupFinished testRegionManager testEnvironment
        (1 / 4) (testDelegateAfterPgcs 512 16)
      = .ok { testDelegateAfterPgcs 512 16 with _edenSizeFactor := 96 } := by
  refine ⟨?_, ?_, ?_, ?_⟩ <;> decide!

theorem wrapI_of_range (i : Int) (h1 : -(2 ^ 63) ≤ i) (h2 : i < 2 ^ 63) : wrapI i = i := by
  unfold wrapI toIDATA toUDATA
  split_ifs <;> omega

theorem doubleToIDATA_intCast (z : Int) (h1 : -(2 ^ 63) ≤ z) (h2 : z < 2 ^ 63) :
    doubleToIDATA (z : ℚ) = z := by
  unfold doubleToIDATA
  have e : (if (0 : ℚ) ≤ (z : ℚ) then ⌊(z : ℚ)⌋ else ⌈(z : ℚ)⌉) = z := by
    split
    · exact Int.floor_intCast z
    · exact Int.ceil_intCast z
  rw [e]
  exact wrapI_of_range z h1 h2

/-- The step `edenChangeMagnitude` of `checkEdenSizeAfterPgc` is `ceil(0.1·ideal)` when the
ideal Eden size in bytes fits the machine word. -/
theorem edenChangeMagnitude_eq (rm : MM_HeapRegionManager) (s : MM_SchedulingDelegate)
    (hrs : 0 < rm.regionSize) (hideal : s._idealEdenRegionCount * rm.regionSize < 2 ^ 64) :
    doubleToIDATA
        (⌈(1 / 10 * (getIdealEdenSizeInBytes rm s : ℚ)) / (rm.regionSize : ℚ)⌉ : ℚ)
      = ⌈(1 / 10 : ℚ) * (s._idealEdenRegionCount : ℚ)⌉
    ∧ 0 ≤ ⌈(1 / 10 : ℚ) * (s._idealEdenRegionCount : ℚ)⌉
    ∧ ⌈(1 / 10 : ℚ) * (s._idealEdenRegionCount : ℚ)⌉ < 2 ^ 62 := by
  have hrs' : (rm.regionSize : ℚ) ≠ 0 := by exact_mod_cast (ne_of_gt hrs)
  have e : (1 / 10 * (getIdealEdenSizeInBytes rm s : ℚ)) / (rm.regionSize : ℚ)
      = (1 / 10 : ℚ) * (s._idealEdenRegionCount : ℚ) := by
    unfold getIdealEdenSizeInBytes wrapU
    rw [Nat.mod_eq_of_lt hideal]
    push_cast
    field_simp
    ring
  have hi : s._idealEdenRegionCount < 2 ^ 64 := by
    have : s._idealEdenRegionCount * 1 ≤ s._idealEdenRegionCount * rm.regionSize :=
      Nat.mul_le_mul_left _ hrs
    omega
  have h0 : 0 ≤ ⌈(1 / 10 : ℚ) * (s._idealEdenRegionCount : ℚ)⌉ :=
    Int.ceil_nonneg (by positivity)
  have h1 : ⌈(1 / 10 : ℚ) * (s._idealEdenRegionCount : ℚ)⌉ < 2 ^ 62 := by
    rw [Int.ceil_lt_iff]
    have : (s._idealEdenRegionCount : ℚ) < 2 ^ 64 := by exact_mod_cast hi
    push_cast
    linarith
  rw [e]
  exact ⟨doubleToIDATA_intCast _ (by omega) (by omega), h0, h1⟩

/-- C24: in the every-third-PGC branch of `checkEdenSizeAfterPgc` (startup finished, not
inside a GMP cycle without a global sweep, heap not fully expanded,
`pgcCountSinceGMPEnd mod 3 = 0`), with `H = calculateHybridEdenOverhead(
historicalPartialGCTime, partialGcOverhead)` and `m = ceil(0.1·idealEdenRegionCount)`, the
call returns with every field but `edenSizeFactor` as before and `edenSizeFactor` decreased
by `m` when `H < dnssExpectedTimeRatioMinimum`, increased by `m` when
`H > dnssExpectedTimeRatioMaximum` (and `H` is not below the minimum), and as it was when
`H` lies in `[dnssExpectedTimeRatioMinimum, dnssExpectedTimeRatioMaximum]`; when
`pgcCountSinceGMPEnd mod 3 ≠ 0` the delegate is returned unchanged. -/
theorem C24_every_third_pgc_eden_step (ext : MM_GCExtensions) (rm : MM_HeapRegionManager)
    (env : MM_EnvironmentVLHGC) (globalSweepHappened : Bool) (s : MM_SchedulingDelegate)
    (hfin : ext.statupPhaseFinished = true)
    (hgmp : ¬ (s._currentlyPerformingGMP = true ∧ globalSweepHappened = false))
    (hexp : heapIsFullyExpanded ext rm s = false) :
    (s._pgcCountSinceGMPEnd % 3 = 0 →
      0 < rm.regionSize → s._idealEdenRegionCount * rm.regionSize < 2 ^ 64 →
      0 ≤ s._partialGcOverhead → s._partialGcOverhead ≤ 1 →
      -(2 ^ 62) ≤ s._edenSizeFactor → s._edenSizeFactor < 2 ^ 62 →
      ∃ H s', calculateHybridEdenOverhead ext rm env s s._historicalPartialGCTime
            s._partialGcOverhead = .ok H
        ∧ checkEdenSizeAfterPgc ext rm env globalSweepHappened s = .ok s'
        ∧ s' = { s with _edenSizeFactor := s'._edenSizeFactor }
        ∧ (H < ext.dnssExpectedTimeRatioMinimum →
            s'._edenSizeFactor
              = s._edenSizeFactor - ⌈(1 / 10 : ℚ) * (s._idealEdenRegionCount : ℚ)⌉)
        ∧ (ext.dnssExpectedTimeRatioMinimum ≤ H → ext.dnssExpectedTimeRatioMaximum < H →
            s'._edenSizeFactor
              = s._edenSizeFactor + ⌈(1 / 10 : ℚ) * (s._idealEdenRegionCount : ℚ)⌉)
        ∧ (ext.dnssExpectedTimeRatioMinimum ≤ H → H ≤ ext.dnssExpectedTimeRatioMaximum →
            s'._edenSizeFactor = s._edenSizeFactor))
    ∧ (s._pgcCountSinceGMPEnd % 3 ≠ 0 →
      checkEdenSizeAfterPgc ext rm env globalSweepHappened s = .ok s) := by
  rw [checkEdenSizeAfterPgc_not_expanded ext rm env globalSweepHappened s hfin hgmp hexp]
  constructor
  · intro h3 hrs hideal ho0 ho1 hf1 hf2
    obtain ⟨hm, hm0, hm1⟩ := edenChangeMagnitude_eq rm s hrs hideal
    rw [if_pos h3.symm, hm]
    have hH : calculateHybridEdenOverhead ext rm env s s._historicalPartialGCTime
        s._partialGcOverhead
        = .ok ((1 / 2 * (s._partialGcOverhead * 100)
            + (1 - 1 / 2) * mapPgcTimeToPgcOverhead ext rm env s s._historicalPartialGCTime)
            / 100) := by
      unfold calculateHybridEdenOverhead
      dsimp only
      rw [if_neg (not_not.mpr ⟨ho0, ho1⟩)]
    rw [hH]
    generalize ⌈(1 / 10 : ℚ) * (s._idealEdenRegionCount : ℚ)⌉ = M at hm0 hm1 ⊢
    have hneg : wrapI (M * -1) = -M := by
      rw [wrapI_of_range _ (by omega) (by omega)]
      ring
    refine ⟨_, _, rfl, rfl, rfl, ?_, ?_, ?_⟩
    · intro hlt
      dsimp only
      rw [if_pos (show ext.dnssExpectedTimeRatioMinimum > _ from hlt), hneg,
        wrapI_of_range _ (by omega) (by omega)]
      ring
    · intro hge hgt
      dsimp only
      rw [if_neg (not_lt.mpr hge), if_pos hgt, wrapI_of_range _ (by omega) (by omega)]
    · intro hge hle
      dsimp only
      rw [if_neg (not_lt.mpr hge), if_neg (not_lt.mpr hle), add_zero,
        wrapI_of_range _ (by omega) (by omega)]
  · intro h3
    rw [if_neg (fun e => h3 e.symm)]

theorem C24_witness :
    ∃ H s', calculateHybridEdenOverhead testExtensionsStartupFinished testRegionManager
          testEnvironment (testDelegateAfterPgcs 512 3) 100 (7 / 100) = .ok H
      ∧ H = 11 / 100
      ∧ checkEdenSizeAfterPgc testExtensionsStartupFinished testRegionManager testEnvironment
          false (testDelegateAfterPgcs 512 3) = .ok s'
      ∧ s'._edenSizeFactor = 0 := by
  obtain ⟨H, s', h1, h2, -, -, -, h3⟩ :=
    (C24_every_third_pgc_eden_step testExtensionsStartupFinished testRegionManager
      testEnvironment false (testDelegateAfterPgcs 512 3) rfl (by decide) (by decide!)).1
      (by decide) (by decide) (by decide) (by decide!) (by decide!) (by decide) (by decide)
  have hH : calculateHybridEdenOverhead testExtensionsStartupFinished testRegionManager
      testEnvironment (testDelegateAfterPgcs 512 3) 100 (7 / 100) = .ok (11 / 100) := by
    decide!
  have e : H = 11 / 100 := by
    have := h1.symm.trans hH
    cases this
    rfl
  refine ⟨H, s', h1, e, h2, ?_⟩
  rw [h3 (by rw [e]; decide!) (by rw [e]; decide!)]
  rfl

/-! ## Facts about the ideal Eden of the startup phase -/

theorem determineNextPGCType_allowed (ext : MM_GCExtensions) (s : MM_SchedulingDelegate)
    (h : s._nextPGCShouldCopyForward = true → ext.tarokPGCShouldCopyForward = true) :
    ((determineNextPGCType ext s).1 = true → ext.tarokPGCShouldCopyForward = true)
    ∧ ((determineNextPGCType ext s).2._nextPGCShouldCopyForward = true →
        ext.tarokPGCShouldCopyForward = true) := by
  unfold determineNextPGCType
  dsimp only
  by_cases h0 : 0 = s._scanRateStats.microSecondsPerByteScanned
  · rw [if_pos h0]
    dsimp only
    rw [if_neg (by simp)]
    by_cases hc : ext.tarokPGCShouldCopyForward = true
    · exact ⟨fun _ => hc, fun _ => hc⟩
    · rw [if_neg (by simp [hc])]
      exact ⟨fun e => (by cases e), fun e => (by cases e)⟩
  · rw [if_neg h0]
    by_cases hn : s._nextPGCShouldCopyForward = true
    · have hc := h hn
      exact ⟨fun _ => hc, fun _ => hc⟩
    · rw [if_neg (by simp [hn])]
      by_cases hc : ext.tarokPGCShouldCopyForward = true
      · exact ⟨fun _ => hc, fun _ => hc⟩
      · rw [if_neg (by simp [hc])]
        exact ⟨fun e => absurd e hn, fun e => absurd e hn⟩

theorem reached_copyForward_allowed (ext : MM_GCExtensions) (s : MM_SchedulingDelegate)
    (h : ReachedByDeterminingPGCType ext s) :
    s._nextPGCShouldCopyForward = true → ext.tarokPGCShouldCopyForward = true := by
  induction h with
  | constructed => exact fun e => e
  | determineNextPGCType s _ ih => exact (determineNextPGCType_allowed ext s ih).2
  | otherMember s s' _ he ih => rw [he]; exact ih

/-- C27: at every delegate reached from the constructed one by `determineNextPGCType` calls
(with any other members run in between), `nextPGCShouldCopyForward` is true only if
`tarokPGCShouldCopyForward` is, and the next `determineNextPGCType` call stores true in
`cycleState.shouldRunCopyForward` only if `tarokPGCShouldCopyForward` is true. -/
theorem C27_copy_forward_only_when_allowed (ext : MM_GCExtensions)
    (s : MM_SchedulingDelegate) (h : ReachedByDeterminingPGCType ext s) :
    (s._nextPGCShouldCopyForward = true → ext.tarokPGCShouldCopyForward = true)
    ∧ ((determineNextPGCType ext s).1 = true → ext.tarokPGCShouldCopyForward = true) :=
  ⟨reached_copyForward_allowed ext s h,
    (determineNextPGCType_allowed ext s (reached_copyForward_allowed ext s h)).1⟩

theorem C27_witness :
    (determineNextPGCType testExtensionsNoCopyForward
      { (determineNextPGCType testExtensionsNoCopyForward
          (MM_SchedulingDelegate.new testExtensionsNoCopyForward)).2 with
        _scanRateStats := ⟨100, 50, 1 / 2⟩ }).1 = false
    ∧ (determineNextPGCType (testExtensions 1 1)
      { (determineNextPGCType (testExtensions 1 1)
          (MM_SchedulingDelegate.new (testExtensions 1 1))).2 with
        _scanRateStats := ⟨100, 50, 1 / 2⟩ }).1 = true := by
  constructor
  · apply Bool.eq_false_iff.mpr
    intro e
    have w := (C27_copy_forward_only_when_allowed testExtensionsNoCopyForward _
      (ReachedByDeterminingPGCType.otherMember _
        { (determineNextPGCType testExtensionsNoCopyForward
            (MM_SchedulingDelegate.new testExtensionsNoCopyForward)).2 with
          _scanRateStats := ⟨100, 50, 1 / 2⟩ }
        (ReachedByDeterminingPGCType.determineNextPGCType _
          ReachedByDeterminingPGCType.constructed) rfl)).2 e
    exact absurd w (by decide)
  · decide!

/-- C29: after `updatePgcTimePrediction` has run with `edenRegionCount > 1` and
`historicalPartialGCTime > 5`, `pgcTimeIncreasePerEdenRegionFactor` is
`pow((1+1)/(edenRegionCount+1), 1/(5 − historicalPartialGCTime))` and nothing else has
changed.  With `log 1 = 0`, `predictPgcTime` then returns `historicalPartialGCTime·1000` for
an Eden change of 0; with `log (pow x y) = y·log x` for the fitted `x` and `y` and
`log x ≠ 0` it returns `5·1000` for the Eden change `(1 − edenRegionCount)·regionSize`.
For every state, environment and Eden change the prediction is at least 5000. -/
theorem C29_pause_model_passes_through_fitted_points (rm : MM_HeapRegionManager)
    (env : MM_EnvironmentVLHGC) (s : MM_SchedulingDelegate)
    (heden : 1 < s._edenRegionCount) (hhist : 5 < s._historicalPartialGCTime) :
    (updatePgcTimePrediction env s)._pgcTimeIncreasePerEdenRegionFactor
      = env.pow (((1 : ℚ) + 1) / ((s._edenRegionCount : ℚ) + 1))
          (1 / (5 - (s._historicalPartialGCTime : ℚ)))
    ∧ updatePgcTimePrediction env s
      = { s with
          _pgcTimeIncreasePerEdenRegionFactor :=
            (updatePgcTimePrediction env s)._pgcTimeIncreasePerEdenRegionFactor }
    ∧ (env.log 1 = 0 →
        predictPgcTime rm env (updatePgcTimePrediction env s) 0
          = (s._historicalPartialGCTime : ℚ) * 1000)
    ∧ (0 < rm.regionSize →
        env.log (env.pow (((1 : ℚ) + 1) / ((s._edenRegionCount : ℚ) + 1))
            (1 / (5 - (s._historicalPartialGCTime : ℚ))))
          = 1 / (5 - (s._historicalPartialGCTime : ℚ))
            * env.log (((1 : ℚ) + 1) / ((s._edenRegionCount : ℚ) + 1)) →
        env.log (((1 : ℚ) + 1) / ((s._edenRegionCount : ℚ) + 1)) ≠ 0 →
        predictPgcTime rm env (updatePgcTimePrediction env s)
            ((1 - (s._edenRegionCount : Int)) * (rm.regionSize : Int))
          = 5 * 1000)
    ∧ (∀ (rm' : MM_HeapRegionManager) (env' : MM_EnvironmentVLHGC)
        (s' : MM_SchedulingDelegate) (edenSizeChange : Int),
        5000 ≤ predictPgcTime rm' env' s' edenSizeChange) := by
  have he : ((minimumEdenRegions : Nat) : ℚ) < ((getCurrentEdenSizeInRegions s : Nat) : ℚ) := by
    unfold minimumEdenRegions getCurrentEdenSizeInRegions
    exact_mod_cast heden
  have hh : ((minimumPgcTime : Nat) : ℚ) < (s._historicalPartialGCTime : ℚ) := by
    unfold minimumPgcTime
    exact_mod_cast hhist
  have hu : updatePgcTimePrediction env s
      = { s with
          _pgcTimeIncreasePerEdenRegionFactor :=
            env.pow (((1 : ℚ) + 1) / ((s._edenRegionCount : ℚ) + 1))
              (1 / (5 - (s._historicalPartialGCTime : ℚ))) } := by
    unfold updatePgcTimePrediction
    dsimp only
    rw [if_pos ⟨he, hh⟩]
    unfold minimumEdenRegions minimumPgcTime getCurrentEdenSizeInRegions
    norm_num
  have h5 : (5 : ℚ) < (s._historicalPartialGCTime : ℚ) := by exact_mod_cast hhist
  have hepos : (0 : ℚ) < (s._edenRegionCount : ℚ) + 1 := by positivity
  refine ⟨?_, ?_, ?_, ?_, ?_⟩
  · rw [hu]
  · rw [hu]
  · intro hlog
    rw [hu]
    unfold predictPgcTime getCurrentEdenSizeInRegions minimumPgcTime
    dsimp only
    have e1 : (((0 : Int) : ℚ) / (rm.regionSize : ℚ) + (s._edenRegionCount : ℚ) + 1)
        / ((s._edenRegionCount : ℚ) + 1) = 1 := by
      rw [Int.cast_zero, zero_div, zero_add, div_self (ne_of_gt hepos)]
    rw [e1, hlog, zero_div, add_zero, max_eq_left (by push_cast; linarith)]
  · intro hrs hlaw hne
    rw [hu]
    unfold predictPgcTime getCurrentEdenSizeInRegions minimumPgcTime
    dsimp only
    have hrs' : (rm.regionSize : ℚ) ≠ 0 := by exact_mod_cast (ne_of_gt hrs)
    have e1 : ((((1 - (s._edenRegionCount : Int)) * (rm.regionSize : Int) : Int) : ℚ)
          / (rm.regionSize : ℚ) + (s._edenRegionCount : ℚ) + 1)
        / ((s._edenRegionCount : ℚ) + 1)
        = ((1 : ℚ) + 1) / ((s._edenRegionCount : ℚ) + 1) := by
      congr 1
      push_cast
      field_simp
    rw [e1, hlaw]
    have hy : (5 : ℚ) - (s._historicalPartialGCTime : ℚ) ≠ 0 := by linarith
    have e2 : env.log (((1 : ℚ) + 1) / ((s._edenRegionCount : ℚ) + 1))
        / (1 / (5 - (s._historicalPartialGCTime : ℚ))
          * env.log (((1 : ℚ) + 1) / ((s._edenRegionCount : ℚ) + 1)))
        = 5 - (s._historicalPartialGCTime : ℚ) := by
      field_simp
    rw [e2]
    norm_num
  · intro rm' env' s' c
    unfold predictPgcTime minimumPgcTime
    dsimp only
    have := le_max_right ((s'._historicalPartialGCTime : ℚ)
      + env'.log ((((c : ℚ)) / (rm'.regionSize : ℚ) + (getCurrentEdenSizeInRegions s' : ℚ) + 1)
          / ((getCurrentEdenSizeInRegions s' : ℚ) + 1))
        / env'.log s'._pgcTimeIncreasePerEdenRegionFactor) (((5 : Nat) : ℚ))
    push_cast at this ⊢
    linarith

theorem C29_witness :
    (updatePgcTimePrediction testEnvironmentLogBaseTwo
        testDelegateSevenSeven)._pgcTimeIncreasePerEdenRegionFactor = 2
    ∧ predictPgcTime testRegionManager testEnvironmentLogBaseTwo
        (updatePgcTimePrediction testEnvironmentLogBaseTwo testDelegateSevenSeven) 0
      = ((testDelegateSevenSeven._historicalPartialGCTime : Nat) : ℚ) * 1000
    ∧ predictPgcTime testRegionManager testEnvironmentLogBaseTwo
        (updatePgcTimePrediction testEnvironmentLogBaseTwo testDelegateSevenSeven)
        ((1 - (testDelegateSevenSeven._edenRegionCount : Int))
          * (testRegionManager.regionSize : Int))
      = 5 * 1000 := by
  have w := C29_pause_model_passes_through_fitted_points testRegionManager
    testEnvironmentLogBaseTwo testDelegateSevenSeven (by decide) (by decide)
  exact ⟨by decide!, w.2.2.1 (by decide!), w.2.2.2.1 (by decide) (by decide!) (by decide!)⟩

/-! ## Facts about the recommended Eden size -/

theorem recommendedEdenSample_eq (ext : MM_GCExtensions) (rm : MM_HeapRegionManager)
    (env : MM_EnvironmentVLHGC) (s : MM_SchedulingDelegate) (cur F interval : Nat)
    (maxChange : Int) (g : Nat) (best : Int × ℚ) (i : Nat) :
    recommendedEdenSample ext rm env s cur F interval maxChange g best i
      = match estimatedHybridOverheadOfChange ext rm env s cur F interval
            (recommendedEdenChangeOfSample maxChange g i) with
        | .error e => .error e
        | .ok w =>
          if w < best.2 then .ok (recommendedEdenChangeOfSample maxChange g i, w)
          else .ok best := rfl

/-- What the sampling loop of `calculateRecommendedEdenSize` returns: a candidate whose
overhead is at most the initial one and at most that of every sample, and that is either
the initial candidate or the first sample that reaches that overhead. -/
theorem recommendedEdenSamples_post (ext : MM_GCExtensions) (rm : MM_HeapRegionManager)
    (env : MM_EnvironmentVLHGC) (s : MM_SchedulingDelegate) (cur F interval : Nat)
    (maxChange : Int) (g : Nat) :
    ∀ (l : List Nat) (b r : Int × ℚ),
      recommendedEdenSamples ext rm env s cur F interval maxChange g l b = .ok r →
      r.2 ≤ b.2
      ∧ (∀ j ∈ l, ∃ w, estimatedHybridOverheadOfChange ext rm env s cur F interval
            (recommendedEdenChangeOfSample maxChange g j) = .ok w ∧ r.2 ≤ w)
      ∧ (r = b
        ∨ ∃ l1 i l2, l = l1 ++ i :: l2
          ∧ r.1 = recommendedEdenChangeOfSample maxChange g i
          ∧ estimatedHybridOverheadOfChange ext rm env s cur F interval
              (recommendedEdenChangeOfSample maxChange g i) = .ok r.2
          ∧ r.2 < b.2
          ∧ ∀ j ∈ l1, ∃ w, estimatedHybridOverheadOfChange ext rm env s cur F interval
              (recommendedEdenChangeOfSample maxChange g j) = .ok w ∧ r.2 < w) := by
  intro l
  induction l with
  | nil =>
    intro b r h
    rw [recommendedEdenSamples] at h
    cases h
    exact ⟨le_refl _, fun j hj => absurd hj (List.not_mem_nil j), Or.inl rfl⟩
  | cons i rest ih =>
    intro b r h
    rw [recommendedEdenSamples, recommendedEdenSample_eq] at h
    cases hov : estimatedHybridOverheadOfChange ext rm env s cur F interval
        (recommendedEdenChangeOfSample maxChange g i) with
    | error e => rw [hov] at h; cases h
    | ok w =>
      rw [hov] at h
      dsimp only at h
      by_cases hlt : w < b.2
      · rw [if_pos hlt] at h
        dsimp only at h
        obtain ⟨h1, h2, h3⟩ := ih _ r h
        have h1' : r.2 ≤ w := h1
        refine ⟨le_trans h1' (le_of_lt hlt), ?_, ?_⟩
        · intro j hj
          rcases List.mem_cons.mp hj with rfl | hj
          · exact ⟨w, hov, h1'⟩
          · exact h2 j hj
        · right
          rcases h3 with h3 | ⟨l1, k, l2, e1, e2, e3, e4, e5⟩
          · refine ⟨[], i, rest, rfl, ?_, ?_, ?_, fun j hj => absurd hj (List.not_mem_nil j)⟩
            · rw [h3]
            · rw [h3]; exact hov
            · rw [h3]; exact hlt
          · refine ⟨i :: l1, k, l2, by rw [e1]; rfl, e2, e3, lt_trans e4 hlt, ?_⟩
            intro j hj
            rcases List.mem_cons.mp hj with rfl | hj
            · exact ⟨w, hov, e4⟩
            · exact e5 j hj
      · rw [if_neg hlt] at h
        dsimp only at h
        obtain ⟨h1, h2, h3⟩ := ih _ r h
        have hbw : b.2 ≤ w := not_lt.mp hlt
        refine ⟨h1, ?_, ?_⟩
        · intro j hj
          rcases List.mem_cons.mp hj with rfl | hj
          · exact ⟨w, hov, le_trans h1 hbw⟩
          · exact h2 j hj
        · rcases h3 with h3 | ⟨l1, k, l2, e1, e2, e3, e4, e5⟩
          · left; exact h3
          · right
            refine ⟨i :: l1, k, l2, by rw [e1]; rfl, e2, e3, e4, ?_⟩
            intro j hj
            rcases List.mem_cons.mp hj with rfl | hj
            · exact ⟨w, hov, lt_of_lt_of_le e4 hbw⟩
            · exact e5 j hj

theorem recommendedEdenSamples_total (ext : MM_GCExtensions) (rm : MM_HeapRegionManager)
    (env : MM_EnvironmentVLHGC) (s : MM_SchedulingDelegate) (cur F interval : Nat)
    (maxChange : Int) (g : Nat) :
    ∀ (l : List Nat) (b : Int × ℚ),
      (∀ j ∈ l, ∃ w, estimatedHybridOverheadOfChange ext rm env s cur F interval
            (recommendedEdenChangeOfSample maxChange g j) = .ok w) →
      ∃ r, recommendedEdenSamples ext rm env s cur F interval maxChange g l b = .ok r := by
  intro l
  induction l with
  | nil => intro b _; exact ⟨b, rfl⟩
  | cons i rest ih =>
    intro b hall
    obtain ⟨w, hw⟩ := hall i (List.mem_cons_self _ _)
    rw [recommendedEdenSamples, recommendedEdenSample_eq, hw]
    dsimp only
    by_cases hlt : w < b.2
    · rw [if_pos hlt]
      exact ih _ (fun j hj => hall j (List.mem_cons_of_mem _ hj))
    · rw [if_neg hlt]
      exact ih _ (fun j hj => hall j (List.mem_cons_of_mem _ hj))

theorem range_split (n : Nat) (l1 l2 : List Nat) (i : Nat)
    (h : List.range n = l1 ++ i :: l2) : i < n ∧ ∀ j, j < i → j ∈ l1 := by
  have hi : i ∈ List.range n := by rw [h]; simp
  have hin : i < n := List.mem_range.mp hi
  have hp : List.Pairwise (· < ·) (l1 ++ i :: l2) := by
    rw [← h]; exact List.pairwise_lt_range n
  obtain ⟨-, hp2, -⟩ := List.pairwise_append.mp hp
  have hp3 := (List.pairwise_cons.mp hp2).1
  refine ⟨hin, ?_⟩
  intro j hj
  have hjm : j ∈ l1 ++ i :: l2 := by
    rw [← h]; exact List.mem_range.mpr (lt_trans hj hin)
  rcases List.mem_append.mp hjm with hj1 | hj2
  · exact hj1
  · rcases List.mem_cons.mp hj2 with rfl | hj3
    · exact absurd hj (lt_irrefl _)
    · exact absurd (hp3 j hj3) (not_lt.mpr (le_of_lt hj))

theorem toUDATA_toIDATA (y : Nat) (h : y < 2 ^ 64) : toUDATA (toIDATA y) = y := by
  unfold toUDATA toIDATA
  split_ifs <;> omega

theorem samplingGranularity_eq (F ideal : Nat) (hF : F < 2 ^ 63) (hi : ideal < 2 ^ 63) :
    toUDATA (wrapI (toIDATA F - wrapI (toIDATA ideal * -1))) / 100 = (F + ideal) / 100 := by
  have hneg : wrapI ((ideal : Int) * -1) = -(ideal : Int) := by
    have e := wrapI_of_range ((ideal : Int) * -1) (by omega) (by omega)
    rw [e]
    omega
  have hw : ∀ x : Int, toUDATA (wrapI x) = toUDATA x := by
    intro x
    unfold wrapI
    exact toUDATA_toIDATA _ (by unfold toUDATA; omega)
  rw [toIDATA_of_lt F hF, toIDATA_of_lt ideal hi, hneg, hw]
  congr 1
  unfold toUDATA
  omega

theorem recommendedEdenChangeOfSample_eq (F ideal k : Nat) (hF : F < 2 ^ 63)
    (hi : ideal < 2 ^ 63) (hk : k < 100) :
    recommendedEdenChangeOfSample (toIDATA F) ((F + ideal) / 100) k
        = (F : Int) - ((k * ((F + ideal) / 100) : Nat) : Int)
    ∧ -(ideal : Int) ≤ (F : Int) - ((k * ((F + ideal) / 100) : Nat) : Int)
    ∧ (F : Int) - ((k * ((F + ideal) / 100) : Nat) : Int) ≤ F := by
  have hp : k * ((F + ideal) / 100) ≤ F + ideal := by
    calc k * ((F + ideal) / 100) ≤ 100 * ((F + ideal) / 100) :=
          Nat.mul_le_mul_right _ (le_of_lt hk)
      _ ≤ F + ideal := Nat.mul_div_le _ _
  unfold recommendedEdenChangeOfSample
  rw [toUDATA_toIDATA F (by omega), Nat.mul_comm ((F + ideal) / 100) k]
  generalize k * ((F + ideal) / 100) = p at hp ⊢
  refine ⟨?_, by omega, by omega⟩
  unfold toIDATA subU wrapU
  split_ifs <;> omega

theorem recommendedSize_eq (ideal : Nat) (D : Int) (F : Nat) (h1 : -(ideal : Int) ≤ D)
    (h2 : D ≤ F) (hF : F < 2 ^ 63) (hi : ideal < 2 ^ 63) :
    ((wrapU (ideal + toUDATA D) : Nat) : Int) = (ideal : Int) + D
    ∧ wrapU (ideal + toUDATA D) ≤ ideal + F := by
  unfold wrapU toUDATA
  constructor <;> omega

theorem recommendedEdenFreeTenure_ne_zero (rm : MM_HeapRegionManager)
    (s : MM_SchedulingDelegate) : recommendedEdenFreeTenure rm s ≠ 0 := by
  unfold recommendedEdenFreeTenure
  dsimp only
  split
  · split
    · rename_i hpos
      generalize subU (subU (subU (wrapU (rm.regionSize * s._numberOfHeapRegions))
        (getIdealEdenSizeInBytes rm s)) s._liveSetBytesAfterPartialCollect)
        (toUDATA (doubleToIDATA s._averageSurvivorSetRegionCount)) = y at hpos ⊢
      unfold toIDATA at hpos ⊢
      unfold toUDATA
      split_ifs at hpos ⊢ <;> omega
    · decide
  · exact ne_of_gt (lt_of_lt_of_le Nat.zero_lt_one (le_max_right _ _))

theorem calculateRecommendedEdenSize_eq (ext : MM_GCExtensions) (rm : MM_HeapRegionManager)
    (env : MM_EnvironmentVLHGC) (s : MM_SchedulingDelegate)
    (hcount : 0 < s._pgcCountSinceGMPEnd) :
    calculateRecommendedEdenSize ext rm env s
      = match currentEdenHybridOverhead ext rm env s with
        | .error e => .error e
        | .ok c =>
          match recommendedEdenSamples ext rm env s (getIdealEdenSizeInBytes rm s)
              (recommendedEdenFreeTenure rm s)
              (subU s._averagePgcInterval (wrapU (s._historicalPartialGCTime * 1000)))
              (toIDATA (recommendedEdenFreeTenure rm s))
              (toUDATA (wrapI (toIDATA (recommendedEdenFreeTenure rm s)
                - wrapI (toIDATA (getIdealEdenSizeInBytes rm s) * -1))) / 100)
              (List.range 100) (0, c) with
          | .error e => .error e
          | .ok best => .ok (wrapU (getIdealEdenSizeInBytes rm s + toUDATA best.1)) := by
  unfold calculateRecommendedEdenSize currentEdenHybridOverhead
  rw [if_neg (fun e => absurd e.symm (ne_of_gt hcount))]
  dsimp only
  rw [if_neg (not_not.mpr (recommendedEdenFreeTenure_ne_zero rm s))]

/-- C30: for a state with `pgcCountSinceGMPEnd > 0`, ideal Eden bytes `I` and free tenure `F`
below `2^63`, and sampling step `g = floor((F + I)/100)`: `calculateRecommendedEdenSize`
returns whenever the hybrid overhead of the current size and of the 100 sampled changes
`F − k·g` are defined (the predicted CPU overheads pass the assertion), and whatever size it
returns is `I + D` with `size ≤ I + F`, where the hybrid overhead `v` of `D` is at most that
of the current size and of every sampled change, and either `D = 0` with `v` the overhead
of the current size, or `D = F − k·g` for the first `k < 100` that reaches `v`, which is
then strictly below the overhead of the current size and of every earlier sample. -/
theorem C30_recommended_eden_minimises_sampled_overhead (ext : MM_GCExtensions)
    (rm : MM_HeapRegionManager) (env : MM_EnvironmentVLHGC) (s : MM_SchedulingDelegate)
    (hcount : 0 < s._pgcCountSinceGMPEnd)
    (hideal : getIdealEdenSizeInBytes rm s < 2 ^ 63)
    (hfree : recommendedEdenFreeTenure rm s < 2 ^ 63) :
    ((∃ c, currentEdenHybridOverhead ext rm env s = .ok c) →
      (∀ k : Nat, k < 100 → ∃ w,
        estimatedHybridOverheadOfChange ext rm env s (getIdealEdenSizeInBytes rm s)
          (recommendedEdenFreeTenure rm s)
          (subU s._averagePgcInterval (wrapU (s._historicalPartialGCTime * 1000)))
          ((recommendedEdenFreeTenure rm s : Int)
            - ((k * ((recommendedEdenFreeTenure rm s + getIdealEdenSizeInBytes rm s) / 100)
                : Nat) : Int)) = .ok w) →
      ∃ size, calculateRecommendedEdenSize ext rm env s = .ok size)
    ∧ ∀ size, calculateRecommendedEdenSize ext rm env s = .ok size →
      ∃ (D : Int) (v c : ℚ),
        (size : Int) = (getIdealEdenSizeInBytes rm s : Int) + D
        ∧ size ≤ getIdealEdenSizeInBytes rm s + recommendedEdenFreeTenure rm s
        ∧ currentEdenHybridOverhead ext rm env s = .ok c
        ∧ v ≤ c
        ∧ (∀ k : Nat, k < 100 → ∃ w,
            estimatedHybridOverheadOfChange ext rm env s (getIdealEdenSizeInBytes rm s)
              (recommendedEdenFreeTenure rm s)
              (subU s._averagePgcInterval (wrapU (s._historicalPartialGCTime * 1000)))
              ((recommendedEdenFreeTenure rm s : Int)
                - ((k * ((recommendedEdenFreeTenure rm s + getIdealEdenSizeInBytes rm s) / 100)
                    : Nat) : Int)) = .ok w
            ∧ v ≤ w)
        ∧ ((D = 0 ∧ v = c)
          ∨ ∃ k : Nat, k < 100
            ∧ D = (recommendedEdenFreeTenure rm s : Int)
                - ((k * ((recommendedEdenFreeTenure rm s + getIdealEdenSizeInBytes rm s) / 100)
                    : Nat) : Int)
            ∧ estimatedHybridOverheadOfChange ext rm env s (getIdealEdenSizeInBytes rm s)
                (recommendedEdenFreeTenure rm s)
                (subU s._averagePgcInterval (wrapU (s._historicalPartialGCTime * 1000))) D
              = .ok v
            ∧ v < c
            ∧ ∀ j : Nat, j < k → ∃ w,
                estimatedHybridOverheadOfChange ext rm env s (getIdealEdenSizeInBytes rm s)
                  (recommendedEdenFreeTenure rm s)
                  (subU s._averagePgcInterval (wrapU (s._historicalPartialGCTime * 1000)))
                  ((recommendedEdenFreeTenure rm s : Int)
                    - ((j * ((recommendedEdenFreeTenure rm s + getIdealEdenSizeInBytes rm s)
                        / 100) : Nat) : Int)) = .ok w
                ∧ v < w) := by
  have hcalc := calculateRecommendedEdenSize_eq ext rm env s hcount
  rw [samplingGranularity_eq _ _ hfree hideal] at hcalc
  have hch : ∀ k : Nat, k < 100 →
      recommendedEdenChangeOfSample (toIDATA (recommendedEdenFreeTenure rm s))
          ((recommendedEdenFreeTenure rm s + getIdealEdenSizeInBytes rm s) / 100) k
        = (recommendedEdenFreeTenure rm s : Int)
          - ((k * ((recommendedEdenFreeTenure rm s + getIdealEdenSizeInBytes rm s) / 100)
              : Nat) : Int) :=
    fun k hk => (recommendedEdenChangeOfSample_eq _ _ k hfree hideal hk).1
  constructor
  · rintro ⟨c, hc⟩ hs
    rw [hcalc, hc]
    dsimp only
    obtain ⟨r, hr⟩ := recommendedEdenSamples_total ext rm env s (getIdealEdenSizeInBytes rm s)
      (recommendedEdenFreeTenure rm s)
      (subU s._averagePgcInterval (wrapU (s._historicalPartialGCTime * 1000)))
      (toIDATA (recommendedEdenFreeTenure rm s))
      ((recommendedEdenFreeTenure rm s + getIdealEdenSizeInBytes rm s) / 100)
      (List.range 100) (0, c)
      (fun j hj => by
        rw [hch j (List.mem_range.mp hj)]
        exact hs j (List.mem_range.mp hj))
    rw [hr]
    exact ⟨_, rfl⟩
  · intro size h
    rw [hcalc] at h
    cases hc : currentEdenHybridOverhead ext rm env s with
    | error e => rw [hc] at h; cases h
    | ok c =>
      rw [hc] at h
      dsimp only at h
      cases hr : recommendedEdenSamples ext rm env s (getIdealEdenSizeInBytes rm s)
          (recommendedEdenFreeTenure rm s)
          (subU s._averagePgcInterval (wrapU (s._historicalPartialGCTime * 1000)))
          (toIDATA (recommendedEdenFreeTenure rm s))
          ((recommendedEdenFreeTenure rm s + getIdealEdenSizeInBytes rm s) / 100)
          (List.range 100) (0, c) with
      | error e => rw [hr] at h; cases h
      | ok r =>
        rw [hr] at h
        dsimp only at h
        cases h
        obtain ⟨p1, p2, p3⟩ := recommendedEdenSamples_post ext rm env s _ _ _ _ _ _ _ _ hr
        have hall : ∀ k : Nat, k < 100 → ∃ w,
            estimatedHybridOverheadOfChange ext rm env s (getIdealEdenSizeInBytes rm s)
              (recommendedEdenFreeTenure rm s)
              (subU s._averagePgcInterval (wrapU (s._historicalPartialGCTime * 1000)))
              ((recommendedEdenFreeTenure rm s : Int)
                - ((k * ((recommendedEdenFreeTenure rm s + getIdealEdenSizeInBytes rm s) / 100)
                    : Nat) : Int)) = .ok w
            ∧ r.2 ≤ w := by
          intro k hk
          have e := p2 k (List.mem_range.mpr hk)
          rw [hch k hk] at e
          exact e
        rcases p3 with p3 | ⟨l1, i, l2, e1, e2, e3, e4, e5⟩
        · have hz := recommendedSize_eq (getIdealEdenSizeInBytes rm s) 0
            (recommendedEdenFreeTenure rm s) (by omega) (by omega) hfree hideal
          refine ⟨0, r.2, c, ?_, ?_, rfl, p1, hall, Or.inl ⟨rfl, ?_⟩⟩
          · rw [p3]; exact hz.1
          · rw [p3]; exact hz.2
          · rw [p3]
        · obtain ⟨hi, hbefore⟩ := range_split 100 l1 l2 i e1
          obtain ⟨-, b1, b2⟩ := recommendedEdenChangeOfSample_eq
            (recommendedEdenFreeTenure rm s) (getIdealEdenSizeInBytes rm s) i hfree hideal hi
          rw [hch i hi] at e2 e3
          have hz := recommendedSize_eq (getIdealEdenSizeInBytes rm s) r.1
            (recommendedEdenFreeTenure rm s) (by rw [e2]; exact b1) (by rw [e2]; exact b2)
            hfree hideal
          refine ⟨r.1, r.2, c, hz.1, hz.2, rfl, p1, hall, Or.inr ⟨i, hi, e2, ?_, e4, ?_⟩⟩
          · rw [e2]; exact e3
          · intro j hj
            have e := e5 j (hbefore j hj)
            rw [hch j (lt_trans hj hi)] at e
            exact e


theorem C30_witness :
    calculateRecommendedEdenSize testExtensionsStartupFinished testRegionManager
        testEnvironment (testDelegateAfterPgcs 512 16) = .ok 472446404
    ∧ ∃ v c : ℚ,
        currentEdenHybridOverhead testExtensionsStartupFinished testRegionManager
          testEnvironment (testDelegateAfterPgcs 512 16) = .ok c
        ∧ estimatedHybridOverheadOfChange testExtensionsStartupFinished testRegionManager
            testEnvironment (testDelegateAfterPgcs 512 16) 67108864 469762048 900000
            405337540 = .ok v
        ∧ v < c := by
  have h : calculateRecommendedEdenSize testExtensionsStartupFinished testRegionManager
      testEnvironment (testDelegateAfterPgcs 512 16) = .ok 472446404 := by decide!
  have hI : getIdealEdenSizeInBytes testRegionManager (testDelegateAfterPgcs 512 16)
      = 67108864 := by decide
  have hF : recommendedEdenFreeTenure testRegionManager (testDelegateAfterPgcs 512 16)
      = 469762048 := by decide!
  have hT : subU (testDelegateAfterPgcs 512 16)._averagePgcInterval
      (wrapU ((testDelegateAfterPgcs 512 16)._historicalPartialGCTime * 1000)) = 900000 := by
    decide
  obtain ⟨D, v, c, h1, -, h3, -, -, h6⟩ :=
    (C30_recommended_eden_minimises_sampled_overhead testExtensionsStartupFinished
      testRegionManager testEnvironment (testDelegateAfterPgcs 512 16)
      (by decide) (by rw [hI]; decide) (by rw [hF]; decide)).2 _ h
  rw [hI] at h1
  have hD : D = 405337540 := by omega
  refine ⟨h, v, c, h3, ?_, ?_⟩
  · rcases h6 with ⟨e, -⟩ | ⟨k, -, -, e, -, -⟩
    · omega
    · rw [hI, hF, hT, hD] at e
      exact e
  · rcases h6 with ⟨e, -⟩ | ⟨k, -, -, -, e, -⟩
    · omega
    · exact e

/-! ## Facts about the move toward the recommended Eden -/

/-- The cast `(intptr_t)(z * speed)` for a speed in `[0, 1]` lies between 0 and `z`. -/
theorem doubleToIDATA_scaled (z : Int) (speed : ℚ) (h0 : 0 ≤ speed) (h1 : speed ≤ 1)
    (hz1 : -(2 ^ 63) ≤ z) (hz2 : z < 2 ^ 63) :
    min 0 z ≤ doubleToIDATA ((z : ℚ) * speed)
    ∧ doubleToIDATA ((z : ℚ) * speed) ≤ max 0 z
    ∧ (speed = 0 → doubleToIDATA ((z : ℚ) * speed) = 0)
    ∧ (speed = 1 → doubleToIDATA ((z : ℚ) * speed) = z) := by
  have hs0 : speed = 0 → doubleToIDATA ((z : ℚ) * speed) = 0 := by
    intro e
    rw [e, mul_zero]
    exact doubleToIDATA_intCast 0 (by norm_num) (by norm_num)
  have hs1 : speed = 1 → doubleToIDATA ((z : ℚ) * speed) = z := by
    intro e
    rw [e, mul_one]
    exact doubleToIDATA_intCast z hz1 hz2
  refine ⟨?_, ?_, hs0, hs1⟩
  all_goals
    unfold doubleToIDATA
    rcases le_or_lt 0 z with hz | hz
    · have hzq : (0 : ℚ) ≤ (z : ℚ) := by exact_mod_cast hz
      have hx0 : (0 : ℚ) ≤ (z : ℚ) * speed := mul_nonneg hzq h0
      have hxz : (z : ℚ) * speed ≤ (z : ℚ) := by nlinarith
      rw [if_pos hx0]
      have f0 : 0 ≤ ⌊(z : ℚ) * speed⌋ := Int.floor_nonneg.mpr hx0
      have fz : ⌊(z : ℚ) * speed⌋ ≤ z := by
        have := Int.floor_le_floor hxz
        rwa [Int.floor_intCast] at this
      rw [wrapI_of_range _ (by omega) (by omega)]
      omega
    · have hzq : (z : ℚ) < 0 := by exact_mod_cast hz
      have hx0 : (z : ℚ) * speed ≤ 0 := by nlinarith
      have hxz : (z : ℚ) ≤ (z : ℚ) * speed := by nlinarith
      by_cases hx : 0 ≤ (z : ℚ) * speed
      · rw [if_pos hx]
        have e : (z : ℚ) * speed = 0 := le_antisymm hx0 hx
        rw [e, Int.floor_zero, wrapI_of_range _ (by norm_num) (by norm_num)]
        omega
      · rw [if_neg hx]
        have c0 : ⌈(z : ℚ) * speed⌉ ≤ 0 := by
          have := Int.ceil_le_ceil hx0
          rwa [Int.ceil_zero] at this
        have cz : z ≤ ⌈(z : ℚ) * speed⌉ := by
          have := Int.ceil_le_ceil hxz
          rwa [Int.ceil_intCast] at this
        rw [wrapI_of_range _ (by omega) (by omega)]
        omega

theorem toIDATA_subU_of_lt (a b : Nat) (ha : a < 2 ^ 63) (hb : b < 2 ^ 63) :
    toIDATA (subU a b) = (a : Int) - (b : Int) := by
  unfold toIDATA subU
  split_ifs <;> omega

theorem wrapU_add_toUDATA (i : Nat) (c : Int) (hi : i < 2 ^ 63) (h1 : -(i : Int) ≤ c)
    (h2 : c < 2 ^ 63) : ((wrapU (i + toUDATA c) : Nat) : Int) = (i : Int) + c := by
  unfold wrapU toUDATA
  omega

/-- The `_edenSizeFactor` that `moveTowardRecommendedEden` computes from the recommended
size `R`: the target `idealEdenRegionCount + factor` lies between the ideal count and
`R / regionSize`. -/
theorem moveToward_target (ideal rs R : Nat) (speed : ℚ) (hrs : 0 < rs)
    (hI : ideal * rs < 2 ^ 63) (hR : R < 2 ^ 63) (h0 : 0 ≤ speed) (h1 : speed ≤ 1) :
    min (ideal : Int) ((R / rs : Nat) : Int)
      ≤ (ideal : Int)
        + toIDATA (subU (wrapU (ideal * rs + toUDATA (doubleToIDATA
            ((toIDATA (subU R (ideal * rs)) : ℚ) * speed))) / rs) ideal)
    ∧ (ideal : Int)
        + toIDATA (subU (wrapU (ideal * rs + toUDATA (doubleToIDATA
            ((toIDATA (subU R (ideal * rs)) : ℚ) * speed))) / rs) ideal)
      ≤ max (ideal : Int) ((R / rs : Nat) : Int)
    ∧ (speed = 0 →
        toIDATA (subU (wrapU (ideal * rs + toUDATA (doubleToIDATA
            ((toIDATA (subU R (ideal * rs)) : ℚ) * speed))) / rs) ideal) = 0)
    ∧ (speed = 1 →
        (ideal : Int)
          + toIDATA (subU (wrapU (ideal * rs + toUDATA (doubleToIDATA
              ((toIDATA (subU R (ideal * rs)) : ℚ) * speed))) / rs) ideal)
        = ((R / rs : Nat) : Int)) := by
  have hideal : ideal * rs / rs = ideal := Nat.mul_div_cancel ideal hrs
  have hile : ideal ≤ ideal * rs := Nat.le_mul_of_pos_right ideal hrs
  rw [toIDATA_subU_of_lt R (ideal * rs) hR hI]
  generalize hIdef : ideal * rs = I at hI hideal hile ⊢
  obtain ⟨c1, c2, c3, c4⟩ := doubleToIDATA_scaled ((R : Int) - (I : Int)) speed h0 h1
    (by omega) (by omega)
  have hcast : (((R : Int) - (I : Int) : Int) : ℚ) = ((R : Int) : ℚ) - ((I : Int) : ℚ) := by
    push_cast; rfl
  generalize doubleToIDATA ((((R : Int) - (I : Int) : Int) : ℚ) * speed) = c at c1 c2 c3 c4
  have hB := wrapU_add_toUDATA I c hI (by omega) (by omega)
  generalize wrapU (I + toUDATA c) = B at hB ⊢
  have hBR : B ≤ max I R := by omega
  have hBI : min I R ≤ B := by omega
  have hdivle : B / rs ≤ max ideal (R / rs) := by
    rcases le_total I R with h | h
    · have : B ≤ R := by omega
      exact le_trans (Nat.div_le_div_right this) (le_max_right _ _)
    · have : B ≤ I := by omega
      have := Nat.div_le_div_right (c := rs) this
      rw [hideal] at this
      exact le_trans this (le_max_left _ _)
  have hdivge : min ideal (R / rs) ≤ B / rs := by
    rcases le_total I R with h | h
    · have : I ≤ B := by omega
      have := Nat.div_le_div_right (c := rs) this
      rw [hideal] at this
      exact le_trans (min_le_left _ _) this
    · have : R ≤ B := by omega
      exact le_trans (min_le_right _ _) (Nat.div_le_div_right this)
  have hBlt : B / rs < 2 ^ 63 := by
    have : B / rs ≤ B := Nat.div_le_self _ _
    omega
  rw [toIDATA_subU_of_lt (B / rs) ideal hBlt (by omega)]
  refine ⟨by omega, by omega, ?_, ?_⟩
  · intro e
    have hc := c3 e
    have : B = I := by omega
    rw [this, hideal]
    omega
  · intro e
    have hc := c4 e
    have : B = R := by omega
    rw [this]
    omega

/-- C31: for a speed in `[0, 1]`, `moveTowardRecommendedEden` returns the delegate as it
was when `historicalPartialGCTime` or `averagePgcInterval` is 0; otherwise, for the size
`R` that `calculateRecommendedEdenSize` returns (region size positive, `R` and the ideal
Eden bytes below `2^63`), it returns with only `edenSizeFactor` changed, and the target
`idealEdenRegionCount + edenSizeFactor` lies between `idealEdenRegionCount` and
`floor(R/regionSize)` inclusive; `edenSizeFactor = 0` for speed 0 and the target is
`floor(R/regionSize)` for speed 1. -/
theorem C31_move_toward_recommended_eden_never_overshoots (ext : MM_GCExtensions)
    (rm : MM_HeapRegionManager) (env : MM_EnvironmentVLHGC) (speed : ℚ)
    (s : MM_SchedulingDelegate) (h0 : 0 ≤ speed) (h1 : speed ≤ 1) :
    ((s._historicalPartialGCTime = 0 ∨ s._averagePgcInterval = 0) →
      moveTowardRecommendedEden ext rm env speed s = .ok s)
    ∧ (s._historicalPartialGCTime ≠ 0 → s._averagePgcInterval ≠ 0 →
        0 < rm.regionSize → s._idealEdenRegionCount * rm.regionSize < 2 ^ 63 →
        ∀ R : Nat, R < 2 ^ 63 → calculateRecommendedEdenSize ext rm env s = .ok R →
        ∃ s', moveTowardRecommendedEden ext rm env speed s = .ok s'
          ∧ s' = { s with _edenSizeFactor := s'._edenSizeFactor }
          ∧ min (s._idealEdenRegionCount : Int) ((R / rm.regionSize : Nat) : Int)
              ≤ (s._idealEdenRegionCount : Int) + s'._edenSizeFactor
          ∧ (s._idealEdenRegionCount : Int) + s'._edenSizeFactor
              ≤ max (s._idealEdenRegionCount : Int) ((R / rm.regionSize : Nat) : Int)
          ∧ (speed = 0 → s'._edenSizeFactor = 0)
          ∧ (speed = 1 →
              (s._idealEdenRegionCount : Int) + s'._edenSizeFactor
                = ((R / rm.regionSize : Nat) : Int))) := by
  have hspeed : ¬ ¬ (speed ≤ 1 ∧ speed ≥ 0) := not_not.mpr ⟨h1, h0⟩
  constructor
  · intro hz
    unfold moveTowardRecommendedEden
    rw [if_neg hspeed, if_pos (by
      rcases hz with e | e
      · exact Or.inl e.symm
      · exact Or.inr e.symm)]
  · intro hh ha hrs hI R hR hrec
    have hIw : getIdealEdenSizeInBytes rm s = s._idealEdenRegionCount * rm.regionSize := by
      unfold getIdealEdenSizeInBytes wrapU
      omega
    have hm : moveTowardRecommendedEden ext rm env speed s
        = .ok { s with
            _edenSizeFactor :=
              toIDATA (subU (wrapU (s._idealEdenRegionCount * rm.regionSize
                + toUDATA (doubleToIDATA
                  ((toIDATA (subU R (s._idealEdenRegionCount * rm.regionSize)) : ℚ) * speed)))
                / rm.regionSize) s._idealEdenRegionCount) } := by
      unfold moveTowardRecommendedEden
      rw [if_neg hspeed, if_neg (by
        intro hc
        rcases hc with e | e
        · exact hh e.symm
        · exact ha e.symm), hrec]
      dsimp only
      rw [hIw]
    obtain ⟨t1, t2, t3, t4⟩ := moveToward_target s._idealEdenRegionCount rm.regionSize R speed
      hrs hI hR h0 h1
    exact ⟨_, hm, rfl, t1, t2, t3, t4⟩

theorem C31_witness :
    ∃ s', moveTowardRecommendedEden testExtensionsStartupFinished testRegionManager
          testEnvironment (1 / 4) (testDelegateAfterPgcs 512 16) = .ok s'
      ∧ s'._edenSizeFactor = 96
      ∧ min (64 : Int) ((472446404 / 2 ^ 20 : Nat) : Int) ≤ 64 + s'._edenSizeFactor
      ∧ 64 + s'._edenSizeFactor ≤ max (64 : Int) ((472446404 / 2 ^ 20 : Nat) : Int) := by
  obtain ⟨s', h1, -, h3, h4, -, -⟩ :=
    (C31_move_toward_recommended_eden_never_overshoots testExtensionsStartupFinished
      testRegionManager testEnvironment (1 / 4) (testDelegateAfterPgcs 512 16)
      (by decide!) (by decide!)).2 (by decide) (by decide) (by decide) (by decide)
      472446404 (by decide) (by decide!)
  have e : moveTowardRecommendedEden testExtensionsStartupFinished testRegionManager
      testEnvironment (1 / 4) (testDelegateAfterPgcs 512 16)
      = .ok { testDelegateAfterPgcs 512 16 with _edenSizeFactor := 96 } := by decide!
  have es := h1.symm.trans e
  cases es
  exact ⟨_, h1, rfl, h3, h4⟩

/-! ## Facts about the hybrid overhead under a heap that can still expand -/

theorem mapPgcTimeToPgcOverhead_le_max (ext : MM_GCExtensions) (rm : MM_HeapRegionManager)
    (env : MM_EnvironmentVLHGC) (s : MM_SchedulingDelegate) (pgcTime : Nat)
    (hexp : heapIsFullyExpanded ext rm s = false) :
    mapPgcTimeToPgcOverhead ext rm env s pgcTime ≤ ext.dnssExpectedTimeRatioMaximum * 100 := by
  unfold mapPgcTimeToPgcOverhead
  dsimp only
  rw [if_neg (by rw [hexp]; decide)]
  exact min_le_right _ _

theorem calculateHybridEdenOverhead_ok (ext : MM_GCExtensions) (rm : MM_HeapRegionManager)
    (env : MM_EnvironmentVLHGC) (s : MM_SchedulingDelegate) (pgcTime : Nat) (overhead H : ℚ)
    (h : calculateHybridEdenOverhead ext rm env s pgcTime overhead = .ok H) :
    0 ≤ overhead ∧ overhead ≤ 1
    ∧ H = (1 / 2 * (overhead * 100)
        + (1 - 1 / 2) * mapPgcTimeToPgcOverhead ext rm env s pgcTime) / 100 := by
  unfold calculateHybridEdenOverhead at h
  dsimp only at h
  by_cases hc : overhead ≥ 0 ∧ overhead ≤ 1
  · rw [if_neg (not_not.mpr hc)] at h
    cases h
    exact ⟨hc.1, hc.2, rfl⟩
  · rw [if_pos hc] at h
    cases h

theorem hybrid_le_of_capped (overhead mx m : ℚ) (hm : m ≤ mx * 100) :
    (1 / 2 * (overhead * 100) + (1 - 1 / 2) * m) / 100 ≤ (overhead + mx) / 2 := by
  rw [div_le_iff₀ (by norm_num : (0 : ℚ) < 100)]
  linarith

/-- C32: under a heap that is not fully expanded, for every PGC time and every overhead
in `[0, 1]` `calculateHybridEdenOverhead` returns a value `H ≤ (overhead +
dnssExpectedTimeRatioMaximum)/2`, the mapped pause-time overhead being capped at
`xmaxPct`, so `H > dnssExpectedTimeRatioMaximum` implies `overhead >
dnssExpectedTimeRatioMaximum`; and when `checkEdenSizeAfterPgc` returns with
`edenSizeFactor` increased (startup finished, region size positive, ideal Eden bytes within
the word, the factor within ±2^62), `partialGcOverhead` exceeds
`dnssExpectedTimeRatioMaximum`. -/
theorem C32_expansion_needs_overhead_above_maximum (ext : MM_GCExtensions)
    (rm : MM_HeapRegionManager) (env : MM_EnvironmentVLHGC) (s : MM_SchedulingDelegate)
    (hexp : heapIsFullyExpanded ext rm s = false) :
    (∀ (pgcTime : Nat) (overhead : ℚ), 0 ≤ overhead → overhead ≤ 1 →
      ∃ H, calculateHybridEdenOverhead ext rm env s pgcTime overhead = .ok H
        ∧ mapPgcTimeToPgcOverhead ext rm env s pgcTime ≤ ext.dnssExpectedTimeRatioMaximum * 100
        ∧ H ≤ (overhead + ext.dnssExpectedTimeRatioMaximum) / 2
        ∧ (ext.dnssExpectedTimeRatioMaximum < H → ext.dnssExpectedTimeRatioMaximum < overhead))
    ∧ (∀ (globalSweepHappened : Bool) (s' : MM_SchedulingDelegate),
        ext.statupPhaseFinished = true →
        ¬ (s._currentlyPerformingGMP = true ∧ globalSweepHappened = false) →
        0 < rm.regionSize → s._idealEdenRegionCount * rm.regionSize < 2 ^ 64 →
        -(2 ^ 62) ≤ s._edenSizeFactor → s._edenSizeFactor < 2 ^ 62 →
        checkEdenSizeAfterPgc ext rm env globalSweepHappened s = .ok s' →
        s._edenSizeFactor < s'._edenSizeFactor →
        ext.dnssExpectedTimeRatioMaximum < s._partialGcOverhead) := by
  constructor
  · intro pgcTime overhead ho0 ho1
    have hcap := mapPgcTimeToPgcOverhead_le_max ext rm env s pgcTime hexp
    have hle := hybrid_le_of_capped overhead ext.dnssExpectedTimeRatioMaximum _ hcap
    refine ⟨_, ?_, hcap, hle, ?_⟩
    · unfold calculateHybridEdenOverhead
      dsimp only
      rw [if_neg (not_not.mpr ⟨ho0, ho1⟩)]
    · intro hlt
      linarith
  · intro g s' hfin hgmp hrs hideal hf1 hf2 h hinc
    rw [checkEdenSizeAfterPgc_not_expanded ext rm env g s hfin hgmp hexp] at h
    by_cases h3 : 0 = s._pgcCountSinceGMPEnd % 3
    · rw [if_pos h3] at h
      cases hH : calculateHybridEdenOverhead ext rm env s s._historicalPartialGCTime
          s._partialGcOverhead with
      | error e => rw [hH] at h; cases h
      | ok H =>
        rw [hH] at h
        dsimp only at h
        obtain ⟨ho0, ho1, hHeq⟩ := calculateHybridEdenOverhead_ok ext rm env s _ _ H hH
        have hcap := mapPgcTimeToPgcOverhead_le_max ext rm env s s._historicalPartialGCTime hexp
        have hle := hybrid_le_of_capped s._partialGcOverhead ext.dnssExpectedTimeRatioMaximum
          _ hcap
        rw [← hHeq] at hle
        obtain ⟨hm, hm0, hm1⟩ := edenChangeMagnitude_eq rm s hrs hideal
        rw [hm] at h
        generalize ⌈(1 / 10 : ℚ) * (s._idealEdenRegionCount : ℚ)⌉ = M at hm0 hm1 h
        have hneg : wrapI (M * -1) = -M := by
          rw [wrapI_of_range _ (by omega) (by omega)]
          ring
        cases h
        by_cases hmin : ext.dnssExpectedTimeRatioMinimum > H
        · have e : (wrapI (s._edenSizeFactor
              + (if ext.dnssExpectedTimeRatioMinimum > H then wrapI (M * -1)
                else if ext.dnssExpectedTimeRatioMaximum < H then M else 0)))
              = s._edenSizeFactor - M := by
            rw [if_pos hmin, hneg, wrapI_of_range _ (by omega) (by omega)]
            ring
          have hinc' : s._edenSizeFactor < wrapI (s._edenSizeFactor
              + (if ext.dnssExpectedTimeRatioMinimum > H then wrapI (M * -1)
                else if ext.dnssExpectedTimeRatioMaximum < H then M else 0)) := hinc
          rw [e] at hinc'
          omega
        · by_cases hmax : ext.dnssExpectedTimeRatioMaximum < H
          · linarith
          · have e : (wrapI (s._edenSizeFactor
                + (if ext.dnssExpectedTimeRatioMinimum > H then wrapI (M * -1)
                  else if ext.dnssExpectedTimeRatioMaximum < H then M else 0)))
                = s._edenSizeFactor := by
              rw [if_neg hmin, if_neg hmax, add_zero, wrapI_of_range _ (by omega) (by omega)]
            have hinc' : s._edenSizeFactor < wrapI (s._edenSizeFactor
                + (if ext.dnssExpectedTimeRatioMinimum > H then wrapI (M * -1)
                  else if ext.dnssExpectedTimeRatioMaximum < H then M else 0)) := hinc
            rw [e] at hinc'
            exact absurd hinc' (lt_irrefl _)
    · rw [if_neg h3] at h
      cases h
      exact absurd hinc (lt_irrefl _)

theorem C32_witness :
    calculateHybridEdenOverhead testExtensionsStartupFinished testRegionManager testEnvironment
        (testDelegateHighOverhead 512 3) 100 (1 / 2) = .ok (13 / 40)
    ∧ (3 / 20 : ℚ) < 13 / 40
    ∧ checkEdenSizeAfterPgc testExtensionsStartupFinished testRegionManager testEnvironment
        false (testDelegateHighOverhead 512 3)
      = .ok { testDelegateHighOverhead 512 3 with _edenSizeFactor := 7 }
    ∧ testExtensionsStartupFinished.dnssExpectedTimeRatioMaximum
        < (testDelegateHighOverhead 512 3)._partialGcOverhead :=
  ⟨by decide!, by decide!, by decide!,
    (C32_expansion_needs_overhead_above_maximum testExtensionsStartupFinished
      testRegionManager testEnvironment (testDelegateHighOverhead 512 3) (by decide!)).2
      false { testDelegateHighOverhead 512 3 with _edenSizeFactor := 7 }
      rfl (by decide) (by decide) (by decide) (by decide) (by decide) (by decide!)
      (by decide)⟩

/-! ## Facts about Eden below its minimum, the GMP time guess and the kick-off -/

/-- C33: when the bounds are ordered after `adjustIdealEdenRegionCount`
(`1 ≤ minimumEdenRegionCount ≤ idealEdenRegionCount`, the three assertions),
`calculateEdenSize` returns with `edenRegionCount = min(freeRegions,
idealEdenRegionCount)` for every free region count; the minimum does not enter: the same
Eden count results for any other minimum that passes the assertions, Eden is below the
minimum whenever fewer regions are free, and it is 0 when none is. -/
theorem C33_eden_is_min_of_free_and_ideal (ext : MM_GCExtensions) (rm : MM_HeapRegionManager)
    (gam : MM_GlobalAllocationManagerTarok) (s : MM_SchedulingDelegate)
    (h : EdenBoundsOrdered (adjustIdealEdenRegionCount ext rm s)) :
    ∃ s', calculateEdenSize ext rm gam s = .ok s'
      ∧ s'._idealEdenRegionCount = (adjustIdealEdenRegionCount ext rm s)._idealEdenRegionCount
      ∧ s'._edenRegionCount = min gam.freeRegionCount s'._idealEdenRegionCount
      ∧ (∀ m : Nat,
          EdenBoundsOrdered
            (adjustIdealEdenRegionCount ext rm { s with _minimumEdenRegionCount := m }) →
          ∃ s'', calculateEdenSize ext rm gam { s with _minimumEdenRegionCount := m } = .ok s''
            ∧ s''._edenRegionCount = s'._edenRegionCount)
      ∧ (gam.freeRegionCount < s'._minimumEdenRegionCount →
          s'._edenRegionCount = gam.freeRegionCount
          ∧ s'._edenRegionCount < s'._minimumEdenRegionCount)
      ∧ (gam.freeRegionCount = 0 → s'._edenRegionCount = 0) := by
  have e := calculateEdenSize_eq ext rm gam s h
  refine ⟨_, e, rfl, rfl, ?_, ?_, ?_⟩
  · intro m hm
    have e2 := calculateEdenSize_eq ext rm gam { s with _minimumEdenRegionCount := m } hm
    refine ⟨_, e2, ?_⟩
    show min gam.freeRegionCount
        (adjustIdealEdenRegionCount ext rm { s with _minimumEdenRegionCount := m })._idealEdenRegionCount
      = min gam.freeRegionCount (adjustIdealEdenRegionCount ext rm s)._idealEdenRegionCount
    congr 1
    unfold adjustIdealEdenRegionCount
    dsimp only
    split <;> rfl
  · intro hlt
    have hle : gam.freeRegionCount ≤ (adjustIdealEdenRegionCount ext rm s)._idealEdenRegionCount :=
      le_trans (le_of_lt hlt) h.2
    have hmin : min gam.freeRegionCount
        (adjustIdealEdenRegionCount ext rm s)._idealEdenRegionCount = gam.freeRegionCount :=
      min_eq_left hle
    refine ⟨hmin, ?_⟩
    show min gam.freeRegionCount (adjustIdealEdenRegionCount ext rm s)._idealEdenRegionCount
      < (adjustIdealEdenRegionCount ext rm s)._minimumEdenRegionCount
    rw [hmin]
    exact hlt
  · intro h0
    show min gam.freeRegionCount (adjustIdealEdenRegionCount ext rm s)._idealEdenRegionCount = 0
    rw [h0]
    exact Nat.zero_min _

theorem C33_witness :
    ∃ s', calculateEdenSize (testExtensions 1 3) testRegionManager ⟨2, 4⟩
        testDelegateWithBounds = .ok s'
      ∧ s'._edenRegionCount = 2 ∧ s'._minimumEdenRegionCount = 4 := by
  obtain ⟨s', h1, h2, h3, -, h5, -⟩ :=
    C33_eden_is_min_of_free_and_ideal (testExtensions 1 3) testRegionManager ⟨2, 4⟩
      testDelegateWithBounds ⟨by decide, by decide⟩
  have e : calculateEdenSize (testExtensions 1 3) testRegionManager ⟨2, 4⟩
      testDelegateWithBounds
      = .ok { adjustIdealEdenRegionCount (testExtensions 1 3) testRegionManager
                testDelegateWithBounds with _edenRegionCount := 2 } := by decide!
  have es := h1.symm.trans e
  cases es
  exact ⟨_, h1, rfl, rfl⟩

/-- C35: while no GMP time has been observed (`totalGMPWorkTimeUs = 0`),
`predictCpuOverheadForEdenSize` takes `20·historicalPartialGCTime` as the GMP time and adds
it to PGC times in microseconds; this is below the average PGC time
`historicalPartialGCTime·1000` of the same unit whenever `historicalPartialGCTime > 0`, by
the factor 50, where `calculateGlobalMarkOverhead` substitutes 5 times the PGC time in
microseconds.  For 100 ms PGCs the guessed GMP time is 2000 against 100000. -/
theorem C35_gmp_time_guess_is_below_pgc_time :
    (∀ (rm : MM_HeapRegionManager) (env : MM_EnvironmentVLHGC) (s : MM_SchedulingDelegate)
        (currentEdenSize : Nat) (edenSizeChange : Int) (freeTenure pgcAvgIntervalTime : Nat),
      predictCpuOverheadForEdenSize rm env s currentEdenSize edenSizeChange freeTenure
          pgcAvgIntervalTime
        = ((predictedGmpTime s : ℚ)
            + predictPgcTime rm env s edenSizeChange
              * predictNumberOfCollections env edenSizeChange freeTenure)
          / ((predictedGmpTime s : ℚ)
            + (predictPgcTime rm env s edenSizeChange
                + predictIntervalBetweenCollections currentEdenSize edenSizeChange
                    pgcAvgIntervalTime)
              * predictNumberOfCollections env edenSizeChange freeTenure))
    ∧ (∀ s : MM_SchedulingDelegate, s._totalGMPWorkTimeUs = 0 →
        0 < s._historicalPartialGCTime → s._historicalPartialGCTime * 1000 < 2 ^ 64 →
        predictedGmpTime s = 20 * s._historicalPartialGCTime
        ∧ predictedGmpTime s < s._historicalPartialGCTime * 1000
        ∧ 50 * predictedGmpTime s = s._historicalPartialGCTime * 1000)
    ∧ predictedGmpTime testDelegateNoGmpSeen = 2000
    ∧ testDelegateNoGmpSeen._historicalPartialGCTime * 1000 = 100000
    ∧ (calculateGlobalMarkOverhead testEnvironment testDelegateNoGmpSeen)._totalGMPWorkTimeUs
        = 500000 := by
  refine ⟨fun _ _ _ _ _ _ _ => rfl, ?_, by decide, by decide, by decide!⟩
  · intro s h0 hpos hlt
    unfold predictedGmpTime
    rw [if_pos h0.symm]
    have hw : wrapU (20 * s._historicalPartialGCTime) = 20 * s._historicalPartialGCTime := by
      unfold wrapU; omega
    rw [hw]
    omega


theorem calculateAutomaticGMPIntermission_kicked_off (ext : MM_GCExtensions)
    (rm : MM_HeapRegionManager) (gam : MM_GlobalAllocationManagerTarok)
    (env : MM_EnvironmentVLHGC) (s s1 : MM_SchedulingDelegate)
    (hrem : s._remainingGMPIntermissionIntervals = 0)
    (h : calculateAutomaticGMPIntermission ext rm gam env s = .ok s1) :
    s1 = updateLiveBytesAfterPartialCollect rm s := by
  have hnot : ¬ ((updateLiveBytesAfterPartialCollect rm s)._remainingGMPIntermissionIntervals
      > 0) := by
    show ¬ (s._remainingGMPIntermissionIntervals > 0)
    rw [hrem]
    exact lt_irrefl 0
  unfold calculateAutomaticGMPIntermission at h
  dsimp only at h
  split at h
  · cases h
  · by_cases hauto : ext.tarokAutomaticGMPIntermission = true
    · rw [if_pos hauto] at h
      by_cases hmax : UDATA_MAX = ext.tarokGMPIntermission
      · rw [if_neg (not_not.mpr hmax), if_neg hnot] at h
        cases h
        rfl
      · rw [if_pos hmax] at h
        cases h
    · rw [if_neg hauto] at h
      cases h
      rfl

theorem calculateAutomaticGMPIntermission_kicked_off_total (ext : MM_GCExtensions)
    (rm : MM_HeapRegionManager) (gam : MM_GlobalAllocationManagerTarok)
    (env : MM_EnvironmentVLHGC) (s : MM_SchedulingDelegate) (pcr : Nat)
    (hrem : s._remainingGMPIntermissionIntervals = 0)
    (hpcr : estimatePartialGCsRemaining ext gam env s = .ok pcr)
    (hmax : ext.tarokAutomaticGMPIntermission = true → UDATA_MAX = ext.tarokGMPIntermission) :
    calculateAutomaticGMPIntermission ext rm gam env s
      = .ok (updateLiveBytesAfterPartialCollect rm s) := by
  have hnot : ¬ ((updateLiveBytesAfterPartialCollect rm s)._remainingGMPIntermissionIntervals
      > 0) := by
    show ¬ (s._remainingGMPIntermissionIntervals > 0)
    rw [hrem]
    exact lt_irrefl 0
  unfold calculateAutomaticGMPIntermission
  rw [hpcr]
  dsimp only
  by_cases hauto : ext.tarokAutomaticGMPIntermission = true
  · rw [if_pos hauto, if_neg (not_not.mpr (hmax hauto)), if_neg hnot]
  · rw [if_neg hauto]

theorem partialGarbageCollectCompleted_kicked_off (ext : MM_GCExtensions)
    (rm : MM_HeapRegionManager) (gam : MM_GlobalAllocationManagerTarok)
    (env : MM_EnvironmentVLHGC) (c d : Nat) (s s' : MM_SchedulingDelegate)
    (hrem : s._remainingGMPIntermissionIntervals = 0)
    (h : partialGarbageCollectCompleted ext rm gam env c d s = .ok s') :
    s'._remainingGMPIntermissionIntervals = 0 := by
  unfold partialGarbageCollectCompleted at h
  dsimp only at h
  split at h
  · cases h
  · rename_i s1 h1
    split at h
    · cases h
    · rename_i s4 h4
      split at h
      · cases h
      · rename_i s5 h5
        split at h
        · cases h
        · rename_i s6 h6
          split at h
          · cases h
          · rename_i s7 h7
            cases h
            rw [updatePgcTimePrediction_remaining,
              calculateGlobalMarkIncrementTimeMillis_remaining _ _ s7 h7]
            have e5 := calculateEdenSize_remaining ext rm gam s4 s5 h5
            have e4 := checkEdenSizeAfterPgc_remaining ext rm env _ _ s4 h4
            have e2 := measureConsumptionForPartialGC_remaining c d s1
            have e1 := partialGarbageCollectCompletedStats_remaining rm env _ s1 h1
            have h5rem : s5._remainingGMPIntermissionIntervals = 0 := by
              rw [e5, e4]
              show (measureConsumptionForPartialGC c d s1)._remainingGMPIntermissionIntervals = 0
              rw [e2, e1]
              exact hrem
            have e6 := calculateAutomaticGMPIntermission_kicked_off ext rm gam env s5 s6
              h5rem h6
            show s6._remainingGMPIntermissionIntervals = 0
            rw [e6]
            exact h5rem

/-- C37: once `remainingGMPIntermissionIntervals` is 0, `calculateAutomaticGMPIntermission`
returns the delegate with only the live-set bytes recounted (it returns whenever
`estimatePartialGCsRemaining` does and the assertion on `tarokGMPIntermission` holds) and
the count stays 0, and so it does through `partialGarbageCollectCompleted`,
`getNextTaxationThreshold`, `heapReconfigured`, `calculateEdenSize`, `getIncrementWork`, the
global mark cycle and increment callbacks, `globalGarbageCollectCompleted` and
`partialGarbageCollectStarted`; `globalMarkPhaseCompleted` and `getInitialTaxationThreshold`
are the members that set it to `tarokGMPIntermission`. -/
theorem C37_kickoff_is_irrevocable (ext : MM_GCExtensions) (rm : MM_HeapRegionManager)
    (gam : MM_GlobalAllocationManagerTarok) (env : MM_EnvironmentVLHGC)
    (s : MM_SchedulingDelegate) (hrem : s._remainingGMPIntermissionIntervals = 0) :
    (∀ s', calculateAutomaticGMPIntermission ext rm gam env s = .ok s' →
      s' = updateLiveBytesAfterPartialCollect rm s
      ∧ s'._remainingGMPIntermissionIntervals = 0)
    ∧ (∀ pcr, estimatePartialGCsRemaining ext gam env s = .ok pcr →
        (ext.tarokAutomaticGMPIntermission = true → UDATA_MAX = ext.tarokGMPIntermission) →
        calculateAutomaticGMPIntermission ext rm gam env s
          = .ok (updateLiveBytesAfterPartialCollect rm s))
    ∧ (∀ c d s', partialGarbageCollectCompleted ext rm gam env c d s = .ok s' →
        s'._remainingGMPIntermissionIntervals = 0)
    ∧ (∀ s' t, getNextTaxationThreshold ext rm s = .ok (s', t) →
        s'._remainingGMPIntermissionIntervals = 0)
    ∧ (∀ s', heapReconfigured ext rm gam s = .ok s' →
        s'._remainingGMPIntermissionIntervals = 0)
    ∧ (∀ s', calculateEdenSize ext rm gam s = .ok s' →
        s'._remainingGMPIntermissionIntervals = 0)
    ∧ (getIncrementWork s).2._remainingGMPIntermissionIntervals = 0
    ∧ (globalMarkCycleStart env s)._remainingGMPIntermissionIntervals = 0
    ∧ (globalMarkCycleEnd s)._remainingGMPIntermissionIntervals = 0
    ∧ (globalMarkIncrementCompleted env s)._remainingGMPIntermissionIntervals = 0
    ∧ (∀ c d, (globalGarbageCollectCompleted c d s)._remainingGMPIntermissionIntervals = 0)
    ∧ (partialGarbageCollectStarted env s)._remainingGMPIntermissionIntervals = 0
    ∧ (∀ s', globalMarkPhaseCompleted ext env s = .ok s' →
        s'._remainingGMPIntermissionIntervals = ext.tarokGMPIntermission)
    ∧ (∀ s' t, getInitialTaxationThreshold ext rm gam s = .ok (s', t) →
        ∃ s0, s0._remainingGMPIntermissionIntervals = ext.tarokGMPIntermission
          ∧ getNextTaxationThreshold ext rm s0 = .ok (s', t)) := by
  refine ⟨?_, ?_, ?_, ?_, ?_, ?_, hrem, ?_, hrem, ?_, fun _ _ => hrem, ?_, ?_, ?_⟩
  · intro s' h
    have e := calculateAutomaticGMPIntermission_kicked_off ext rm gam env s s' hrem h
    refine ⟨e, ?_⟩
    rw [e]
    exact hrem
  · intro pcr hpcr hmax
    exact calculateAutomaticGMPIntermission_kicked_off_total ext rm gam env s pcr hrem hpcr hmax
  · intro c d s' h
    exact partialGarbageCollectCompleted_kicked_off ext rm gam env c d s s' hrem h
  · intro s' t h
    have e := getNext_remaining ext rm s s' t h
    omega
  · intro s' h
    rw [heapReconfigured_remaining ext rm gam s s' h]
    exact hrem
  · intro s' h
    rw [calculateEdenSize_remaining ext rm gam s s' h]
    exact hrem
  · rw [globalMarkCycleStart_remaining]
    exact hrem
  · have e : (globalMarkIncrementCompleted env s)._remainingGMPIntermissionIntervals
        = s._remainingGMPIntermissionIntervals := measureScanRate_remaining env _ s
    rw [e]
    exact hrem
  · rw [partialGarbageCollectStarted_remaining]
    exact hrem
  · intro s' h
    exact (globalMarkPhaseCompleted_post ext env s s' h).1
  · intro s' t h
    exact getInitialTaxationThreshold_remaining ext rm gam s s' t h

theorem C37_witness :
    calculateAutomaticGMPIntermission testExtensionsAutomatic testRegionManagerLive
          testAllocationManager testEnvironment testDelegateAfterKickoff
        = .ok (updateLiveBytesAfterPartialCollect testRegionManagerLive
            testDelegateAfterKickoff)
    ∧ (updateLiveBytesAfterPartialCollect testRegionManagerLive
          testDelegateAfterKickoff)._remainingGMPIntermissionIntervals = 0 :=
  ⟨(C37_kickoff_is_irrevocable testExtensionsAutomatic testRegionManagerLive
      testAllocationManager testEnvironment testDelegateAfterKickoff rfl).2.1 736
      (by decide!) (fun _ => rfl),
    rfl⟩

/-! ## Facts about the PGC type without scan-rate history -/

/-- C40: with `microSecondsPerByteScanned = 0`, `determineNextPGCType` stores
`reason_calibration` in `cycleState.reasonForMarkCompactPGC` and false in
`cycleState.shouldRunCopyForward`, whatever the configuration and the previous
`nextPGCShouldCopyForward`, and leaves `nextPGCShouldCopyForward` equal to
`tarokPGCShouldCopyForward`, with every other field as before. -/
theorem C40_no_scan_rate_forces_mark_compact (ext : MM_GCExtensions)
    (s : MM_SchedulingDelegate)
    (h : s._scanRateStats.microSecondsPerByteScanned = 0) :
    determineNextPGCTypeCycleState s
      = (some ReasonForMarkCompactPGC.reason_calibration, false)
    ∧ (determineNextPGCType ext s).1 = false
    ∧ (determineNextPGCType ext s).2
        = { s with _nextPGCShouldCopyForward := ext.tarokPGCShouldCopyForward } := by
  have h0 : (0 : ℚ) = s._scanRateStats.microSecondsPerByteScanned := h.symm
  refine ⟨?_, ?_, ?_⟩
  · unfold determineNextPGCTypeCycleState
    rw [if_pos h0]
  · unfold determineNextPGCType
    dsimp only
    rw [if_pos h0]
    dsimp only
    split
    · rfl
    · split <;> rfl
  · unfold determineNextPGCType
    dsimp only
    rw [if_pos h0]
    dsimp only
    rw [if_neg (fun e => Bool.noConfusion e.1)]
    cases hc : ext.tarokPGCShouldCopyForward
    · rw [if_neg (fun e => Bool.noConfusion e.2)]
    · rw [if_pos ⟨rfl, rfl⟩]

theorem C40_witness :
    determineNextPGCTypeCycleState (MM_SchedulingDelegate.new (testExtensions 1 1))
      = (some ReasonForMarkCompactPGC.reason_calibration, false)
    ∧ (determineNextPGCType (testExtensions 1 1)
        (MM_SchedulingDelegate.new (testExtensions 1 1))).1 = false
    ∧ (determineNextPGCType (testExtensions 1 1)
        (MM_SchedulingDelegate.new (testExtensions 1 1))).2._nextPGCShouldCopyForward
        = true := by
  obtain ⟨h1, h2, h3⟩ := C40_no_scan_rate_forces_mark_compact (testExtensions 1 1)
    (MM_SchedulingDelegate.new (testExtensions 1 1)) rfl
  refine ⟨h1, h2, ?_⟩
  rw [h3]
  rfl

/-! ## Facts about the average PGC interval and the average PGC time -/

/-- The first interval sample enters `_averagePgcInterval` with weight one half, the
average before it being 0. -/
theorem partialGarbageCollectStarted_first_interval (env : MM_EnvironmentVLHGC)
    (s : MM_SchedulingDelegate) (hstart : s._partialGcStartTime ≠ 0)
    (havg : s._averagePgcInterval = 0)
    (hlt : env.j9time_hires_delta s._partialGcStartTime env.j9time_hires_clock
      TimeDeltaUnit.J9PORT_TIME_DELTA_IN_MICROSECONDS < 2 ^ 64) :
    (partialGarbageCollectStarted env s)._averagePgcInterval
      = env.j9time_hires_delta s._partialGcStartTime env.j9time_hires_clock
          TimeDeltaUnit.J9PORT_TIME_DELTA_IN_MICROSECONDS / 2
    ∧ (partialGarbageCollectStarted env s)._historicalPartialGCTime
      = s._historicalPartialGCTime := by
  have e1 : doubleToUDATA ((1 / 2 : ℚ) * ((0 : Nat) : ℚ)) = 0 := by
    unfold doubleToUDATA wrapU
    simp
  have e2 : ∀ d : Nat, d < 2 ^ 64 → doubleToUDATA ((1 - 1 / 2 : ℚ) * (d : ℚ)) = d / 2 := by
    intro d hd
    have e : (1 - 1 / 2 : ℚ) * (d : ℚ) = (d : ℚ) / ((2 : Nat) : ℚ) := by push_cast; ring
    unfold doubleToUDATA wrapU
    rw [e, Nat.floor_div_eq_div]
    omega
  unfold partialGarbageCollectStarted calculatePartialGarbageCollectOverhead
  dsimp only
  rw [if_pos (fun e => hstart e.symm), havg, e1, e2 _ hlt]
  have e3 : wrapU (0 + env.j9time_hires_delta s._partialGcStartTime env.j9time_hires_clock
      TimeDeltaUnit.J9PORT_TIME_DELTA_IN_MICROSECONDS / 2)
      = env.j9time_hires_delta s._partialGcStartTime env.j9time_hires_clock
        TimeDeltaUnit.J9PORT_TIME_DELTA_IN_MICROSECONDS / 2 := by
    unfold wrapU
    omega
  rw [e3]
  split <;> exact ⟨rfl, rfl⟩

/-- The first PGC time sample becomes `_historicalPartialGCTime` as a whole. -/
theorem calculateGlobalMarkIncrementTimeMillis_first (pgcTime : Nat)
    (s : MM_SchedulingDelegate) (hh : s._historicalPartialGCTime = 0)
    (hp : pgcTime ≤ U_32_MAX) :
    calculateGlobalMarkIncrementTimeMillis pgcTime s
      = .ok { s with
          _historicalPartialGCTime := pgcTime
          _dynamicGlobalMarkIncrementTimeMillis := max (pgcTime / 3) 1 } := by
  unfold calculateGlobalMarkIncrementTimeMillis
  dsimp only
  rw [if_neg (not_lt.mpr hp), if_pos hh.symm, if_neg (not_not.mpr hp)]

/-- C34 (what the code does): the first start-to-start interval enters
`averagePgcInterval` halved, while the first PGC time becomes `historicalPartialGCTime` as
a whole.  A first PGC of 100 ms followed by a second PGC 150 ms after the start of the
first (50 ms after its end) leaves `averagePgcInterval = 75000` and
`historicalPartialGCTime·1000 = 100000`, so the unsigned subtraction of
`calculateRecommendedEdenSize` wraps around to `2^64 − 25000`. -/
theorem C34_average_pgc_interval_below_pgc_time :
    (∀ (env : MM_EnvironmentVLHGC) (s : MM_SchedulingDelegate),
      s._partialGcStartTime ≠ 0 → s._averagePgcInterval = 0 →
      env.j9time_hires_delta s._partialGcStartTime env.j9time_hires_clock
        TimeDeltaUnit.J9PORT_TIME_DELTA_IN_MICROSECONDS < 2 ^ 64 →
      (partialGarbageCollectStarted env s)._averagePgcInterval
        = env.j9time_hires_delta s._partialGcStartTime env.j9time_hires_clock
            TimeDeltaUnit.J9PORT_TIME_DELTA_IN_MICROSECONDS / 2
      ∧ (partialGarbageCollectStarted env s)._historicalPartialGCTime
        = s._historicalPartialGCTime)
    ∧ (∀ (pgcTime : Nat) (s : MM_SchedulingDelegate),
        s._historicalPartialGCTime = 0 → pgcTime ≤ U_32_MAX →
        calculateGlobalMarkIncrementTimeMillis pgcTime s
          = .ok { s with
              _historicalPartialGCTime := pgcTime
              _dynamicGlobalMarkIncrementTimeMillis := max (pgcTime / 3) 1 })
    ∧ (testEnvironmentAtTime 1100000).j9time_hires_delta 1000000 1100000
        TimeDeltaUnit.J9PORT_TIME_DELTA_IN_MICROSECONDS
      ≤ (testEnvironmentAtTime 1150000).j9time_hires_delta 1000000 1150000
        TimeDeltaUnit.J9PORT_TIME_DELTA_IN_MICROSECONDS
    ∧ ∃ s3, runPgcThenStartNext (testExtensions 1 3) testRegionManager testAllocationManager
          1000000 1100000 1150000 testDelegateWithBounds = .ok s3
        ∧ s3._averagePgcInterval = 75000
        ∧ s3._historicalPartialGCTime = 100
        ∧ s3._averagePgcInterval ≠ 0
        ∧ s3._averagePgcInterval < s3._historicalPartialGCTime * 1000
        ∧ subU s3._averagePgcInterval (wrapU (s3._historicalPartialGCTime * 1000))
            = 2 ^ 64 - 25000 := by
  refine ⟨fun env s h1 h2 h3 => partialGarbageCollectStarted_first_interval env s h1 h2 h3,
    fun pgcTime s h1 h2 => calculateGlobalMarkIncrementTimeMillis_first pgcTime s h1 h2,
    by decide, ?_⟩
  have hmap : (runPgcThenStartNext (testExtensions 1 3) testRegionManager
      testAllocationManager 1000000 1100000 1150000 testDelegateWithBounds).map
        (fun s => (s._averagePgcInterval, s._historicalPartialGCTime))
      = .ok (75000, 100) := by decide!
  cases hr : runPgcThenStartNext (testExtensions 1 3) testRegionManager
      testAllocationManager 1000000 1100000 1150000 testDelegateWithBounds with
  | error e =>
    rw [hr] at hmap
    cases hmap
  | ok s3 =>
    rw [hr] at hmap
    have hp : (s3._averagePgcInterval, s3._historicalPartialGCTime) = (75000, 100) :=
      Except.ok.inj hmap
    have ha : s3._averagePgcInterval = 75000 := congrArg Prod.fst hp
    have hh : s3._historicalPartialGCTime = 100 := congrArg Prod.snd hp
    refine ⟨s3, rfl, ha, hh, ?_, ?_, ?_⟩
    · rw [ha]; decide
    · rw [ha, hh]; decide
    · rw [ha, hh]; decide

/-! ## Facts about the number of taxation points one call consumes -/

theorem loop_of_internal_noskip (ext : MM_GCExtensions) (rm : MM_HeapRegionManager)
    (fuel : Nat) (s s1 : MM_SchedulingDelegate) (acc t1 : Nat)
    (hi : getNextTaxationThresholdInternal ext rm s = .ok (s1, t1))
    (hns : ¬ (0 < s1._remainingGMPIntermissionIntervals
      ∧ s1._nextIncrementWillDoGlobalMarkPhase = true)) :
    getNextTaxationThresholdLoop ext rm (fuel + 1) s acc = .ok (s1, wrapU (acc + t1)) := by
  obtain ⟨-, -, hx, -, -, -⟩ := internal_ok_inv ext rm s s1 t1 hi
  have hskip : skipGMPInterval s1 = s1 := by
    unfold skipGMPInterval
    rw [if_neg hns]
  have hexit : ¬ (s1._nextIncrementWillDoGlobalMarkPhase = false
      ∧ s1._nextIncrementWillDoPartialGarbageCollection = false) := by
    revert hx
    cases s1._nextIncrementWillDoPartialGarbageCollection <;>
      cases s1._nextIncrementWillDoGlobalMarkPhase <;> simp
  rw [getNextTaxationThresholdLoop, hi]
  dsimp only
  rw [hskip, if_neg hexit]

theorem loop_of_internal_skip (ext : MM_GCExtensions) (rm : MM_HeapRegionManager)
    (fuel : Nat) (s s1 s2 : MM_SchedulingDelegate) (acc t1 t2 : Nat)
    (hi : getNextTaxationThresholdInternal ext rm s = .ok (s1, t1))
    (hi2 : getNextTaxationThresholdInternal ext rm (skipGMPInterval s1) = .ok (s2, t2))
    (hp2 : s2._nextIncrementWillDoPartialGarbageCollection = true) :
    getNextTaxationThresholdLoop ext rm (fuel + 2) s acc
        = .ok (s2, wrapU (wrapU (acc + t1) + t2))
    ∧ getNextTaxationThresholdLoop ext rm 1 s acc = .error .outOfFuel := by
  obtain ⟨hP', hG', hx2, -, -, -⟩ := internal_ok_inv ext rm _ s2 t2 hi2
  have hg2 : s2._nextIncrementWillDoGlobalMarkPhase = false := by
    revert hx2
    rw [hp2]
    cases s2._nextIncrementWillDoGlobalMarkPhase <;> simp
  have hns2 : ¬ (0 < s2._remainingGMPIntermissionIntervals
      ∧ s2._nextIncrementWillDoGlobalMarkPhase = true) := by
    rw [hg2]; simp
  constructor
  · have h2 := loop_of_internal_noskip ext rm fuel _ s2 (wrapU (acc + t1)) t2 hi2 hns2
    rw [getNextTaxationThresholdLoop, hi]
    dsimp only
    rw [if_pos ⟨hG', hP'⟩]
    exact h2
  · rw [getNextTaxationThresholdLoop, hi]
    dsimp only
    rw [if_pos ⟨hG', hP'⟩, getNextTaxationThresholdLoop]

/-- C36: under ratio 1:n or n:1 with `1 ≤ n < UDATA_MAX`, both flags clear and the taxation
index below `UDATA_MAX`, for every value of `remainingGMPIntermissionIntervals` the loop of
`getNextTaxationThreshold` ends within two calls of `getNextTaxationThresholdInternal`
(a budget of two iterations gives the result of the call): either after one call, with the
index advanced by 1 and the intermission as it was, or after exactly two, when the point at
the entry index is a GMP point and the intermission is positive, with the index advanced by
2 and the intermission decreased by exactly 1. -/
theorem C36_taxation_loop_runs_at_most_twice (ext : MM_GCExtensions)
    (rm : MM_HeapRegionManager) (s : MM_SchedulingDelegate) (n : Nat)
    (hE : ext.tarokEnableIncrementalGMP = true)
    (hRatio : (ext.tarokPGCtoGMPNumerator = 1 ∧ ext.tarokPGCtoGMPDenominator = n)
      ∨ (ext.tarokPGCtoGMPDenominator = 1 ∧ ext.tarokPGCtoGMPNumerator = n))
    (hn1 : 1 ≤ n) (hn : n < UDATA_MAX)
    (hP : s._nextIncrementWillDoPartialGarbageCollection = false)
    (hG : s._nextIncrementWillDoGlobalMarkPhase = false)
    (hI : s._taxationIndex < UDATA_MAX) :
    ∃ s' t acc, getNextTaxationThreshold ext rm s = .ok (s', t)
      ∧ getNextTaxationThresholdLoop ext rm 2 s 0 = .ok (s', acc)
      ∧ ((getNextTaxationThresholdLoop ext rm 1 s 0 = .ok (s', acc)
          ∧ s'._taxationIndex = s._taxationIndex + 1
          ∧ s'._remainingGMPIntermissionIntervals = s._remainingGMPIntermissionIntervals
          ∧ ¬ (s._taxationIndex % (n + 1) = 0 ∧ 0 < s._remainingGMPIntermissionIntervals))
        ∨ (getNextTaxationThresholdLoop ext rm 1 s 0 = .error .outOfFuel
          ∧ s'._taxationIndex = wrapU (s._taxationIndex + 2)
          ∧ s'._remainingGMPIntermissionIntervals + 1 = s._remainingGMPIntermissionIntervals
          ∧ s._taxationIndex % (n + 1) = 0 ∧ 0 < s._remainingGMPIntermissionIntervals)) := by
  obtain ⟨t1, hi⟩ := internal_ratio ext rm s n hE hRatio hn hP hG
  have hidx1 : wrapU (s._taxationIndex + 1) = s._taxationIndex + 1 := wrapU_succ_of_lt _ hI
  by_cases hskipCase : s._taxationIndex % (n + 1) = 0 ∧ 0 < s._remainingGMPIntermissionIntervals
  · obtain ⟨h0, hR⟩ := hskipCase
    rw [decide_eq_true h0] at hi
    have hskip : skipGMPInterval
        { s with
          _nextIncrementWillDoGlobalMarkPhase := true
          _nextIncrementWillDoPartialGarbageCollection := !true
          _taxationIndex := wrapU (s._taxationIndex + 1) }
        = { s with
            _remainingGMPIntermissionIntervals := s._remainingGMPIntermissionIntervals - 1
            _nextIncrementWillDoGlobalMarkPhase := false
            _nextIncrementWillDoPartialGarbageCollection := !true
            _taxationIndex := wrapU (s._taxationIndex + 1) } := by
      unfold skipGMPInterval
      rw [if_pos ⟨hR, rfl⟩]
    obtain ⟨t2, hi2⟩ := internal_ratio ext rm _ n hE hRatio hn
      (show (skipGMPInterval _)._nextIncrementWillDoPartialGarbageCollection = false by
        rw [hskip]; rfl)
      (show (skipGMPInterval _)._nextIncrementWillDoGlobalMarkPhase = false by
        rw [hskip])
    have hidx : (skipGMPInterval
        { s with
          _nextIncrementWillDoGlobalMarkPhase := true
          _nextIncrementWillDoPartialGarbageCollection := !true
          _taxationIndex := wrapU (s._taxationIndex + 1) })._taxationIndex
        = s._taxationIndex + 1 := by
      rw [hskip]; exact hidx1
    have hnext : ¬ ((s._taxationIndex + 1) % (n + 1) = 0) := by
      have h1 : (s._taxationIndex + 1) % (n + 1) = 1 % (n + 1) := by
        rw [Nat.add_mod, h0, Nat.zero_add, Nat.mod_mod]
      rw [h1, Nat.mod_eq_of_lt (by omega)]
      omega
    rw [hidx, decide_eq_false hnext] at hi2
    have h := getNext_of_internal_skip ext rm s _ _ t1 t2 hi hR hi2 rfl
    obtain ⟨l2, l1⟩ := loop_of_internal_skip ext rm 0 s _ _ 0 t1 t2 hi hi2 rfl
    refine ⟨_, _, _, h, l2, Or.inr ⟨l1, ?_, ?_, h0, hR⟩⟩
    · show wrapU (s._taxationIndex + 1 + 1) = _
      rfl
    · show (skipGMPInterval _)._remainingGMPIntermissionIntervals + 1 = _
      rw [hskip]
      show s._remainingGMPIntermissionIntervals - 1 + 1 = _
      omega
  · have hns : ¬ (0 < s._remainingGMPIntermissionIntervals
        ∧ decide (s._taxationIndex % (n + 1) = 0) = true) := by
      intro hc
      exact hskipCase ⟨of_decide_eq_true hc.2, hc.1⟩
    have h := getNext_of_internal_noskip ext rm s _ _ hi hns
    have l1 := loop_of_internal_noskip ext rm 0 s _ 0 t1 hi hns
    have l2 := loop_of_internal_noskip ext rm 1 s _ 0 t1 hi hns
    exact ⟨_, _, _, h, l2, Or.inl ⟨l1, hidx1, rfl, hskipCase⟩⟩

theorem C36_witness :
    ∃ s' t acc, getNextTaxationThreshold (testExtensions 1 3) testRegionManager
        { testDelegate (testExtensions 1 3) 16 with
          _remainingGMPIntermissionIntervals := UDATA_MAX } = .ok (s', t)
      ∧ getNextTaxationThresholdLoop (testExtensions 1 3) testRegionManager 2
          { testDelegate (testExtensions 1 3) 16 with
            _remainingGMPIntermissionIntervals := UDATA_MAX } 0 = .ok (s', acc)
      ∧ s'._taxationIndex = 2
      ∧ s'._remainingGMPIntermissionIntervals = UDATA_MAX - 1 := by
  obtain ⟨s', t, acc, h1, h2, h3⟩ :=
    C36_taxation_loop_runs_at_most_twice (testExtensions 1 3) testRegionManager
      { testDelegate (testExtensions 1 3) 16 with
        _remainingGMPIntermissionIntervals := UDATA_MAX }
      3 rfl (Or.inl ⟨rfl, rfl⟩) (by decide) (by decide) rfl rfl (by decide)
  refine ⟨s', t, acc, h1, h2, ?_⟩
  rcases h3 with ⟨-, -, -, hn⟩ | ⟨-, e1, e2, -, -⟩
  · exact absurd ⟨by decide, by decide⟩ hn
  · refine ⟨e1, ?_⟩
    have e3 : s'._remainingGMPIntermissionIntervals + 1 = UDATA_MAX := e2
    omega

/-! ## Facts about the scan-rate history and the mark increment time -/

theorem doubleToUDATA_average_pos (h c : Nat) (w : ℚ) (h1 : 1 ≤ h) (c1 : 1 ≤ c)
    (hh : h < 2 ^ 64) (hc : c < 2 ^ 64) (w0 : 0 ≤ w) (w1 : w ≤ 1) :
    1 ≤ doubleToUDATA ((h : ℚ) * w + (c : ℚ) * (1 - w)) := by
  have h1' : (1 : ℚ) ≤ (h : ℚ) := by exact_mod_cast h1
  have c1' : (1 : ℚ) ≤ (c : ℚ) := by exact_mod_cast c1
  have hh' : (h : ℚ) ≤ ((2 ^ 64 - 1 : Nat) : ℚ) := by
    have : h ≤ 2 ^ 64 - 1 := by omega
    exact_mod_cast this
  have hc' : (c : ℚ) ≤ ((2 ^ 64 - 1 : Nat) : ℚ) := by
    have : c ≤ 2 ^ 64 - 1 := by omega
    exact_mod_cast this
  have w1' : 0 ≤ 1 - w := by linarith
  have lo : (1 : ℚ) ≤ (h : ℚ) * w + (c : ℚ) * (1 - w) := by nlinarith
  have hi : (h : ℚ) * w + (c : ℚ) * (1 - w) ≤ ((2 ^ 64 - 1 : Nat) : ℚ) := by nlinarith
  have f1 : 1 ≤ ⌊(h : ℚ) * w + (c : ℚ) * (1 - w)⌋₊ :=
    Nat.le_floor (by exact_mod_cast lo)
  have f2 : ⌊(h : ℚ) * w + (c : ℚ) * (1 - w)⌋₊ ≤ 2 ^ 64 - 1 := Nat.floor_le_of_le hi
  unfold doubleToUDATA wrapU
  rw [Nat.mod_eq_of_lt (by omega)]
  exact f1

theorem doubleToUDATA_lt (x : ℚ) : doubleToUDATA x < 2 ^ 64 := wrapU_lt _

/-- One `measureScanRate` call with a weight in `[0, 1]` keeps the scan-rate fields
consistent, and an accepted sample leaves at least one byte of history. -/
theorem measureScanRate_consistent (env : MM_EnvironmentVLHGC) (w : ℚ)
    (s : MM_SchedulingDelegate) (w0 : 0 ≤ w) (w1 : w ≤ 1)
    (hb : s._scanRateStats.historicalBytesScanned < 2 ^ 64) (hs : ScanRateConsistent s) :
    (measureScanRate env w s)._scanRateStats.historicalBytesScanned < 2 ^ 64
    ∧ ScanRateConsistent (measureScanRate env w s)
    ∧ ((measureScanRateSample env).1 ≠ 0 →
        1 ≤ (measureScanRate env w s)._scanRateStats.historicalBytesScanned
        ∧ (measureScanRate env w s)._scanRateStats.microSecondsPerByteScanned
          = ((measureScanRate env w s)._scanRateStats.historicalScanMicroseconds : ℚ)
            / ((measureScanRate env w s)._scanRateStats.historicalBytesScanned : ℚ)) := by
  by_cases hz : (measureScanRateSample env).1 = 0
  · rw [measureScanRate_of_zero env w s hz]
    exact ⟨hb, hs, fun e => absurd hz e⟩
  · have hb0 : ¬ (0 = (measureScanRateSample env).1) := fun e => hz e.symm
    have hc1 : 1 ≤ (measureScanRateSample env).1 := Nat.one_le_iff_ne_zero.mpr hz
    have hclt := measureScanRateSample_lt env
    by_cases hh : s._scanRateStats.historicalBytesScanned = 0
    · have e : (measureScanRate env w s)._scanRateStats
          = ⟨(measureScanRateSample env).1,
              env.j9time_hires_delta 0 (measureScanRateSample env).2
                TimeDeltaUnit.J9PORT_TIME_DELTA_IN_MICROSECONDS,
              ((env.j9time_hires_delta 0 (measureScanRateSample env).2
                TimeDeltaUnit.J9PORT_TIME_DELTA_IN_MICROSECONDS : Nat) : ℚ)
                / ((measureScanRateSample env).1 : ℚ)⟩ := by
        unfold measureScanRate
        dsimp only
        rw [if_pos (show 0 ≠ (measureScanRateSample env).1 from hb0)]
        dsimp only
        rw [hh]
        simp only [ne_eq, not_true_eq_false, if_false, hb0, not_false_eq_true, if_true]
      unfold ScanRateConsistent
      rw [e]
      exact ⟨hclt, Or.inr ⟨hc1, rfl⟩, fun _ => ⟨hc1, rfl⟩⟩
    · have hh0 : ¬ (0 = s._scanRateStats.historicalBytesScanned) := fun e => hh e.symm
      have hh1 : 1 ≤ s._scanRateStats.historicalBytesScanned := Nat.one_le_iff_ne_zero.mpr hh
      have hpos := doubleToUDATA_average_pos _ _ w hh1 hc1 hb hclt w0 w1
      have hne : ¬ (0 = doubleToUDATA
          ((s._scanRateStats.historicalBytesScanned : ℚ) * w
            + ((measureScanRateSample env).1 : ℚ) * (1 - w))) := by
        intro e
        rw [← e] at hpos
        exact absurd hpos (by decide)
      have e : (measureScanRate env w s)._scanRateStats
          = ⟨doubleToUDATA ((s._scanRateStats.historicalBytesScanned : ℚ) * w
                + ((measureScanRateSample env).1 : ℚ) * (1 - w)),
              doubleToUDATA ((s._scanRateStats.historicalScanMicroseconds : ℚ) * w
                + ((env.j9time_hires_delta 0 (measureScanRateSample env).2
                    TimeDeltaUnit.J9PORT_TIME_DELTA_IN_MICROSECONDS : Nat) : ℚ) * (1 - w)),
              ((doubleToUDATA ((s._scanRateStats.historicalScanMicroseconds : ℚ) * w
                + ((env.j9time_hires_delta 0 (measureScanRateSample env).2
                    TimeDeltaUnit.J9PORT_TIME_DELTA_IN_MICROSECONDS : Nat) : ℚ) * (1 - w))
                  : Nat) : ℚ)
                / ((doubleToUDATA ((s._scanRateStats.historicalBytesScanned : ℚ) * w
                    + ((measureScanRateSample env).1 : ℚ) * (1 - w)) : Nat) : ℚ)⟩ := by
        unfold measureScanRate
        dsimp only
        rw [if_pos (show 0 ≠ (measureScanRateSample env).1 from hb0)]
        dsimp only
        simp only [ne_eq, hh0, hne, not_false_eq_true, if_true]
      unfold ScanRateConsistent
      rw [e]
      exact ⟨doubleToUDATA_lt _, Or.inr ⟨hpos, rfl⟩, fun _ => ⟨hpos, rfl⟩⟩

theorem reached_scanRate_consistent (s : MM_SchedulingDelegate)
    (h : ReachedByMeasuringScanRate s) :
    s._scanRateStats.historicalBytesScanned < 2 ^ 64 ∧ ScanRateConsistent s := by
  induction h with
  | constructed ext =>
    exact ⟨show (0 : Nat) < 2 ^ 64 by norm_num, Or.inl ⟨rfl, rfl, rfl⟩⟩
  | measureScanRate env w s w0 w1 _ ih =>
    obtain ⟨h1, h2, -⟩ := measureScanRate_consistent env w s w0 w1 ih.1 ih.2
    exact ⟨h1, h2⟩
  | otherMember s s' _ e ih =>
    unfold ScanRateConsistent at ih ⊢
    rw [e]
    exact ih

/-- C38: in every state reached from construction by `measureScanRate` calls with weights
in `[0, 1]` (other members in between), either the three scan-rate fields are all 0, or
`historicalBytesScanned ≥ 1` and `microSecondsPerByteScanned = historicalScanMicroseconds /
historicalBytesScanned`; a further call with an accepted sample (a non-zero byte count)
leaves `historicalBytesScanned ≥ 1`, so the zero guard before the division passes and the
rate is the quotient of the new sums. -/
theorem C38_scan_rate_fields_consistent (s : MM_SchedulingDelegate)
    (h : ReachedByMeasuringScanRate s) :
    ScanRateConsistent s
    ∧ s._scanRateStats.historicalBytesScanned < 2 ^ 64
    ∧ ∀ (env : MM_EnvironmentVLHGC) (w : ℚ), 0 ≤ w → w ≤ 1 →
        (measureScanRateSample env).1 ≠ 0 →
        1 ≤ (measureScanRate env w s)._scanRateStats.historicalBytesScanned
        ∧ (measureScanRate env w s)._scanRateStats.microSecondsPerByteScanned
          = ((measureScanRate env w s)._scanRateStats.historicalScanMicroseconds : ℚ)
            / ((measureScanRate env w s)._scanRateStats.historicalBytesScanned : ℚ) := by
  obtain ⟨h1, h2⟩ := reached_scanRate_consistent s h
  exact ⟨h2, h1, fun env w w0 w1 hne => (measureScanRate_consistent env w s w0 w1 h1 h2).2.2 hne⟩

theorem C38_witness :
    ScanRateConsistent
      (measureScanRate testEnvironmentScan measureScanRateHistoricWeightForPGC
        (MM_SchedulingDelegate.new (testExtensions 1 1)))
    ∧ (measureScanRate testEnvironmentScan measureScanRateHistoricWeightForPGC
        (MM_SchedulingDelegate.new (testExtensions 1 1)))._scanRateStats
      = ⟨2 ^ 20, 10000, 10000 / 2 ^ 20⟩ :=
  ⟨(C38_scan_rate_fields_consistent _
      (ReachedByMeasuringScanRate.measureScanRate testEnvironmentScan
        measureScanRateHistoricWeightForPGC _ (by decide!) (by decide!)
        (ReachedByMeasuringScanRate.constructed (testExtensions 1 1)))).1,
    by decide!⟩


theorem calculateGlobalMarkIncrementTimeMillis_dynamic (pgcTime : Nat)
    (s s' : MM_SchedulingDelegate)
    (h : calculateGlobalMarkIncrementTimeMillis pgcTime s = .ok s') :
    (s' = s ∧ U_32_MAX < pgcTime)
    ∨ (pgcTime ≤ U_32_MAX
      ∧ s'._dynamicGlobalMarkIncrementTimeMillis = max (s'._historicalPartialGCTime / 3) 1) := by
  unfold calculateGlobalMarkIncrementTimeMillis at h
  dsimp only at h
  by_cases hp : U_32_MAX < pgcTime
  · rw [if_pos hp] at h
    cases h
    exact Or.inl ⟨rfl, hp⟩
  · rw [if_neg hp] at h
    repeat' split at h
    all_goals first
      | (cases h; exact Or.inr ⟨not_lt.mp hp, rfl⟩)
      | cases h

theorem reached_increment_pos (s : MM_SchedulingDelegate)
    (h : ReachedByUpdatingIncrementTime s) : 1 ≤ s._dynamicGlobalMarkIncrementTimeMillis := by
  induction h with
  | constructed ext => exact show (1 : Nat) ≤ 50 by norm_num
  | calculateGlobalMarkIncrementTimeMillis pgcTime s s' _ hc ih =>
    rcases calculateGlobalMarkIncrementTimeMillis_dynamic pgcTime s s' hc with ⟨e, -⟩ | ⟨-, e⟩
    · rw [e]; exact ih
    · rw [e]; exact le_max_right _ _
  | otherMember s s' _ e ih => rw [e]; exact ih

theorem currentGlobalMarkIncrementTimeMillis_cases (ext : MM_GCExtensions)
    (gam : MM_GlobalAllocationManagerTarok) (env : MM_EnvironmentVLHGC)
    (s : MM_SchedulingDelegate) (v : Nat)
    (h : currentGlobalMarkIncrementTimeMillis ext gam env s = .ok v) :
    (ext.tarokGlobalMarkIncrementTimeMillis ≠ 0 ∧ v = ext.tarokGlobalMarkIncrementTimeMillis)
    ∨ (ext.tarokGlobalMarkIncrementTimeMillis = 0
      ∧ estimatePartialGCsRemaining ext gam env s = .ok 0 ∧ v = UDATA_MAX)
    ∨ (ext.tarokGlobalMarkIncrementTimeMillis = 0
      ∧ (∃ p, p ≠ 0 ∧ estimatePartialGCsRemaining ext gam env s = .ok p)
      ∧ s._dynamicGlobalMarkIncrementTimeMillis ≤ v) := by
  unfold currentGlobalMarkIncrementTimeMillis at h
  by_cases h0 : 0 = ext.tarokGlobalMarkIncrementTimeMillis
  · rw [if_pos h0] at h
    cases hp : estimatePartialGCsRemaining ext gam env s with
    | error e => rw [hp] at h; cases h
    | ok p =>
      rw [hp] at h
      dsimp only at h
      by_cases hp0 : 0 = p
      · rw [if_pos hp0] at h
        cases h
        right; left
        exact ⟨h0.symm, by rw [← hp0], rfl⟩
      · rw [if_neg hp0] at h
        split at h
        · cases h
        · cases h
          right; right
          exact ⟨h0.symm, ⟨p, fun e => hp0 e.symm, rfl⟩, le_max_left _ _⟩
  · rw [if_neg h0] at h
    cases h
    left
    exact ⟨fun e => h0 e.symm, rfl⟩

/-- C39: in every state reached from construction by
`calculateGlobalMarkIncrementTimeMillis` calls (other members in between)
`dynamicGlobalMarkIncrementTimeMillis ≥ 1`: it is 50 at construction and
`max(historicalPartialGCTime/3, 1)` after each accepted sample.  Hence whatever
`currentGlobalMarkIncrementTimeMillis` returns is non-zero: the override when
`tarokGlobalMarkIncrementTimeMillis ≠ 0` (it then always returns), `UDATA_MAX` when no PGCs
remain, and at least the dynamic value otherwise; and `estimateGlobalMarkIncrements`
returns whenever `gcThreadCount ≠ 0` and `currentGlobalMarkIncrementTimeMillis` returns:
its assertion `0 != currentMarkIncrementMillis` holds. -/
theorem C39_mark_increment_time_never_zero (s : MM_SchedulingDelegate)
    (h : ReachedByUpdatingIncrementTime s) :
    1 ≤ s._dynamicGlobalMarkIncrementTimeMillis
    ∧ (∀ ext : MM_GCExtensions,
        (MM_SchedulingDelegate.new ext)._dynamicGlobalMarkIncrementTimeMillis = 50)
    ∧ (∀ (pgcTime : Nat) (s' : MM_SchedulingDelegate),
        calculateGlobalMarkIncrementTimeMillis pgcTime s = .ok s' →
        (s' = s ∧ U_32_MAX < pgcTime)
        ∨ (pgcTime ≤ U_32_MAX
          ∧ s'._dynamicGlobalMarkIncrementTimeMillis
              = max (s'._historicalPartialGCTime / 3) 1))
    ∧ (∀ (ext : MM_GCExtensions) (gam : MM_GlobalAllocationManagerTarok)
        (env : MM_EnvironmentVLHGC) (v : Nat),
        currentGlobalMarkIncrementTimeMillis ext gam env s = .ok v →
        v ≠ 0
        ∧ ((ext.tarokGlobalMarkIncrementTimeMillis ≠ 0
            ∧ v = ext.tarokGlobalMarkIncrementTimeMillis)
          ∨ (ext.tarokGlobalMarkIncrementTimeMillis = 0
            ∧ estimatePartialGCsRemaining ext gam env s = .ok 0 ∧ v = UDATA_MAX)
          ∨ (ext.tarokGlobalMarkIncrementTimeMillis = 0
            ∧ (∃ p, p ≠ 0 ∧ estimatePartialGCsRemaining ext gam env s = .ok p)
            ∧ s._dynamicGlobalMarkIncrementTimeMillis ≤ v)))
    ∧ (∀ (ext : MM_GCExtensions) (gam : MM_GlobalAllocationManagerTarok)
        (env : MM_EnvironmentVLHGC),
        ext.tarokGlobalMarkIncrementTimeMillis ≠ 0 →
        currentGlobalMarkIncrementTimeMillis ext gam env s
          = .ok ext.tarokGlobalMarkIncrementTimeMillis)
    ∧ (∀ (ext : MM_GCExtensions) (gam : MM_GlobalAllocationManagerTarok)
        (env : MM_EnvironmentVLHGC) (live : ℚ) (v : Nat),
        ext.gcThreadCount ≠ 0 →
        currentGlobalMarkIncrementTimeMillis ext gam env s = .ok v →
        ∃ r, estimateGlobalMarkIncrements ext gam env s live = .ok r) := by
  have hd := reached_increment_pos s h
  refine ⟨hd, fun _ => rfl, ?_, ?_, ?_, ?_⟩
  · intro pgcTime s' hc
    exact calculateGlobalMarkIncrementTimeMillis_dynamic pgcTime s s' hc
  · intro ext gam env v hv
    have hc := currentGlobalMarkIncrementTimeMillis_cases ext gam env s v hv
    refine ⟨?_, hc⟩
    rcases hc with ⟨h1, h2⟩ | ⟨-, -, h2⟩ | ⟨-, -, h2⟩
    · rw [h2]; exact h1
    · rw [h2]; decide
    · omega
  · intro ext gam env hne
    unfold currentGlobalMarkIncrementTimeMillis
    rw [if_neg (fun e => hne e.symm)]
  · intro ext gam env live v hg hv
    have hc := currentGlobalMarkIncrementTimeMillis_cases ext gam env s v hv
    have hv0 : v ≠ 0 := by
      rcases hc with ⟨h1, h2⟩ | ⟨-, -, h2⟩ | ⟨-, -, h2⟩
      · rw [h2]; exact h1
      · rw [h2]; decide
      · omega
    unfold estimateGlobalMarkIncrements
    rw [if_neg (not_not.mpr (fun e => hg e.symm)), hv]
    dsimp only
    rw [if_neg (not_not.mpr (fun e => hv0 e.symm))]
    exact ⟨_, rfl⟩

theorem C39_witness :
    ∃ s', calculateGlobalMarkIncrementTimeMillis 2
          (MM_SchedulingDelegate.new (testExtensions 1 1)) = .ok s'
      ∧ s'._historicalPartialGCTime = 2
      ∧ s'._dynamicGlobalMarkIncrementTimeMillis = 1
      ∧ 1 ≤ s'._dynamicGlobalMarkIncrementTimeMillis :=
  ⟨_, rfl, rfl, rfl,
    (C39_mark_increment_time_never_zero _
      (ReachedByUpdatingIncrementTime.calculateGlobalMarkIncrementTimeMillis 2
        (MM_SchedulingDelegate.new (testExtensions 1 1)) _
        (ReachedByUpdatingIncrementTime.constructed (testExtensions 1 1)) rfl)).1⟩

end VLHGC
